import Mathlib

/-! Symbolic shape inference rules (`infer_symbolic_shape.cc`).

A shallow embedding of the per-operator symbolic shape inference rules of
`paddle/fluid/pir/dialect/operator/interface/infer_symbolic_shape.cc`, followed by
theorems about them.

* C++ exceptions (`PADDLE_ENFORCE`, `IR_ENFORCE`, `PADDLE_THROW`, `std::vector::at`,
  `std::optional::value`) are the `Except.error` results of the embedding.  Unchecked
  accesses (`operator[]` past the end, a null `defining_op()`) are undefined behaviour in
  C++; the embedding reports them as errors as well, so that every successful run of the
  embedding is a defined run of the source.
* `bool` results: a rule returning `true` is `Except.ok` of the updated analysis context.
* The host IR (`pir::Operation`, `pir::Value`, attributes), the expression type
  `symbol::DimExpr` and the analysis context `pir::ShapeConstraintIRAnalysis` are
  declared outside the file under study; they are modelled below at their interface.
-/

/-- Failure kinds of a rule. The first six follow the error taxonomy of the specification;
the last three stand for `std::out_of_range` (or an unchecked access past the end),
`std::bad_optional_access`, and a null `defining_op()`. -/
inductive Error where
  | MissingAttribute
  | WrongAttributeType
  | ValueNotYetInferred
  | UnsupportedDynamicOperand
  | UnimplementedOperator
  | InvariantViolation
  | OutOfRange
  | BadOptionalAccess
  | NullPointer
  deriving DecidableEq

/-- Element access `v[i]` / `v.at(i)` of a `std::vector`. -/
def vecAt {α : Type} (v : List α) (i : Nat) : Except Error α :=
  match v[i]? with
  | some a => .ok a
  | none => .error .OutOfRange

/-- Access `o.value()` of a `std::optional`. -/
def optValue {α : Type} (o : Option α) : Except Error α :=
  match o with
  | some a => .ok a
  | none => .error .BadOptionalAccess

/-- Element access `v[i]` with a signed 64-bit index. -/
def vecAtInt {α : Type} (v : List α) (i : Int) : Except Error α :=
  if i < 0 then .error .OutOfRange else vecAt v i.toNat

/-- Element assignment `v[i] = a` with a signed 64-bit index. -/
def vecSetInt {α : Type} (v : List α) (i : Int) (a : α) : Except Error (List α) :=
  if i < 0 ∨ (v.length : Int) ≤ i then .error .OutOfRange else .ok (v.set i.toNat a)

/-- Value of `std::numeric_limits<int>::max()`. -/
def INT32_MAX : Int := 2147483647

/-- Conversion `static_cast<int>(v)` of a 64-bit value to a 32-bit `int` (two's complement
wrap-around). -/
def toInt32 (v : Int) : Int :=
  (v + 2147483648) % 4294967296 - 2147483648

/-- Element assignment `v[i] = a` with an unsigned index. -/
def vecSet {α : Type} (v : List α) (i : Nat) (a : α) : Except Error (List α) :=
  if i < v.length then .ok (v.set i a) else .error .OutOfRange

/-- Insertion `v.insert(v.begin() + i, a)` with a signed offset. -/
def vecInsertInt {α : Type} (v : List α) (i : Int) (a : α) : Except Error (List α) :=
  if i < 0 ∨ (v.length : Int) < i then .error .OutOfRange else .ok (v.insertIdx i.toNat a)

namespace symbol

/-- Modelled from the spec: the symbolic integer expression `symbol::DimExpr` (its
declaration is not in the file under study). Variants: literal integer constant, named
symbol, binary arithmetic node (add, subtract, multiply, divide) and broadcast node.
Equality is structural (`DecidableEq`); simplification happens in the operators below.
Literals are mathematical integers: the specification gives the operators exact integer
semantics, so no 64-bit wrap-around is modelled. -/
inductive DimExpr where
  | Int64 (v : Int)
  | Symbol (name : String)
  | Add (lhs rhs : DimExpr)
  | Sub (lhs rhs : DimExpr)
  | Mul (lhs rhs : DimExpr)
  | Div (lhs rhs : DimExpr)
  | Broadcast (lhs rhs : DimExpr)
  deriving DecidableEq

namespace DimExpr

/-- Literal test `expr.isa<int64_t>()` / `expr.Has<std::int64_t>()`. -/
def isInt64 : DimExpr → Bool
  | Int64 _ => true
  | _ => false

/-- Literal access `expr.Get<int64_t>()` / `expr.dyn_cast<int64_t>()`. -/
def getInt64 : DimExpr → Except Error Int
  | Int64 v => .ok v
  | _ => .error .InvariantViolation

/-- Modelled from the spec: `operator+`; constant-constant folds numerically and `x+0`
folds to `x`. -/
def plus (a b : DimExpr) : DimExpr :=
  match a, b with
  | Int64 x, Int64 y => Int64 (x + y)
  | x, Int64 0 => x
  | x, y => Add x y

/-- Modelled from the spec: `operator-`; constant-constant folds numerically. -/
def minus (a b : DimExpr) : DimExpr :=
  match a, b with
  | Int64 x, Int64 y => Int64 (x - y)
  | x, y => Sub x y

/-- Modelled from the spec: `operator*`; constant-constant folds numerically and `x*1`
folds to `x`. -/
def times (a b : DimExpr) : DimExpr :=
  match a, b with
  | Int64 x, Int64 y => Int64 (x * y)
  | x, Int64 1 => x
  | x, y => Mul x y

/-- Modelled from the spec: `operator/`; constant-constant folds numerically to the
truncated quotient (no floor or ceiling support) and `x/1` folds to `x`. A literal zero
divisor is undefined in C++ and the specification gives it no value, so it is left as an
unevaluated division node. -/
def divide (a b : DimExpr) : DimExpr :=
  match a, b with
  | x, Int64 1 => x
  | Int64 x, Int64 y => if y = 0 then Div (Int64 x) (Int64 y) else Int64 (Int.tdiv x y)
  | x, y => Div x y

instance : HAdd DimExpr DimExpr DimExpr := ⟨plus⟩
instance : HSub DimExpr DimExpr DimExpr := ⟨minus⟩
instance : HMul DimExpr DimExpr DimExpr := ⟨times⟩
instance : HDiv DimExpr DimExpr DimExpr := ⟨divide⟩

/-- Implicit conversion of an integer literal to a `DimExpr`, as in `shapes.push_back(1)`. -/
instance (n : Nat) : OfNat DimExpr n := ⟨Int64 n⟩

end DimExpr

/-- Modelled from the spec: the tensor record `symbol::TensorShapeOrDataDimExprs` (declared
outside the file under study): a shape and an optional data vector. -/
structure TensorShapeOrDataDimExprs where
  shape : List DimExpr
  data : Option (List DimExpr)
  deriving DecidableEq

/-- Modelled from the spec: the record `symbol::ShapeOrDataDimExprs` (declared outside the
file under study): a tensor record or a list of tensor records. -/
inductive ShapeOrDataDimExprs where
  | Tensor (t : TensorShapeOrDataDimExprs)
  | TensorList (l : List TensorShapeOrDataDimExprs)
  deriving DecidableEq

/-- Modelled from the spec: accessor `shape()` of a `ShapeOrDataDimExprs`; only a tensor
record has one. -/
def ShapeOrDataDimExprs.shape : ShapeOrDataDimExprs → Except Error (List DimExpr)
  | .Tensor t => .ok t.shape
  | .TensorList _ => .error .InvariantViolation

/-- Modelled from the spec: accessor `data()` of a `ShapeOrDataDimExprs`; only a tensor
record has one. -/
def ShapeOrDataDimExprs.data : ShapeOrDataDimExprs → Except Error (Option (List DimExpr))
  | .Tensor t => .ok t.data
  | .TensorList _ => .error .InvariantViolation

/-- Modelled from the spec: conversion `dyn_cast<TensorListShapeOrDataDimExprs>()`; only a
list record converts. -/
def ShapeOrDataDimExprs.asTensorList :
    ShapeOrDataDimExprs → Except Error (List TensorShapeOrDataDimExprs)
  | .TensorList l => .ok l
  | .Tensor _ => .error .InvariantViolation

end symbol

namespace pir

/-- Modelled from the spec: attribute values of the host IR (name to literal scalar or
array), as far as the rules read them. -/
inductive Attribute where
  | Bool (data : Bool)
  | Int32 (data : Int)
  | Int64 (data : Int)
  | Scalar (data : Int)
  | IntArray (data : List Int)
  | Array (items : List Attribute)

/-- Modelled from the spec: the typed attribute map of an operation, by name. -/
abbrev AttributeMap := List (String × Attribute)

/-- Lookup `attributes.at(name)`. -/
def AttributeMap.at (m : AttributeMap) (name : String) : Except Error Attribute :=
  match m.lookup name with
  | some a => .ok a
  | none => .error .MissingAttribute

/-- Modelled from the spec: the operation defining a value, as far as a consumer inspects
it: its kind tag (for `isa<...>()`) and attributes. -/
structure DefiningOp where
  name : String
  attributes : AttributeMap

/-- Modelled from the spec: a value `pir::Value` of the host IR: an identity, the static
dims of its dense tensor type and the operation that defines it (absent for a block
argument). -/
structure Value where
  id : Nat
  dims : List Int
  defining_op : Option DefiningOp

/-- Test `value.defining_op()->isa<Op>()` for the operation named `opName`. -/
def Value.defining_op_isa (v : Value) (opName : String) : Except Error Bool :=
  match v.defining_op with
  | some d => .ok (d.name == opName)
  | none => .error .NullPointer

/-- Modelled from the spec: attribute lookup
`value.defining_op<Op>().attributes().at(name)` on the operation defining a value. -/
def Value.defining_op_attribute (v : Value) (name : String) : Except Error Attribute :=
  match v.defining_op with
  | some d => d.attributes.at name
  | none => .error .NullPointer

/-- Modelled from the spec: an operation `pir::Operation` of the host IR: kind tag,
attribute map, ordered operand values and result values. -/
structure Operation where
  name : String
  attributes : AttributeMap
  operands : List Value
  results : List Value

/-- Accessor `op->operand_source(i)`. -/
def Operation.operand_source (op : Operation) (i : Nat) : Except Error Value :=
  vecAt op.operands i

/-- Accessor `op->result(i)`. -/
def Operation.result (op : Operation) (i : Nat) : Except Error Value :=
  vecAt op.results i

/-- Modelled from the spec: the analysis context `pir::ShapeConstraintIRAnalysis` (its
definition is not in the file under study): a map from value identity to record, a
monotonically increasing symbol counter, and the constraint store (equality obligations
and broadcast obligations tagged with the symbol standing for their result). -/
structure ShapeConstraintIRAnalysis where
  value_to_shape_or_data : List (Nat × symbol.ShapeOrDataDimExprs)
  next_sym_idx : Nat
  equalities : List (symbol.DimExpr × symbol.DimExpr)
  broadcastables : List (symbol.DimExpr × symbol.DimExpr × symbol.DimExpr)
  deriving DecidableEq

namespace ShapeConstraintIRAnalysis

/-- Modelled from the spec: `GetShapeOrDataForValue`; fails with `ValueNotYetInferred` when
no record has been written for the value. -/
def GetShapeOrDataForValue (sa : ShapeConstraintIRAnalysis) (v : Value) :
    Except Error symbol.ShapeOrDataDimExprs :=
  match sa.value_to_shape_or_data.lookup v.id with
  | some r => .ok r
  | none => .error .ValueNotYetInferred

/-- Modelled from the spec: `SetShapeOrDataForValue`; stores the record for the value,
replacing an earlier record of the same value (the map is rewritable by the in-place
variants). -/
def SetShapeOrDataForValue (sa : ShapeConstraintIRAnalysis) (v : Value)
    (r : symbol.ShapeOrDataDimExprs) : ShapeConstraintIRAnalysis :=
  ⟨(v.id, r) :: sa.value_to_shape_or_data.filter (fun p => p.1 != v.id),
    sa.next_sym_idx, sa.equalities, sa.broadcastables⟩

/-- Modelled from the spec: `GetNextSymName`; a name that is new for this run. -/
def GetNextSymName (sa : ShapeConstraintIRAnalysis) : String × ShapeConstraintIRAnalysis :=
  ("S" ++ toString sa.next_sym_idx,
    ⟨sa.value_to_shape_or_data, sa.next_sym_idx + 1, sa.equalities, sa.broadcastables⟩)

/-- Modelled from the spec: `CreateDimExprBuilder().CstrEq(lhs, rhs)`, the builder attached
to this context: registers the equality obligation between `lhs` and `rhs`; re-adding a
pair already in the store is a no-op. -/
def CstrEq (sa : ShapeConstraintIRAnalysis) (lhs rhs : symbol.DimExpr) :
    ShapeConstraintIRAnalysis :=
  if (lhs, rhs) ∈ sa.equalities then sa
  else ⟨sa.value_to_shape_or_data, sa.next_sym_idx, sa.equalities ++ [(lhs, rhs)],
    sa.broadcastables⟩

end ShapeConstraintIRAnalysis

end pir

namespace symbol

/-- Modelled from the spec: `DimExprBuilder::Broadcast` (the builder class is not in the
file under study). The builder is constructed from a pointer to its owning context;
`owner = none` is the builder constructed from `nullptr`. Contract: if `lhs == rhs`
return `lhs`; if one side is the literal `1` return the other side; otherwise return a
fresh symbol and register the obligation, tagged with that symbol, in the owner. A
builder without owner has no store to register in and no symbol generator: it returns
the unresolved broadcast node. -/
def DimExprBuilder.Broadcast (owner : Option pir.ShapeConstraintIRAnalysis)
    (lhs rhs : DimExpr) : DimExpr × Option pir.ShapeConstraintIRAnalysis :=
  if lhs = rhs then (lhs, owner)
  else if lhs = 1 then (rhs, owner)
  else if rhs = 1 then (lhs, owner)
  else
    match owner with
    | none => (DimExpr.Broadcast lhs rhs, none)
    | some sa =>
      let named := sa.GetNextSymName
      (DimExpr.Symbol named.1,
        some ⟨named.2.value_to_shape_or_data, named.2.next_sym_idx, named.2.equalities,
          (lhs, rhs, DimExpr.Symbol named.1) :: named.2.broadcastables⟩)

end symbol

open symbol pir

/-- Modelled from the spec: the kind tag of the constant-fill operator
`paddle::dialect::FullOp` (declared outside the file under study). -/
def FullOp.name : String := "pd_op.full"

/-- Attribute test and access for `AttributeTrait<int>` (`pir::Int32Attribute`). -/
def AttributeTrait.int32 : Attribute → Option Int
  | .Int32 v => some v
  | _ => none

/-- Helper `GetVectorAttr<T>`: the named attribute must exist and be an array; element 0 is
checked to be of the value type; every element is then read with `dyn_cast<..>().data()`
(reading an element of another kind dereferences a null attribute). -/
def GetVectorAttr (value_type : Attribute → Option Int) (attributes : AttributeMap)
    (name : String) : Except Error (List Int) :=
  match attributes.lookup name with
  | none => .error .MissingAttribute
  | some (.Array array_list) =>
    match array_list with
    | [] => .ok []
    | first :: _ =>
      if (value_type first).isNone then .error .WrongAttributeType
      else array_list.mapM (fun item =>
        match value_type item with
        | some v => .ok v
        | none => .error .NullPointer)
  | some _ => .error .WrongAttributeType

/-- Rule `SameOperandsAndResultShape`: result 0 receives the record of operand 0. -/
def SameOperandsAndResultShape (op : Operation) (shape_analysis : ShapeConstraintIRAnalysis) :
    Except Error ShapeConstraintIRAnalysis := do
  let operand_source ← op.operand_source 0
  let operand_shape_or_data ← shape_analysis.GetShapeOrDataForValue operand_source
  let res ← op.result 0
  pure (shape_analysis.SetShapeOrDataForValue res operand_shape_or_data)

/-- Loop `for (i < n) v.emplace(v.begin(), 1)`: `n` insertions of literal 1 at the front. -/
def emplaceFrontOnes : Nat → List DimExpr → List DimExpr
  | 0, v => v
  | n + 1, v => emplaceFrontOnes n ((1 : DimExpr) :: v)

/-- Lambda `shapes` of `InferSymbolicShapeElementWiseBinary`: the position-wise loop over
the two (already padded) bases, with the local builder constructed from `nullptr`. -/
def InferSymbolicShapeElementWiseBinary.shapes (shape_0 shape_1 : List DimExpr) :
    Except Error (List DimExpr) :=
  (List.range shape_0.length).foldlM (fun shapes i => do
    let a ← vecAt shape_0 i
    let b ← vecAt shape_1 i
    if a = b then pure (shapes ++ [a])
    else if a = 1 then pure (shapes ++ [b])
    else if b = 1 then pure (shapes ++ [a])
    else pure (shapes ++ [(DimExprBuilder.Broadcast none a b).1])) []

/-- First part of `InferSymbolicShapeElementWiseBinary`, up to the padding: the two
dimension bases `shape_0` and `shape_1` selected for the operands. -/
def InferSymbolicShapeElementWiseBinary.bases (op : Operation)
    (shape_analysis : ShapeConstraintIRAnalysis) : Except Error (List DimExpr × List DimExpr) := do
  let x_shapeordata ← shape_analysis.GetShapeOrDataForValue (← op.operand_source 0)
  let x_from_fullop ← (← op.operand_source 0).defining_op_isa FullOp.name
  let x_data ← x_shapeordata.data
  let shape_0 ← if !x_from_fullop && x_data.isSome then optValue x_data else x_shapeordata.shape
  let y_shapeordata ← shape_analysis.GetShapeOrDataForValue (← op.operand_source 1)
  let y_from_fullop ← (← op.operand_source 1).defining_op_isa FullOp.name
  let y_data ← y_shapeordata.data
  let shape_1 ← if !y_from_fullop && y_data.isSome then optValue y_data else y_shapeordata.shape
  pure (shape_0, shape_1)

/-- Rule `InferSymbolicShapeElementWiseBinary`: basis selection, left padding with literal
1, position-wise combination, and the write of a shape-only record for result 0. -/
def InferSymbolicShapeElementWiseBinary (op : Operation)
    (shape_analysis : ShapeConstraintIRAnalysis) : Except Error ShapeConstraintIRAnalysis := do
  let selected ← InferSymbolicShapeElementWiseBinary.bases op shape_analysis
  let shape_0 := selected.1
  let shape_1 := selected.2
  let diff : Int := (shape_0.length : Int) - (shape_1.length : Int)
  let padded : List DimExpr × List DimExpr :=
    if diff > 0 then (shape_0, emplaceFrontOnes diff.toNat shape_1)
    else (emplaceFrontOnes (-diff).toNat shape_0, shape_1)
  let shapes ← InferSymbolicShapeElementWiseBinary.shapes padded.1 padded.2
  let res ← op.result 0
  pure (shape_analysis.SetShapeOrDataForValue res (.Tensor ⟨shapes, none⟩))

namespace paddle.dialect

/-- Rule `AddOpInferSymbolicShape`. -/
def AddOpInferSymbolicShape (op : Operation) (shape_analysis : ShapeConstraintIRAnalysis) :
    Except Error ShapeConstraintIRAnalysis :=
  InferSymbolicShapeElementWiseBinary op shape_analysis

/-- Rule `Add_OpInferSymbolicShape`. -/
def Add_OpInferSymbolicShape (op : Operation) (shape_analysis : ShapeConstraintIRAnalysis) :
    Except Error ShapeConstraintIRAnalysis :=
  InferSymbolicShapeElementWiseBinary op shape_analysis

/-- Rule `SubtractOpInferSymbolicShape`. -/
def SubtractOpInferSymbolicShape (op : Operation) (shape_analysis : ShapeConstraintIRAnalysis) :
    Except Error ShapeConstraintIRAnalysis :=
  SameOperandsAndResultShape op shape_analysis

/-- Rule `Subtract_OpInferSymbolicShape`. -/
def Subtract_OpInferSymbolicShape (op : Operation) (shape_analysis : ShapeConstraintIRAnalysis) :
    Except Error ShapeConstraintIRAnalysis :=
  SameOperandsAndResultShape op shape_analysis

/-- Selection of `input_shapes` in `ReduceInferDim`: the shape when the record has no data
or empty data, the data otherwise. -/
def ReduceInferDim.input_shapes (x_shape_or_data : ShapeOrDataDimExprs) :
    Except Error (List DimExpr) := do
  match (← x_shape_or_data.data) with
  | none => x_shape_or_data.shape
  | some d => if d.length = 0 then x_shape_or_data.shape else pure d

/-- Lambda `shapes` of `ReduceInferDim`: the walk over the input axes. `dims_set` holds the
elements of the `std::set` built from the formatted axis list. -/
def ReduceInferDim.shapes (x_rank : Nat) (dims_set : List Int) (reduce_all keep_dim : Bool)
    (input_shapes : List DimExpr) : Except Error (List DimExpr) :=
  (List.range x_rank).foldlM (fun shapes (i : Nat) =>
    if reduce_all || dims_set.contains (i : Int) then
      if keep_dim then pure (shapes ++ [(1 : DimExpr)]) else pure shapes
    else do
      let d ← vecAt input_shapes i
      pure (shapes ++ [d])) []

/-- Rule helper `ReduceInferDim`. -/
def ReduceInferDim (op : Operation) (shape_analysis : ShapeConstraintIRAnalysis)
    (axis : List Int) (keep_dim reduce_all : Bool) : Except Error ShapeConstraintIRAnalysis := do
  let x ← op.operand_source 0
  let x_rank : Nat := x.dims.length
  let formated_axis : List Int := axis.map (fun a => if a < 0 then a + (x_rank : Int) else a)
  let dims_set : List Int := formated_axis
  let full_dim : Bool := (List.range x_rank).all (fun (i : Nat) => dims_set.contains (i : Int))
  let empty_dim : Bool := axis.length == 0
  let reduce_all : Bool := reduce_all || full_dim || empty_dim
  let x_shape_or_data ← shape_analysis.GetShapeOrDataForValue x
  let input_shapes ← ReduceInferDim.input_shapes x_shape_or_data
  let shapes ← ReduceInferDim.shapes x_rank dims_set reduce_all keep_dim input_shapes
  let res ← op.result 0
  pure (shape_analysis.SetShapeOrDataForValue res (.Tensor ⟨shapes, none⟩))

/-- Lambda `out_dims` of `ReshapeOpInferSymbolicShape`: starting from the data of the shape
operand, the loop keeps a running `product` and overwrites a literal `-1` found at the
last index by `numel / product`. The loop state is `(out_dims, product)`. -/
def ReshapeOpInferSymbolicShape.out_dims (data original_shape : List DimExpr) :
    Except Error (List DimExpr) := do
  let numel : DimExpr := original_shape.foldl (fun numel dim_expr => numel * dim_expr) 1
  let final ← (List.range data.length).foldlM
    (fun (state : List DimExpr × DimExpr) (i : Nat) => do
      let out_dims := state.1
      let product := state.2
      match (← vecAt out_dims i) with
      | .Int64 v =>
        if v ≠ -1 then pure (out_dims, product * DimExpr.Int64 v)
        else if i = out_dims.length - 1 then pure (out_dims.set i (numel / product), product)
        else pure (out_dims, product)
      | e => pure (out_dims, product * e)) (data, (1 : DimExpr))
  pure final.1

/-- Rule `ReshapeOpInferSymbolicShape` of the paddle dialect. -/
def ReshapeOpInferSymbolicShape (op : Operation) (shape_analysis : ShapeConstraintIRAnalysis) :
    Except Error ShapeConstraintIRAnalysis := do
  let operand_source_shape ← op.operand_source 1
  let operand_shape_or_data ← shape_analysis.GetShapeOrDataForValue operand_source_shape
  let data ← optValue (← operand_shape_or_data.data)
  let original_shape ← (← shape_analysis.GetShapeOrDataForValue (← op.operand_source 0)).shape
  let out_dims ← ReshapeOpInferSymbolicShape.out_dims data original_shape
  let written := shape_analysis.SetShapeOrDataForValue (← op.result 0) (.Tensor ⟨out_dims, none⟩)
  let shape_record ← written.GetShapeOrDataForValue operand_source_shape
  pure (written.SetShapeOrDataForValue (← op.result 1) shape_record)

/-- Rule `Reshape_OpInferSymbolicShape`. -/
def Reshape_OpInferSymbolicShape (op : Operation) (shape_analysis : ShapeConstraintIRAnalysis) :
    Except Error ShapeConstraintIRAnalysis :=
  ReshapeOpInferSymbolicShape op shape_analysis

/-- Lambda `axes` of `SliceOpInferSymbolicShape`: the `axes` attribute with each negative
axis replaced by `max(0, axis + rank)`. -/
def SliceOpInferSymbolicShape.axes (attributes : AttributeMap)
    (operand_shape_or_data : ShapeOrDataDimExprs) : Except Error (List Int) := do
  match (← attributes.at "axes") with
  | .Array axes_vec =>
    let rank : Int := ((← operand_shape_or_data.shape).length : Int)
    axes_vec.mapM (fun item =>
      match item with
      | .Int64 axis => .ok (if axis ≥ 0 then axis else max 0 (axis + rank))
      | _ => .error .NullPointer)
  | _ => .error .NullPointer

/-- Lambdas `starts` and `ends` of `SliceOpInferSymbolicShape`: every element must be a
literal (`IR_ENFORCE(item.isa<int64_t>())`). -/
def SliceOpInferSymbolicShape.literals (items : List DimExpr) : Except Error (List Int) :=
  items.mapM (fun item =>
    match item with
    | .Int64 v => .ok v
    | _ => .error .UnsupportedDynamicOperand)

/-- Lambda `GetDataDimExprs` of `SliceOpInferSymbolicShape`. -/
def SliceOpInferSymbolicShape.GetDataDimExprs (operand_shape_or_data : ShapeOrDataDimExprs)
    (starts ends : List Int) : Except Error ShapeOrDataDimExprs := do
  let first ← vecAt starts 0
  let last ← vecAt ends 0
  let out_data ← (List.range (last - first).toNat).mapM (fun (k : Nat) => do
    let data ← optValue (← operand_shape_or_data.data)
    vecAtInt data (first + (k : Int)))
  pure (.Tensor ⟨[DimExpr.Int64 (out_data.length : Int)], some out_data⟩)

/-- Lambda `IsMaxInt` of `GetShapeDimExprs`. -/
def SliceOpInferSymbolicShape.IsMaxInt (expr : DimExpr) : Bool :=
  match expr with
  | .Int64 v => v == INT32_MAX
  | _ => false

/-- Body of the loop over `axes` in `GetShapeDimExprs`, for index `i` and the current
`out_shape`. -/
def SliceOpInferSymbolicShape.GetShapeDimExprs.body (axes starts ends : List Int)
    (dim_expr_starts dim_expr_ends : List DimExpr) (out_shape : List DimExpr) (i : Nat) :
    Except Error (List DimExpr) := do
  let axis ← vecAt axes i
  let ends_i ← vecAt dim_expr_ends i
  let end_dim ← if SliceOpInferSymbolicShape.IsMaxInt ends_i then vecAtInt out_shape axis
    else pure ends_i
  let s ← vecAt starts i
  let e ← vecAt ends i
  if (s ≥ 0 ∧ e ≥ 0) ∨ (s ≤ 0 ∧ e ≤ 0) then
    vecSetInt out_shape axis (end_dim - (← vecAt dim_expr_starts i))
  else if s ≤ 0 ∧ e ≥ 0 then
    vecSetInt out_shape axis (end_dim - (← vecAt dim_expr_starts i) - (← vecAtInt out_shape axis))
  else if s ≥ 0 ∧ e ≤ 0 then
    vecSetInt out_shape axis ((← vecAtInt out_shape axis) - (← vecAt dim_expr_starts i) + end_dim)
  else pure out_shape

/-- Lambda `GetShapeDimExprs` of `SliceOpInferSymbolicShape`. -/
def SliceOpInferSymbolicShape.GetShapeDimExprs
    (operand_shape_or_data starts_shape_data ends_shape_data : ShapeOrDataDimExprs)
    (axes starts ends : List Int) : Except Error ShapeOrDataDimExprs := do
  let out_shape ← operand_shape_or_data.shape
  let dim_expr_starts ← optValue (← starts_shape_data.data)
  let dim_expr_ends ← optValue (← ends_shape_data.data)
  let out_shape ← (List.range axes.length).foldlM
    (SliceOpInferSymbolicShape.GetShapeDimExprs.body axes starts ends dim_expr_starts
      dim_expr_ends) out_shape
  pure (.Tensor ⟨out_shape, none⟩)

/-- Rule `SliceOpInferSymbolicShape` of the paddle dialect. -/
def SliceOpInferSymbolicShape (op : Operation) (shape_analysis : ShapeConstraintIRAnalysis) :
    Except Error ShapeConstraintIRAnalysis := do
  let operand_source ← op.operand_source 0
  let operand_starts ← op.operand_source 1
  let operand_ends ← op.operand_source 2
  let res ← op.result 0
  let operand_shape_or_data ← shape_analysis.GetShapeOrDataForValue operand_source
  let starts_shape_data ← shape_analysis.GetShapeOrDataForValue operand_starts
  let ends_shape_data ← shape_analysis.GetShapeOrDataForValue operand_ends
  let axes ← SliceOpInferSymbolicShape.axes op.attributes operand_shape_or_data
  let starts ← SliceOpInferSymbolicShape.literals (← optValue (← starts_shape_data.data))
  let ends ← SliceOpInferSymbolicShape.literals (← optValue (← ends_shape_data.data))
  let has_data := (← operand_shape_or_data.data).isSome
  let shape_data ←
    if has_data then
      SliceOpInferSymbolicShape.GetDataDimExprs operand_shape_or_data starts ends
    else
      SliceOpInferSymbolicShape.GetShapeDimExprs operand_shape_or_data starts_shape_data
        ends_shape_data axes starts ends
  pure (shape_analysis.SetShapeOrDataForValue res shape_data)

/-- Helper `BuildCstrEqForTensorListAlongAxis`: for every element `i >= 1` of the list,
registers the equality of `shape_data_list[0].shape()[axis]` and
`shape_data_list[i].shape()[axis]`. -/
def BuildCstrEqForTensorListAlongAxis (shape_analysis : ShapeConstraintIRAnalysis)
    (shape_data_list : List TensorShapeOrDataDimExprs) (axis : Int) :
    Except Error ShapeConstraintIRAnalysis :=
  (List.range (shape_data_list.length - 1)).foldlM (fun analysis (k : Nat) => do
    let i := k + 1
    let lhs ← vecAtInt (← vecAt shape_data_list 0).shape axis
    let rhs ← vecAtInt (← vecAt shape_data_list i).shape axis
    pure (analysis.CstrEq lhs rhs)) shape_analysis

/-- First loop of the lambda `shape_data` of `StackOpInferSymbolicShape`: the first data
value of every element that carries data, when `axis == 0`. -/
def StackOpInferSymbolicShape.data_dim_exprs (shape_data_list : List TensorShapeOrDataDimExprs)
    (axis : Int) : Except Error (List DimExpr) :=
  (List.range shape_data_list.length).foldlM (fun data_dim_exprs (i : Nat) => do
    let item ← vecAt shape_data_list i
    if item.data.isSome ∧ axis = 0 then
      pure (data_dim_exprs ++ [← vecAt (← optValue item.data) 0])
    else pure data_dim_exprs) []

/-- Rule `StackOpInferSymbolicShape`. -/
def StackOpInferSymbolicShape (op : Operation) (shape_analysis : ShapeConstraintIRAnalysis) :
    Except Error ShapeConstraintIRAnalysis := do
  let operand_source ← op.operand_source 0
  let axis_attr ← match (← op.attributes.at "axis") with
    | .Int32 data => pure data
    | _ => .error .NullPointer
  let shape_data_list ← (← shape_analysis.GetShapeOrDataForValue operand_source).asTensorList
  let rank : Int := ((← vecAt shape_data_list 0).shape.length : Int)
  let axis : Int := if axis_attr < 0 then axis_attr + (rank + 1) else axis_attr
  let data_dim_exprs ← StackOpInferSymbolicShape.data_dim_exprs shape_data_list axis
  let stacked ←
    if data_dim_exprs.length ≠ 0 then
      pure (shape_analysis, [DimExpr.Int64 (shape_data_list.length : Int)])
    else do
      let analysis ← (List.range rank.toNat).foldlM (fun analysis (i : Nat) =>
        if (i : Int) = axis then pure analysis
        else BuildCstrEqForTensorListAlongAxis analysis shape_data_list (i : Int)) shape_analysis
      let shape_dim_exprs ← vecInsertInt ([] : List DimExpr) axis
        (DimExpr.Int64 (shape_data_list.length : Int))
      pure (analysis, shape_dim_exprs)
  let res ← op.result 0
  pure (stacked.1.SetShapeOrDataForValue res (.Tensor ⟨stacked.2, some data_dim_exprs⟩))

/-- Body of the inner loop (over `j < rank`) of the lambda `out_dims` of the paddle-dialect
`ConcatOpInferSymbolicShape`, for list element `i`; the state is the analysis context and
`out_dims`. -/
def ConcatOpInferSymbolicShape.body (shape_data_list : List TensorShapeOrDataDimExprs)
    (axis : Int) (i : Nat) (state : ShapeConstraintIRAnalysis × List DimExpr) (j : Nat) :
    Except Error (ShapeConstraintIRAnalysis × List DimExpr) :=
  if (j : Int) ≠ axis then do
    let analysis ← BuildCstrEqForTensorListAlongAxis state.1 shape_data_list (i : Int)
    pure (analysis, state.2)
  else do
    let sum := (← vecAtInt state.2 axis) + (← vecAtInt (← vecAt shape_data_list i).shape axis)
    pure (state.1, ← vecSetInt state.2 axis sum)

/-- Rule `ConcatOpInferSymbolicShape` of the paddle dialect. -/
def ConcatOpInferSymbolicShape (op : Operation) (shape_analysis : ShapeConstraintIRAnalysis) :
    Except Error ShapeConstraintIRAnalysis := do
  let operand_source ← op.operand_source 0
  let shape_data_list ← (← shape_analysis.GetShapeOrDataForValue operand_source).asTensorList
  let axis_source ← op.operand_source 1
  if !(← axis_source.defining_op_isa FullOp.name) then .error .InvariantViolation
  let axis_attr ← match (← axis_source.defining_op_attribute "value") with
    | .Scalar data => pure data
    | _ => .error .NullPointer
  let rank : Nat := (← vecAt shape_data_list 0).shape.length
  let axis : Int := if axis_attr ≥ 0 then axis_attr else max 0 (axis_attr + (rank : Int))
  let result ← (List.range (shape_data_list.length - 1)).foldlM (fun state (k : Nat) =>
    (List.range rank).foldlM (ConcatOpInferSymbolicShape.body shape_data_list axis (k + 1)) state)
    (shape_analysis, (← vecAt shape_data_list 0).shape)
  let res ← op.result 0
  pure (result.1.SetShapeOrDataForValue res (.Tensor ⟨result.2, none⟩))

/-- Loop filling `squeeze_dims` in `SqueezeOpInferSymbolicShape`: every axis must be a
literal (`IR_ENFORCE(squeeze_dim.Has<std::int64_t>())`) and is converted to `int`. -/
def SqueezeOpInferSymbolicShape.squeeze_dims (squeeze_dims_sym : List DimExpr) :
    Except Error (List Int) :=
  squeeze_dims_sym.mapM (fun squeeze_dim =>
    match squeeze_dim with
    | .Int64 v => .ok (toInt32 v)
    | _ => .error .UnsupportedDynamicOperand)

/-- Marking loop of `SqueezeOpInferSymbolicShape` for an empty axes list: every position
whose dimension equals literal 1 is marked. -/
def SqueezeOpInferSymbolicShape.markOnes (in_dims_sym : List DimExpr)
    (should_squeeze : List Bool) : Except Error (List Bool) :=
  (List.range in_dims_sym.length).foldlM (fun should_squeeze (i : Nat) => do
    if (← vecAt in_dims_sym i) = 1 then vecSet should_squeeze i true
    else pure should_squeeze) should_squeeze

/-- Body of the marking loop of `SqueezeOpInferSymbolicShape` over the listed axes, for the
listed axis `squeeze_dim`. -/
def SqueezeOpInferSymbolicShape.markAxis (in_dims_sym : List DimExpr)
    (should_squeeze : List Bool) (squeeze_dim : Int) : Except Error (List Bool) :=
  if in_dims_sym.length = 0 then pure should_squeeze
  else do
    let current : Int :=
      toInt32 (if squeeze_dim < 0 then squeeze_dim + (in_dims_sym.length : Int) else squeeze_dim)
    if !(← vecAtInt should_squeeze current) then
      let dim ← vecAtInt in_dims_sym current
      if dim = 1 then vecSetInt should_squeeze current true
      else if !dim.isInt64 then .error .UnimplementedOperator
      else pure should_squeeze
    else pure should_squeeze

/-- Loop `Make output dimensions` of `SqueezeOpInferSymbolicShape`. -/
def SqueezeOpInferSymbolicShape.output_shape_sym (in_dims_sym : List DimExpr)
    (should_squeeze : List Bool) : Except Error (List DimExpr) :=
  (List.range in_dims_sym.length).foldlM (fun output_shape_sym (i : Nat) => do
    if !(← vecAt should_squeeze i) then pure (output_shape_sym ++ [← vecAt in_dims_sym i])
    else pure output_shape_sym) []

/-- Rule `SqueezeOpInferSymbolicShape`. -/
def SqueezeOpInferSymbolicShape (op : Operation) (shape_analysis : ShapeConstraintIRAnalysis) :
    Except Error ShapeConstraintIRAnalysis := do
  if op.operands.length ≠ 2 then .error .InvariantViolation
  let x_shape_or_data ← shape_analysis.GetShapeOrDataForValue (← op.operand_source 0)
  let axes_shape_or_data ← shape_analysis.GetShapeOrDataForValue (← op.operand_source 1)
  let in_dims_sym ← match (← x_shape_or_data.data) with
    | some data => pure data
    | none => x_shape_or_data.shape
  let squeeze_dims_sym ← match (← axes_shape_or_data.data) with
    | some data => pure data
    | none => axes_shape_or_data.shape
  let squeeze_dims ← SqueezeOpInferSymbolicShape.squeeze_dims squeeze_dims_sym
  let should_squeeze : List Bool := List.replicate in_dims_sym.length false
  let should_squeeze ←
    if squeeze_dims.length = 0 then SqueezeOpInferSymbolicShape.markOnes in_dims_sym should_squeeze
    else squeeze_dims.foldlM (SqueezeOpInferSymbolicShape.markAxis in_dims_sym) should_squeeze
  let output_shape_sym ← SqueezeOpInferSymbolicShape.output_shape_sym in_dims_sym should_squeeze
  let res ← op.result 0
  pure (shape_analysis.SetShapeOrDataForValue res (.Tensor ⟨output_shape_sym, none⟩))

/-- Rule `Squeeze_OpInferSymbolicShape`. -/
def Squeeze_OpInferSymbolicShape (op : Operation) (shape_analysis : ShapeConstraintIRAnalysis) :
    Except Error ShapeConstraintIRAnalysis :=
  SqueezeOpInferSymbolicShape op shape_analysis

/-- Loop `Move old axis` of `UnsqueezeOpInferSymbolicShape`:
`for (int i = cur_output_rank; i >= cur; --i)`, moving every marker 1 one position to the
right. -/
def UnsqueezeOpInferSymbolicShape.moveAxes (cur_output_rank cur : Int)
    (result_sym_dims : List DimExpr) : Except Error (List DimExpr) :=
  (List.range (cur_output_rank - cur + 1).toNat).foldlM (fun result_sym_dims (k : Nat) => do
    let i : Int := cur_output_rank - (k : Int)
    if (← vecAtInt result_sym_dims i) = 1 then
      vecSetInt (← vecSetInt result_sym_dims (i + 1) 1) i 0
    else pure result_sym_dims) result_sym_dims

/-- Body of the loop over `axes_sym` of `UnsqueezeOpInferSymbolicShape`; the state is
`result_sym_dims` and `cur_output_rank`. -/
def UnsqueezeOpInferSymbolicShape.insertAxis (state : List DimExpr × Int) (axis_expr : DimExpr) :
    Except Error (List DimExpr × Int) :=
  match axis_expr with
  | .Int64 v => do
    let axis : Int := toInt32 v
    let cur : Int := if axis < 0 then axis + state.2 + 1 else axis
    let moved ← UnsqueezeOpInferSymbolicShape.moveAxes state.2 cur state.1
    pure (← vecSetInt moved cur 1, state.2 + 1)
  | _ => .error .UnsupportedDynamicOperand

/-- Loop `Make output shape` of `UnsqueezeOpInferSymbolicShape`; the state is
`result_sym_dims` and `in_idx`. -/
def UnsqueezeOpInferSymbolicShape.fill (x_sym_shape : List DimExpr) (output_rank : Int)
    (result_sym_dims : List DimExpr) : Except Error (List DimExpr) := do
  let final ← (List.range output_rank.toNat).foldlM
    (fun (state : List DimExpr × Nat) (out_idx : Nat) => do
      if (← vecAt state.1 out_idx) = 0 then
        pure (← vecSet state.1 out_idx (← vecAt x_sym_shape state.2), state.2 + 1)
      else pure state) (result_sym_dims, 0)
  pure final.1

/-- Part `GetUnsqueezeShape` of `UnsqueezeOpInferSymbolicShape`: from the two bases
`x_sym_shape` and `axes_sym` to the final `result_sym_dims` (sizes converted to `int`, the
marker vector of `output_rank` zeros, the loop over the axes, the filling loop). -/
def UnsqueezeOpInferSymbolicShape.result_sym_dims (x_sym_shape axes_sym : List DimExpr) :
    Except Error (List DimExpr) := do
  let x_dims_size : Int := toInt32 x_sym_shape.length
  let axes_sym_size : Int := toInt32 axes_sym.length
  let output_rank : Int := x_dims_size + axes_sym_size
  let result_sym_dims : List DimExpr := List.replicate output_rank.toNat (0 : DimExpr)
  let inserted ← axes_sym.foldlM UnsqueezeOpInferSymbolicShape.insertAxis
    (result_sym_dims, x_dims_size)
  UnsqueezeOpInferSymbolicShape.fill x_sym_shape output_rank inserted.1

/-- Rule `UnsqueezeOpInferSymbolicShape`. -/
def UnsqueezeOpInferSymbolicShape (op : Operation) (shape_analysis : ShapeConstraintIRAnalysis) :
    Except Error ShapeConstraintIRAnalysis := do
  if op.operands.length ≠ 2 then .error .InvariantViolation
  let x_shape_or_data ← shape_analysis.GetShapeOrDataForValue (← op.operand_source 0)
  let axes_shape_or_data ← shape_analysis.GetShapeOrDataForValue (← op.operand_source 1)
  let x_sym_shape ← match (← x_shape_or_data.data) with
    | some data => pure data
    | none => x_shape_or_data.shape
  let axes_sym ← match (← axes_shape_or_data.data) with
    | some data => pure data
    | none => axes_shape_or_data.shape
  let result_sym_dims ← UnsqueezeOpInferSymbolicShape.result_sym_dims x_sym_shape axes_sym
  let res ← op.result 0
  pure (shape_analysis.SetShapeOrDataForValue res (.Tensor ⟨result_sym_dims, none⟩))

/-- Rule `Unsqueeze_OpInferSymbolicShape`. -/
def Unsqueeze_OpInferSymbolicShape (op : Operation) (shape_analysis : ShapeConstraintIRAnalysis) :
    Except Error ShapeConstraintIRAnalysis :=
  UnsqueezeOpInferSymbolicShape op shape_analysis

end paddle.dialect

namespace cinn.dialect

/-- Rule `ReshapeOpInferSymbolicShape` of the cinn dialect: the `shape` attribute, entry by
entry, as literals. -/
def ReshapeOpInferSymbolicShape (op : Operation) (shape_analysis : ShapeConstraintIRAnalysis) :
    Except Error ShapeConstraintIRAnalysis := do
  let shape ← GetVectorAttr AttributeTrait.int32 op.attributes "shape"
  let out_dims : List DimExpr := shape.map (fun dim => DimExpr.Int64 dim)
  pure (shape_analysis.SetShapeOrDataForValue (← op.result 0) (.Tensor ⟨out_dims, none⟩))

end cinn.dialect

namespace paddle.dialect

/-- Rule `AbsOpInferSymbolicShape`. -/
def AbsOpInferSymbolicShape (op : Operation) (shape_analysis : ShapeConstraintIRAnalysis) :
    Except Error ShapeConstraintIRAnalysis :=
  SameOperandsAndResultShape op shape_analysis

/-- Rule `Abs_OpInferSymbolicShape`. -/
def Abs_OpInferSymbolicShape (op : Operation) (shape_analysis : ShapeConstraintIRAnalysis) :
    Except Error ShapeConstraintIRAnalysis :=
  SameOperandsAndResultShape op shape_analysis

/-- Rule `CastOpInferSymbolicShape`. -/
def CastOpInferSymbolicShape (op : Operation) (shape_analysis : ShapeConstraintIRAnalysis) :
    Except Error ShapeConstraintIRAnalysis :=
  SameOperandsAndResultShape op shape_analysis

/-- Rule `Cast_OpInferSymbolicShape`. -/
def Cast_OpInferSymbolicShape (op : Operation) (shape_analysis : ShapeConstraintIRAnalysis) :
    Except Error ShapeConstraintIRAnalysis :=
  SameOperandsAndResultShape op shape_analysis

/-- Rule `ExpOpInferSymbolicShape`. -/
def ExpOpInferSymbolicShape (op : Operation) (shape_analysis : ShapeConstraintIRAnalysis) :
    Except Error ShapeConstraintIRAnalysis :=
  SameOperandsAndResultShape op shape_analysis

/-- Rule `Exp_OpInferSymbolicShape`. -/
def Exp_OpInferSymbolicShape (op : Operation) (shape_analysis : ShapeConstraintIRAnalysis) :
    Except Error ShapeConstraintIRAnalysis :=
  SameOperandsAndResultShape op shape_analysis

/-- Rule `MultiplyOpInferSymbolicShape`. -/
def MultiplyOpInferSymbolicShape (op : Operation) (shape_analysis : ShapeConstraintIRAnalysis) :
    Except Error ShapeConstraintIRAnalysis :=
  InferSymbolicShapeElementWiseBinary op shape_analysis

/-- Rule `MultiplySrOpInferSymbolicShape`. -/
def MultiplySrOpInferSymbolicShape (op : Operation) (shape_analysis : ShapeConstraintIRAnalysis) :
    Except Error ShapeConstraintIRAnalysis :=
  InferSymbolicShapeElementWiseBinary op shape_analysis

/-- Rule `Multiply_OpInferSymbolicShape`. -/
def Multiply_OpInferSymbolicShape (op : Operation) (shape_analysis : ShapeConstraintIRAnalysis) :
    Except Error ShapeConstraintIRAnalysis :=
  InferSymbolicShapeElementWiseBinary op shape_analysis

/-- Rule `MultiplySr_OpInferSymbolicShape`. -/
def MultiplySr_OpInferSymbolicShape (op : Operation)
    (shape_analysis : ShapeConstraintIRAnalysis) : Except Error ShapeConstraintIRAnalysis :=
  InferSymbolicShapeElementWiseBinary op shape_analysis

/-- Rule `PowOpInferSymbolicShape`. -/
def PowOpInferSymbolicShape (op : Operation) (shape_analysis : ShapeConstraintIRAnalysis) :
    Except Error ShapeConstraintIRAnalysis :=
  SameOperandsAndResultShape op shape_analysis

/-- Rule `Pow_OpInferSymbolicShape`: `PADDLE_THROW(phi::errors::Unimplemented(...))`; the
`return PowOpInferSymbolicShape(op, shape_analysis)` that follows the throw is never
reached. -/
def Pow_OpInferSymbolicShape (_op : Operation) (_shape_analysis : ShapeConstraintIRAnalysis) :
    Except Error ShapeConstraintIRAnalysis :=
  .error .UnimplementedOperator

/-- Rule `RsqrtOpInferSymbolicShape`. -/
def RsqrtOpInferSymbolicShape (op : Operation) (shape_analysis : ShapeConstraintIRAnalysis) :
    Except Error ShapeConstraintIRAnalysis :=
  SameOperandsAndResultShape op shape_analysis

/-- Rule `Rsqrt_OpInferSymbolicShape`. -/
def Rsqrt_OpInferSymbolicShape (op : Operation) (shape_analysis : ShapeConstraintIRAnalysis) :
    Except Error ShapeConstraintIRAnalysis :=
  RsqrtOpInferSymbolicShape op shape_analysis

/-- Rule `ScaleOpInferSymbolicShape`. -/
def ScaleOpInferSymbolicShape (op : Operation) (shape_analysis : ShapeConstraintIRAnalysis) :
    Except Error ShapeConstraintIRAnalysis :=
  SameOperandsAndResultShape op shape_analysis

/-- Rule `Scale_OpInferSymbolicShape`. -/
def Scale_OpInferSymbolicShape (op : Operation) (shape_analysis : ShapeConstraintIRAnalysis) :
    Except Error ShapeConstraintIRAnalysis :=
  SameOperandsAndResultShape op shape_analysis

/-- Rule `ScaleSrOpInferSymbolicShape`. -/
def ScaleSrOpInferSymbolicShape (op : Operation) (shape_analysis : ShapeConstraintIRAnalysis) :
    Except Error ShapeConstraintIRAnalysis :=
  SameOperandsAndResultShape op shape_analysis

/-- Rule `ScaleSr_OpInferSymbolicShape`. -/
def ScaleSr_OpInferSymbolicShape (op : Operation) (shape_analysis : ShapeConstraintIRAnalysis) :
    Except Error ShapeConstraintIRAnalysis :=
  SameOperandsAndResultShape op shape_analysis

/-- Rule `DivideOpInferSymbolicShape`. -/
def DivideOpInferSymbolicShape (op : Operation) (shape_analysis : ShapeConstraintIRAnalysis) :
    Except Error ShapeConstraintIRAnalysis :=
  InferSymbolicShapeElementWiseBinary op shape_analysis

/-- Rule `Divide_OpInferSymbolicShape`. -/
def Divide_OpInferSymbolicShape (op : Operation) (shape_analysis : ShapeConstraintIRAnalysis) :
    Except Error ShapeConstraintIRAnalysis :=
  InferSymbolicShapeElementWiseBinary op shape_analysis

/-- Rule `FullWithTensorOpInferSymbolicShape`. -/
def FullWithTensorOpInferSymbolicShape (op : Operation)
    (shape_analysis : ShapeConstraintIRAnalysis) : Except Error ShapeConstraintIRAnalysis :=
  SameOperandsAndResultShape op shape_analysis

/-- Rule `ReluOpInferSymbolicShape`. -/
def ReluOpInferSymbolicShape (op : Operation) (shape_analysis : ShapeConstraintIRAnalysis) :
    Except Error ShapeConstraintIRAnalysis :=
  SameOperandsAndResultShape op shape_analysis

/-- Rule `Relu_OpInferSymbolicShape`. -/
def Relu_OpInferSymbolicShape (op : Operation) (shape_analysis : ShapeConstraintIRAnalysis) :
    Except Error ShapeConstraintIRAnalysis :=
  SameOperandsAndResultShape op shape_analysis

/-- Rule `ShapeOpInferSymbolicShape`: the shape of the record is the first static dimension
of the type of result 0, the data of the record is the shape vector of operand 0. -/
def ShapeOpInferSymbolicShape (op : Operation) (shape_analysis : ShapeConstraintIRAnalysis) :
    Except Error ShapeConstraintIRAnalysis := do
  let operand_shape_or_data ← shape_analysis.GetShapeOrDataForValue (← op.operand_source 0)
  let dim_expr : DimExpr := DimExpr.Int64 (← vecAt (← op.result 0).dims 0)
  let sym_shape : List DimExpr := [dim_expr]
  let data ← operand_shape_or_data.shape
  let res ← op.result 0
  pure (shape_analysis.SetShapeOrDataForValue res (.Tensor ⟨sym_shape, some data⟩))

/-- Rule `ShapeSrOpInferSymbolicShape`. -/
def ShapeSrOpInferSymbolicShape (op : Operation) (shape_analysis : ShapeConstraintIRAnalysis) :
    Except Error ShapeConstraintIRAnalysis :=
  ShapeOpInferSymbolicShape op shape_analysis

/-- Rule `FullIntArrayOpInferSymbolicShape`: the data are the items of the `value` attribute,
the shape is the one-element list holding their number. -/
def FullIntArrayOpInferSymbolicShape (op : Operation)
    (shape_analysis : ShapeConstraintIRAnalysis) : Except Error ShapeConstraintIRAnalysis := do
  let vec ← match (← op.attributes.at "value") with
    | .Array items => pure items
    | _ => .error .NullPointer
  let data ← vec.mapM (fun item =>
    match item with
    | .Int64 i => .ok (DimExpr.Int64 i)
    | _ => .error .NullPointer)
  let shape : List DimExpr := [DimExpr.Int64 (vec.length : Int)]
  let res ← op.result 0
  pure (shape_analysis.SetShapeOrDataForValue res (.Tensor ⟨shape, some data⟩))

/-- Rule `FullOpInferSymbolicShape`: the shape is the `shape` attribute entry by entry, the
data is the one-element list holding the `value` attribute. -/
def FullOpInferSymbolicShape (op : Operation) (shape_analysis : ShapeConstraintIRAnalysis) :
    Except Error ShapeConstraintIRAnalysis := do
  let shape_vec ← match (← op.attributes.at "shape") with
    | .IntArray data => pure data
    | _ => .error .NullPointer
  let shape : List DimExpr := shape_vec.map (fun dim => DimExpr.Int64 dim)
  let value ← match (← op.attributes.at "value") with
    | .Scalar data => pure data
    | _ => .error .NullPointer
  let data : List DimExpr := [DimExpr.Int64 value]
  pure (shape_analysis.SetShapeOrDataForValue (← op.result 0) (.Tensor ⟨shape, some data⟩))

/-- Lambdas `start`, `end` and `step` of `ArangeOpInferSymbolicShape`: the first element of
the data when the record carries data, the first element of the shape otherwise. -/
def ArangeOpInferSymbolicShape.expr (shape_or_data : ShapeOrDataDimExprs) :
    Except Error DimExpr := do
  match (← shape_or_data.data) with
  | some data => vecAt data 0
  | none => vecAt (← shape_or_data.shape) 0

/-- Rule `ArangeOpInferSymbolicShape`: the one-element shape `(end - start) / step`. -/
def ArangeOpInferSymbolicShape (op : Operation) (shape_analysis : ShapeConstraintIRAnalysis) :
    Except Error ShapeConstraintIRAnalysis := do
  let start_shape_or_data ← shape_analysis.GetShapeOrDataForValue (← op.operand_source 0)
  let end_shape_or_data ← shape_analysis.GetShapeOrDataForValue (← op.operand_source 1)
  let step_shape_or_data ← shape_analysis.GetShapeOrDataForValue (← op.operand_source 2)
  let start ← ArangeOpInferSymbolicShape.expr start_shape_or_data
  let end_dim ← ArangeOpInferSymbolicShape.expr end_shape_or_data
  let step ← ArangeOpInferSymbolicShape.expr step_shape_or_data
  let out_dims : List DimExpr := [(end_dim - start) / step]
  pure (shape_analysis.SetShapeOrDataForValue (← op.result 0) (.Tensor ⟨out_dims, none⟩))

/-- Lambdas `x_dims` and `y_dims` of `MatmulOpInferSymbolicShape`: the data when the record
carries data, the shape otherwise. -/
def MatmulOpInferSymbolicShape.dims (shape_or_data : ShapeOrDataDimExprs) :
    Except Error (List DimExpr) := do
  match (← shape_or_data.data) with
  | some data => pure data
  | none => shape_or_data.shape

/-- Batch part of `MatmulOpInferSymbolicShape`: `out_dims` after the chain
`if (ndims_x > ndims_y) ... else if (ndims_x < ndims_y) ... else ...`, on the promoted
`x_dims` and `y_dims`. `assign(begin, end - 2)` needs two entries; the loop bound
`ndims_x - 2` is computed in `size_t`; the local builder is constructed from `nullptr`. -/
def MatmulOpInferSymbolicShape.batch (x_dims y_dims : List DimExpr) (ndims_x ndims_y : Nat) :
    Except Error (List DimExpr) :=
  if ndims_x > ndims_y then
    if x_dims.length < 2 then .error .OutOfRange else pure (x_dims.take (x_dims.length - 2))
  else if ndims_x < ndims_y then
    if y_dims.length < 2 then .error .OutOfRange else pure (y_dims.take (y_dims.length - 2))
  else
    (List.range (((ndims_x : Int) - 2) % 18446744073709551616).toNat).foldlM
      (fun out_dims (i : Nat) => do
        pure (out_dims ++ [(DimExprBuilder.Broadcast none (← vecAt x_dims i)
          (← vecAt y_dims i)).1])) []

/-- Part of `MatmulOpInferSymbolicShape` from the promotion of rank-1 operands to the final
`out_dims`. -/
def MatmulOpInferSymbolicShape.out_dims (attributes : AttributeMap)
    (x_dims y_dims : List DimExpr) : Except Error (List DimExpr) := do
  let x_broadcasted : Bool := x_dims.length == 1
  let promoted_x : List DimExpr := if x_broadcasted then (1 : DimExpr) :: x_dims else x_dims
  let ndims_x : Nat := if x_broadcasted then 2 else x_dims.length
  let y_broadcasted : Bool := y_dims.length == 1
  let promoted_y : List DimExpr := if y_broadcasted then y_dims ++ [(1 : DimExpr)] else y_dims
  let ndims_y : Nat := if y_broadcasted then 2 else y_dims.length
  let out_dims ← MatmulOpInferSymbolicShape.batch promoted_x promoted_y ndims_x ndims_y
  let transpose_x ← match (← attributes.at "transpose_x") with
    | .Bool data => pure data
    | _ => .error .NullPointer
  let out_M ← if transpose_x then vecAtInt promoted_x ((ndims_x : Int) - 1)
    else vecAtInt promoted_x ((ndims_x : Int) - 2)
  let transpose_y ← match (← attributes.at "transpose_y") with
    | .Bool data => pure data
    | _ => .error .NullPointer
  let out_N ← if transpose_y then vecAtInt promoted_y ((ndims_y : Int) - 2)
    else vecAtInt promoted_y ((ndims_y : Int) - 1)
  let out_dims := if !x_broadcasted then out_dims ++ [out_M] else out_dims
  let out_dims := if !y_broadcasted then out_dims ++ [out_N] else out_dims
  pure out_dims

/-- Rule `MatmulOpInferSymbolicShape`. -/
def MatmulOpInferSymbolicShape (op : Operation) (shape_analysis : ShapeConstraintIRAnalysis) :
    Except Error ShapeConstraintIRAnalysis := do
  let x_dims ← MatmulOpInferSymbolicShape.dims
    (← shape_analysis.GetShapeOrDataForValue (← op.operand_source 0))
  let y_dims ← MatmulOpInferSymbolicShape.dims
    (← shape_analysis.GetShapeOrDataForValue (← op.operand_source 1))
  let out_dims ← MatmulOpInferSymbolicShape.out_dims op.attributes x_dims y_dims
  pure (shape_analysis.SetShapeOrDataForValue (← op.result 0) (.Tensor ⟨out_dims, none⟩))

end paddle.dialect

namespace paddle.dialect

/-- Rule `TransposeOpInferSymbolicShape`:
`PADDLE_THROW(phi::errors::Unimplemented(...))`. -/
def TransposeOpInferSymbolicShape (_op : Operation)
    (_shape_analysis : ShapeConstraintIRAnalysis) : Except Error ShapeConstraintIRAnalysis :=
  .error .UnimplementedOperator

/-- Rule `Transpose_OpInferSymbolicShape`. -/
def Transpose_OpInferSymbolicShape (op : Operation)
    (shape_analysis : ShapeConstraintIRAnalysis) : Except Error ShapeConstraintIRAnalysis :=
  TransposeOpInferSymbolicShape op shape_analysis

/-- Rule `SparseWeightEmbeddingOpInferSymbolicShape`:
`PADDLE_THROW(phi::errors::Unimplemented(...))`. -/
def SparseWeightEmbeddingOpInferSymbolicShape (_op : Operation)
    (_shape_analysis : ShapeConstraintIRAnalysis) : Except Error ShapeConstraintIRAnalysis :=
  .error .UnimplementedOperator

/-- Rule `ExpandOpInferSymbolicShape`:
`PADDLE_THROW(phi::errors::Unimplemented(...))`. -/
def ExpandOpInferSymbolicShape (_op : Operation)
    (_shape_analysis : ShapeConstraintIRAnalysis) : Except Error ShapeConstraintIRAnalysis :=
  .error .UnimplementedOperator

/-- Rule `TrilOpInferSymbolicShape`:
`PADDLE_THROW(phi::errors::Unimplemented(...))`. -/
def TrilOpInferSymbolicShape (_op : Operation)
    (_shape_analysis : ShapeConstraintIRAnalysis) : Except Error ShapeConstraintIRAnalysis :=
  .error .UnimplementedOperator

/-- Rule `Tril_OpInferSymbolicShape`. -/
def Tril_OpInferSymbolicShape (op : Operation)
    (shape_analysis : ShapeConstraintIRAnalysis) : Except Error ShapeConstraintIRAnalysis :=
  TrilOpInferSymbolicShape op shape_analysis

/-- Rule `WhereOpInferSymbolicShape`:
`PADDLE_THROW(phi::errors::Unimplemented(...))`. -/
def WhereOpInferSymbolicShape (_op : Operation)
    (_shape_analysis : ShapeConstraintIRAnalysis) : Except Error ShapeConstraintIRAnalysis :=
  .error .UnimplementedOperator

/-- Rule `Where_OpInferSymbolicShape`. -/
def Where_OpInferSymbolicShape (op : Operation)
    (shape_analysis : ShapeConstraintIRAnalysis) : Except Error ShapeConstraintIRAnalysis :=
  WhereOpInferSymbolicShape op shape_analysis

/-- Rule `AssignOpInferSymbolicShape`:
`PADDLE_THROW(phi::errors::Unimplemented(...))`. -/
def AssignOpInferSymbolicShape (_op : Operation)
    (_shape_analysis : ShapeConstraintIRAnalysis) : Except Error ShapeConstraintIRAnalysis :=
  .error .UnimplementedOperator

/-- Rule `Assign_OpInferSymbolicShape`. -/
def Assign_OpInferSymbolicShape (op : Operation)
    (shape_analysis : ShapeConstraintIRAnalysis) : Except Error ShapeConstraintIRAnalysis :=
  AssignOpInferSymbolicShape op shape_analysis

/-- Rule `BitwiseAndOpInferSymbolicShape`:
`PADDLE_THROW(phi::errors::Unimplemented(...))`. -/
def BitwiseAndOpInferSymbolicShape (_op : Operation)
    (_shape_analysis : ShapeConstraintIRAnalysis) : Except Error ShapeConstraintIRAnalysis :=
  .error .UnimplementedOperator

/-- Rule `BitwiseAnd_OpInferSymbolicShape`. -/
def BitwiseAnd_OpInferSymbolicShape (op : Operation)
    (shape_analysis : ShapeConstraintIRAnalysis) : Except Error ShapeConstraintIRAnalysis :=
  BitwiseAndOpInferSymbolicShape op shape_analysis

/-- Rule `FeedOpInferSymbolicShape`:
`PADDLE_THROW(phi::errors::Unimplemented(...))`. -/
def FeedOpInferSymbolicShape (_op : Operation)
    (_shape_analysis : ShapeConstraintIRAnalysis) : Except Error ShapeConstraintIRAnalysis :=
  .error .UnimplementedOperator

/-- Rule `GreaterThanOpInferSymbolicShape`:
`PADDLE_THROW(phi::errors::Unimplemented(...))`. -/
def GreaterThanOpInferSymbolicShape (_op : Operation)
    (_shape_analysis : ShapeConstraintIRAnalysis) : Except Error ShapeConstraintIRAnalysis :=
  .error .UnimplementedOperator

/-- Rule `GreaterThan_OpInferSymbolicShape`. -/
def GreaterThan_OpInferSymbolicShape (op : Operation)
    (shape_analysis : ShapeConstraintIRAnalysis) : Except Error ShapeConstraintIRAnalysis :=
  GreaterThanOpInferSymbolicShape op shape_analysis

/-- Rule `IncrementOpInferSymbolicShape`:
`PADDLE_THROW(phi::errors::Unimplemented(...))`. -/
def IncrementOpInferSymbolicShape (_op : Operation)
    (_shape_analysis : ShapeConstraintIRAnalysis) : Except Error ShapeConstraintIRAnalysis :=
  .error .UnimplementedOperator

/-- Rule `Increment_OpInferSymbolicShape`. -/
def Increment_OpInferSymbolicShape (op : Operation)
    (shape_analysis : ShapeConstraintIRAnalysis) : Except Error ShapeConstraintIRAnalysis :=
  IncrementOpInferSymbolicShape op shape_analysis

/-- Rule `LessThanOpInferSymbolicShape`:
`PADDLE_THROW(phi::errors::Unimplemented(...))`. -/
def LessThanOpInferSymbolicShape (_op : Operation)
    (_shape_analysis : ShapeConstraintIRAnalysis) : Except Error ShapeConstraintIRAnalysis :=
  .error .UnimplementedOperator

/-- Rule `LessThan_OpInferSymbolicShape`. -/
def LessThan_OpInferSymbolicShape (op : Operation)
    (shape_analysis : ShapeConstraintIRAnalysis) : Except Error ShapeConstraintIRAnalysis :=
  LessThanOpInferSymbolicShape op shape_analysis

/-- Rule `LogicalAndOpInferSymbolicShape`:
`PADDLE_THROW(phi::errors::Unimplemented(...))`. -/
def LogicalAndOpInferSymbolicShape (_op : Operation)
    (_shape_analysis : ShapeConstraintIRAnalysis) : Except Error ShapeConstraintIRAnalysis :=
  .error .UnimplementedOperator

/-- Rule `LogicalAnd_OpInferSymbolicShape`. -/
def LogicalAnd_OpInferSymbolicShape (op : Operation)
    (shape_analysis : ShapeConstraintIRAnalysis) : Except Error ShapeConstraintIRAnalysis :=
  LogicalAndOpInferSymbolicShape op shape_analysis

/-- Rule `LogicalNotOpInferSymbolicShape`:
`PADDLE_THROW(phi::errors::Unimplemented(...))`. -/
def LogicalNotOpInferSymbolicShape (_op : Operation)
    (_shape_analysis : ShapeConstraintIRAnalysis) : Except Error ShapeConstraintIRAnalysis :=
  .error .UnimplementedOperator

/-- Rule `LogicalNot_OpInferSymbolicShape`. -/
def LogicalNot_OpInferSymbolicShape (op : Operation)
    (shape_analysis : ShapeConstraintIRAnalysis) : Except Error ShapeConstraintIRAnalysis :=
  LogicalNotOpInferSymbolicShape op shape_analysis

/-- Rule `NotEqualOpInferSymbolicShape`:
`PADDLE_THROW(phi::errors::Unimplemented(...))`. -/
def NotEqualOpInferSymbolicShape (_op : Operation)
    (_shape_analysis : ShapeConstraintIRAnalysis) : Except Error ShapeConstraintIRAnalysis :=
  .error .UnimplementedOperator

/-- Rule `NotEqual_OpInferSymbolicShape`. -/
def NotEqual_OpInferSymbolicShape (op : Operation)
    (shape_analysis : ShapeConstraintIRAnalysis) : Except Error ShapeConstraintIRAnalysis :=
  NotEqualOpInferSymbolicShape op shape_analysis

/-- Rule `TopPSamplingOpInferSymbolicShape`:
`PADDLE_THROW(phi::errors::Unimplemented(...))`. -/
def TopPSamplingOpInferSymbolicShape (_op : Operation)
    (_shape_analysis : ShapeConstraintIRAnalysis) : Except Error ShapeConstraintIRAnalysis :=
  .error .UnimplementedOperator

/-- Rule `LogOpInferSymbolicShape`:
`PADDLE_THROW(phi::errors::Unimplemented(...))`. -/
def LogOpInferSymbolicShape (_op : Operation)
    (_shape_analysis : ShapeConstraintIRAnalysis) : Except Error ShapeConstraintIRAnalysis :=
  .error .UnimplementedOperator

/-- Rule `Log_OpInferSymbolicShape`. -/
def Log_OpInferSymbolicShape (op : Operation)
    (shape_analysis : ShapeConstraintIRAnalysis) : Except Error ShapeConstraintIRAnalysis :=
  LogOpInferSymbolicShape op shape_analysis

/-- Rule `ExpandAsOpInferSymbolicShape`:
`PADDLE_THROW(phi::errors::Unimplemented(...))`. -/
def ExpandAsOpInferSymbolicShape (_op : Operation)
    (_shape_analysis : ShapeConstraintIRAnalysis) : Except Error ShapeConstraintIRAnalysis :=
  .error .UnimplementedOperator

/-- Rule `SplitOpInferSymbolicShape`:
`PADDLE_THROW(phi::errors::Unimplemented(...))`. -/
def SplitOpInferSymbolicShape (_op : Operation)
    (_shape_analysis : ShapeConstraintIRAnalysis) : Except Error ShapeConstraintIRAnalysis :=
  .error .UnimplementedOperator

end paddle.dialect

namespace paddle.dialect

end paddle.dialect

namespace pir

/-- Modelled from the spec: the sentinel `pir::ShapedTypeInterface::kDynamic` that marks a
dimension of a tensor type as unknown at compile time. -/
def ShapedTypeInterface.kDynamic : Int := -1

end pir

namespace paddle.dialect

/-- Loop of the lambda `sym_dims` of `DataOpInferSymbolicShape` over the entries of the
`shape` attribute; the state is the analysis context (its symbol generator is advanced by
every `GetNextSymName`) and the vector `sym_dims` built so far. -/
def DataOpInferSymbolicShape.sym_dims (shape_analysis : ShapeConstraintIRAnalysis)
    (dims : List Int) : ShapeConstraintIRAnalysis × List DimExpr :=
  dims.foldl (fun state dim =>
    if dim = ShapedTypeInterface.kDynamic then
      let next := state.1.GetNextSymName
      (next.2, state.2 ++ [DimExpr.Symbol next.1])
    else (state.1, state.2 ++ [DimExpr.Int64 dim])) (shape_analysis, [])

/-- Rule `DataOpInferSymbolicShape`. -/
def DataOpInferSymbolicShape (op : Operation) (shape_analysis : ShapeConstraintIRAnalysis) :
    Except Error ShapeConstraintIRAnalysis := do
  let dims ← match (← op.attributes.at "shape") with
    | .IntArray data => pure data
    | _ => .error .NullPointer
  let built := DataOpInferSymbolicShape.sym_dims shape_analysis dims
  let res ← op.result 0
  pure (built.1.SetShapeOrDataForValue res (.Tensor ⟨built.2, none⟩))

/-- Part of `GatherNdOpInferSymbolicShape` from the two bases to `result_sym_dims`: the
sizes converted to `int`, the loop over `Index.shape[:-1]`, the check that the last entry
of the index basis holds an `int64` (its failure, an `InvalidArgument`, is the error
`UnsupportedDynamicOperand`), and the loop over `X.shape[Index.shape[-1]:]`. -/
def GatherNdOpInferSymbolicShape.result_sym_dims (x_sym_shape index_sym_shape : List DimExpr) :
    Except Error (List DimExpr) := do
  let x_dims_size : Int := toInt32 x_sym_shape.length
  let index_dims_size : Int := toInt32 index_sym_shape.length
  let result_sym_dims ← (List.range (index_dims_size - 1).toNat).foldlM
    (fun result_sym_dims (i : Nat) => do
      pure (result_sym_dims ++ [← vecAtInt index_sym_shape (i : Int)])) []
  match (← vecAtInt index_sym_shape (index_dims_size - 1)) with
  | .Int64 value =>
    let first : Int := toInt32 value
    (List.range (x_dims_size - first).toNat).foldlM
      (fun result_sym_dims (k : Nat) => do
        pure (result_sym_dims ++ [← vecAtInt x_sym_shape (first + (k : Int))])) result_sym_dims
  | _ => .error .UnsupportedDynamicOperand

/-- Rule `GatherNdOpInferSymbolicShape`. -/
def GatherNdOpInferSymbolicShape (op : Operation) (shape_analysis : ShapeConstraintIRAnalysis) :
    Except Error ShapeConstraintIRAnalysis := do
  let x_shape_or_data ← shape_analysis.GetShapeOrDataForValue (← op.operand_source 0)
  let index_shape_or_data ← shape_analysis.GetShapeOrDataForValue (← op.operand_source 1)
  let x_sym_shape ← match (← x_shape_or_data.data) with
    | some data => pure data
    | none => x_shape_or_data.shape
  let index_sym_shape ← match (← index_shape_or_data.data) with
    | some data => pure data
    | none => index_shape_or_data.shape
  let result_sym_dims ← GatherNdOpInferSymbolicShape.result_sym_dims x_sym_shape index_sym_shape
  let res ← op.result 0
  pure (shape_analysis.SetShapeOrDataForValue res (.Tensor ⟨result_sym_dims, none⟩))

end paddle.dialect

namespace cinn.dialect

/-- Rule `ConcatOpInferSymbolicShape` of the cinn dialect: the operands are the tensors,
the axis is the `axis` attribute; `out_dims` starts as the shape of the first operand and
its entry `axis` accumulates the entry `axis` of every later operand. -/
def ConcatOpInferSymbolicShape (op : Operation) (shape_analysis : ShapeConstraintIRAnalysis) :
    Except Error ShapeConstraintIRAnalysis := do
  let input_values := op.operands
  let input_size := input_values.length
  let axis ← match (← op.attributes.at "axis") with
    | .Int32 data => pure data
    | _ => .error .NullPointer
  let out_dims ← (← shape_analysis.GetShapeOrDataForValue (← vecAt input_values 0)).shape
  let out_dims ← (List.range (input_size - 1)).foldlM (fun out_dims (k : Nat) => do
    let operand_shape_or_data ← shape_analysis.GetShapeOrDataForValue
      (← vecAt input_values (k + 1))
    let sum := (← vecAtInt out_dims axis) + (← vecAtInt (← operand_shape_or_data.shape) axis)
    vecSetInt out_dims axis sum) out_dims
  let res ← op.result 0
  pure (shape_analysis.SetShapeOrDataForValue res (.Tensor ⟨out_dims, none⟩))

end cinn.dialect

/-- Modelled from the spec: the kind tag of the operator `paddle::dialect::FullIntArrayOp`
(declared outside the file under study). -/
def FullIntArrayOp.name : String := "pd_op.full_int_array"

namespace paddle.dialect

end paddle.dialect

namespace cinn.dialect

/-- Lambda `GetAttrInt64Value` of the cinn-dialect `SliceOpInferSymbolicShape`: element 0 of
the named array attribute. `attributes[name]` of a missing name is a null attribute, whose
conversion to an array is dereferenced by `AsVector`; the array must not be empty. -/
def SliceOpInferSymbolicShape.GetAttrInt64Value (attributes : AttributeMap) (name : String) :
    Except Error Int := do
  let attr ← match attributes.lookup name with
    | some (.Array items) => pure items
    | _ => .error .NullPointer
  if ¬ (attr.length > 0) then .error .WrongAttributeType
  match (← vecAt attr 0) with
  | .Int64 data => pure data
  | _ => .error .NullPointer

/-- Rule `SliceOpInferSymbolicShape` of the cinn dialect: single `starts`, `ends` and `axes`
values from the attributes; the entry `axis` of the shape becomes `shape[axis] - start` when
`end` is `INT32_MAX` and the literal `end - start` otherwise; when the source carries data,
the data entries `start, ..., end - 1` are attached. -/
def SliceOpInferSymbolicShape (op : Operation) (shape_analysis : ShapeConstraintIRAnalysis) :
    Except Error ShapeConstraintIRAnalysis := do
  let attributes := op.attributes
  let start ← SliceOpInferSymbolicShape.GetAttrInt64Value attributes "starts"
  let last ← SliceOpInferSymbolicShape.GetAttrInt64Value attributes "ends"
  let axis ← SliceOpInferSymbolicShape.GetAttrInt64Value attributes "axes"
  let operand_source ← op.operand_source 0
  let operand_shape_or_data ← shape_analysis.GetShapeOrDataForValue operand_source
  let out_sym_shape ← operand_shape_or_data.shape
  let out_sym_shape ←
    if last = INT32_MAX then
      vecSetInt out_sym_shape axis ((← vecAtInt out_sym_shape axis) - DimExpr.Int64 start)
    else vecSetInt out_sym_shape axis (DimExpr.Int64 (last - start))
  let shape_dim_expr : TensorShapeOrDataDimExprs ←
    match (← operand_shape_or_data.data) with
    | some data => do
      let out_data ← (List.range (last - start).toNat).mapM (fun (k : Nat) =>
        vecAtInt data (start + (k : Int)))
      pure ⟨out_sym_shape, some out_data⟩
    | none => pure ⟨out_sym_shape, none⟩
  let res ← op.result 0
  pure (shape_analysis.SetShapeOrDataForValue res (.Tensor shape_dim_expr))

end cinn.dialect

/-- Effective dimension basis of an operand, in the words of the specification: the data
vector when data is present and the defining operator is not the constant-fill operator,
the shape vector otherwise. -/
def effectiveBasis (t : TensorShapeOrDataDimExprs) (from_fullop : Bool) : List DimExpr :=
  match t.data with
  | some d => if from_fullop then t.shape else d
  | none => t.shape

/-- Left padding of a basis with literal 1 up to rank `n`. -/
def leftPadOnes (n : Nat) (s : List DimExpr) : List DimExpr :=
  List.replicate (n - s.length) (DimExpr.Int64 1) ++ s

/-- Position-wise broadcast combination of two dimensions, in the words of the
specification. -/
def broadcastCombine (a b : DimExpr) : DimExpr :=
  if a = b then a
  else if a = DimExpr.Int64 1 then b
  else if b = DimExpr.Int64 1 then a
  else (DimExprBuilder.Broadcast none a b).1

/-- Reduction walk in the words of the specification: with `S` the axis entries after
adding the rank to the negative ones and `all` the forced reduce-all flag, walk the basis
in order and emit literal 1 (with `keepdim`) or nothing (without) at a reduced position,
and the basis entry otherwise. -/
def reduceWalk (b : List DimExpr) (a : List Int) (keepdim reduce_all : Bool) : List DimExpr :=
  let r := b.length
  let S : List Int := a.map (fun e => if e < 0 then e + (r : Int) else e)
  let all : Bool := reduce_all || a.isEmpty || decide (∀ i < r, (i : Int) ∈ S)
  b.enum.flatMap (fun p =>
    if all || decide ((p.1 : Int) ∈ S) then (if keepdim then [DimExpr.Int64 1] else [])
    else [p.2])

/-- Element count of a shape: the left-to-right product of its expressions, from literal 1. -/
def reshapeNumel (shape : List DimExpr) : DimExpr :=
  shape.foldl (fun acc e => acc * e) (DimExpr.Int64 1)

/-- Left-to-right product, from literal 1, of the first `k` entries of `d` that are not the
literal `-1`. -/
def reshapeProduct (d : List DimExpr) (k : Nat) : DimExpr :=
  ((d.take k).filter (fun e => e ≠ DimExpr.Int64 (-1))).foldl (fun acc e => acc * e)
    (DimExpr.Int64 1)

/-- Target list `d` with a literal `-1` in the last position overwritten by `q`; any other
list is unchanged. -/
def reshapeResolved (d : List DimExpr) (q : DimExpr) : List DimExpr :=
  if d.getLast? = some (DimExpr.Int64 (-1)) then d.set (d.length - 1) q else d

/-- Axis normalisation of the paddle-dialect slice: a negative axis becomes
`max(0, axis + rank)`. -/
def sliceAxis (rank : Nat) (axis : Int) : Int :=
  if axis ≥ 0 then axis else max 0 (axis + (rank : Int))

/-- New dimension of a sliced axis in shape mode, in the words of the specification, for
literal start `s`, literal end `e` and original dimension `D`. -/
def sliceDim (s e : Int) (D : DimExpr) : DimExpr :=
  let E : DimExpr := if e = INT32_MAX then D else DimExpr.Int64 e
  if (0 ≤ s ∧ 0 ≤ e) ∨ (s ≤ 0 ∧ e ≤ 0) then E - DimExpr.Int64 s
  else if s < 0 ∧ 0 < e then E - DimExpr.Int64 s - D
  else if 0 < s ∧ e < 0 then D - DimExpr.Int64 s + E
  else D

/-- Dimension basis of the squeeze and unsqueeze rules: the data vector when the record
carries data, the shape vector otherwise. -/
def dataOrShape (t : TensorShapeOrDataDimExprs) : List DimExpr :=
  match t.data with
  | some d => d
  | none => t.shape

/-- Axis normalisation of squeeze: a negative axis is increased by the input rank. -/
def squeezeAxis (rank : Nat) (axis : Int) : Int :=
  if axis < 0 then axis + (rank : Int) else axis

/-- Positions removed by squeeze with explicit axes: position `p.1` with dimension `p.2` is
removed when it is a listed (normalised) axis and its dimension is the literal 1. -/
def squeezeRemoved (rank : Nat) (axes : List Int) (p : Nat × DimExpr) : Bool :=
  decide ((p.1 : Int) ∈ axes.map (squeezeAxis rank)) && decide (p.2 = DimExpr.Int64 1)

/-- Result of squeeze with explicit axes: the basis without the removed positions, order
preserved. -/
def squeezeListed (basis : List DimExpr) (axes : List Int) : List DimExpr :=
  (basis.enum.filter (fun p => !squeezeRemoved basis.length axes p)).map Prod.snd

/-- Axis normalisation of unsqueeze against the current rank: a negative axis is increased
by the current rank plus one. -/
def unsqueezeAxis (rank : Nat) (axis : Int) : Int :=
  if axis < 0 then axis + (rank : Int) + 1 else axis

/-- Sequential insertion, in the words of the specification: fold over the axes in order,
inserting a literal 1 at the normalised position of the current list, starting from `x`. -/
def unsqueezeSpec (x : List DimExpr) (axes : List Int) : List DimExpr :=
  axes.foldl (fun current axis =>
    current.insertIdx (unsqueezeAxis current.length axis).toNat (DimExpr.Int64 1)) x

/-- Validity of a list of unsqueeze axes: each axis lies in `[-(c+1), c]` for the current
rank `c` at its turn, where `c` grows by one per axis. -/
def unsqueezeValid (rank : Nat) : List Int → Bool
  | [] => true
  | axis :: rest =>
    decide (-((rank : Int) + 1) ≤ axis ∧ axis ≤ (rank : Int)) && unsqueezeValid (rank + 1) rest

/-- Marker vector of unsqueeze: literal 1 at a position holding a new axis, literal 0 at a
position still to be filled from the input. -/
def unsqueezeMarks (markers : List Bool) : List DimExpr :=
  markers.map (fun marked => if marked then DimExpr.Int64 1 else DimExpr.Int64 0)

/-- Marker vector with every unmarked position replaced, in order, by the next entry of
`x`. -/
def unsqueezeFilled : List Bool → List DimExpr → List DimExpr
  | [], _ => []
  | true :: markers, x => DimExpr.Int64 1 :: unsqueezeFilled markers x
  | false :: markers, [] => DimExpr.Int64 0 :: unsqueezeFilled markers []
  | false :: markers, d :: x => d :: unsqueezeFilled markers x

/-- Type of a rule of the file: from the operation and the analysis context to failure or
the updated context. -/
abbrev InferSymbolicShapeRule : Type :=
  Operation → ShapeConstraintIRAnalysis → Except Error ShapeConstraintIRAnalysis

/-- The unimplemented set of the specification, as rules of the file: the operator kinds
without a derivation rule, followed by the in-place forms that delegate to them. -/
def unimplementedRules : List (String × InferSymbolicShapeRule) :=
  [("transpose", paddle.dialect.TransposeOpInferSymbolicShape),
    ("tril", paddle.dialect.TrilOpInferSymbolicShape),
    ("where", paddle.dialect.WhereOpInferSymbolicShape),
    ("assign", paddle.dialect.AssignOpInferSymbolicShape),
    ("bitwise_and", paddle.dialect.BitwiseAndOpInferSymbolicShape),
    ("feed", paddle.dialect.FeedOpInferSymbolicShape),
    ("greater_than", paddle.dialect.GreaterThanOpInferSymbolicShape),
    ("increment", paddle.dialect.IncrementOpInferSymbolicShape),
    ("less_than", paddle.dialect.LessThanOpInferSymbolicShape),
    ("logical_and", paddle.dialect.LogicalAndOpInferSymbolicShape),
    ("logical_not", paddle.dialect.LogicalNotOpInferSymbolicShape),
    ("not_equal", paddle.dialect.NotEqualOpInferSymbolicShape),
    ("top_p_sampling", paddle.dialect.TopPSamplingOpInferSymbolicShape),
    ("log", paddle.dialect.LogOpInferSymbolicShape),
    ("expand", paddle.dialect.ExpandOpInferSymbolicShape),
    ("expand_as", paddle.dialect.ExpandAsOpInferSymbolicShape),
    ("split", paddle.dialect.SplitOpInferSymbolicShape),
    ("sparse_weight_embedding", paddle.dialect.SparseWeightEmbeddingOpInferSymbolicShape),
    ("transpose_", paddle.dialect.Transpose_OpInferSymbolicShape),
    ("tril_", paddle.dialect.Tril_OpInferSymbolicShape),
    ("where_", paddle.dialect.Where_OpInferSymbolicShape),
    ("assign_", paddle.dialect.Assign_OpInferSymbolicShape),
    ("bitwise_and_", paddle.dialect.BitwiseAnd_OpInferSymbolicShape),
    ("greater_than_", paddle.dialect.GreaterThan_OpInferSymbolicShape),
    ("increment_", paddle.dialect.Increment_OpInferSymbolicShape),
    ("less_than_", paddle.dialect.LessThan_OpInferSymbolicShape),
    ("logical_and_", paddle.dialect.LogicalAnd_OpInferSymbolicShape),
    ("logical_not_", paddle.dialect.LogicalNot_OpInferSymbolicShape),
    ("not_equal_", paddle.dialect.NotEqual_OpInferSymbolicShape),
    ("log_", paddle.dialect.Log_OpInferSymbolicShape)]

/-- The operators that have a `_`-suffixed in-place variant in the file, other than `pow`:
the kind, the rule of the in-place variant and the rule of the value-producing form. -/
def inPlaceRules : List (String × InferSymbolicShapeRule × InferSymbolicShapeRule) :=
  [("abs", paddle.dialect.Abs_OpInferSymbolicShape,
      paddle.dialect.AbsOpInferSymbolicShape),
    ("add", paddle.dialect.Add_OpInferSymbolicShape,
      paddle.dialect.AddOpInferSymbolicShape),
    ("cast", paddle.dialect.Cast_OpInferSymbolicShape,
      paddle.dialect.CastOpInferSymbolicShape),
    ("exp", paddle.dialect.Exp_OpInferSymbolicShape,
      paddle.dialect.ExpOpInferSymbolicShape),
    ("subtract", paddle.dialect.Subtract_OpInferSymbolicShape,
      paddle.dialect.SubtractOpInferSymbolicShape),
    ("reshape", paddle.dialect.Reshape_OpInferSymbolicShape,
      paddle.dialect.ReshapeOpInferSymbolicShape),
    ("multiply", paddle.dialect.Multiply_OpInferSymbolicShape,
      paddle.dialect.MultiplyOpInferSymbolicShape),
    ("multiply_sr", paddle.dialect.MultiplySr_OpInferSymbolicShape,
      paddle.dialect.MultiplySrOpInferSymbolicShape),
    ("rsqrt", paddle.dialect.Rsqrt_OpInferSymbolicShape,
      paddle.dialect.RsqrtOpInferSymbolicShape),
    ("scale", paddle.dialect.Scale_OpInferSymbolicShape,
      paddle.dialect.ScaleOpInferSymbolicShape),
    ("scale_sr", paddle.dialect.ScaleSr_OpInferSymbolicShape,
      paddle.dialect.ScaleSrOpInferSymbolicShape),
    ("squeeze", paddle.dialect.Squeeze_OpInferSymbolicShape,
      paddle.dialect.SqueezeOpInferSymbolicShape),
    ("unsqueeze", paddle.dialect.Unsqueeze_OpInferSymbolicShape,
      paddle.dialect.UnsqueezeOpInferSymbolicShape),
    ("divide", paddle.dialect.Divide_OpInferSymbolicShape,
      paddle.dialect.DivideOpInferSymbolicShape),
    ("relu", paddle.dialect.Relu_OpInferSymbolicShape,
      paddle.dialect.ReluOpInferSymbolicShape),
    ("transpose", paddle.dialect.Transpose_OpInferSymbolicShape,
      paddle.dialect.TransposeOpInferSymbolicShape),
    ("tril", paddle.dialect.Tril_OpInferSymbolicShape,
      paddle.dialect.TrilOpInferSymbolicShape),
    ("where", paddle.dialect.Where_OpInferSymbolicShape,
      paddle.dialect.WhereOpInferSymbolicShape),
    ("assign", paddle.dialect.Assign_OpInferSymbolicShape,
      paddle.dialect.AssignOpInferSymbolicShape),
    ("bitwise_and", paddle.dialect.BitwiseAnd_OpInferSymbolicShape,
      paddle.dialect.BitwiseAndOpInferSymbolicShape),
    ("greater_than", paddle.dialect.GreaterThan_OpInferSymbolicShape,
      paddle.dialect.GreaterThanOpInferSymbolicShape),
    ("increment", paddle.dialect.Increment_OpInferSymbolicShape,
      paddle.dialect.IncrementOpInferSymbolicShape),
    ("less_than", paddle.dialect.LessThan_OpInferSymbolicShape,
      paddle.dialect.LessThanOpInferSymbolicShape),
    ("logical_and", paddle.dialect.LogicalAnd_OpInferSymbolicShape,
      paddle.dialect.LogicalAndOpInferSymbolicShape),
    ("logical_not", paddle.dialect.LogicalNot_OpInferSymbolicShape,
      paddle.dialect.LogicalNotOpInferSymbolicShape),
    ("not_equal", paddle.dialect.NotEqual_OpInferSymbolicShape,
      paddle.dialect.NotEqualOpInferSymbolicShape),
    ("log", paddle.dialect.Log_OpInferSymbolicShape,
      paddle.dialect.LogOpInferSymbolicShape)]

/-- Data invariant of a tensor record, in the words of the specification: if data is
present, the shape has rank 1 and its entry is the literal length of the data. -/
def dataInvariant (t : TensorShapeOrDataDimExprs) : Bool :=
  match t.data with
  | none => true
  | some d => decide (t.shape = [DimExpr.Int64 (d.length : Int)])

/-- Promotion of a rank-1 left operand of matmul to `[1, x0]`. -/
def matmulPromoteX (x : List DimExpr) : List DimExpr :=
  if x.length = 1 then DimExpr.Int64 1 :: x else x

/-- Promotion of a rank-1 right operand of matmul to `[y0, 1]`. -/
def matmulPromoteY (y : List DimExpr) : List DimExpr :=
  if y.length = 1 then y ++ [DimExpr.Int64 1] else y

/-- Batch dimensions of matmul in the words of the specification, on the promoted shapes:
the leading dimensions of the longer operand when the ranks differ, else the position-wise
`Broadcast` of the leading dimensions. -/
def matmulBatch (x y : List DimExpr) : List DimExpr :=
  if x.length > y.length then x.take (x.length - 2)
  else if x.length < y.length then y.take (y.length - 2)
  else List.zipWith (fun a b => (DimExprBuilder.Broadcast none a b).1)
    (x.take (x.length - 2)) (y.take (y.length - 2))

/-- Trailing dimensions of the matmul result in the words of the specification: `M` unless
`x` was promoted, then `N` unless `y` was promoted, where `M` is `x[-1]` with `transpose_x`
and `x[-2]` without, and `N` is `y[-2]` with `transpose_y` and `y[-1]` without, on the
promoted shapes. -/
def matmulTail (x y : List DimExpr) (transpose_x transpose_y : Bool) : List DimExpr :=
  (if x.length = 1 then []
    else [(matmulPromoteX x).getD
      (if transpose_x then (matmulPromoteX x).length - 1 else (matmulPromoteX x).length - 2)
      (DimExpr.Int64 0)])
  ++ (if y.length = 1 then []
    else [(matmulPromoteY y).getD
      (if transpose_y then (matmulPromoteY y).length - 2 else (matmulPromoteY y).length - 1)
      (DimExpr.Int64 0)])

/-- Result layout of matmul in the words of the specification: the batch dimensions
followed by the trailing dimensions. -/
def matmulResult (x y : List DimExpr) (transpose_x transpose_y : Bool) : List DimExpr :=
  matmulBatch (matmulPromoteX x) (matmulPromoteY y) ++ matmulTail x y transpose_x transpose_y

/-- The rules of the shape-preserving unary operators (abs, cast, exp, pow, relu, rsqrt,
scale, full_with_tensor, their in-place forms and the selected-rows forms of scale) that
return `SameOperandsAndResultShape`, directly or through their value-producing form: all of
them except the in-place form of `pow`. -/
def sameShapeRules : List (String × InferSymbolicShapeRule) :=
  [("abs", paddle.dialect.AbsOpInferSymbolicShape),
    ("abs_", paddle.dialect.Abs_OpInferSymbolicShape),
    ("cast", paddle.dialect.CastOpInferSymbolicShape),
    ("cast_", paddle.dialect.Cast_OpInferSymbolicShape),
    ("exp", paddle.dialect.ExpOpInferSymbolicShape),
    ("exp_", paddle.dialect.Exp_OpInferSymbolicShape),
    ("pow", paddle.dialect.PowOpInferSymbolicShape),
    ("rsqrt", paddle.dialect.RsqrtOpInferSymbolicShape),
    ("rsqrt_", paddle.dialect.Rsqrt_OpInferSymbolicShape),
    ("scale", paddle.dialect.ScaleOpInferSymbolicShape),
    ("scale_", paddle.dialect.Scale_OpInferSymbolicShape),
    ("scale_sr", paddle.dialect.ScaleSrOpInferSymbolicShape),
    ("scale_sr_", paddle.dialect.ScaleSr_OpInferSymbolicShape),
    ("full_with_tensor", paddle.dialect.FullWithTensorOpInferSymbolicShape),
    ("relu", paddle.dialect.ReluOpInferSymbolicShape),
    ("relu_", paddle.dialect.Relu_OpInferSymbolicShape)]

/-- Bound of a slice counted from the end when negative, on an axis of length `d`. -/
def sliceNormalised (d v : Int) : Int := if v < 0 then v + d else v

/-- Number of indices selected by the half-open slice `[s:e]` of an axis of length `d`, for
bounds with `-d <= s, e <= d`: empty when the normalised start is not below the normalised
end. -/
def sliceCount (d s e : Int) : Int := max 0 (sliceNormalised d e - sliceNormalised d s)

/-- Result shape of a concatenation along `axis`: the first shape with the entry `axis`
replaced by the left-to-right sum of the entries `axis` of all shapes. -/
def concatSpec (first : List DimExpr) (rest : List (List DimExpr)) (axis : Nat) :
    List DimExpr :=
  first.set axis
    (rest.foldl (fun sum shape => sum + shape.getD axis (DimExpr.Int64 0))
      (first.getD axis (DimExpr.Int64 0)))

/-- Right-aligned pairwise maximum of two lists of literal batch dimensions, the shorter
one padded with 1 on the left. -/
def broadcastMax (xs ys : List Int) : List Int :=
  List.zipWith max (List.replicate (ys.length - xs.length) 1 ++ xs)
    (List.replicate (xs.length - ys.length) 1 ++ ys)

/-- Positions `0 .. i - 1` of `dims` that hold the dynamic sentinel. -/
def dynamicBefore (dims : List Int) (i : Nat) : Nat :=
  (dims.take i).count pir.ShapedTypeInterface.kDynamic

/-- State of the analysis context after `calls` calls of its symbol generator. -/
def generatorAfter (sa : ShapeConstraintIRAnalysis) (calls : Nat) : ShapeConstraintIRAnalysis :=
  (fun s => (ShapeConstraintIRAnalysis.GetNextSymName s).2)^[calls] sa

/-- Name returned by the symbol generator of `sa` on the call that follows `calls` earlier
calls. -/
def nextSymNameAt (sa : ShapeConstraintIRAnalysis) (calls : Nat) : String :=
  (ShapeConstraintIRAnalysis.GetNextSymName (generatorAfter sa calls)).1

/-- Entry by entry description of the shape the data rule builds in the context `sa`: the
literal of a non-dynamic entry, and for a dynamic entry the symbol named by the generator on
the call that follows as many calls as there are dynamic entries before it. -/
def dataSpec (sa : ShapeConstraintIRAnalysis) (dims : List Int) : List DimExpr :=
  (List.range dims.length).map (fun i =>
    let dim := dims.getD i 0
    if dim = pir.ShapedTypeInterface.kDynamic then
      DimExpr.Symbol (nextSymNameAt sa (dynamicBefore dims i))
    else DimExpr.Int64 dim)

namespace Instances

/-- Value produced by a graph-input operator. -/
def inputValue (id : Nat) (dims : List Int) : Value :=
  ⟨id, dims, some ⟨"pd_op.data", []⟩⟩

/-- Context holding the given records and nothing else. -/
def contextOf (records : List (Nat × ShapeOrDataDimExprs)) : ShapeConstraintIRAnalysis :=
  ⟨records, 0, [], []⟩

/-- Shape-only tensor record with literal dimensions. -/
def staticTensor (dims : List Int) : ShapeOrDataDimExprs :=
  .Tensor ⟨dims.map DimExpr.Int64, none⟩

/-- Binary operation over values 0 and 1 of static shapes `[1,3]` and `[2,3]`, result 2. -/
def binaryOp : Operation :=
  ⟨"pd_op.add", [], [inputValue 0 [1, 3], inputValue 1 [2, 3]], [inputValue 2 [2, 3]]⟩

/-- Context with the records of the two operands of `binaryOp`. -/
def binaryContext : ShapeConstraintIRAnalysis :=
  contextOf [(0, staticTensor [1, 3]), (1, staticTensor [2, 3])]

/-- Binary operation whose first operand (value 0) is produced by the shape operator and
whose second operand (value 1) is produced by the constant-fill operator; result 2. -/
def dataOperandsOp : Operation :=
  ⟨"pd_op.multiply", [],
    [⟨0, [2], some ⟨"pd_op.shape", []⟩⟩, ⟨1, [2], some ⟨FullOp.name, []⟩⟩], [inputValue 2 [2]]⟩

/-- Context for `dataOperandsOp`: value 0 carries data `[S0, 4]`, value 1 (from the
constant fill) has shape `[2]` and the one-element payload `[7]`. -/
def dataOperandsContext : ShapeConstraintIRAnalysis :=
  contextOf [(0, .Tensor ⟨[DimExpr.Int64 2], some [DimExpr.Symbol "S0", DimExpr.Int64 4]⟩),
    (1, .Tensor ⟨[DimExpr.Int64 2], some [DimExpr.Int64 7]⟩)]

/-- Reduction over value 0 of static shape `[2,3,4]`; result 1. -/
def reduceOp : Operation :=
  ⟨"pd_op.sum", [], [inputValue 0 [2, 3, 4]], [inputValue 1 []]⟩

/-- Context with the record of the operand of `reduceOp`. -/
def reduceContext : ShapeConstraintIRAnalysis :=
  contextOf [(0, staticTensor [2, 3, 4])]

/-- Reduction over value 0 of static type `[2,3]`; result 1. -/
def reduceEmptyDataOp : Operation :=
  ⟨"pd_op.sum", [], [inputValue 0 [2, 3]], [inputValue 1 [3]]⟩

/-- Record of shape `[2,3]` whose data vector is present and empty. -/
def emptyDataRecord : TensorShapeOrDataDimExprs :=
  ⟨[DimExpr.Int64 2, DimExpr.Int64 3], some []⟩

/-- Context in which the operand of `reduceEmptyDataOp` has the record `emptyDataRecord`. -/
def reduceEmptyDataContext : ShapeConstraintIRAnalysis :=
  contextOf [(0, .Tensor emptyDataRecord)]

/-- Reduction over value 0 carrying data `[S0, S1]` (the output of a shape operator). -/
def reduceDataOp : Operation :=
  ⟨"pd_op.sum", [], [⟨0, [2], some ⟨"pd_op.shape", []⟩⟩], [inputValue 1 [1]]⟩

/-- Context in which the operand of `reduceDataOp` has shape `[2]` and data `[S0, S1]`. -/
def reduceDataContext : ShapeConstraintIRAnalysis :=
  contextOf [(0, .Tensor ⟨[DimExpr.Int64 2], some [DimExpr.Symbol "S0", DimExpr.Symbol "S1"]⟩)]

/-- Value produced by a `full_int_array` operator. -/
def intArrayValue (id : Nat) (dims : List Int) : Value :=
  ⟨id, dims, some ⟨"pd_op.full_int_array", []⟩⟩

/-- Record written for a `full_int_array` value holding the given literals. -/
def intArrayRecord (values : List Int) : ShapeOrDataDimExprs :=
  .Tensor ⟨[DimExpr.Int64 values.length], some (values.map DimExpr.Int64)⟩

/-- Paddle-dialect reshape of value 0 (static shape `[2,3,4]`) by the shape operand value 1;
results 2 and 3. -/
def reshapeOp : Operation :=
  ⟨"pd_op.reshape", [], [inputValue 0 [2, 3, 4], intArrayValue 1 [2]],
    [inputValue 2 [-1, 4], inputValue 3 [2]]⟩

/-- Context for `reshapeOp` in which the shape operand holds `target`. -/
def reshapeContext (target : List Int) : ShapeConstraintIRAnalysis :=
  contextOf [(0, staticTensor [2, 3, 4]), (1, intArrayRecord target)]

/-- Cinn-dialect reshape of value 0 with the given `shape` attribute; result 2. -/
def cinnReshapeOp (target : List Int) : Operation :=
  ⟨"cinn_op.reshape", [("shape", .Array (target.map Attribute.Int32))],
    [inputValue 0 [2, 3, 4]], [inputValue 2 target]⟩

/-- Paddle-dialect slice of value 0 (static shape `[10]`) along `axes = [0]`, with starts
in value 1 and ends in value 2; result 3. -/
def sliceOp : Operation :=
  ⟨"pd_op.slice", [("axes", .Array [Attribute.Int64 0])],
    [inputValue 0 [10], intArrayValue 1 [1], intArrayValue 2 [1]], [inputValue 3 [3]]⟩

/-- Context for `sliceOp`: shape `[10]`, the given start and end. -/
def sliceContext (first last : Int) : ShapeConstraintIRAnalysis :=
  contextOf [(0, staticTensor [10]), (1, intArrayRecord [first]), (2, intArrayRecord [last])]

/-- Paddle-dialect slice of value 0 (shape `[S0, 10]`) along `axes = [-1]`; result 3. -/
def sliceLastAxisOp : Operation :=
  ⟨"pd_op.slice", [("axes", .Array [Attribute.Int64 (-1)])],
    [inputValue 0 [-1, 10], intArrayValue 1 [1], intArrayValue 2 [1]], [inputValue 3 [-1, 5]]⟩

/-- Context for `sliceLastAxisOp`: shape `[S0, 10]`, start 2, end 7. -/
def sliceLastAxisContext : ShapeConstraintIRAnalysis :=
  contextOf [(0, .Tensor ⟨[DimExpr.Symbol "S0", DimExpr.Int64 10], none⟩),
    (1, intArrayRecord [2]), (2, intArrayRecord [7])]

end Instances

namespace Instances

/-- Paddle-dialect slice of value 0, which carries data, along `axes = [0]`; result 3. -/
def sliceDataOp : Operation :=
  ⟨"pd_op.slice", [("axes", .Array [Attribute.Int64 0])],
    [⟨0, [4], some ⟨"pd_op.shape", []⟩⟩, intArrayValue 1 [1], intArrayValue 2 [1]],
    [inputValue 3 [2]]⟩

/-- Context for `sliceDataOp`: the source has shape `[4]` and data `[S0, 3, S1, 7]`, the
start is 1 and the end is 3. -/
def sliceDataContext : ShapeConstraintIRAnalysis :=
  contextOf [(0, .Tensor ⟨[DimExpr.Int64 4],
      some [DimExpr.Symbol "S0", DimExpr.Int64 3, DimExpr.Symbol "S1", DimExpr.Int64 7]⟩),
    (1, intArrayRecord [1]), (2, intArrayRecord [3])]

/-- Context for `sliceOp` whose start is the symbol `S0`. -/
def sliceSymbolicStartContext : ShapeConstraintIRAnalysis :=
  contextOf [(0, staticTensor [10]),
    (1, .Tensor ⟨[DimExpr.Int64 1], some [DimExpr.Symbol "S0"]⟩), (2, intArrayRecord [5])]

end Instances

namespace Instances

/-- Squeeze (or unsqueeze) of value 0 by the axes in value 1; result 2. -/
def squeezeOp (name : String) : Operation :=
  ⟨name, [], [inputValue 0 [], intArrayValue 1 []], [inputValue 2 []]⟩

/-- Context for `squeezeOp`: a source of static shape `dims` and the literal axes `axes`. -/
def squeezeContext (dims axes : List Int) : ShapeConstraintIRAnalysis :=
  contextOf [(0, staticTensor dims), (1, intArrayRecord axes)]

/-- Context for `squeezeOp` with a source of shape `[1, S0]` and the literal axes `axes`. -/
def squeezeSymbolicContext (axes : List Int) : ShapeConstraintIRAnalysis :=
  contextOf [(0, .Tensor ⟨[DimExpr.Int64 1, DimExpr.Symbol "S0"], none⟩),
    (1, intArrayRecord axes)]

/-- Value 0 holding a list of tensors, produced by `builtin.combine`. -/
def combineValue : Value :=
  ⟨0, [], some ⟨"builtin.combine", []⟩⟩

/-- Context recording the tensor list `items` for `combineValue` and nothing else. -/
def tensorListContext (items : List TensorShapeOrDataDimExprs) : ShapeConstraintIRAnalysis :=
  contextOf [(0, .TensorList items)]

/-- Shape-only element of a tensor list with literal dimensions. -/
def staticItem (dims : List Int) : TensorShapeOrDataDimExprs :=
  ⟨dims.map DimExpr.Int64, none⟩

/-- Scalar element of a tensor list carrying the single literal data value `v`. -/
def scalarItem (v : Int) : TensorShapeOrDataDimExprs :=
  ⟨[], some [DimExpr.Int64 v]⟩

/-- Stack of the tensor list `combineValue` with attribute `axis`; result value 1. -/
def stackOp (axis : Int) : Operation :=
  ⟨"pd_op.stack", [("axis", .Int32 axis)], [combineValue], [inputValue 1 []]⟩

/-- Paddle-dialect concat of the tensor list `combineValue` along the axis given by a
`pd_op.full` operand (value 1) holding `axis`; result value 2. -/
def concatOp (axis : Int) : Operation :=
  ⟨"pd_op.concat", [], [combineValue, ⟨1, [1], some ⟨FullOp.name, [("value", .Scalar axis)]⟩⟩],
    [inputValue 2 []]⟩

end Instances

namespace Instances

/-- Context holding the tensor records `x` for value 0 and `y` for value 1, without data. -/
def pairContext (x y : List DimExpr) : ShapeConstraintIRAnalysis :=
  contextOf [(0, .Tensor ⟨x, none⟩), (1, .Tensor ⟨y, none⟩)]

/-- Unary operation of the given kind over value 0; result 1. -/
def unaryOp (name : String) : Operation :=
  ⟨name, [], [inputValue 0 [2, 3]], [inputValue 1 [2, 3]]⟩

/-- Context with the record of the operand of `unaryOp`. -/
def unaryContext : ShapeConstraintIRAnalysis :=
  contextOf [(0, staticTensor [2, 3])]

/-- Addition of values 0 and 1; result 2. -/
def addOp : Operation :=
  ⟨"pd_op.add", [], [inputValue 0 [-1], inputValue 1 [-1]], [inputValue 2 [-1]]⟩

/-- Matmul of values 0 and 1 with the given transpose flags; result 2. -/
def matmulOp (transpose_x transpose_y : Bool) : Operation :=
  ⟨"pd_op.matmul", [("transpose_x", .Bool transpose_x), ("transpose_y", .Bool transpose_y)],
    [inputValue 0 [], inputValue 1 []], [inputValue 2 []]⟩

/-- Constant fill with the given `shape` and `value` attributes; result 0. -/
def fullOp (shape : List Int) (value : Int) : Operation :=
  ⟨FullOp.name, [("shape", .IntArray shape), ("value", .Scalar value)], [],
    [⟨0, shape, some ⟨FullOp.name, []⟩⟩]⟩

/-- Operator `full_int_array` with the given `value` attribute; result 0. -/
def fullIntArrayOp (values : List Int) : Operation :=
  ⟨"pd_op.full_int_array", [("value", .Array (values.map Attribute.Int64))], [],
    [intArrayValue 0 [values.length]]⟩

/-- Shape operator reading value 0; its result, value 1, has the static type `[rank]`. -/
def shapeOp (rank : Int) : Operation :=
  ⟨"pd_op.shape", [], [inputValue 0 []], [⟨1, [rank], some ⟨"pd_op.shape", []⟩⟩]⟩

/-- Arange over the start, end and step values 0, 1 and 2; result 3. -/
def arangeOp : Operation :=
  ⟨"pd_op.arange", [], [inputValue 0 [1], inputValue 1 [1], inputValue 2 [1]],
    [inputValue 3 [-1]]⟩

/-- Context for `arangeOp`: each operand has shape `[1]` and carries the given literal. -/
def arangeContext (start last step : Int) : ShapeConstraintIRAnalysis :=
  contextOf [(0, intArrayRecord [start]), (1, intArrayRecord [last]), (2, intArrayRecord [step])]

end Instances

namespace Instances

/-- Reduction over the result of `fullOp [2, 3] 7`; result 1. -/
def reduceFullOp : Operation :=
  ⟨"pd_op.sum", [], [⟨0, [2, 3], some ⟨FullOp.name, []⟩⟩], [inputValue 1 [3]]⟩

/-- Graph input with the given `shape` attribute; result 0. -/
def dataOp (shape : List Int) : Operation :=
  ⟨"pd_op.data", [("shape", .IntArray shape)], [], [inputValue 0 shape]⟩

/-- Operator `gather_nd` over values 0 (x) and 1 (index); result 2. -/
def gatherNdOp : Operation :=
  ⟨"pd_op.gather_nd", [], [inputValue 0 [], inputValue 1 []], [inputValue 2 []]⟩

/-- Cinn-dialect concat of values 0 and 1 along the attribute `axis`; result 2. -/
def cinnConcatOp (axis : Int) : Operation :=
  ⟨"cinn_op.concat", [("axis", .Int32 axis)], [inputValue 0 [], inputValue 1 []],
    [inputValue 2 []]⟩

/-- Paddle-dialect slice of value 0, which carries data, along `axes = [0]`; result 3. -/
def sliceTailDataOp : Operation :=
  ⟨"pd_op.slice", [("axes", .Array [Attribute.Int64 0])],
    [⟨0, [10], some ⟨"pd_op.shape", []⟩⟩, intArrayValue 1 [1], intArrayValue 2 [1]],
    [inputValue 3 [3]]⟩

/-- Context for `sliceTailDataOp`: the source has shape `[10]` and the data `0, ..., 9`, the
start is `first` and the end is `last`. -/
def sliceTailDataContext (first last : Int) : ShapeConstraintIRAnalysis :=
  contextOf [(0, .Tensor ⟨[DimExpr.Int64 10],
      some ([0, 1, 2, 3, 4, 5, 6, 7, 8, 9].map DimExpr.Int64)⟩),
    (1, intArrayRecord [first]), (2, intArrayRecord [last])]

/-- Unsqueeze of value 0 by the axes held in value 1; result 2. -/
def unsqueezeOp : Operation :=
  ⟨"pd_op.unsqueeze", [], [inputValue 0 [], intArrayValue 1 []], [inputValue 2 []]⟩

/-- Squeeze of value 2 (the result of `unsqueezeOp`) by the axes held in value 3; result 4. -/
def squeezeAfterOp : Operation :=
  ⟨"pd_op.squeeze", [], [inputValue 2 [], intArrayValue 3 []], [inputValue 4 []]⟩

end Instances

/-! ## Auxiliary lemmas -/

@[simp] theorem DimExpr_one_eq : (1 : DimExpr) = DimExpr.Int64 1 := rfl

theorem vecAt_of_lt {α : Type} (v : List α) (i : Nat) (h : i < v.length) :
    vecAt v i = .ok v[i] := by
  simp [vecAt, List.getElem?_eq_getElem h]

theorem emplaceFrontOnes_eq (n : Nat) (v : List DimExpr) :
    emplaceFrontOnes n v = List.replicate n (DimExpr.Int64 1) ++ v := by
  induction n generalizing v with
  | zero => simp [emplaceFrontOnes]
  | succ k ih =>
    simp only [emplaceFrontOnes, ih, DimExpr_one_eq]
    rw [List.replicate_succ']
    simp

theorem foldlM_range_collect {α : Type} (n : Nat) (step : List α → Nat → Except Error (List α))
    (g : Nat → List α) (h : ∀ acc i, i < n → step acc i = .ok (acc ++ g i)) (init : List α) :
    (List.range n).foldlM step init = .ok (init ++ (List.range n).flatMap g) := by
  induction n with
  | zero => simp [pure, Except.pure]
  | succ k ih =>
    rw [List.range_succ, List.foldlM_append, ih (fun acc i hi => h acc i (Nat.lt_succ_of_lt hi))]
    simp [bind, Except.bind, h _ k (Nat.lt_succ_self k), pure, Except.pure]

theorem foldlM_range_push {α : Type} (n : Nat) (step : List α → Nat → Except Error (List α))
    (g : Nat → α) (h : ∀ acc i, i < n → step acc i = .ok (acc ++ [g i])) (init : List α) :
    (List.range n).foldlM step init = .ok (init ++ (List.range n).map g) := by
  rw [foldlM_range_collect n step (fun i => [g i]) h init]
  congr 2
  induction (List.range n) with
  | nil => rfl
  | cons a l ih => simp [ih]

theorem range_map_getD_zipWith {α β : Type} (f : α → α → β) (d : α) (s0 s1 : List α)
    (h : s0.length = s1.length) :
    (List.range s0.length).map (fun i => f (s0.getD i d) (s1.getD i d)) = List.zipWith f s0 s1 := by
  apply List.ext_getElem
  · simp [h]
  · intro n h1 h2
    simp at h1 h2
    simp [List.getD_eq_getElem, h1, h2]

theorem broadcastCombine_cases (a b : DimExpr) :
    (a = b → broadcastCombine a b = a) ∧ (a = DimExpr.Int64 1 → broadcastCombine a b = b) ∧
    (b = DimExpr.Int64 1 → broadcastCombine a b = a) ∧
    (a ≠ b → a ≠ DimExpr.Int64 1 → b ≠ DimExpr.Int64 1 →
      broadcastCombine a b = (DimExprBuilder.Broadcast none a b).1) := by
  refine ⟨?_, ?_, ?_, ?_⟩
  · intro h; simp [broadcastCombine, h]
  · intro h; subst h; by_cases hb : DimExpr.Int64 1 = b
    · simp [broadcastCombine, hb]
    · simp [broadcastCombine, hb]
  · intro h; subst h; by_cases ha : a = DimExpr.Int64 1
    · simp [broadcastCombine, ha]
    · simp [broadcastCombine, ha]
  · intro h1 h2 h3; simp [broadcastCombine, h1, h2, h3]

theorem elementwise_shapes_eq (s0 s1 : List DimExpr) (h : s0.length = s1.length) :
    InferSymbolicShapeElementWiseBinary.shapes s0 s1 = .ok (List.zipWith broadcastCombine s0 s1) := by
  unfold InferSymbolicShapeElementWiseBinary.shapes
  rw [foldlM_range_push s0.length _
    (fun i => broadcastCombine (s0.getD i (DimExpr.Int64 1)) (s1.getD i (DimExpr.Int64 1)))]
  · rw [range_map_getD_zipWith broadcastCombine _ s0 s1 h]; simp
  · intro acc i hi
    have hi1 : i < s1.length := h ▸ hi
    simp only [vecAt_of_lt s0 i hi, vecAt_of_lt s1 i hi1, bind, Except.bind,
      List.getD_eq_getElem _ _ hi, List.getD_eq_getElem _ _ hi1, broadcastCombine, DimExpr_one_eq]
    split_ifs <;> rfl

theorem elementwise_padding (s0 s1 : List DimExpr) :
    (if (s0.length : Int) - (s1.length : Int) > 0
      then (s0, emplaceFrontOnes ((s0.length : Int) - (s1.length : Int)).toNat s1)
      else (emplaceFrontOnes (-((s0.length : Int) - (s1.length : Int))).toNat s0, s1))
    = (leftPadOnes (max s0.length s1.length) s0, leftPadOnes (max s0.length s1.length) s1) := by
  simp only [emplaceFrontOnes_eq, leftPadOnes]
  split_ifs with hd
  · have h1 : s1.length < s0.length := by omega
    have e1 : ((s0.length : Int) - (s1.length : Int)).toNat = s0.length - s1.length := by omega
    have e2 : max s0.length s1.length = s0.length := by omega
    simp [e1, e2]
  · have h1 : s0.length ≤ s1.length := by omega
    have e1 : (-((s0.length : Int) - (s1.length : Int))).toNat = s1.length - s0.length := by omega
    have e2 : max s0.length s1.length = s1.length := by omega
    simp [e1, e2]

theorem leftPadOnes_length (n : Nat) (s : List DimExpr) (h : s.length ≤ n) :
    (leftPadOnes n s).length = n := by
  simp [leftPadOnes]; omega

theorem elementwise_rule_eq (op : Operation) (sa : ShapeConstraintIRAnalysis)
    (s0 s1 : List DimExpr) (res : Value)
    (hb : InferSymbolicShapeElementWiseBinary.bases op sa = .ok (s0, s1))
    (hres : op.result 0 = .ok res) :
    InferSymbolicShapeElementWiseBinary op sa =
      .ok (sa.SetShapeOrDataForValue res (.Tensor ⟨List.zipWith broadcastCombine
        (leftPadOnes (max s0.length s1.length) s0)
        (leftPadOnes (max s0.length s1.length) s1), none⟩)) := by
  unfold InferSymbolicShapeElementWiseBinary
  simp only [hb, bind, Except.bind, elementwise_padding]
  rw [elementwise_shapes_eq]
  · simp [hres, pure, Except.pure]
  · rw [leftPadOnes_length _ _ (le_max_left _ _), leftPadOnes_length _ _ (le_max_right _ _)]

/-! ## Elementwise binary rule -/

/-- C1: for operand bases `s0` and `s1`, the elementwise binary rule succeeds and writes for
result 0 a tensor record without data whose shape is the position-wise combination of the
two bases left-padded with literal 1 to rank `max (len s0) (len s1)`; the shape has that
length, and the combination of `a` and `b` is `a` when `a = b`, `b` when `a` is literal 1,
`a` when `b` is literal 1, and `Broadcast(a, b)` otherwise. -/
theorem C1_elementwise_binary_result (op : Operation) (sa : ShapeConstraintIRAnalysis)
    (s0 s1 : List DimExpr) (res : Value)
    (hb : InferSymbolicShapeElementWiseBinary.bases op sa = .ok (s0, s1))
    (hres : op.result 0 = .ok res) :
    InferSymbolicShapeElementWiseBinary op sa =
      .ok (sa.SetShapeOrDataForValue res (.Tensor ⟨List.zipWith broadcastCombine
        (leftPadOnes (max s0.length s1.length) s0)
        (leftPadOnes (max s0.length s1.length) s1), none⟩))
    ∧ (List.zipWith broadcastCombine (leftPadOnes (max s0.length s1.length) s0)
        (leftPadOnes (max s0.length s1.length) s1)).length = max s0.length s1.length
    ∧ ∀ a b : DimExpr,
        (a = b → broadcastCombine a b = a) ∧ (a = DimExpr.Int64 1 → broadcastCombine a b = b) ∧
        (b = DimExpr.Int64 1 → broadcastCombine a b = a) ∧
        (a ≠ b → a ≠ DimExpr.Int64 1 → b ≠ DimExpr.Int64 1 →
          broadcastCombine a b = (DimExprBuilder.Broadcast none a b).1) := by
  refine ⟨elementwise_rule_eq op sa s0 s1 res hb hres, ?_, broadcastCombine_cases⟩
  rw [List.length_zipWith, leftPadOnes_length _ _ (le_max_left _ _),
    leftPadOnes_length _ _ (le_max_right _ _)]
  simp

/-- Instance of C1: shapes `[1,3]` and `[2,3]` combine to `[2,3]`. -/
theorem C1_elementwise_binary_result_witness :
    InferSymbolicShapeElementWiseBinary Instances.binaryOp Instances.binaryContext =
      .ok (Instances.binaryContext.SetShapeOrDataForValue (Instances.inputValue 2 [2, 3])
        (Instances.staticTensor [2, 3])) :=
  (C1_elementwise_binary_result Instances.binaryOp Instances.binaryContext
    [DimExpr.Int64 1, DimExpr.Int64 3] [DimExpr.Int64 2, DimExpr.Int64 3]
    (Instances.inputValue 2 [2, 3]) (by rfl) (by rfl)).1.trans (by rfl)

theorem effectiveBasis_cases (t : TensorShapeOrDataDimExprs) (f : Bool) :
    (∀ d, t.data = some d → f = false → effectiveBasis t f = d) ∧
    (t.data = none ∨ f = true → effectiveBasis t f = t.shape) := by
  constructor
  · intro d hd hf; simp [effectiveBasis, hd, hf]
  · intro h
    rcases h with h | h
    · simp [effectiveBasis, h]
    · cases hd : t.data <;> simp [effectiveBasis, hd, h]

/-- C2: the elementwise binary rule selects, for each operand independently, the data
vector exactly when the record carries data and the defining operator is not the
constant-fill operator, and the shape vector in every other case. -/
theorem C2_elementwise_basis_selection (op : Operation) (sa : ShapeConstraintIRAnalysis)
    (x y : Value) (rx ry : TensorShapeOrDataDimExprs) (fx fy : Bool)
    (hx : op.operand_source 0 = .ok x) (hy : op.operand_source 1 = .ok y)
    (hrx : sa.GetShapeOrDataForValue x = .ok (.Tensor rx))
    (hry : sa.GetShapeOrDataForValue y = .ok (.Tensor ry))
    (hfx : x.defining_op_isa FullOp.name = .ok fx)
    (hfy : y.defining_op_isa FullOp.name = .ok fy) :
    ∃ s0 s1, InferSymbolicShapeElementWiseBinary.bases op sa = .ok (s0, s1)
      ∧ (∀ d, rx.data = some d → fx = false → s0 = d)
      ∧ (rx.data = none ∨ fx = true → s0 = rx.shape)
      ∧ (∀ d, ry.data = some d → fy = false → s1 = d)
      ∧ (ry.data = none ∨ fy = true → s1 = ry.shape) := by
  refine ⟨effectiveBasis rx fx, effectiveBasis ry fy, ?_, (effectiveBasis_cases rx fx).1,
    (effectiveBasis_cases rx fx).2, (effectiveBasis_cases ry fy).1, (effectiveBasis_cases ry fy).2⟩
  unfold InferSymbolicShapeElementWiseBinary.bases
  simp only [hx, hy, hrx, hry, hfx, hfy, bind, Except.bind, ShapeOrDataDimExprs.data,
    ShapeOrDataDimExprs.shape, pure, Except.pure]
  cases hdx : rx.data <;> cases hdy : ry.data <;> cases fx <;> cases fy <;>
    simp [effectiveBasis, hdx, hdy, optValue]

/-- Instance of C2: an operand from the shape operator contributes its data, an operand
from the constant-fill operator contributes its shape. -/
theorem C2_elementwise_basis_selection_witness :
    ∃ s0 s1, InferSymbolicShapeElementWiseBinary.bases Instances.dataOperandsOp
        Instances.dataOperandsContext = .ok (s0, s1)
      ∧ (∀ d, some [DimExpr.Symbol "S0", DimExpr.Int64 4] = some d → false = false → s0 = d)
      ∧ (some [DimExpr.Symbol "S0", DimExpr.Int64 4] = none ∨ false = true → s0 = [DimExpr.Int64 2])
      ∧ (∀ d, some [DimExpr.Int64 7] = some d → true = false → s1 = d)
      ∧ (some [DimExpr.Int64 7] = none ∨ true = true → s1 = [DimExpr.Int64 2]) :=
  C2_elementwise_basis_selection Instances.dataOperandsOp Instances.dataOperandsContext
    ⟨0, [2], some ⟨"pd_op.shape", []⟩⟩ ⟨1, [2], some ⟨FullOp.name, []⟩⟩
    ⟨[DimExpr.Int64 2], some [DimExpr.Symbol "S0", DimExpr.Int64 4]⟩
    ⟨[DimExpr.Int64 2], some [DimExpr.Int64 7]⟩ false true
    (by rfl) (by rfl) (by rfl) (by rfl) (by rfl) (by rfl)

/-- C3 (failing input): on operands of shapes `[1,3]` and `[2,3]` the subtract rule and its
in-place form copy the record of operand 0, shape `[1,3]`, whereas the add rule writes the
broadcast shape `[2,3]`; the two rules do not write the same record. -/
theorem C3_subtract_copies_operand_zero :
    paddle.dialect.SubtractOpInferSymbolicShape Instances.binaryOp Instances.binaryContext =
      .ok (Instances.binaryContext.SetShapeOrDataForValue (Instances.inputValue 2 [2, 3])
        (Instances.staticTensor [1, 3]))
    ∧ paddle.dialect.Subtract_OpInferSymbolicShape Instances.binaryOp Instances.binaryContext =
      .ok (Instances.binaryContext.SetShapeOrDataForValue (Instances.inputValue 2 [2, 3])
        (Instances.staticTensor [1, 3]))
    ∧ paddle.dialect.AddOpInferSymbolicShape Instances.binaryOp Instances.binaryContext =
      .ok (Instances.binaryContext.SetShapeOrDataForValue (Instances.inputValue 2 [2, 3])
        (Instances.staticTensor [2, 3]))
    ∧ Instances.staticTensor [1, 3] ≠ Instances.staticTensor [2, 3] :=
  ⟨by rfl, by rfl, by rfl, by decide⟩

/-! ## Reduction -/

theorem range_flatMap_getD_enum {α β : Type} (G : Nat → α → List β) (d : α) (l : List α) :
    (List.range l.length).flatMap (fun i => G i (l.getD i d)) =
      l.enum.flatMap (fun p => G p.1 p.2) := by
  induction l using List.reverseRecOn with
  | nil => simp
  | append_singleton l a ih =>
    rw [List.length_append, List.length_singleton, List.range_succ, List.flatMap_append,
      List.enum_append, List.flatMap_append, ← ih]
    congr 1
    · apply List.flatMap_congr
      intro i hi
      rw [List.mem_range] at hi
      simp [List.getD_eq_getElem?_getD, List.getElem?_append_left hi]
    · simp [List.enumFrom_cons]

theorem reduce_shapes_take (r : Nat) (b : List DimExpr) (S : List Int) (all keep : Bool)
    (hr : r ≤ b.length) :
    paddle.dialect.ReduceInferDim.shapes r S all keep b =
      .ok ((b.take r).enum.flatMap (fun p =>
        if all || decide ((p.1 : Int) ∈ S) then (if keep then [DimExpr.Int64 1] else [])
        else [p.2])) := by
  unfold paddle.dialect.ReduceInferDim.shapes
  rw [foldlM_range_collect r _ (fun i =>
    if all || decide ((i : Int) ∈ S) then (if keep then [DimExpr.Int64 1] else [])
    else [(b.take r).getD i (DimExpr.Int64 1)])]
  · have hlen : (b.take r).length = r := by simp [hr]
    have h := range_flatMap_getD_enum (fun i e =>
      if all || decide ((i : Int) ∈ S) then (if keep then [DimExpr.Int64 1] else []) else [e])
      (DimExpr.Int64 1) (b.take r)
    rw [hlen] at h
    rw [h]
    simp
  · intro acc i hi
    have hib : i < b.length := lt_of_lt_of_le hi hr
    by_cases hsel : (all || decide ((i : Int) ∈ S)) = true
    · have hsel2 : (all || S.contains (i : Int)) = true := by simpa using hsel
      cases keep <;> simp [hsel, hsel2, pure, Except.pure]
    · have hsel2 : ¬ (all || S.contains (i : Int)) = true := by simpa using hsel
      simp [hsel, hsel2, vecAt_of_lt b i hib, bind, Except.bind, pure, Except.pure,
        List.getElem?_eq_getElem hib, List.getElem?_take, hi]

theorem reduce_flag_eq (r : Nat) (axis : List Int) (reduce_all : Bool) :
    (reduce_all || (List.range r).all (fun (i : Nat) =>
        (axis.map (fun a => if a < 0 then a + (r : Int) else a)).contains (i : Int))
      || (axis.length == 0))
    = (reduce_all || axis.isEmpty || decide (∀ i < r, (i : Int) ∈
        axis.map (fun a => if a < 0 then a + (r : Int) else a))) := by
  have h : (List.range r).all (fun (i : Nat) =>
        (axis.map (fun a => if a < 0 then a + (r : Int) else a)).contains (i : Int))
      = decide (∀ i < r, (i : Int) ∈ axis.map (fun a => if a < 0 then a + (r : Int) else a)) := by
    rw [Bool.eq_iff_iff]
    simp [List.all_eq_true]
  rw [h]
  cases axis <;> cases reduce_all <;> simp

theorem reduce_rule_eq (op : Operation) (sa : ShapeConstraintIRAnalysis) (x res : Value)
    (rec : ShapeOrDataDimExprs) (b : List DimExpr) (axis : List Int) (keep_dim reduce_all : Bool)
    (hx : op.operand_source 0 = .ok x)
    (hrec : sa.GetShapeOrDataForValue x = .ok rec)
    (hb : paddle.dialect.ReduceInferDim.input_shapes rec = .ok b)
    (hlen : x.dims.length ≤ b.length)
    (hres : op.result 0 = .ok res) :
    paddle.dialect.ReduceInferDim op sa axis keep_dim reduce_all =
      .ok (sa.SetShapeOrDataForValue res
        (.Tensor ⟨reduceWalk (b.take x.dims.length) axis keep_dim reduce_all, none⟩)) := by
  unfold paddle.dialect.ReduceInferDim
  simp only [hx, hrec, hb, bind, Except.bind, reduce_shapes_take _ _ _ _ _ hlen, hres, pure,
    Except.pure, reduce_flag_eq]
  have hl : (b.take x.dims.length).length = x.dims.length := by simp [hlen]
  simp only [reduceWalk, hl]

/-- C4: for an input basis `b` whose length is the rank of the operand, `ReduceInferDim`
succeeds and writes for result 0 the shape-only record whose shape is the reduction walk
of the claim: literal 1 (with keepdim) or nothing (without) at every position that is
reduced (reduce-all forced by the flag, an empty axis list, or full coverage; or the
position is in the normalised axis set), and the basis entry elsewhere. -/
theorem C4_reduce_infer_dim (op : Operation) (sa : ShapeConstraintIRAnalysis) (x res : Value)
    (rec : ShapeOrDataDimExprs) (b : List DimExpr) (axis : List Int) (keep_dim reduce_all : Bool)
    (hx : op.operand_source 0 = .ok x)
    (hrec : sa.GetShapeOrDataForValue x = .ok rec)
    (hb : paddle.dialect.ReduceInferDim.input_shapes rec = .ok b)
    (hlen : b.length = x.dims.length)
    (hres : op.result 0 = .ok res) :
    paddle.dialect.ReduceInferDim op sa axis keep_dim reduce_all =
      .ok (sa.SetShapeOrDataForValue res (.Tensor ⟨reduceWalk b axis keep_dim reduce_all, none⟩)) := by
  have h := reduce_rule_eq op sa x res rec b axis keep_dim reduce_all hx hrec hb (le_of_eq hlen.symm) hres
  rwa [← hlen, List.take_length] at h

/-- Instance of C4: the four reductions of the basis `[2,3,4]` named in the claim. -/
theorem C4_reduce_infer_dim_witness :
    paddle.dialect.ReduceInferDim Instances.reduceOp Instances.reduceContext [1] true false =
      .ok (Instances.reduceContext.SetShapeOrDataForValue (Instances.inputValue 1 [])
        (Instances.staticTensor [2, 1, 4]))
    ∧ paddle.dialect.ReduceInferDim Instances.reduceOp Instances.reduceContext [1] false false =
      .ok (Instances.reduceContext.SetShapeOrDataForValue (Instances.inputValue 1 [])
        (Instances.staticTensor [2, 4]))
    ∧ paddle.dialect.ReduceInferDim Instances.reduceOp Instances.reduceContext [] true false =
      .ok (Instances.reduceContext.SetShapeOrDataForValue (Instances.inputValue 1 [])
        (Instances.staticTensor [1, 1, 1]))
    ∧ paddle.dialect.ReduceInferDim Instances.reduceOp Instances.reduceContext [] false false =
      .ok (Instances.reduceContext.SetShapeOrDataForValue (Instances.inputValue 1 [])
        (Instances.staticTensor [])) :=
  ⟨(C4_reduce_infer_dim Instances.reduceOp Instances.reduceContext (Instances.inputValue 0 [2, 3, 4])
      (Instances.inputValue 1 []) (Instances.staticTensor [2, 3, 4])
      [DimExpr.Int64 2, DimExpr.Int64 3, DimExpr.Int64 4] [1] true false
      (by rfl) (by rfl) (by rfl) (by rfl) (by rfl)).trans (by rfl),
   (C4_reduce_infer_dim Instances.reduceOp Instances.reduceContext (Instances.inputValue 0 [2, 3, 4])
      (Instances.inputValue 1 []) (Instances.staticTensor [2, 3, 4])
      [DimExpr.Int64 2, DimExpr.Int64 3, DimExpr.Int64 4] [1] false false
      (by rfl) (by rfl) (by rfl) (by rfl) (by rfl)).trans (by rfl),
   (C4_reduce_infer_dim Instances.reduceOp Instances.reduceContext (Instances.inputValue 0 [2, 3, 4])
      (Instances.inputValue 1 []) (Instances.staticTensor [2, 3, 4])
      [DimExpr.Int64 2, DimExpr.Int64 3, DimExpr.Int64 4] [] true false
      (by rfl) (by rfl) (by rfl) (by rfl) (by rfl)).trans (by rfl),
   (C4_reduce_infer_dim Instances.reduceOp Instances.reduceContext (Instances.inputValue 0 [2, 3, 4])
      (Instances.inputValue 1 []) (Instances.staticTensor [2, 3, 4])
      [DimExpr.Int64 2, DimExpr.Int64 3, DimExpr.Int64 4] [] false false
      (by rfl) (by rfl) (by rfl) (by rfl) (by rfl)).trans (by rfl)⟩

theorem reduce_input_shapes_cases (t : TensorShapeOrDataDimExprs) :
    ∃ b, paddle.dialect.ReduceInferDim.input_shapes (.Tensor t) = .ok b
      ∧ (t.data = none ∨ t.data = some [] → b = t.shape)
      ∧ (∀ d, t.data = some d → d ≠ [] → b = d) := by
  unfold paddle.dialect.ReduceInferDim.input_shapes
  cases hd : t.data with
  | none => exact ⟨t.shape, by simp [ShapeOrDataDimExprs.data, ShapeOrDataDimExprs.shape, hd, bind, Except.bind]⟩
  | some d =>
    cases d with
    | nil => exact ⟨t.shape, by simp [ShapeOrDataDimExprs.data, ShapeOrDataDimExprs.shape, hd, bind, Except.bind]⟩
    | cons a l =>
      exact ⟨a :: l, by simp [ShapeOrDataDimExprs.data, hd, bind, Except.bind, pure, Except.pure]⟩

/-- C5 (counterexample): a record of shape `[2,3]` whose data vector is present but empty,
on an operand not produced by the constant-fill operator, is reduced over its shape
(axis `[0]` without keepdim gives `[3]`), not over its data vector as the claim says. -/
theorem C5_reduce_basis_counterexample :
    paddle.dialect.ReduceInferDim Instances.reduceEmptyDataOp Instances.reduceEmptyDataContext
        [0] false false =
      .ok (Instances.reduceEmptyDataContext.SetShapeOrDataForValue (Instances.inputValue 1 [3])
        (Instances.staticTensor [3]))
    ∧ (Instances.inputValue 0 [2, 3]).defining_op_isa FullOp.name = .ok false
    ∧ Instances.emptyDataRecord.data = some []
    ∧ paddle.dialect.ReduceInferDim.input_shapes (.Tensor Instances.emptyDataRecord) =
        .ok Instances.emptyDataRecord.shape
    ∧ effectiveBasis Instances.emptyDataRecord false = []
    ∧ ¬ (paddle.dialect.ReduceInferDim.input_shapes (.Tensor Instances.emptyDataRecord) =
        .ok (effectiveBasis Instances.emptyDataRecord false)) :=
  ⟨by rfl, by rfl, by rfl, by rfl, by rfl, fun h => by
    have h2 : Instances.emptyDataRecord.shape = effectiveBasis Instances.emptyDataRecord false :=
      Except.ok.inj ((show paddle.dialect.ReduceInferDim.input_shapes
        (.Tensor Instances.emptyDataRecord) = .ok Instances.emptyDataRecord.shape from rfl).symm.trans h)
    exact absurd h2 (by decide)⟩

/-- C5 (amended): `ReduceInferDim` reduces over the operand's shape vector when the record
has no data or an empty data vector, and over its data vector when data is present,
non-empty and the operand's defining operator is not the constant-fill operator; the
result written is the reduction walk over the first rank-many entries of that basis. -/
theorem C5_reduce_basis_selection (op : Operation) (sa : ShapeConstraintIRAnalysis)
    (x res : Value) (t : TensorShapeOrDataDimExprs) (axis : List Int)
    (keep_dim reduce_all : Bool)
    (hx : op.operand_source 0 = .ok x)
    (hrec : sa.GetShapeOrDataForValue x = .ok (.Tensor t))
    (hres : op.result 0 = .ok res) :
    ∃ b, paddle.dialect.ReduceInferDim.input_shapes (.Tensor t) = .ok b
      ∧ (t.data = none ∨ t.data = some [] → b = t.shape)
      ∧ (∀ d, t.data = some d → d ≠ [] → x.defining_op_isa FullOp.name = .ok false → b = d)
      ∧ (x.dims.length ≤ b.length →
          paddle.dialect.ReduceInferDim op sa axis keep_dim reduce_all =
            .ok (sa.SetShapeOrDataForValue res
              (.Tensor ⟨reduceWalk (b.take x.dims.length) axis keep_dim reduce_all, none⟩))) := by
  obtain ⟨b, hb, h1, h2⟩ := reduce_input_shapes_cases t
  exact ⟨b, hb, h1, fun d hd hne _ => h2 d hd hne, fun hlen =>
    reduce_rule_eq op sa x res (.Tensor t) b axis keep_dim reduce_all hx hrec hb hlen hres⟩

/-- Instance of C5 (amended): an operand from the shape operator carrying data `[S0, S1]`
is reduced over that data. -/
theorem C5_reduce_basis_selection_witness :
    ∃ b, paddle.dialect.ReduceInferDim.input_shapes
        (.Tensor ⟨[DimExpr.Int64 2], some [DimExpr.Symbol "S0", DimExpr.Symbol "S1"]⟩) = .ok b
      ∧ (some [DimExpr.Symbol "S0", DimExpr.Symbol "S1"] = none
          ∨ some [DimExpr.Symbol "S0", DimExpr.Symbol "S1"] = some [] → b = [DimExpr.Int64 2])
      ∧ (∀ d, some [DimExpr.Symbol "S0", DimExpr.Symbol "S1"] = some d → d ≠ [] →
          Value.defining_op_isa ⟨0, [2], some ⟨"pd_op.shape", []⟩⟩ FullOp.name = .ok false → b = d)
      ∧ (1 ≤ b.length →
          paddle.dialect.ReduceInferDim Instances.reduceDataOp Instances.reduceDataContext
              [0] true false =
            .ok (Instances.reduceDataContext.SetShapeOrDataForValue (Instances.inputValue 1 [1])
              (.Tensor ⟨reduceWalk (b.take 1) [0] true false, none⟩))) :=
  C5_reduce_basis_selection Instances.reduceDataOp Instances.reduceDataContext
    ⟨0, [2], some ⟨"pd_op.shape", []⟩⟩ (Instances.inputValue 1 [1])
    ⟨[DimExpr.Int64 2], some [DimExpr.Symbol "S0", DimExpr.Symbol "S1"]⟩ [0] true false
    (by rfl) (by rfl) (by rfl)

/-! ## Reshape -/

theorem reshapeProduct_succ_keep (d : List DimExpr) (k : Nat) (hk : k < d.length)
    (h : d[k] ≠ DimExpr.Int64 (-1)) :
    reshapeProduct d (k + 1) = reshapeProduct d k * d[k] := by
  unfold reshapeProduct
  rw [List.take_succ, List.getElem?_eq_getElem hk, List.filter_append, List.foldl_append]
  simp [List.filter, h]

theorem reshapeProduct_succ_skip (d : List DimExpr) (k : Nat) (hk : k < d.length)
    (h : d[k] = DimExpr.Int64 (-1)) :
    reshapeProduct d (k + 1) = reshapeProduct d k := by
  unfold reshapeProduct
  rw [List.take_succ, List.getElem?_eq_getElem hk, List.filter_append, List.foldl_append]
  simp [List.filter, h]

theorem reshape_loop (d : List DimExpr) (numel : DimExpr) (k : Nat) (hk : k ≤ d.length) :
    (List.range k).foldlM
      (fun (state : List DimExpr × DimExpr) (i : Nat) => do
        let out_dims := state.1
        let product := state.2
        match (← vecAt out_dims i) with
        | .Int64 v =>
          if v ≠ -1 then pure (out_dims, product * DimExpr.Int64 v)
          else if i = out_dims.length - 1 then pure (out_dims.set i (numel / product), product)
          else pure (out_dims, product)
        | e => pure (out_dims, product * e)) (d, (1 : DimExpr))
    = (.ok (if k = d.length ∧ d.getLast? = some (DimExpr.Int64 (-1))
          then d.set (d.length - 1) (numel / reshapeProduct d (d.length - 1)) else d,
        reshapeProduct d k) : Except Error (List DimExpr × DimExpr)) := by
  induction k with
  | zero =>
    have h0 : ¬ (0 = d.length ∧ d.getLast? = some (DimExpr.Int64 (-1))) := by
      rintro ⟨h1, h2⟩
      have : d = [] := List.length_eq_zero.mp h1.symm
      simp [this] at h2
    rw [if_neg h0]
    rfl
  | succ k ih =>
    have hlt : k < d.length := hk
    have hnot : ¬ (k = d.length ∧ d.getLast? = some (DimExpr.Int64 (-1))) := by
      rintro ⟨h1, _⟩; omega
    rw [List.range_succ, List.foldlM_append, ih (Nat.le_of_lt hlt)]
    simp only [hnot, if_false, bind, Except.bind, List.foldlM_cons, List.foldlM_nil,
      vecAt_of_lt d k hlt]
    have hlast : d.getLast? = some d[d.length - 1] := by
      rw [List.getLast?_eq_getElem?, List.getElem?_eq_getElem (by omega)]
    cases hek : d[k] with
    | Int64 v =>
      by_cases hv : v = -1
      · subst hv
        by_cases hki : k = d.length - 1
        · have hc : k + 1 = d.length ∧ d.getLast? = some (DimExpr.Int64 (-1)) := by
            refine ⟨by omega, ?_⟩
            rw [hlast]; simp only [← hki, hek]
          have hp := reshapeProduct_succ_skip d k hlt hek
          rw [if_pos hc, hp, ← hki]
          simp [pure, Except.pure]
        · have hc : ¬ (k + 1 = d.length ∧ d.getLast? = some (DimExpr.Int64 (-1))) := by
            rintro ⟨h1, _⟩; omega
          simp [hc, hki, pure, Except.pure, reshapeProduct_succ_skip d k hlt hek]
      · have hne : d[k] ≠ DimExpr.Int64 (-1) := by rw [hek]; simpa using hv
        have hc : ¬ (k + 1 = d.length ∧ d.getLast? = some (DimExpr.Int64 (-1))) := by
          rintro ⟨h1, h2⟩
          rw [hlast] at h2
          have hk1 : d.length - 1 = k := by omega
          simp only [hk1] at h2
          exact hne (Option.some.inj h2)
        simp [hc, hv, pure, Except.pure, reshapeProduct_succ_keep d k hlt hne, hek]
    | _ =>
      all_goals
        have hne : d[k] ≠ DimExpr.Int64 (-1) := by rw [hek]; simp
        have hc : ¬ (k + 1 = d.length ∧ d.getLast? = some (DimExpr.Int64 (-1))) := by
          rintro ⟨h1, h2⟩
          rw [hlast] at h2
          have hk1 : d.length - 1 = k := by omega
          simp only [hk1] at h2
          exact hne (Option.some.inj h2)
        simp [hc, pure, Except.pure, reshapeProduct_succ_keep d k hlt hne, hek]

theorem lookup_filter_ne {β : Type} (m : List (Nat × β)) (k k' : Nat) (h : k ≠ k') :
    (m.filter (fun p => p.1 != k')).lookup k = m.lookup k := by
  induction m with
  | nil => rfl
  | cons p m ih =>
    obtain ⟨a, r⟩ := p
    by_cases ha : a = k'
    · subst ha
      have hk : (k == a) = false := by simpa using h
      simp [List.filter, List.lookup, hk, ih]
    · have hf : (a != k') = true := by simpa using ha
      by_cases hka : k = a
      · subst hka; simp [List.filter, hf, List.lookup]
      · have hk : (k == a) = false := by simpa using hka
        simp [List.filter, hf, List.lookup, hk, ih]

theorem get_set_ne (sa : ShapeConstraintIRAnalysis) (v w : Value) (r : ShapeOrDataDimExprs)
    (h : w.id ≠ v.id) :
    (sa.SetShapeOrDataForValue v r).GetShapeOrDataForValue w = sa.GetShapeOrDataForValue w := by
  have hk : (w.id == v.id) = false := by simpa using h
  simp [ShapeConstraintIRAnalysis.SetShapeOrDataForValue,
    ShapeConstraintIRAnalysis.GetShapeOrDataForValue, List.lookup, hk, lookup_filter_ne _ _ _ h]

theorem get_set_same (sa : ShapeConstraintIRAnalysis) (v w : Value) (r : ShapeOrDataDimExprs)
    (h : w.id = v.id) :
    (sa.SetShapeOrDataForValue v r).GetShapeOrDataForValue w = .ok r := by
  simp [ShapeConstraintIRAnalysis.SetShapeOrDataForValue,
    ShapeConstraintIRAnalysis.GetShapeOrDataForValue, List.lookup, h]

theorem reshape_out_dims_eq (d xs : List DimExpr) :
    paddle.dialect.ReshapeOpInferSymbolicShape.out_dims d xs =
      .ok (reshapeResolved d (reshapeNumel xs / reshapeProduct d (d.length - 1))) := by
  unfold paddle.dialect.ReshapeOpInferSymbolicShape.out_dims
  dsimp only
  rw [reshape_loop d _ d.length (le_refl _)]
  simp only [bind, Except.bind, true_and, pure, Except.pure]
  rfl

theorem reshape_rule_eq (op : Operation) (sa : ShapeConstraintIRAnalysis) (x s r0 r1 : Value)
    (rx rs : ShapeOrDataDimExprs) (xs d : List DimExpr)
    (hx : op.operand_source 0 = .ok x) (hs : op.operand_source 1 = .ok s)
    (hrx : sa.GetShapeOrDataForValue x = .ok rx) (hxs : rx.shape = .ok xs)
    (hrs : sa.GetShapeOrDataForValue s = .ok rs) (hd : rs.data = .ok (some d))
    (hr0 : op.result 0 = .ok r0) (hr1 : op.result 1 = .ok r1) (hne : s.id ≠ r0.id) :
    paddle.dialect.ReshapeOpInferSymbolicShape op sa =
      .ok ((sa.SetShapeOrDataForValue r0 (.Tensor ⟨
        reshapeResolved d (reshapeNumel xs / reshapeProduct d (d.length - 1)),
        none⟩)).SetShapeOrDataForValue r1 rs) := by
  unfold paddle.dialect.ReshapeOpInferSymbolicShape
  simp only [hx, hs, hrx, hxs, hrs, hd, hr0, hr1, bind, Except.bind, optValue,
    reshape_out_dims_eq, get_set_ne _ _ _ _ hne, pure, Except.pure]

theorem reshape_out_facts (d : List DimExpr) (q : DimExpr) :
    (reshapeResolved d q).length = d.length
    ∧ (∀ (i : Nat) (e : DimExpr), d[i]? = some e → e ≠ DimExpr.Int64 (-1) →
        (reshapeResolved d q)[i]? = some e)
    ∧ (∀ (i : Nat), i + 1 < d.length → d[i]? = some (DimExpr.Int64 (-1)) →
        (reshapeResolved d q)[i]? = some (DimExpr.Int64 (-1)))
    ∧ (d.getLast? = some (DimExpr.Int64 (-1)) → (reshapeResolved d q).getLast? = some q) := by
  unfold reshapeResolved
  refine ⟨?_, ?_, ?_, ?_⟩
  · split_ifs <;> simp
  · intro i e hi hne
    split_ifs with hl
    · have hil : i ≠ d.length - 1 := by
        intro hc
        rw [List.getLast?_eq_getElem?, ← hc, hi] at hl
        exact hne (Option.some.inj hl)
      rw [List.getElem?_set_ne (Ne.symm hil)]
      exact hi
    · exact hi
  · intro i hi hd
    split_ifs with hl
    · rw [List.getElem?_set_ne (by omega)]
      exact hd
    · exact hd
  · intro hl
    rw [if_pos hl, List.getLast?_eq_getElem?, List.length_set, List.getElem?_set_self]
    have : d ≠ [] := by
      intro hc; simp [hc] at hl
    have : 0 < d.length := List.length_pos.mpr this
    simp; omega

theorem times_literals (a v : Int) :
    (DimExpr.Int64 a * DimExpr.Int64 v : DimExpr) = DimExpr.Int64 (a * v) := by
  show DimExpr.times (DimExpr.Int64 a) (DimExpr.Int64 v) = _
  simp [DimExpr.times]

theorem minus_literals (a v : Int) :
    (DimExpr.Int64 a - DimExpr.Int64 v : DimExpr) = DimExpr.Int64 (a - v) := by
  show DimExpr.minus (DimExpr.Int64 a) (DimExpr.Int64 v) = _
  simp [DimExpr.minus]

theorem divide_literals (a b : Int) (hb : 0 < b) (h : b ∣ a) :
    (DimExpr.Int64 a / DimExpr.Int64 b : DimExpr) = DimExpr.Int64 (a / b) := by
  show DimExpr.divide (DimExpr.Int64 a) (DimExpr.Int64 b) = _
  by_cases h1 : b = 1
  · subst h1; simp [DimExpr.divide]
  · have h0 : b ≠ 0 := by omega
    simp [DimExpr.divide, h1, h0, Int.tdiv_eq_ediv_of_dvd h]

theorem foldl_times_literals (a : Int) (l : List Int) :
    (l.map DimExpr.Int64).foldl (fun acc e => acc * e) (DimExpr.Int64 a) =
      DimExpr.Int64 (a * l.prod) := by
  induction l generalizing a with
  | nil => simp
  | cons v l ih =>
    simp only [List.map_cons, List.foldl_cons, List.prod_cons]
    rw [times_literals, ih, mul_assoc]

theorem filter_ne_wildcard_of_pos (t : List Int) (hpos : ∀ v ∈ t, 0 < v) :
    (t.map DimExpr.Int64).filter (fun e => e ≠ DimExpr.Int64 (-1)) = t.map DimExpr.Int64 := by
  rw [List.filter_eq_self]
  intro e he
  obtain ⟨v, hv, rfl⟩ := List.mem_map.mp he
  have := hpos v hv
  simp; omega

theorem reshape_trailing_wildcard (dims t : List Int) (hpos : ∀ v ∈ t, 0 < v)
    (hdvd : t.prod ∣ dims.prod) :
    reshapeResolved (t.map DimExpr.Int64 ++ [DimExpr.Int64 (-1)])
      (reshapeNumel (dims.map DimExpr.Int64) /
        reshapeProduct (t.map DimExpr.Int64 ++ [DimExpr.Int64 (-1)])
          ((t.map DimExpr.Int64 ++ [DimExpr.Int64 (-1)]).length - 1))
    = t.map DimExpr.Int64 ++ [DimExpr.Int64 (dims.prod / t.prod)] := by
  have hprodpos : 0 < t.prod := List.prod_pos hpos
  have hlen : (t.map DimExpr.Int64 ++ [DimExpr.Int64 (-1)]).length - 1
      = (t.map DimExpr.Int64).length := by simp
  have hP : reshapeProduct (t.map DimExpr.Int64 ++ [DimExpr.Int64 (-1)])
      ((t.map DimExpr.Int64 ++ [DimExpr.Int64 (-1)]).length - 1) = DimExpr.Int64 t.prod := by
    unfold reshapeProduct
    rw [hlen, List.take_left, filter_ne_wildcard_of_pos t hpos, foldl_times_literals, one_mul]
  have hN : reshapeNumel (dims.map DimExpr.Int64) = DimExpr.Int64 dims.prod := by
    unfold reshapeNumel
    rw [foldl_times_literals, one_mul]
  rw [hP, hN, divide_literals _ _ hprodpos hdvd]
  unfold reshapeResolved
  rw [if_pos (by simp), hlen]
  simp

theorem GetVectorAttr_int32_array (attributes : AttributeMap) (name : String) (target : List Int)
    (h : attributes.lookup name = some (.Array (target.map Attribute.Int32))) :
    GetVectorAttr AttributeTrait.int32 attributes name = .ok target := by
  unfold GetVectorAttr
  rw [h]
  cases target with
  | nil => rfl
  | cons v l =>
    simp only [List.map_cons, AttributeTrait.int32, Option.isNone_some, Bool.false_eq_true,
      if_false]
    have hm : ∀ (l : List Int), (l.map Attribute.Int32).mapM (fun item =>
        match AttributeTrait.int32 item with
        | some v => (Except.ok v : Except Error Int)
        | none => Except.error Error.NullPointer) = Except.ok l := by
      intro l
      induction l with
      | nil => rfl
      | cons a l ih =>
        rw [List.map_cons, List.mapM_cons, ih]
        rfl
    exact hm (v :: l)

theorem wildcard_before_last (d : List DimExpr) (h : 1 < d.count (DimExpr.Int64 (-1))) :
    ∃ i : Nat, i + 1 < d.length ∧ d[i]? = some (DimExpr.Int64 (-1)) := by
  have hne : d ≠ [] := by
    intro hc; simp [hc] at h
  have hsplit := List.dropLast_append_getLast hne
  have hcount : d.count (DimExpr.Int64 (-1)) ≤ d.dropLast.count (DimExpr.Int64 (-1)) + 1 := by
    conv_lhs => rw [← hsplit]
    rw [List.count_append]
    have : [d.getLast hne].count (DimExpr.Int64 (-1)) ≤ [d.getLast hne].length := List.count_le_length _ _
    simpa using this
  have hmem : DimExpr.Int64 (-1) ∈ d.dropLast := by
    apply List.count_pos_iff.mp
    omega
  obtain ⟨i, hi, hget⟩ := List.getElem_of_mem hmem
  have hil : i < d.length - 1 := by simpa using hi
  refine ⟨i, by omega, ?_⟩
  rw [List.getElem_dropLast] at hget
  rw [List.getElem?_eq_getElem (by omega), hget]

/-- C6 (counterexample): reshaping static shape `[2,3,4]` to target `[-1,4]` yields the
shape `[-1,4]`, not `[6,4]`, under the paddle-dialect rule (the `-1` is not in the last
position) and under the cinn-dialect rule (which copies the attribute). -/
theorem C6_reshape_leading_wildcard_unresolved :
    paddle.dialect.ReshapeOpInferSymbolicShape Instances.reshapeOp (Instances.reshapeContext [-1, 4]) =
      .ok (((Instances.reshapeContext [-1, 4]).SetShapeOrDataForValue (Instances.inputValue 2 [-1, 4])
        (Instances.staticTensor [-1, 4])).SetShapeOrDataForValue (Instances.inputValue 3 [2])
        (Instances.intArrayRecord [-1, 4]))
    ∧ cinn.dialect.ReshapeOpInferSymbolicShape (Instances.cinnReshapeOp [-1, 4])
        (Instances.reshapeContext [-1, 4]) =
      .ok ((Instances.reshapeContext [-1, 4]).SetShapeOrDataForValue (Instances.inputValue 2 [-1, 4])
        (Instances.staticTensor [-1, 4]))
    ∧ Instances.staticTensor [-1, 4] ≠ Instances.staticTensor [6, 4] :=
  ⟨by rfl, by rfl, by decide⟩

/-- C6 (amended): when the literal `-1` is the last entry of the target and the other entries
are positive literals whose product divides the element count of the static input shape,
the paddle-dialect reshape writes for result 0 the target with the `-1` replaced by
(element count / product of the other entries); the cinn-dialect reshape writes the
`shape` attribute entry by entry as literals, without resolving a `-1`. -/
theorem C6_reshape_trailing_wildcard (op : Operation) (sa : ShapeConstraintIRAnalysis)
    (x s r0 r1 : Value) (dims t : List Int) (x_data : Option (List DimExpr))
    (s_shape : List DimExpr) (cop : Operation) (csa : ShapeConstraintIRAnalysis) (c0 : Value)
    (target : List Int)
    (hx : op.operand_source 0 = .ok x) (hs : op.operand_source 1 = .ok s)
    (hrx : sa.GetShapeOrDataForValue x = .ok (.Tensor ⟨dims.map DimExpr.Int64, x_data⟩))
    (hrs : sa.GetShapeOrDataForValue s =
      .ok (.Tensor ⟨s_shape, some (t.map DimExpr.Int64 ++ [DimExpr.Int64 (-1)])⟩))
    (hr0 : op.result 0 = .ok r0) (hr1 : op.result 1 = .ok r1) (hne : s.id ≠ r0.id)
    (hpos : ∀ v ∈ t, 0 < v) (hdvd : t.prod ∣ dims.prod)
    (hattr : cop.attributes.lookup "shape" = some (.Array (target.map Attribute.Int32)))
    (hc0 : cop.result 0 = .ok c0) :
    paddle.dialect.ReshapeOpInferSymbolicShape op sa =
      .ok ((sa.SetShapeOrDataForValue r0
        (.Tensor ⟨t.map DimExpr.Int64 ++ [DimExpr.Int64 (dims.prod / t.prod)], none⟩)).SetShapeOrDataForValue
          r1 (.Tensor ⟨s_shape, some (t.map DimExpr.Int64 ++ [DimExpr.Int64 (-1)])⟩))
    ∧ cinn.dialect.ReshapeOpInferSymbolicShape cop csa =
      .ok (csa.SetShapeOrDataForValue c0 (.Tensor ⟨target.map DimExpr.Int64, none⟩)) := by
  constructor
  · rw [reshape_rule_eq op sa x s r0 r1 _ _ (dims.map DimExpr.Int64)
      (t.map DimExpr.Int64 ++ [DimExpr.Int64 (-1)]) hx hs hrx rfl hrs rfl hr0 hr1 hne,
      reshape_trailing_wildcard dims t hpos hdvd]
  · unfold cinn.dialect.ReshapeOpInferSymbolicShape
    simp only [GetVectorAttr_int32_array _ _ target hattr, hc0, bind, Except.bind, pure,
      Except.pure]

/-- Instance of C6 (amended): static shape `[2,3,4]` reshaped to `[4,-1]` yields `[4,6]`
under the paddle rule; the cinn rule copies its attribute `[4,-1]`. -/
theorem C6_reshape_trailing_wildcard_witness :
    paddle.dialect.ReshapeOpInferSymbolicShape Instances.reshapeOp (Instances.reshapeContext [4, -1]) =
      .ok (((Instances.reshapeContext [4, -1]).SetShapeOrDataForValue (Instances.inputValue 2 [-1, 4])
        (Instances.staticTensor [4, 6])).SetShapeOrDataForValue (Instances.inputValue 3 [2])
        (Instances.intArrayRecord [4, -1]))
    ∧ cinn.dialect.ReshapeOpInferSymbolicShape (Instances.cinnReshapeOp [4, -1])
        (Instances.reshapeContext [4, -1]) =
      .ok ((Instances.reshapeContext [4, -1]).SetShapeOrDataForValue (Instances.inputValue 2 [4, -1])
        (Instances.staticTensor [4, -1])) :=
  C6_reshape_trailing_wildcard Instances.reshapeOp (Instances.reshapeContext [4, -1])
    (Instances.inputValue 0 [2, 3, 4]) (Instances.intArrayValue 1 [2])
    (Instances.inputValue 2 [-1, 4]) (Instances.inputValue 3 [2]) [2, 3, 4] [4] none
    [DimExpr.Int64 2] (Instances.cinnReshapeOp [4, -1]) (Instances.reshapeContext [4, -1])
    (Instances.inputValue 2 [4, -1]) [4, -1]
    (by rfl) (by rfl) (by rfl) (by rfl) (by rfl) (by rfl) (by decide) (by decide) (by decide)
    (by rfl) (by rfl)

/-- C7: the paddle-dialect reshape succeeds and the shape `out` written for result 0 has the
length of the shape operand's data `d`; every entry of `d` other than the literal `-1` is
copied; a literal `-1` before the last position stays `-1`; a literal `-1` in the last
position becomes `numel / product`, with `numel` the left-to-right product of the input
shape and `product` the left-to-right product of the earlier entries of `d` that are not
the literal `-1`. Result 1 receives the record of the shape operand. -/
theorem C7_reshape_position_rule (op : Operation) (sa : ShapeConstraintIRAnalysis)
    (x s r0 r1 : Value) (rx rs : ShapeOrDataDimExprs) (xs d : List DimExpr)
    (hx : op.operand_source 0 = .ok x) (hs : op.operand_source 1 = .ok s)
    (hrx : sa.GetShapeOrDataForValue x = .ok rx) (hxs : rx.shape = .ok xs)
    (hrs : sa.GetShapeOrDataForValue s = .ok rs) (hd : rs.data = .ok (some d))
    (hr0 : op.result 0 = .ok r0) (hr1 : op.result 1 = .ok r1) (hne : s.id ≠ r0.id) :
    ∃ out : List DimExpr,
      paddle.dialect.ReshapeOpInferSymbolicShape op sa =
        .ok ((sa.SetShapeOrDataForValue r0 (.Tensor ⟨out, none⟩)).SetShapeOrDataForValue r1 rs)
      ∧ out.length = d.length
      ∧ (∀ (i : Nat) (e : DimExpr), d[i]? = some e → e ≠ DimExpr.Int64 (-1) → out[i]? = some e)
      ∧ (∀ (i : Nat), i + 1 < d.length → d[i]? = some (DimExpr.Int64 (-1)) →
          out[i]? = some (DimExpr.Int64 (-1)))
      ∧ (d.getLast? = some (DimExpr.Int64 (-1)) →
          out.getLast? = some (reshapeNumel xs / reshapeProduct d (d.length - 1))) :=
  ⟨reshapeResolved d (reshapeNumel xs / reshapeProduct d (d.length - 1)),
    reshape_rule_eq op sa x s r0 r1 rx rs xs d hx hs hrx hxs hrs hd hr0 hr1 hne,
    reshape_out_facts d _⟩

/-- Instance of C7: input `[2,3,4]` with shape data `[4,-1]`. -/
theorem C7_reshape_position_rule_witness :
    ∃ out : List DimExpr,
      paddle.dialect.ReshapeOpInferSymbolicShape Instances.reshapeOp
          (Instances.reshapeContext [4, -1]) =
        .ok (((Instances.reshapeContext [4, -1]).SetShapeOrDataForValue
          (Instances.inputValue 2 [-1, 4]) (.Tensor ⟨out, none⟩)).SetShapeOrDataForValue
          (Instances.inputValue 3 [2]) (Instances.intArrayRecord [4, -1]))
      ∧ out.length = [DimExpr.Int64 4, DimExpr.Int64 (-1)].length
      ∧ (∀ (i : Nat) (e : DimExpr), [DimExpr.Int64 4, DimExpr.Int64 (-1)][i]? = some e →
          e ≠ DimExpr.Int64 (-1) → out[i]? = some e)
      ∧ (∀ (i : Nat), i + 1 < [DimExpr.Int64 4, DimExpr.Int64 (-1)].length →
          [DimExpr.Int64 4, DimExpr.Int64 (-1)][i]? = some (DimExpr.Int64 (-1)) →
          out[i]? = some (DimExpr.Int64 (-1)))
      ∧ ([DimExpr.Int64 4, DimExpr.Int64 (-1)].getLast? = some (DimExpr.Int64 (-1)) →
          out.getLast? = some (reshapeNumel [DimExpr.Int64 2, DimExpr.Int64 3, DimExpr.Int64 4] /
            reshapeProduct [DimExpr.Int64 4, DimExpr.Int64 (-1)]
              ([DimExpr.Int64 4, DimExpr.Int64 (-1)].length - 1))) :=
  C7_reshape_position_rule Instances.reshapeOp (Instances.reshapeContext [4, -1])
    (Instances.inputValue 0 [2, 3, 4]) (Instances.intArrayValue 1 [2])
    (Instances.inputValue 2 [-1, 4]) (Instances.inputValue 3 [2])
    (Instances.staticTensor [2, 3, 4]) (Instances.intArrayRecord [4, -1])
    [DimExpr.Int64 2, DimExpr.Int64 3, DimExpr.Int64 4] [DimExpr.Int64 4, DimExpr.Int64 (-1)]
    (by rfl) (by rfl) (by rfl) (by rfl) (by rfl) (by rfl) (by rfl) (by rfl) (by decide)

/-- C8 (counterexample): with shape data `[-1,-1]` on an input of static shape `[2,3,4]`
the paddle-dialect reshape does not fail; it returns success and writes the result shape
`[-1, 24]`. -/
theorem C8_reshape_two_wildcards_succeeds :
    paddle.dialect.ReshapeOpInferSymbolicShape Instances.reshapeOp (Instances.reshapeContext [-1, -1]) =
      .ok (((Instances.reshapeContext [-1, -1]).SetShapeOrDataForValue (Instances.inputValue 2 [-1, 4])
        (Instances.staticTensor [-1, 24])).SetShapeOrDataForValue (Instances.inputValue 3 [2])
        (Instances.intArrayRecord [-1, -1])) := by
  rfl

/-- C8 (amended): when the shape operand's data contains more than one literal `-1`, the
paddle-dialect reshape does not fail: it succeeds, writes both result records, and the
shape written for result 0 has the length of the data and still contains a literal `-1`
(every `-1` before the last position is left unresolved). -/
theorem C8_reshape_multiple_wildcards (op : Operation) (sa : ShapeConstraintIRAnalysis)
    (x s r0 r1 : Value) (rx rs : ShapeOrDataDimExprs) (xs d : List DimExpr)
    (hx : op.operand_source 0 = .ok x) (hs : op.operand_source 1 = .ok s)
    (hrx : sa.GetShapeOrDataForValue x = .ok rx) (hxs : rx.shape = .ok xs)
    (hrs : sa.GetShapeOrDataForValue s = .ok rs) (hd : rs.data = .ok (some d))
    (hr0 : op.result 0 = .ok r0) (hr1 : op.result 1 = .ok r1) (hne : s.id ≠ r0.id)
    (hmany : 1 < d.count (DimExpr.Int64 (-1))) :
    ∃ out : List DimExpr,
      paddle.dialect.ReshapeOpInferSymbolicShape op sa =
        .ok ((sa.SetShapeOrDataForValue r0 (.Tensor ⟨out, none⟩)).SetShapeOrDataForValue r1 rs)
      ∧ out.length = d.length
      ∧ DimExpr.Int64 (-1) ∈ out := by
  obtain ⟨i, hi, hget⟩ := wildcard_before_last d hmany
  have hf := reshape_out_facts d (reshapeNumel xs / reshapeProduct d (d.length - 1))
  refine ⟨reshapeResolved d (reshapeNumel xs / reshapeProduct d (d.length - 1)),
    reshape_rule_eq op sa x s r0 r1 rx rs xs d hx hs hrx hxs hrs hd hr0 hr1 hne, hf.1, ?_⟩
  exact List.getElem?_mem (hf.2.2.1 i hi hget)

/-- Instance of C8 (amended): shape data `[-1,-1]`. -/
theorem C8_reshape_multiple_wildcards_witness :
    ∃ out : List DimExpr,
      paddle.dialect.ReshapeOpInferSymbolicShape Instances.reshapeOp
          (Instances.reshapeContext [-1, -1]) =
        .ok (((Instances.reshapeContext [-1, -1]).SetShapeOrDataForValue
          (Instances.inputValue 2 [-1, 4]) (.Tensor ⟨out, none⟩)).SetShapeOrDataForValue
          (Instances.inputValue 3 [2]) (Instances.intArrayRecord [-1, -1]))
      ∧ out.length = [DimExpr.Int64 (-1), DimExpr.Int64 (-1)].length
      ∧ DimExpr.Int64 (-1) ∈ out :=
  C8_reshape_multiple_wildcards Instances.reshapeOp (Instances.reshapeContext [-1, -1])
    (Instances.inputValue 0 [2, 3, 4]) (Instances.intArrayValue 1 [2])
    (Instances.inputValue 2 [-1, 4]) (Instances.inputValue 3 [2])
    (Instances.staticTensor [2, 3, 4]) (Instances.intArrayRecord [-1, -1])
    [DimExpr.Int64 2, DimExpr.Int64 3, DimExpr.Int64 4] [DimExpr.Int64 (-1), DimExpr.Int64 (-1)]
    (by rfl) (by rfl) (by rfl) (by rfl) (by rfl) (by rfl) (by rfl) (by rfl) (by decide)
    (by decide)

/-! ## Slice, shape mode -/

theorem vecAtInt_of_lt {α : Type} (v : List α) (a : Int) (h0 : 0 ≤ a) (h : a.toNat < v.length) :
    vecAtInt v a = .ok v[a.toNat] := by
  unfold vecAtInt
  rw [if_neg (by omega), vecAt_of_lt v a.toNat h]

theorem vecSetInt_of_lt {α : Type} (v : List α) (a : Int) (x : α) (h0 : 0 ≤ a)
    (h : a.toNat < v.length) : vecSetInt v a x = .ok (v.set a.toNat x) := by
  unfold vecSetInt
  rw [if_neg (by omega)]

theorem slice_body_eq (nax starts ends : List Int) (out : List DimExpr) (i : Nat) (a s e : Int)
    (D : DimExpr) (ha : nax[i]? = some a) (hs : starts[i]? = some s) (he : ends[i]? = some e)
    (h0 : 0 ≤ a) (hD : out[a.toNat]? = some D) :
    paddle.dialect.SliceOpInferSymbolicShape.GetShapeDimExprs.body nax starts ends
      (starts.map DimExpr.Int64) (ends.map DimExpr.Int64) out i
    = .ok (out.set a.toNat (sliceDim s e D)) := by
  have hlt : a.toNat < out.length := by
    rcases List.getElem?_eq_some_iff.mp hD with ⟨h, _⟩
    exact h
  have hDget : out[a.toNat] = D := by
    rcases List.getElem?_eq_some_iff.mp hD with ⟨_, h⟩
    exact h
  have e1 : vecAt nax i = .ok a := by simp [vecAt, ha]
  have e2 : vecAt starts i = .ok s := by simp [vecAt, hs]
  have e3 : vecAt ends i = .ok e := by simp [vecAt, he]
  have e4 : vecAt (starts.map DimExpr.Int64) i = .ok (DimExpr.Int64 s) := by
    simp [vecAt, List.getElem?_map, hs]
  have e5 : vecAt (ends.map DimExpr.Int64) i = .ok (DimExpr.Int64 e) := by
    simp [vecAt, List.getElem?_map, he]
  have e6 : vecAtInt out a = .ok D := by rw [vecAtInt_of_lt out a h0 hlt, hDget]
  unfold paddle.dialect.SliceOpInferSymbolicShape.GetShapeDimExprs.body
  simp only [e1, e2, e3, e4, e5, e6, bind, Except.bind, pure, Except.pure,
    paddle.dialect.SliceOpInferSymbolicShape.IsMaxInt, vecSetInt_of_lt out a _ h0 hlt]
  unfold sliceDim
  by_cases hmax : e = INT32_MAX
  · subst hmax
    simp only [beq_self_eq_true, if_true]
    split_ifs <;> first | rfl | (exfalso; simp only [INT32_MAX] at *; omega)
  · have hbeq : (e == INT32_MAX) = false := by simpa using hmax
    simp only [hbeq, Bool.false_eq_true, if_false, hmax]
    split_ifs <;> first | rfl | (exfalso; omega)

theorem slice_loop (nax starts ends : List Int) (shape : List DimExpr)
    (hs : nax.length ≤ starts.length) (he : nax.length ≤ ends.length)
    (hr : ∀ a ∈ nax, 0 ≤ a ∧ a.toNat < shape.length) (hnd : nax.Nodup)
    (k : Nat) (hk : k ≤ nax.length) :
    ∃ out : List DimExpr,
      (List.range k).foldlM
        (paddle.dialect.SliceOpInferSymbolicShape.GetShapeDimExprs.body nax starts ends
          (starts.map DimExpr.Int64) (ends.map DimExpr.Int64)) shape = .ok out
      ∧ out.length = shape.length
      ∧ (∀ j : Nat, (∀ i : Nat, i < k → nax[i]? ≠ some (j : Int)) → out[j]? = shape[j]?)
      ∧ (∀ (i : Nat) (a s e : Int) (D : DimExpr), i < k → nax[i]? = some a →
          starts[i]? = some s → ends[i]? = some e → shape[a.toNat]? = some D →
          out[a.toNat]? = some (sliceDim s e D)) := by
  induction k with
  | zero =>
    refine ⟨shape, rfl, rfl, fun _ _ => rfl, ?_⟩
    intro i a s e D hi
    omega
  | succ k ih =>
    obtain ⟨out, hrun, hlen, hkeep, hnew⟩ := ih (Nat.le_of_succ_le hk)
    have hklt : k < nax.length := hk
    have hak : nax[k]? = some nax[k] := List.getElem?_eq_getElem hklt
    have hsk : starts[k]? = some starts[k] := List.getElem?_eq_getElem (by omega)
    have hek : ends[k]? = some ends[k] := List.getElem?_eq_getElem (by omega)
    obtain ⟨ha0, halt⟩ := hr nax[k] (List.getElem_mem _)
    have hcast : ((nax[k].toNat : Nat) : Int) = nax[k] := Int.toNat_of_nonneg ha0
    have hfresh : ∀ i : Nat, i < k → nax[i]? ≠ some ((nax[k].toNat : Nat) : Int) := by
      intro i hi
      rw [hcast, ← hak]
      exact List.nodup_iff_getElem?_ne_getElem?.mp hnd i k hi hklt
    have hcur : out[nax[k].toNat]? = some shape[nax[k].toNat] := by
      rw [hkeep _ hfresh, List.getElem?_eq_getElem halt]
    have hbody := slice_body_eq nax starts ends out k nax[k] starts[k] ends[k]
      shape[nax[k].toNat] hak hsk hek ha0 hcur
    refine ⟨out.set nax[k].toNat (sliceDim starts[k] ends[k] shape[nax[k].toNat]), ?_, ?_, ?_, ?_⟩
    · rw [List.range_succ, List.foldlM_append, hrun]
      simp only [bind, Except.bind, List.foldlM_cons, List.foldlM_nil, hbody, pure, Except.pure]
    · simp [hlen]
    · intro j hj
      have hjk : nax[k].toNat ≠ j := by
        intro hc
        apply hj k (Nat.lt_succ_self k)
        rw [hak, ← hc, hcast]
      rw [List.getElem?_set_ne hjk]
      exact hkeep j (fun i hi => hj i (Nat.lt_succ_of_lt hi))
    · intro i a s e D hi hai hsi hei hDi
      by_cases hik : i = k
      · subst hik
        rw [hak] at hai; rw [hsk] at hsi; rw [hek] at hei
        cases Option.some.inj hai; cases Option.some.inj hsi; cases Option.some.inj hei
        rw [List.getElem?_eq_getElem halt] at hDi
        cases Option.some.inj hDi
        rw [List.getElem?_set_self (by omega)]
      · have hilt : i < k := by omega
        have hne : nax[i]? ≠ nax[k]? := List.nodup_iff_getElem?_ne_getElem?.mp hnd i k hilt hklt
        have hane : a ≠ nax[k] := by
          intro hc
          apply hne
          rw [hai, hak, hc]
        have hmem : a ∈ nax := List.getElem?_mem hai
        obtain ⟨ha0', _⟩ := hr a hmem
        have htn : nax[k].toNat ≠ a.toNat := by
          intro hc
          apply hane
          omega
        rw [List.getElem?_set_ne htn]
        exact hnew i a s e D hilt hai hsi hei hDi

theorem slice_axes_eq (attributes : AttributeMap) (rec : ShapeOrDataDimExprs)
    (shape : List DimExpr) (axes : List Int)
    (hattr : attributes.lookup "axes" = some (.Array (axes.map Attribute.Int64)))
    (hshape : rec.shape = .ok shape) :
    paddle.dialect.SliceOpInferSymbolicShape.axes attributes rec =
      .ok (axes.map (sliceAxis shape.length)) := by
  unfold paddle.dialect.SliceOpInferSymbolicShape.axes
  simp only [AttributeMap.at, hattr, hshape, bind, Except.bind]
  clear hattr
  induction axes with
  | nil => rfl
  | cons a l ih =>
    rw [List.map_cons, List.mapM_cons, ih]
    rfl

theorem slice_literals_eq (values : List Int) :
    paddle.dialect.SliceOpInferSymbolicShape.literals (values.map DimExpr.Int64) = .ok values := by
  unfold paddle.dialect.SliceOpInferSymbolicShape.literals
  induction values with
  | nil => rfl
  | cons a l ih =>
    rw [List.map_cons, List.mapM_cons, ih]
    rfl

theorem tensor_data_eq (t : TensorShapeOrDataDimExprs) :
    (ShapeOrDataDimExprs.Tensor t).data = .ok t.data := rfl

theorem tensor_shape_eq (t : TensorShapeOrDataDimExprs) :
    (ShapeOrDataDimExprs.Tensor t).shape = .ok t.shape := rfl

theorem slice_shape_mode (op : Operation) (sa : ShapeConstraintIRAnalysis)
    (src st en res : Value) (rst ren : ShapeOrDataDimExprs) (shape : List DimExpr)
    (axes starts ends : List Int)
    (hsrc : op.operand_source 0 = .ok src) (hst : op.operand_source 1 = .ok st)
    (hen : op.operand_source 2 = .ok en) (hres : op.result 0 = .ok res)
    (hrsrc : sa.GetShapeOrDataForValue src = .ok (.Tensor ⟨shape, none⟩))
    (hrst : sa.GetShapeOrDataForValue st = .ok rst)
    (hstd : rst.data = .ok (some (starts.map DimExpr.Int64)))
    (hren : sa.GetShapeOrDataForValue en = .ok ren)
    (hend : ren.data = .ok (some (ends.map DimExpr.Int64)))
    (hattr : op.attributes.lookup "axes" = some (.Array (axes.map Attribute.Int64)))
    (hls : axes.length ≤ starts.length) (hle : axes.length ≤ ends.length)
    (hrange : ∀ a ∈ axes, sliceAxis shape.length a < (shape.length : Int))
    (hnd : (axes.map (sliceAxis shape.length)).Nodup) :
    ∃ out : List DimExpr,
      paddle.dialect.SliceOpInferSymbolicShape op sa =
        .ok (sa.SetShapeOrDataForValue res (.Tensor ⟨out, none⟩))
      ∧ out.length = shape.length
      ∧ (∀ j : Nat, (∀ a ∈ axes, sliceAxis shape.length a ≠ (j : Int)) → out[j]? = shape[j]?)
      ∧ (∀ (i : Nat) (a s e : Int) (D : DimExpr), axes[i]? = some a → starts[i]? = some s →
          ends[i]? = some e → shape[(sliceAxis shape.length a).toNat]? = some D →
          out[(sliceAxis shape.length a).toNat]? = some (sliceDim s e D)) := by
  have hnonneg : ∀ a : Int, 0 ≤ sliceAxis shape.length a := by
    intro a
    unfold sliceAxis
    split_ifs with h
    · exact h
    · exact le_max_left _ _
  have hr : ∀ a ∈ axes.map (sliceAxis shape.length), 0 ≤ a ∧ a.toNat < shape.length := by
    intro a ha
    obtain ⟨b, hb, rfl⟩ := List.mem_map.mp ha
    have h1 := hnonneg b
    have h2 := hrange b hb
    exact ⟨h1, by omega⟩
  obtain ⟨out, hrun, hlen, hkeep, hnew⟩ := slice_loop (axes.map (sliceAxis shape.length))
    starts ends shape (by simpa using hls) (by simpa using hle) hr hnd
    (axes.map (sliceAxis shape.length)).length (le_refl _)
  refine ⟨out, ?_, hlen, ?_, ?_⟩
  · unfold paddle.dialect.SliceOpInferSymbolicShape
    simp only [hsrc, hst, hen, hres, hrsrc, hrst, hren, hstd, hend, bind, Except.bind, optValue,
      slice_axes_eq op.attributes (.Tensor ⟨shape, none⟩) shape axes hattr rfl, slice_literals_eq,
      tensor_data_eq, Option.isSome_none, Bool.false_eq_true, if_false,
      paddle.dialect.SliceOpInferSymbolicShape.GetShapeDimExprs, tensor_shape_eq,
      hrun, pure, Except.pure]
  · intro j hj
    apply hkeep
    intro i _ hc
    obtain ⟨b, hb, hbe⟩ := List.mem_map.mp (List.getElem?_mem hc)
    exact hj b hb hbe
  · intro i a s e D hai hsi hei hDi
    have hi : i < axes.length := by
      rcases List.getElem?_eq_some_iff.mp hai with ⟨h, _⟩
      exact h
    exact hnew i (sliceAxis shape.length a) s e D (by simpa using hi)
      (by simp [List.getElem?_map, hai]) hsi hei hDi

/-- C9: in shape mode (the source record has no data) the paddle-dialect slice succeeds and
writes a shape-only record whose shape has the source rank, equals the source shape at
every axis not listed, and at the i-th listed axis (negative axes normalised as
`max(0, axis + rank)`) holds the dimension computed from the literal start `s`, literal end
`e` and original dimension `D` by the sign case split of the claim, with an end equal to
`INT32_MAX` read as `D`. The listed axes are in range and pairwise distinct. -/
theorem C9_slice_shape_mode (op : Operation) (sa : ShapeConstraintIRAnalysis)
    (src st en res : Value) (rst ren : ShapeOrDataDimExprs) (shape : List DimExpr)
    (axes starts ends : List Int)
    (hsrc : op.operand_source 0 = .ok src) (hst : op.operand_source 1 = .ok st)
    (hen : op.operand_source 2 = .ok en) (hres : op.result 0 = .ok res)
    (hrsrc : sa.GetShapeOrDataForValue src = .ok (.Tensor ⟨shape, none⟩))
    (hrst : sa.GetShapeOrDataForValue st = .ok rst)
    (hstd : rst.data = .ok (some (starts.map DimExpr.Int64)))
    (hren : sa.GetShapeOrDataForValue en = .ok ren)
    (hend : ren.data = .ok (some (ends.map DimExpr.Int64)))
    (hattr : op.attributes.lookup "axes" = some (.Array (axes.map Attribute.Int64)))
    (hls : axes.length ≤ starts.length) (hle : axes.length ≤ ends.length)
    (hrange : ∀ a ∈ axes, sliceAxis shape.length a < (shape.length : Int))
    (hnd : (axes.map (sliceAxis shape.length)).Nodup) :
    ∃ out : List DimExpr,
      paddle.dialect.SliceOpInferSymbolicShape op sa =
        .ok (sa.SetShapeOrDataForValue res (.Tensor ⟨out, none⟩))
      ∧ out.length = shape.length
      ∧ (∀ j : Nat, (∀ a ∈ axes, sliceAxis shape.length a ≠ (j : Int)) → out[j]? = shape[j]?)
      ∧ (∀ (i : Nat) (a s e : Int) (D : DimExpr), axes[i]? = some a → starts[i]? = some s →
          ends[i]? = some e → shape[(sliceAxis shape.length a).toNat]? = some D →
          out[(sliceAxis shape.length a).toNat]? = some (sliceDim s e D))
      ∧ (∀ (s e : Int) (D : DimExpr),
          ((0 ≤ s ∧ 0 ≤ e) ∨ (s ≤ 0 ∧ e ≤ 0) →
            sliceDim s e D = (if e = INT32_MAX then D else DimExpr.Int64 e) - DimExpr.Int64 s)
          ∧ (s < 0 ∧ 0 < e →
            sliceDim s e D = (if e = INT32_MAX then D else DimExpr.Int64 e) - DimExpr.Int64 s - D)
          ∧ (0 < s ∧ e < 0 →
            sliceDim s e D = D - DimExpr.Int64 s + (if e = INT32_MAX then D else DimExpr.Int64 e))) := by
  obtain ⟨out, h1, h2, h3, h4⟩ := slice_shape_mode op sa src st en res rst ren shape axes starts
    ends hsrc hst hen hres hrsrc hrst hstd hren hend hattr hls hle hrange hnd
  refine ⟨out, h1, h2, h3, h4, ?_⟩
  intro s e D
  refine ⟨?_, ?_, ?_⟩
  · intro h
    simp only [sliceDim, if_pos h]
  · intro h
    have hn : ¬ ((0 ≤ s ∧ 0 ≤ e) ∨ (s ≤ 0 ∧ e ≤ 0)) := by
      rintro (⟨h1, _⟩ | ⟨_, h2⟩) <;> omega
    simp only [sliceDim, if_neg hn, if_pos h]
  · intro h
    have hn : ¬ ((0 ≤ s ∧ 0 ≤ e) ∨ (s ≤ 0 ∧ e ≤ 0)) := by
      rintro (⟨_, h2⟩ | ⟨h1, _⟩) <;> omega
    have hn2 : ¬ (s < 0 ∧ 0 < e) := by
      rintro ⟨h1, _⟩; omega
    simp only [sliceDim, if_neg hn, if_neg hn2, if_pos h]

/-- Instance of C9: shape `[S0, 10]` sliced along axis `-1` from 2 to 7 gives `[S0, 5]`. -/
theorem C9_slice_shape_mode_witness :
    ∃ out : List DimExpr,
      paddle.dialect.SliceOpInferSymbolicShape Instances.sliceLastAxisOp
          Instances.sliceLastAxisContext =
        .ok (Instances.sliceLastAxisContext.SetShapeOrDataForValue (Instances.inputValue 3 [-1, 5])
          (.Tensor ⟨out, none⟩))
      ∧ out.length = 2
      ∧ out[0]? = some (DimExpr.Symbol "S0")
      ∧ out[1]? = some (DimExpr.Int64 5) := by
  obtain ⟨out, h1, h2, h3, h4, _⟩ := C9_slice_shape_mode Instances.sliceLastAxisOp
    Instances.sliceLastAxisContext (Instances.inputValue 0 [-1, 10]) (Instances.intArrayValue 1 [1])
    (Instances.intArrayValue 2 [1]) (Instances.inputValue 3 [-1, 5]) (Instances.intArrayRecord [2])
    (Instances.intArrayRecord [7]) [DimExpr.Symbol "S0", DimExpr.Int64 10] [-1] [2] [7]
    (by rfl) (by rfl) (by rfl) (by rfl) (by rfl) (by rfl) (by rfl) (by rfl) (by rfl) (by rfl)
    (by decide) (by decide) (by decide) (by decide)
  have e := h4 0 (-1) 2 7 (DimExpr.Int64 10) (by decide) (by decide) (by decide) (by decide)
  have e1 : (sliceAxis [DimExpr.Symbol "S0", DimExpr.Int64 10].length (-1)).toNat = 1 := by decide
  have e2 : sliceDim 2 7 (DimExpr.Int64 10) = DimExpr.Int64 5 := by decide
  rw [e1, e2] at e
  exact ⟨out, h1, h2, h3 0 (by decide), e⟩

/-- C10: for a literal dimension `d` and `0 < k ≤ d`, the paddle-dialect slice in shape mode
on a source of shape `[d]` with axes `[0]`, start `-k` and end `INT32_MAX` writes the
result shape `[k]`. -/
theorem C10_tail_slice (op : Operation) (sa : ShapeConstraintIRAnalysis)
    (src st en res : Value) (rst ren : ShapeOrDataDimExprs) (d k : Int)
    (hsrc : op.operand_source 0 = .ok src) (hst : op.operand_source 1 = .ok st)
    (hen : op.operand_source 2 = .ok en) (hres : op.result 0 = .ok res)
    (hrsrc : sa.GetShapeOrDataForValue src = .ok (.Tensor ⟨[DimExpr.Int64 d], none⟩))
    (hrst : sa.GetShapeOrDataForValue st = .ok rst)
    (hstd : rst.data = .ok (some [DimExpr.Int64 (-k)]))
    (hren : sa.GetShapeOrDataForValue en = .ok ren)
    (hend : ren.data = .ok (some [DimExpr.Int64 INT32_MAX]))
    (hattr : op.attributes.lookup "axes" = some (.Array [Attribute.Int64 0]))
    (hk : 0 < k) (_hkd : k ≤ d) :
    paddle.dialect.SliceOpInferSymbolicShape op sa =
      .ok (sa.SetShapeOrDataForValue res (.Tensor ⟨[DimExpr.Int64 k], none⟩)) := by
  obtain ⟨out, h1, h2, _, h4⟩ := slice_shape_mode op sa src st en res rst ren [DimExpr.Int64 d]
    [0] [-k] [INT32_MAX] hsrc hst hen hres hrsrc hrst hstd hren hend hattr
    (by simp) (by simp) (by simp [sliceAxis]) (by simp)
  have h0 := h4 0 0 (-k) INT32_MAX (DimExpr.Int64 d) rfl rfl rfl rfl
  have hax : (sliceAxis [DimExpr.Int64 d].length 0).toNat = 0 := by simp [sliceAxis]
  rw [hax] at h0
  have hdim : sliceDim (-k) INT32_MAX (DimExpr.Int64 d) = DimExpr.Int64 k := by
    have hpos : (0 : Int) < INT32_MAX := by decide
    have hn : ¬ ((0 ≤ -k ∧ 0 ≤ INT32_MAX) ∨ (-k ≤ 0 ∧ INT32_MAX ≤ 0)) := by
      rintro (⟨h, _⟩ | ⟨_, h⟩) <;> omega
    have hp : -k < 0 ∧ 0 < INT32_MAX := ⟨by omega, hpos⟩
    simp only [sliceDim, if_neg hn, if_pos hp, if_true, minus_literals]
    congr 1
    omega
  rw [hdim] at h0
  have hout : out = [DimExpr.Int64 k] := by
    match out, h2, h0 with
    | [x], _, h0 => simpa using h0
  rw [h1, hout]

/-- Instance of C10: shape `[10]`, start `-3`, end `INT32_MAX` gives `[3]`. -/
theorem C10_tail_slice_witness :
    paddle.dialect.SliceOpInferSymbolicShape Instances.sliceOp
        (Instances.sliceContext (-3) INT32_MAX) =
      .ok ((Instances.sliceContext (-3) INT32_MAX).SetShapeOrDataForValue
        (Instances.inputValue 3 [3]) (Instances.staticTensor [3])) :=
  C10_tail_slice Instances.sliceOp (Instances.sliceContext (-3) INT32_MAX)
    (Instances.inputValue 0 [10]) (Instances.intArrayValue 1 [1]) (Instances.intArrayValue 2 [1])
    (Instances.inputValue 3 [3]) (Instances.intArrayRecord [-3])
    (Instances.intArrayRecord [INT32_MAX]) 10 3
    (by rfl) (by rfl) (by rfl) (by rfl) (by rfl) (by rfl) (by rfl) (by rfl) (by rfl) (by rfl)
    (by decide) (by decide)

/-! ## Slice, data mode and symbolic bounds -/

theorem mapM_ok_of_forall {α β : Type} (f : α → Except Error β) (g : α → β) (l : List α)
    (h : ∀ a ∈ l, f a = .ok (g a)) : l.mapM f = .ok (l.map g) := by
  induction l with
  | nil => rfl
  | cons a l ih =>
    rw [List.mapM_cons, h a (List.mem_cons_self a l),
      ih (fun b hb => h b (List.mem_cons_of_mem a hb))]
    rfl

theorem range_map_drop_take {α : Type} (v : List α) (d : α) (s n : Nat) (h : s + n ≤ v.length) :
    (List.range n).map (fun k => v.getD (s + k) d) = (v.drop s).take n := by
  apply List.ext_getElem
  · simp; omega
  · intro i h1 h2
    simp at h1
    simp [List.getD_eq_getElem?_getD, List.getElem?_eq_getElem (show s + i < v.length by omega)]

theorem slice_data_dim_exprs (shape v : List DimExpr) (s e : Int) (starts ends : List Int)
    (h0 : 0 ≤ s) (hse : s ≤ e) (hev : e ≤ (v.length : Int)) :
    paddle.dialect.SliceOpInferSymbolicShape.GetDataDimExprs (.Tensor ⟨shape, some v⟩)
      (s :: starts) (e :: ends) =
    .ok (.Tensor ⟨[DimExpr.Int64 (e - s)], some ((v.drop s.toNat).take (e - s).toNat)⟩) := by
  unfold paddle.dialect.SliceOpInferSymbolicShape.GetDataDimExprs
  have hlen : (((v.drop s.toNat).take (e - s).toNat).length : Int) = e - s := by
    simp; omega
  simp only [vecAt, List.getElem?_cons_zero, bind, Except.bind, pure, Except.pure]
  rw [mapM_ok_of_forall _ (fun k => v.getD (s.toNat + k) (DimExpr.Int64 0))]
  · simp only []
    rw [range_map_drop_take v _ s.toNat (e - s).toNat (by omega)]
    simp only [hlen]
  · intro k hk
    rw [List.mem_range] at hk
    have hlt : (s + (k : Int)).toNat < v.length := by omega
    have hidx : (s + (k : Int)).toNat = s.toNat + k := by omega
    simp only [ShapeOrDataDimExprs.data, optValue,
      vecAtInt_of_lt v (s + (k : Int)) (by omega) hlt]
    simp [hidx, List.getD_eq_getElem?_getD, List.getElem?_eq_getElem (hidx ▸ hlt)]

/-- C11: in data mode (the source record carries data `v`), for a literal first start `s`
and first end `e` with `0 ≤ s ≤ e ≤ len v`, the paddle-dialect slice succeeds and writes
the record whose data is the contiguous sub-sequence `v[s], ..., v[e-1]` and whose shape is
`[literal (e - s)]`. -/
theorem C11_slice_data_mode (op : Operation) (sa : ShapeConstraintIRAnalysis)
    (src st en res : Value) (rst ren : ShapeOrDataDimExprs) (shape v : List DimExpr)
    (s e : Int) (axes starts ends : List Int)
    (hsrc : op.operand_source 0 = .ok src) (hst : op.operand_source 1 = .ok st)
    (hen : op.operand_source 2 = .ok en) (hres : op.result 0 = .ok res)
    (hrsrc : sa.GetShapeOrDataForValue src = .ok (.Tensor ⟨shape, some v⟩))
    (hrst : sa.GetShapeOrDataForValue st = .ok rst)
    (hstd : rst.data = .ok (some ((s :: starts).map DimExpr.Int64)))
    (hren : sa.GetShapeOrDataForValue en = .ok ren)
    (hend : ren.data = .ok (some ((e :: ends).map DimExpr.Int64)))
    (hattr : op.attributes.lookup "axes" = some (.Array (axes.map Attribute.Int64)))
    (h0 : 0 ≤ s) (hse : s ≤ e) (hev : e ≤ (v.length : Int)) :
    paddle.dialect.SliceOpInferSymbolicShape op sa =
      .ok (sa.SetShapeOrDataForValue res
        (.Tensor ⟨[DimExpr.Int64 (e - s)], some ((v.drop s.toNat).take (e - s).toNat)⟩))
    ∧ ((v.drop s.toNat).take (e - s).toNat).length = (e - s).toNat
    ∧ ∀ k : Nat, k < (e - s).toNat →
        ((v.drop s.toNat).take (e - s).toNat)[k]? = v[s.toNat + k]? := by
  refine ⟨?_, ?_, ?_⟩
  · unfold paddle.dialect.SliceOpInferSymbolicShape
    simp only [hsrc, hst, hen, hres, hrsrc, hrst, hren, hstd, hend, bind, Except.bind, optValue,
      slice_axes_eq op.attributes (.Tensor ⟨shape, some v⟩) shape axes hattr rfl,
      slice_literals_eq, tensor_data_eq, Option.isSome_some, if_true,
      slice_data_dim_exprs shape v s e starts ends h0 hse hev, pure, Except.pure]
  · simp; omega
  · intro k hk
    rw [List.getElem?_take_of_lt hk, List.getElem?_drop]

/-- Instance of C11: data `[S0, 3, S1, 7]` sliced from 1 to 3 gives data `[3, S1]` and shape
`[2]`. -/
theorem C11_slice_data_mode_witness :
    paddle.dialect.SliceOpInferSymbolicShape Instances.sliceDataOp Instances.sliceDataContext =
      .ok (Instances.sliceDataContext.SetShapeOrDataForValue (Instances.inputValue 3 [2])
        (.Tensor ⟨[DimExpr.Int64 2], some [DimExpr.Int64 3, DimExpr.Symbol "S1"]⟩)) :=
  (C11_slice_data_mode Instances.sliceDataOp Instances.sliceDataContext
    ⟨0, [4], some ⟨"pd_op.shape", []⟩⟩ (Instances.intArrayValue 1 [1])
    (Instances.intArrayValue 2 [1]) (Instances.inputValue 3 [2]) (Instances.intArrayRecord [1])
    (Instances.intArrayRecord [3]) [DimExpr.Int64 4]
    [DimExpr.Symbol "S0", DimExpr.Int64 3, DimExpr.Symbol "S1", DimExpr.Int64 7] 1 3 [0] [] []
    (by rfl) (by rfl) (by rfl) (by rfl) (by rfl) (by rfl) (by rfl) (by rfl) (by rfl) (by rfl)
    (by decide) (by decide) (by decide)).1.trans (by rfl)

theorem slice_literals_error (items : List DimExpr) (h : ∃ x ∈ items, x.isInt64 = false) :
    paddle.dialect.SliceOpInferSymbolicShape.literals items = .error .UnsupportedDynamicOperand := by
  unfold paddle.dialect.SliceOpInferSymbolicShape.literals
  induction items with
  | nil => obtain ⟨x, hx, _⟩ := h; simp at hx
  | cons a l ih =>
    rw [List.mapM_cons]
    cases a with
    | Int64 v =>
      obtain ⟨x, hx, hxl⟩ := h
      rcases List.mem_cons.mp hx with rfl | hmem
      · simp [DimExpr.isInt64] at hxl
      · rw [ih ⟨x, hmem, hxl⟩]; rfl
    | _ => rfl

theorem slice_literals_cases (items : List DimExpr) :
    (∃ vals, paddle.dialect.SliceOpInferSymbolicShape.literals items = .ok vals) ∨
    paddle.dialect.SliceOpInferSymbolicShape.literals items = .error .UnsupportedDynamicOperand := by
  by_cases h : ∃ x ∈ items, x.isInt64 = false
  · exact Or.inr (slice_literals_error items h)
  · left
    refine ⟨items.map (fun x => match x with | .Int64 v => v | _ => 0), ?_⟩
    unfold paddle.dialect.SliceOpInferSymbolicShape.literals
    apply mapM_ok_of_forall
    intro a ha
    cases a with
    | Int64 v => rfl
    | _ => exact absurd ⟨_, ha, rfl⟩ h

/-- C12: when some element of the data of the starts operand or of the ends operand is not
a literal integer, the paddle-dialect slice fails, whatever the source record is (data
mode or shape mode); a failing rule returns no context, so no record is written. When the
operands, the source record and the `axes` attribute are well formed, the failure is the
enforced `UnsupportedDynamicOperand`. -/
theorem C12_slice_rejects_symbolic_bounds (op : Operation) (sa : ShapeConstraintIRAnalysis)
    (st en : Value) (rst ren : ShapeOrDataDimExprs) (sd ed : List DimExpr)
    (hst : op.operand_source 1 = .ok st) (hen : op.operand_source 2 = .ok en)
    (hrst : sa.GetShapeOrDataForValue st = .ok rst) (hstd : rst.data = .ok (some sd))
    (hren : sa.GetShapeOrDataForValue en = .ok ren) (hend : ren.data = .ok (some ed))
    (hbad : (∃ x ∈ sd, x.isInt64 = false) ∨ (∃ x ∈ ed, x.isInt64 = false)) :
    (∃ err, paddle.dialect.SliceOpInferSymbolicShape op sa = .error err)
    ∧ ∀ (src res : Value) (rsrc : ShapeOrDataDimExprs) (shape : List DimExpr) (axes : List Int),
        op.operand_source 0 = .ok src → op.result 0 = .ok res →
        sa.GetShapeOrDataForValue src = .ok rsrc → rsrc.shape = .ok shape →
        op.attributes.lookup "axes" = some (.Array (axes.map Attribute.Int64)) →
        paddle.dialect.SliceOpInferSymbolicShape op sa = .error .UnsupportedDynamicOperand := by
  have hlit : ∀ rest : List Int → List Int → Except Error ShapeConstraintIRAnalysis,
      ∃ err, (do
        let starts ← paddle.dialect.SliceOpInferSymbolicShape.literals sd
        let ends ← paddle.dialect.SliceOpInferSymbolicShape.literals ed
        rest starts ends) = .error err
      ∧ ((do
        let starts ← paddle.dialect.SliceOpInferSymbolicShape.literals sd
        let ends ← paddle.dialect.SliceOpInferSymbolicShape.literals ed
        rest starts ends) = .error .UnsupportedDynamicOperand) := by
    intro rest
    rcases slice_literals_cases sd with ⟨vals, hv⟩ | hv
    · rcases hbad with hb | hb
      · rw [slice_literals_error sd hb] at hv; cases hv
      · refine ⟨.UnsupportedDynamicOperand, ?_, ?_⟩ <;>
          simp [hv, slice_literals_error ed hb, bind, Except.bind]
    · refine ⟨.UnsupportedDynamicOperand, ?_, ?_⟩ <;> simp [hv, bind, Except.bind]
  constructor
  · unfold paddle.dialect.SliceOpInferSymbolicShape
    cases h0 : op.operand_source 0 with
    | error e => exact ⟨e, by simp [bind, Except.bind, h0]⟩
    | ok src =>
      cases h1 : op.result 0 with
      | error e => exact ⟨e, by simp [bind, Except.bind, h0, h1, hst, hen]⟩
      | ok res =>
        cases h2 : sa.GetShapeOrDataForValue src with
        | error e => exact ⟨e, by simp [bind, Except.bind, h0, h1, h2, hst, hen]⟩
        | ok rsrc =>
          cases h3 : paddle.dialect.SliceOpInferSymbolicShape.axes op.attributes rsrc with
          | error e =>
            exact ⟨e, by simp [bind, Except.bind, h0, h1, h2, h3, hst, hen, hrst, hren]⟩
          | ok axes =>
            obtain ⟨err, herr, _⟩ := hlit (fun starts ends => do
              let has_data := (← rsrc.data).isSome
              let shape_data ←
                if has_data then
                  paddle.dialect.SliceOpInferSymbolicShape.GetDataDimExprs rsrc starts ends
                else
                  paddle.dialect.SliceOpInferSymbolicShape.GetShapeDimExprs rsrc rst ren axes
                    starts ends
              pure (sa.SetShapeOrDataForValue res shape_data))
            refine ⟨err, ?_⟩
            simp only [bind, Except.bind, h0, h1, h2, h3, hst, hen, hrst, hren, hstd, hend,
              optValue] at herr ⊢
            exact herr
  · intro src res rsrc shape axes h0 h1 h2 hshape hattr
    unfold paddle.dialect.SliceOpInferSymbolicShape
    obtain ⟨_, _, herr⟩ := hlit (fun starts ends => do
      let has_data := (← rsrc.data).isSome
      let shape_data ←
        if has_data then
          paddle.dialect.SliceOpInferSymbolicShape.GetDataDimExprs rsrc starts ends
        else
          paddle.dialect.SliceOpInferSymbolicShape.GetShapeDimExprs rsrc rst ren
            (axes.map (sliceAxis shape.length)) starts ends
      pure (sa.SetShapeOrDataForValue res shape_data))
    simp only [bind, Except.bind, slice_axes_eq op.attributes rsrc shape axes hattr hshape,
      h0, h1, h2, hst, hen, hrst, hren, hstd, hend, optValue] at herr ⊢
    exact herr

/-- Instance of C12: a slice whose start is the symbol `S0` fails. -/
theorem C12_slice_rejects_symbolic_bounds_witness :
    paddle.dialect.SliceOpInferSymbolicShape Instances.sliceOp
      Instances.sliceSymbolicStartContext = .error .UnsupportedDynamicOperand :=
  (C12_slice_rejects_symbolic_bounds Instances.sliceOp Instances.sliceSymbolicStartContext
    (Instances.intArrayValue 1 [1]) (Instances.intArrayValue 2 [1])
    (.Tensor ⟨[DimExpr.Int64 1], some [DimExpr.Symbol "S0"]⟩) (Instances.intArrayRecord [5])
    [DimExpr.Symbol "S0"] [DimExpr.Int64 5] (by rfl) (by rfl) (by rfl) (by rfl) (by rfl) (by rfl)
    (Or.inl ⟨DimExpr.Symbol "S0", by simp, rfl⟩)).2
    (Instances.inputValue 0 [10]) (Instances.inputValue 3 [3]) (Instances.staticTensor [10])
    [DimExpr.Int64 10] [0] (by rfl) (by rfl) (by rfl) (by rfl) (by rfl)

/-! ## Squeeze -/

theorem squeeze_output_eq (in_dims : List DimExpr) (should : List Bool)
    (hlen : should.length = in_dims.length) :
    paddle.dialect.SqueezeOpInferSymbolicShape.output_shape_sym in_dims should =
      .ok (in_dims.enum.flatMap (fun p => if should.getD p.1 false then [] else [p.2])) := by
  unfold paddle.dialect.SqueezeOpInferSymbolicShape.output_shape_sym
  rw [foldlM_range_collect in_dims.length _
    (fun i => if should.getD i false then [] else [in_dims.getD i (DimExpr.Int64 0)])]
  · rw [range_flatMap_getD_enum (fun i e => if should.getD i false then [] else [e])]
    simp
  · intro acc i hi
    have his : i < should.length := hlen ▸ hi
    simp only [vecAt_of_lt should i his, vecAt_of_lt in_dims i hi, bind, Except.bind,
      List.getD_eq_getElem?_getD, List.getElem?_eq_getElem his, List.getElem?_eq_getElem hi,
      Option.getD_some]
    cases should[i] <;> simp [pure, Except.pure]

theorem vecSet_of_lt {α : Type} (v : List α) (i : Nat) (a : α) (h : i < v.length) :
    vecSet v i a = .ok (v.set i a) := by
  simp [vecSet, h]

theorem squeeze_markOnes_loop (in_dims : List DimExpr) (k : Nat) (hk : k ≤ in_dims.length) :
    (List.range k).foldlM (fun should_squeeze (i : Nat) => do
      if (← vecAt in_dims i) = 1 then vecSet should_squeeze i true
      else pure should_squeeze) (List.replicate in_dims.length false)
    = .ok ((in_dims.take k).map (fun d => decide (d = DimExpr.Int64 1))
        ++ List.replicate (in_dims.length - k) false) := by
  induction k with
  | zero => simp [pure, Except.pure]
  | succ k ih =>
    have hlt : k < in_dims.length := hk
    rw [List.range_succ, List.foldlM_append, ih (Nat.le_of_lt hlt)]
    simp only [bind, Except.bind, List.foldlM_cons, List.foldlM_nil, vecAt_of_lt in_dims k hlt,
      DimExpr_one_eq, pure, Except.pure]
    have hsplit : List.replicate (in_dims.length - k) false
        = false :: List.replicate (in_dims.length - (k + 1)) false := by
      rw [← List.replicate_succ]; congr 1; omega
    have htake : in_dims.take (k + 1) = in_dims.take k ++ [in_dims[k]] := by
      rw [List.take_succ, List.getElem?_eq_getElem hlt]; rfl
    have hlenk : ((in_dims.take k).map (fun d => decide (d = DimExpr.Int64 1))).length = k := by
      simp; omega
    by_cases h1 : in_dims[k] = DimExpr.Int64 1
    · rw [if_pos h1, vecSet_of_lt _ _ _ (by simp; omega)]
      simp only [hsplit, htake, List.map_append, List.map_cons, List.map_nil, h1, decide_True,
        List.append_assoc, List.singleton_append]
      rw [List.set_append_right _ _ (by omega), hlenk]
      simp
    · rw [if_neg h1]
      simp only [hsplit, htake, List.map_append, List.map_cons, List.map_nil, h1, decide_False,
        List.append_assoc, List.singleton_append]

theorem squeeze_markOnes_eq (in_dims : List DimExpr) :
    paddle.dialect.SqueezeOpInferSymbolicShape.markOnes in_dims
      (List.replicate in_dims.length false)
    = .ok (in_dims.map (fun d => decide (d = DimExpr.Int64 1))) := by
  unfold paddle.dialect.SqueezeOpInferSymbolicShape.markOnes
  rw [squeeze_markOnes_loop in_dims in_dims.length (le_refl _)]
  simp

theorem enum_flatMap_filter {α : Type} (l : List (Nat × α)) (c : Nat × α → Bool) :
    l.flatMap (fun p => if c p then [] else [p.2]) = (l.filter (fun p => !c p)).map Prod.snd := by
  induction l with
  | nil => rfl
  | cons a l ih =>
    rw [List.flatMap_cons, ih]
    cases h : c a <;> simp [List.filter, h]

theorem squeeze_rule_unfold (op : Operation) (sa : ShapeConstraintIRAnalysis)
    (x ax : Value) (rx rax : TensorShapeOrDataDimExprs)
    (hnum : op.operands.length = 2)
    (hx : op.operand_source 0 = .ok x) (hax : op.operand_source 1 = .ok ax)
    (hrx : sa.GetShapeOrDataForValue x = .ok (.Tensor rx))
    (hrax : sa.GetShapeOrDataForValue ax = .ok (.Tensor rax)) :
    paddle.dialect.SqueezeOpInferSymbolicShape op sa =
      (paddle.dialect.SqueezeOpInferSymbolicShape.squeeze_dims (dataOrShape rax)).bind
        (fun squeeze_dims =>
          (if squeeze_dims.length = 0 then
            paddle.dialect.SqueezeOpInferSymbolicShape.markOnes (dataOrShape rx)
              (List.replicate (dataOrShape rx).length false)
          else squeeze_dims.foldlM
            (paddle.dialect.SqueezeOpInferSymbolicShape.markAxis (dataOrShape rx))
            (List.replicate (dataOrShape rx).length false)).bind
          (fun should_squeeze =>
            (paddle.dialect.SqueezeOpInferSymbolicShape.output_shape_sym (dataOrShape rx)
              should_squeeze).bind
            (fun output_shape_sym => (op.result 0).bind
              (fun res => .ok (sa.SetShapeOrDataForValue res
                (.Tensor ⟨output_shape_sym, none⟩)))))) := by
  unfold paddle.dialect.SqueezeOpInferSymbolicShape
  obtain ⟨xs, xd⟩ := rx
  obtain ⟨as, ad⟩ := rax
  cases xd <;> cases ad <;>
    simp only [hnum, hx, hax, hrx, hrax, bind, Except.bind, ne_eq, not_true_eq_false, if_false,
      ShapeOrDataDimExprs.data, ShapeOrDataDimExprs.shape, dataOrShape, pure, Except.pure] <;>
    (split <;> first | rfl | (split_ifs <;> rfl))

theorem flatMap_drop_ones (l : List DimExpr) :
    l.flatMap (fun (d : DimExpr) => if d = DimExpr.Int64 1 then [] else [d])
    = l.filter (fun d => decide (d ≠ DimExpr.Int64 1)) := by
  induction l with
  | nil => rfl
  | cons a l ih =>
    rw [List.flatMap_cons, ih]
    by_cases ha : a = DimExpr.Int64 1 <;> simp [List.filter, ha]

theorem squeeze_ones_output (in_dims : List DimExpr) :
    in_dims.enum.flatMap (fun p =>
      if (in_dims.map (fun d => decide (d = DimExpr.Int64 1))).getD p.1 false then [] else [p.2])
    = in_dims.filter (fun d => decide (d ≠ DimExpr.Int64 1)) := by
  have h1 : in_dims.enum.flatMap (fun p =>
      if (in_dims.map (fun d => decide (d = DimExpr.Int64 1))).getD p.1 false then [] else [p.2])
      = in_dims.enum.flatMap (fun p => if p.2 = DimExpr.Int64 1 then [] else [p.2]) := by
    apply List.flatMap_congr
    rintro ⟨i, x⟩ hx
    have hget := List.mk_mem_enum_iff_getElem?.mp hx
    simp [List.getD_eq_getElem?_getD, List.getElem?_map, hget]
  rw [h1]
  have h2 := List.flatMap_map Prod.snd
    (fun (d : DimExpr) => if d = DimExpr.Int64 1 then [] else [d]) in_dims.enum
  rw [List.enum_map_snd] at h2
  rw [← h2, flatMap_drop_ones]

/-- C13: with an empty axes list, squeeze succeeds and writes the input basis with exactly
the entries equal to literal 1 removed, the others kept in order; the result contains no
literal 1 and is a subsequence of the basis. -/
theorem C13_squeeze_no_axes (op : Operation) (sa : ShapeConstraintIRAnalysis)
    (x ax res : Value) (rx rax : TensorShapeOrDataDimExprs)
    (hnum : op.operands.length = 2)
    (hx : op.operand_source 0 = .ok x) (hax : op.operand_source 1 = .ok ax)
    (hres : op.result 0 = .ok res)
    (hrx : sa.GetShapeOrDataForValue x = .ok (.Tensor rx))
    (hrax : sa.GetShapeOrDataForValue ax = .ok (.Tensor rax))
    (hempty : dataOrShape rax = []) :
    paddle.dialect.SqueezeOpInferSymbolicShape op sa =
      .ok (sa.SetShapeOrDataForValue res
        (.Tensor ⟨(dataOrShape rx).filter (fun d => decide (d ≠ DimExpr.Int64 1)), none⟩))
    ∧ DimExpr.Int64 1 ∉ (dataOrShape rx).filter (fun d => decide (d ≠ DimExpr.Int64 1))
    ∧ ((dataOrShape rx).filter (fun d => decide (d ≠ DimExpr.Int64 1))).Sublist (dataOrShape rx)
    ∧ ∀ d ∈ dataOrShape rx, d ≠ DimExpr.Int64 1 →
        d ∈ (dataOrShape rx).filter (fun d => decide (d ≠ DimExpr.Int64 1)) := by
  refine ⟨?_, ?_, List.filter_sublist _, ?_⟩
  · rw [squeeze_rule_unfold op sa x ax rx rax hnum hx hax hrx hrax, hempty]
    simp only [paddle.dialect.SqueezeOpInferSymbolicShape.squeeze_dims, List.mapM_nil, pure,
      Except.pure, Except.bind, List.length_nil, if_true, squeeze_markOnes_eq,
      squeeze_output_eq _ _ (List.length_map _ _), squeeze_ones_output, hres]
  · simp
  · intro d hd hne
    simp [hd, hne]

/-- Instance of C13: shape `[1,4,1,5]` squeezed with no axes gives `[4,5]`. -/
theorem C13_squeeze_no_axes_witness :
    paddle.dialect.SqueezeOpInferSymbolicShape (Instances.squeezeOp "pd_op.squeeze")
        (Instances.squeezeContext [1, 4, 1, 5] []) =
      .ok ((Instances.squeezeContext [1, 4, 1, 5] []).SetShapeOrDataForValue
        (Instances.inputValue 2 []) (Instances.staticTensor [4, 5])) :=
  (C13_squeeze_no_axes (Instances.squeezeOp "pd_op.squeeze")
    (Instances.squeezeContext [1, 4, 1, 5] []) (Instances.inputValue 0 [])
    (Instances.intArrayValue 1 []) (Instances.inputValue 2 [])
    ⟨[DimExpr.Int64 1, DimExpr.Int64 4, DimExpr.Int64 1, DimExpr.Int64 5], none⟩
    ⟨[DimExpr.Int64 0], some []⟩ (by rfl) (by rfl) (by rfl) (by rfl) (by rfl) (by rfl)
    (by rfl)).1.trans (by rfl)

theorem toInt32_of_range (v : Int) (h1 : -2147483648 ≤ v) (h2 : v < 2147483648) :
    toInt32 v = v := by
  unfold toInt32
  omega

theorem squeezeAxis_range (n : Nat) (v : Int) (h1 : -(n : Int) ≤ v) (h2 : v < (n : Int)) :
    0 ≤ squeezeAxis n v ∧ squeezeAxis n v < (n : Int) := by
  unfold squeezeAxis
  split_ifs <;> omega

theorem squeeze_markAxis_eval (in_dims : List DimExpr) (should : List Bool) (v : Int)
    (hlen : should.length = in_dims.length) (hsmall : in_dims.length < 2147483648)
    (h1 : -(in_dims.length : Int) ≤ v) (h2 : v < (in_dims.length : Int)) :
    paddle.dialect.SqueezeOpInferSymbolicShape.markAxis in_dims should (toInt32 v) =
      if should.getD (squeezeAxis in_dims.length v).toNat false then .ok should
      else if in_dims.getD (squeezeAxis in_dims.length v).toNat (DimExpr.Int64 0) = DimExpr.Int64 1
        then .ok (should.set (squeezeAxis in_dims.length v).toNat true)
      else if (in_dims.getD (squeezeAxis in_dims.length v).toNat (DimExpr.Int64 0)).isInt64
        then .ok should
      else .error .UnimplementedOperator := by
  obtain ⟨hc0, hcn⟩ := squeezeAxis_range in_dims.length v h1 h2
  have hv : toInt32 v = v := toInt32_of_range v (by omega) (by omega)
  have hcur : toInt32 (if v < 0 then v + (in_dims.length : Int) else v)
      = squeezeAxis in_dims.length v := by
    unfold squeezeAxis
    split_ifs <;> exact toInt32_of_range _ (by omega) (by omega)
  have hpos : in_dims.length ≠ 0 := by omega
  have hlt : (squeezeAxis in_dims.length v).toNat < in_dims.length := by omega
  have hlts : (squeezeAxis in_dims.length v).toNat < should.length := by omega
  unfold paddle.dialect.SqueezeOpInferSymbolicShape.markAxis
  simp only [hv, hcur, hpos, if_false, bind, Except.bind, vecAtInt_of_lt should _ hc0 hlts,
    vecAtInt_of_lt in_dims _ hc0 hlt, vecSetInt_of_lt should _ true hc0 hlts,
    List.getD_eq_getElem?_getD, List.getElem?_eq_getElem hlt, List.getElem?_eq_getElem hlts,
    Option.getD_some, DimExpr_one_eq, pure, Except.pure]
  cases should[(squeezeAxis in_dims.length v).toNat] <;> simp
  split_ifs <;> simp_all

theorem squeeze_mark_fold (in_dims : List DimExpr) (hsmall : in_dims.length < 2147483648)
    (vals : List Int)
    (hrange : ∀ v ∈ vals, -(in_dims.length : Int) ≤ v ∧ v < (in_dims.length : Int))
    (hlit : ∀ v ∈ vals,
      (in_dims.getD (squeezeAxis in_dims.length v).toNat (DimExpr.Int64 0)).isInt64 = true)
    (should : List Bool) (hlen : should.length = in_dims.length) :
    ∃ final : List Bool,
      (vals.map toInt32).foldlM
        (paddle.dialect.SqueezeOpInferSymbolicShape.markAxis in_dims) should = .ok final
      ∧ final.length = in_dims.length
      ∧ ∀ i : Nat, final.getD i false =
          (should.getD i false ||
            (decide ((i : Int) ∈ vals.map (squeezeAxis in_dims.length)) &&
              decide (in_dims.getD i (DimExpr.Int64 0) = DimExpr.Int64 1))) := by
  induction vals generalizing should with
  | nil => exact ⟨should, rfl, hlen, fun i => by simp⟩
  | cons v rest ih =>
    obtain ⟨h1, h2⟩ := hrange v (List.mem_cons_self v rest)
    have hl := hlit v (List.mem_cons_self v rest)
    obtain ⟨hc0, hcn⟩ := squeezeAxis_range in_dims.length v h1 h2
    have hstep := squeeze_markAxis_eval in_dims should v hlen hsmall h1 h2
    have hstep2 : paddle.dialect.SqueezeOpInferSymbolicShape.markAxis in_dims should (toInt32 v)
        = .ok (if in_dims.getD (squeezeAxis in_dims.length v).toNat (DimExpr.Int64 0)
              = DimExpr.Int64 1
            then should.set (squeezeAxis in_dims.length v).toNat true else should) := by
      rw [hstep]
      by_cases hs : should.getD (squeezeAxis in_dims.length v).toNat false = true
      · rw [if_pos hs]
        by_cases hd : in_dims.getD (squeezeAxis in_dims.length v).toNat (DimExpr.Int64 0)
            = DimExpr.Int64 1
        · rw [if_pos hd]
          congr 1
          apply List.ext_getElem?
          intro j
          rw [List.getElem?_set]
          by_cases hj : (squeezeAxis in_dims.length v).toNat = j
          · subst hj
            have hlts : (squeezeAxis in_dims.length v).toNat < should.length := by
              rw [hlen]; omega
            rw [if_pos rfl, if_pos hlts]
            rw [List.getD_eq_getElem?_getD, List.getElem?_eq_getElem hlts] at hs
            rw [List.getElem?_eq_getElem hlts]
            simpa using hs
          · rw [if_neg hj]
        · rw [if_neg hd]
      · rw [if_neg hs]
        by_cases hd : in_dims.getD (squeezeAxis in_dims.length v).toNat (DimExpr.Int64 0)
            = DimExpr.Int64 1
        · rw [if_pos hd, if_pos hd]
        · rw [if_neg hd, if_neg hd, if_pos hl]
    obtain ⟨final, hrun, hflen, hfinal⟩ := ih
      (fun w hw => hrange w (List.mem_cons_of_mem v hw))
      (fun w hw => hlit w (List.mem_cons_of_mem v hw))
      (if in_dims.getD (squeezeAxis in_dims.length v).toNat (DimExpr.Int64 0) = DimExpr.Int64 1
        then should.set (squeezeAxis in_dims.length v).toNat true else should)
      (by split_ifs <;> simp [hlen])
    refine ⟨final, ?_, hflen, ?_⟩
    · rw [List.map_cons, List.foldlM_cons, hstep2]
      exact hrun
    · intro i
      have hcast : ((squeezeAxis in_dims.length v).toNat : Int) = squeezeAxis in_dims.length v :=
        Int.toNat_of_nonneg hc0
      have hS : (if in_dims.getD (squeezeAxis in_dims.length v).toNat (DimExpr.Int64 0)
            = DimExpr.Int64 1
          then should.set (squeezeAxis in_dims.length v).toNat true else should).getD i false
          = (should.getD i false || (decide ((i : Int) = squeezeAxis in_dims.length v) &&
              decide (in_dims.getD i (DimExpr.Int64 0) = DimExpr.Int64 1))) := by
        by_cases hi : (i : Int) = squeezeAxis in_dims.length v
        · have hi' : (squeezeAxis in_dims.length v).toNat = i := by omega
          have hilt : i < should.length := by rw [hlen]; omega
          have d1 : decide ((i : Int) = squeezeAxis in_dims.length v) = true := decide_eq_true hi
          rw [hi', d1]
          by_cases hd : in_dims.getD i (DimExpr.Int64 0) = DimExpr.Int64 1
          · have d2 : decide (in_dims.getD i (DimExpr.Int64 0) = DimExpr.Int64 1) = true :=
              decide_eq_true hd
            rw [if_pos hd, List.getD_eq_getElem?_getD, List.getElem?_set, if_pos rfl, if_pos hilt,
              d2]
            simp only [Option.getD_some, Bool.and_self, Bool.or_true]
          · have d2 : decide (in_dims.getD i (DimExpr.Int64 0) = DimExpr.Int64 1) = false :=
              decide_eq_false hd
            rw [if_neg hd, d2]
            simp only [Bool.and_false, Bool.or_false]
        · have hi' : (squeezeAxis in_dims.length v).toNat ≠ i := by omega
          have d1 : decide ((i : Int) = squeezeAxis in_dims.length v) = false :=
            decide_eq_false hi
          have hset : (should.set (squeezeAxis in_dims.length v).toNat true).getD i false
              = should.getD i false := by
            rw [List.getD_eq_getElem?_getD, List.getD_eq_getElem?_getD,
              List.getElem?_set_ne hi']
          rw [d1]
          simp only [Bool.false_and, Bool.or_false]
          split_ifs
          · exact hset
          · rfl
      rw [hfinal i, hS, Bool.eq_iff_iff]
      simp only [List.map_cons, List.mem_cons, Bool.or_eq_true, Bool.and_eq_true,
        decide_eq_true_eq]
      tauto

theorem squeeze_dims_literals (vals : List Int) :
    paddle.dialect.SqueezeOpInferSymbolicShape.squeeze_dims (vals.map DimExpr.Int64) =
      .ok (vals.map toInt32) := by
  unfold paddle.dialect.SqueezeOpInferSymbolicShape.squeeze_dims
  induction vals with
  | nil => rfl
  | cons a l ih =>
    rw [List.map_cons, List.mapM_cons, ih]
    rfl

theorem squeeze_dims_error (items : List DimExpr) (h : ∃ x ∈ items, x.isInt64 = false) :
    paddle.dialect.SqueezeOpInferSymbolicShape.squeeze_dims items =
      .error .UnsupportedDynamicOperand := by
  unfold paddle.dialect.SqueezeOpInferSymbolicShape.squeeze_dims
  induction items with
  | nil => obtain ⟨x, hx, _⟩ := h; simp at hx
  | cons a l ih =>
    rw [List.mapM_cons]
    cases a with
    | Int64 v =>
      obtain ⟨x, hx, hxl⟩ := h
      rcases List.mem_cons.mp hx with rfl | hmem
      · simp [DimExpr.isInt64] at hxl
      · rw [ih ⟨x, hmem, hxl⟩]; rfl
    | _ => rfl

theorem squeeze_listed_output (in_dims : List DimExpr) (vals : List Int) (final : List Bool)
    (hfinal : ∀ i : Nat, final.getD i false =
      (decide ((i : Int) ∈ vals.map (squeezeAxis in_dims.length)) &&
        decide (in_dims.getD i (DimExpr.Int64 0) = DimExpr.Int64 1))) :
    in_dims.enum.flatMap (fun p => if final.getD p.1 false then [] else [p.2])
    = squeezeListed in_dims vals := by
  unfold squeezeListed
  rw [← enum_flatMap_filter]
  apply List.flatMap_congr
  rintro ⟨i, d⟩ hp
  have hget := List.mk_mem_enum_iff_getElem?.mp hp
  have hd : in_dims.getD i (DimExpr.Int64 0) = d := by
    rw [List.getD_eq_getElem?_getD, hget]; rfl
  simp only [hfinal i, hd, squeezeRemoved]

theorem squeeze_listed_rule (op : Operation) (sa : ShapeConstraintIRAnalysis)
    (x ax res : Value) (rx rax : TensorShapeOrDataDimExprs) (vals : List Int)
    (hnum : op.operands.length = 2)
    (hx : op.operand_source 0 = .ok x) (hax : op.operand_source 1 = .ok ax)
    (hres : op.result 0 = .ok res)
    (hrx : sa.GetShapeOrDataForValue x = .ok (.Tensor rx))
    (hrax : sa.GetShapeOrDataForValue ax = .ok (.Tensor rax))
    (haxes : dataOrShape rax = vals.map DimExpr.Int64) (hne : vals ≠ [])
    (hsmall : (dataOrShape rx).length < 2147483648)
    (hrange : ∀ v ∈ vals,
      -((dataOrShape rx).length : Int) ≤ v ∧ v < ((dataOrShape rx).length : Int))
    (hlit : ∀ v ∈ vals, ((dataOrShape rx).getD
      (squeezeAxis (dataOrShape rx).length v).toNat (DimExpr.Int64 0)).isInt64 = true) :
    paddle.dialect.SqueezeOpInferSymbolicShape op sa =
      .ok (sa.SetShapeOrDataForValue res
        (.Tensor ⟨squeezeListed (dataOrShape rx) vals, none⟩)) := by
  obtain ⟨final, hrun, hflen, hfinal⟩ := squeeze_mark_fold (dataOrShape rx) hsmall vals hrange
    hlit (List.replicate (dataOrShape rx).length false) (by simp)
  have hfinal2 : ∀ i : Nat, final.getD i false =
      (decide ((i : Int) ∈ vals.map (squeezeAxis (dataOrShape rx).length)) &&
        decide ((dataOrShape rx).getD i (DimExpr.Int64 0) = DimExpr.Int64 1)) := by
    intro i
    rw [hfinal i]
    have : (List.replicate (dataOrShape rx).length false).getD i false = false := by
      rw [List.getD_eq_getElem?_getD, List.getElem?_replicate]
      split_ifs <;> rfl
    rw [this, Bool.false_or]
  have hlen0 : ¬ ((vals.map toInt32).length = 0) := by
    simpa using hne
  rw [squeeze_rule_unfold op sa x ax rx rax hnum hx hax hrx hrax, haxes, squeeze_dims_literals]
  simp only [Except.bind, if_neg hlen0, hrun, squeeze_output_eq _ _ hflen,
    squeeze_listed_output _ vals final hfinal2, hres]

theorem squeezeListed_facts (basis : List DimExpr) (vals : List Int) :
    (squeezeListed basis vals).length + basis.enum.countP (squeezeRemoved basis.length vals)
      = basis.length
    ∧ (squeezeListed basis vals).Sublist basis
    ∧ ∀ (i : Nat) (d : DimExpr), basis[i]? = some d →
        ((i : Int) ∉ vals.map (squeezeAxis basis.length) ∨ d ≠ DimExpr.Int64 1) →
        d ∈ squeezeListed basis vals := by
  refine ⟨?_, ?_, ?_⟩
  · unfold squeezeListed
    have h := List.length_eq_countP_add_countP (squeezeRemoved basis.length vals) basis.enum
    rw [List.length_map, ← List.countP_eq_length_filter]
    have h2 : List.countP (fun p => !squeezeRemoved basis.length vals p) basis.enum
        = List.countP (fun a => decide ¬squeezeRemoved basis.length vals a = true) basis.enum := by
      congr 1
      funext p
      cases squeezeRemoved basis.length vals p <;> simp
    rw [h2]
    simp only [List.enum_length] at h
    omega
  · unfold squeezeListed
    have h := (List.filter_sublist (p := fun p => !squeezeRemoved basis.length vals p)
      basis.enum).map Prod.snd
    rwa [List.enum_map_snd] at h
  · intro i d hget hkeep
    unfold squeezeListed
    rw [List.mem_map]
    refine ⟨(i, d), ?_, rfl⟩
    rw [List.mem_filter]
    refine ⟨List.mk_mem_enum_iff_getElem?.mpr hget, ?_⟩
    unfold squeezeRemoved
    rcases hkeep with h | h <;> simp [h]

/-- C14 (counterexample): squeeze of shape `[2,3]` with the listed axis `0`, whose dimension
is the literal 2, succeeds and writes `[2,3]`: the listed axis is kept and the length is
the rank, not the rank minus one. -/
theorem C14_squeeze_keeps_listed_non_unit_axis :
    paddle.dialect.SqueezeOpInferSymbolicShape (Instances.squeezeOp "pd_op.squeeze")
        (Instances.squeezeContext [2, 3] [0]) =
      .ok ((Instances.squeezeContext [2, 3] [0]).SetShapeOrDataForValue
        (Instances.inputValue 2 []) (Instances.staticTensor [2, 3]))
    ∧ ([DimExpr.Int64 2, DimExpr.Int64 3] : List DimExpr).length ≠ 2 - 1 :=
  ⟨by rfl, by decide⟩

/-- C14 (amended): when squeeze is given a non-empty list of in-range literal axes whose
dimensions are all literals, it succeeds and writes the input basis with every listed axis
(negative axes normalised by adding the rank) whose dimension is the literal 1 removed,
order preserved; a listed axis whose dimension is a literal other than 1 is kept. The
length of the result is the rank minus the number of positions that are listed and hold
the literal 1. -/
theorem C14_squeeze_listed_axes (op : Operation) (sa : ShapeConstraintIRAnalysis)
    (x ax res : Value) (rx rax : TensorShapeOrDataDimExprs) (vals : List Int)
    (hnum : op.operands.length = 2)
    (hx : op.operand_source 0 = .ok x) (hax : op.operand_source 1 = .ok ax)
    (hres : op.result 0 = .ok res)
    (hrx : sa.GetShapeOrDataForValue x = .ok (.Tensor rx))
    (hrax : sa.GetShapeOrDataForValue ax = .ok (.Tensor rax))
    (haxes : dataOrShape rax = vals.map DimExpr.Int64) (hne : vals ≠ [])
    (hsmall : (dataOrShape rx).length < 2147483648)
    (hrange : ∀ v ∈ vals,
      -((dataOrShape rx).length : Int) ≤ v ∧ v < ((dataOrShape rx).length : Int))
    (hlit : ∀ v ∈ vals, ((dataOrShape rx).getD
      (squeezeAxis (dataOrShape rx).length v).toNat (DimExpr.Int64 0)).isInt64 = true) :
    paddle.dialect.SqueezeOpInferSymbolicShape op sa =
      .ok (sa.SetShapeOrDataForValue res
        (.Tensor ⟨squeezeListed (dataOrShape rx) vals, none⟩))
    ∧ (squeezeListed (dataOrShape rx) vals).length
        + (dataOrShape rx).enum.countP (squeezeRemoved (dataOrShape rx).length vals)
      = (dataOrShape rx).length
    ∧ (squeezeListed (dataOrShape rx) vals).Sublist (dataOrShape rx)
    ∧ ∀ (i : Nat) (d : DimExpr), (dataOrShape rx)[i]? = some d →
        ((i : Int) ∉ vals.map (squeezeAxis (dataOrShape rx).length) ∨ d ≠ DimExpr.Int64 1) →
        d ∈ squeezeListed (dataOrShape rx) vals :=
  ⟨squeeze_listed_rule op sa x ax res rx rax vals hnum hx hax hres hrx hrax haxes hne hsmall
    hrange hlit, squeezeListed_facts (dataOrShape rx) vals⟩

/-- Instance of C14 (amended): shape `[1,4,1,5]` with listed axes `[0, 1]` gives `[4,1,5]`:
axis 0 (literal 1) is removed, axis 1 (literal 4) is kept. -/
theorem C14_squeeze_listed_axes_witness :
    paddle.dialect.SqueezeOpInferSymbolicShape (Instances.squeezeOp "pd_op.squeeze")
        (Instances.squeezeContext [1, 4, 1, 5] [0, 1]) =
      .ok ((Instances.squeezeContext [1, 4, 1, 5] [0, 1]).SetShapeOrDataForValue
        (Instances.inputValue 2 []) (Instances.staticTensor [4, 1, 5])) :=
  (C14_squeeze_listed_axes (Instances.squeezeOp "pd_op.squeeze")
    (Instances.squeezeContext [1, 4, 1, 5] [0, 1]) (Instances.inputValue 0 [])
    (Instances.intArrayValue 1 []) (Instances.inputValue 2 [])
    ⟨[DimExpr.Int64 1, DimExpr.Int64 4, DimExpr.Int64 1, DimExpr.Int64 5], none⟩
    ⟨[DimExpr.Int64 2], some [DimExpr.Int64 0, DimExpr.Int64 1]⟩ [0, 1]
    (by rfl) (by rfl) (by rfl) (by rfl) (by rfl) (by rfl) (by rfl) (by decide) (by decide)
    (by decide) (by decide)).1.trans (by rfl)

theorem vecAtInt_ok {α : Type} (v : List α) (i : Int) (a : α) (h : vecAtInt v i = .ok a) :
    0 ≤ i ∧ v[i.toNat]? = some a := by
  unfold vecAtInt at h
  split_ifs at h with hneg
  unfold vecAt at h
  refine ⟨by omega, ?_⟩
  cases hget : v[i.toNat]? with
  | none => rw [hget] at h; cases h
  | some b => rw [hget] at h; cases h; rfl

theorem vecSetInt_ok {α : Type} (v w : List α) (i : Int) (a : α)
    (h : vecSetInt v i a = .ok w) : 0 ≤ i ∧ w = v.set i.toNat a := by
  unfold vecSetInt at h
  split_ifs at h with hc
  cases h
  exact ⟨by omega, rfl⟩

theorem squeeze_markAxis_invariant (in_dims : List DimExpr) (should should2 : List Bool)
    (current : Int)
    (hlen : should.length = in_dims.length)
    (hinv : ∀ i : Nat, should.getD i false = true →
      in_dims.getD i (DimExpr.Int64 0) = DimExpr.Int64 1)
    (h : paddle.dialect.SqueezeOpInferSymbolicShape.markAxis in_dims should current
      = .ok should2) :
    should2.length = in_dims.length ∧
    ∀ i : Nat, should2.getD i false = true →
      in_dims.getD i (DimExpr.Int64 0) = DimExpr.Int64 1 := by
  unfold paddle.dialect.SqueezeOpInferSymbolicShape.markAxis at h
  by_cases h0 : in_dims.length = 0
  · rw [if_pos h0] at h; cases h; exact ⟨hlen, hinv⟩
  · rw [if_neg h0] at h
    dsimp only at h
    generalize toInt32 (if current < 0 then current + (in_dims.length : Int) else current)
      = c at h
    simp only [bind, Except.bind] at h
    cases hs : vecAtInt should c with
    | error e => rw [hs] at h; cases h
    | ok marked =>
      rw [hs] at h
      cases marked with
      | true =>
        simp only [Bool.not_true, Bool.false_eq_true, if_false] at h
        cases h; exact ⟨hlen, hinv⟩
      | false =>
        simp only [Bool.not_false, if_true] at h
        cases hd : vecAtInt in_dims c with
        | error e => rw [hd] at h; cases h
        | ok dim =>
          rw [hd] at h
          obtain ⟨hc0, hget⟩ := vecAtInt_ok _ _ _ hd
          by_cases h1 : dim = 1
          · simp only [h1, if_true] at h
            obtain ⟨_, hw⟩ := vecSetInt_ok _ _ _ _ h
            subst hw
            refine ⟨by simp [hlen], ?_⟩
            intro i hi
            by_cases hic : c.toNat = i
            · subst hic
              rw [List.getD_eq_getElem?_getD, hget, h1]
              rfl
            · apply hinv
              rw [List.getD_eq_getElem?_getD, List.getElem?_set_ne hic] at hi
              rw [List.getD_eq_getElem?_getD]
              exact hi
          · simp only [h1, if_false] at h
            by_cases h2 : (!dim.isInt64) = true
            · simp only [h2, if_true] at h; cases h
            · simp only [h2, if_false] at h
              cases h; exact ⟨hlen, hinv⟩

theorem squeeze_mark_fold_error (in_dims : List DimExpr) (hsmall : in_dims.length < 2147483648)
    (vals : List Int)
    (hbad : ∃ v ∈ vals, -(in_dims.length : Int) ≤ v ∧ v < (in_dims.length : Int) ∧
      (in_dims.getD (squeezeAxis in_dims.length v).toNat (DimExpr.Int64 0)).isInt64 = false)
    (should : List Bool) (hlen : should.length = in_dims.length)
    (hinv : ∀ i : Nat, should.getD i false = true →
      in_dims.getD i (DimExpr.Int64 0) = DimExpr.Int64 1) :
    ∃ err, (vals.map toInt32).foldlM
      (paddle.dialect.SqueezeOpInferSymbolicShape.markAxis in_dims) should = .error err := by
  induction vals generalizing should with
  | nil => obtain ⟨v, hv, _⟩ := hbad; simp at hv
  | cons v rest ih =>
    rw [List.map_cons, List.foldlM_cons]
    cases hm : paddle.dialect.SqueezeOpInferSymbolicShape.markAxis in_dims should (toInt32 v) with
    | error e => exact ⟨e, rfl⟩
    | ok should2 =>
      obtain ⟨hlen2, hinv2⟩ := squeeze_markAxis_invariant in_dims should should2 _ hlen hinv hm
      obtain ⟨w, hw, hw1, hw2, hw3⟩ := hbad
      rcases List.mem_cons.mp hw with rfl | hmem
      · exfalso
        rw [squeeze_markAxis_eval in_dims should w hlen hsmall hw1 hw2] at hm
        have hnot1 : in_dims.getD (squeezeAxis in_dims.length w).toNat (DimExpr.Int64 0)
            ≠ DimExpr.Int64 1 := by
          intro hc; rw [hc] at hw3; simp [DimExpr.isInt64] at hw3
        have hns : ¬ (should.getD (squeezeAxis in_dims.length w).toNat false = true) :=
          fun hc => hnot1 (hinv _ hc)
        rw [if_neg hns, if_neg hnot1, hw3] at hm
        simp at hm
      · exact ih ⟨w, hmem, hw1, hw2, hw3⟩ should2 hlen2 hinv2

theorem squeeze_mark_fold_error_exact (in_dims : List DimExpr)
    (hsmall : in_dims.length < 2147483648) (vals : List Int)
    (hrange : ∀ v ∈ vals, -(in_dims.length : Int) ≤ v ∧ v < (in_dims.length : Int))
    (should : List Bool) (hlen : should.length = in_dims.length) (err : Error)
    (h : (vals.map toInt32).foldlM
      (paddle.dialect.SqueezeOpInferSymbolicShape.markAxis in_dims) should = .error err) :
    err = .UnimplementedOperator := by
  induction vals generalizing should with
  | nil => cases h
  | cons v rest ih =>
    rw [List.map_cons, List.foldlM_cons] at h
    obtain ⟨h1, h2⟩ := hrange v (List.mem_cons_self _ _)
    have hrest : ∀ w ∈ rest, -(in_dims.length : Int) ≤ w ∧ w < (in_dims.length : Int) :=
      fun w hw => hrange w (List.mem_cons_of_mem _ hw)
    rw [squeeze_markAxis_eval in_dims should v hlen hsmall h1 h2] at h
    split_ifs at h
    · exact ih hrest should hlen h
    · exact ih hrest _ (by simp [hlen]) h
    · exact ih hrest should hlen h
    · cases h; rfl

/-- C15: squeeze rejects symbolic operands. With both operands recorded as tensors, the
rule fails (an error carries no context, so no result record is written) with
`UnsupportedDynamicOperand` whenever an element of the axes basis is not a literal integer;
and it fails whenever the axes are literals and some listed in-range axis has an input
dimension that is not a literal integer, the error being `UnimplementedOperator` when all
listed axes are in range. -/
theorem C15_squeeze_rejects_symbolic (op : Operation) (sa : ShapeConstraintIRAnalysis)
    (x ax : Value) (rx rax : TensorShapeOrDataDimExprs)
    (hnum : op.operands.length = 2)
    (hx : op.operand_source 0 = .ok x) (hax : op.operand_source 1 = .ok ax)
    (hrx : sa.GetShapeOrDataForValue x = .ok (.Tensor rx))
    (hrax : sa.GetShapeOrDataForValue ax = .ok (.Tensor rax)) :
    ((∃ a ∈ dataOrShape rax, a.isInt64 = false) →
      paddle.dialect.SqueezeOpInferSymbolicShape op sa = .error .UnsupportedDynamicOperand)
    ∧ (∀ vals : List Int, dataOrShape rax = vals.map DimExpr.Int64 →
        (dataOrShape rx).length < 2147483648 →
        (∃ v ∈ vals, -((dataOrShape rx).length : Int) ≤ v ∧ v < ((dataOrShape rx).length : Int) ∧
          ((dataOrShape rx).getD (squeezeAxis (dataOrShape rx).length v).toNat
            (DimExpr.Int64 0)).isInt64 = false) →
        (∃ err, paddle.dialect.SqueezeOpInferSymbolicShape op sa = .error err)
        ∧ ((∀ v ∈ vals,
              -((dataOrShape rx).length : Int) ≤ v ∧ v < ((dataOrShape rx).length : Int)) →
            paddle.dialect.SqueezeOpInferSymbolicShape op sa = .error .UnimplementedOperator)) := by
  refine ⟨?_, ?_⟩
  · intro hbad
    rw [squeeze_rule_unfold op sa x ax rx rax hnum hx hax hrx hrax, squeeze_dims_error _ hbad]
    rfl
  · intro vals haxes hsmall hbad
    have hne : ¬ ((vals.map toInt32).length = 0) := by
      obtain ⟨v, hv, _⟩ := hbad
      cases vals with
      | nil => simp at hv
      | cons a l => simp
    obtain ⟨err, herr⟩ := squeeze_mark_fold_error (dataOrShape rx) hsmall vals hbad
      (List.replicate (dataOrShape rx).length false) (by simp)
      (by
        intro i hi
        rw [List.getD_eq_getElem?_getD, List.getElem?_replicate] at hi
        split_ifs at hi <;> simp at hi)
    have hrule : paddle.dialect.SqueezeOpInferSymbolicShape op sa = .error err := by
      rw [squeeze_rule_unfold op sa x ax rx rax hnum hx hax hrx hrax, haxes,
        squeeze_dims_literals]
      simp only [Except.bind, if_neg hne, herr]
    refine ⟨⟨err, hrule⟩, ?_⟩
    intro hrange
    rw [hrule, squeeze_mark_fold_error_exact (dataOrShape rx) hsmall vals hrange
      (List.replicate (dataOrShape rx).length false) (by simp) err herr]

/-- Instance of C15: on shape `[1, S0]` the axes `[-1]` select the symbolic dimension `S0`
and the rule fails with `UnimplementedOperator`. -/
theorem C15_squeeze_rejects_symbolic_witness :
    paddle.dialect.SqueezeOpInferSymbolicShape (Instances.squeezeOp "pd_op.squeeze")
        (Instances.squeezeSymbolicContext [-1]) = .error .UnimplementedOperator :=
  ((C15_squeeze_rejects_symbolic (Instances.squeezeOp "pd_op.squeeze")
    (Instances.squeezeSymbolicContext [-1]) (Instances.inputValue 0 [])
    (Instances.intArrayValue 1 [])
    ⟨[DimExpr.Int64 1, DimExpr.Symbol "S0"], none⟩
    ⟨[DimExpr.Int64 1], some [DimExpr.Int64 (-1)]⟩
    (by rfl) (by rfl) (by rfl) (by rfl) (by rfl)).2 [-1] (by rfl) (by decide)
    ⟨-1, by decide, by decide, by decide, by rfl⟩).2 (by decide)

/-! ## Concat (paddle dialect) and stack -/

/-- C17 (observed behaviour): concat of shapes `[2,3]` and `[2,5]` on axis 1 writes `[2,8]`,
but on three rank-2 tensors `[2,3]`, `[2,5]`, `[2,1]` the rule calls
`BuildCstrEqForTensorListAlongAxis` with the element index 2 as the axis and reads
`shape()[2]` of a rank-2 shape: it does not succeed. -/
theorem C17_concat_element_index_out_of_range :
    (paddle.dialect.ConcatOpInferSymbolicShape (Instances.concatOp 1)
        (Instances.tensorListContext
          [Instances.staticItem [2, 3], Instances.staticItem [2, 5]])).toOption.map
      (fun analysis => analysis.value_to_shape_or_data.lookup 2)
      = some (some (Instances.staticTensor [2, 8]))
    ∧ paddle.dialect.ConcatOpInferSymbolicShape (Instances.concatOp 1)
        (Instances.tensorListContext [Instances.staticItem [2, 3], Instances.staticItem [2, 5],
          Instances.staticItem [2, 1]]) = .error .OutOfRange :=
  ⟨by rfl, by rfl⟩

/-- C18 (observed behaviour): concat of shapes `[2,3]` and `[2,5]` on axis 1 registers exactly
one equality obligation, `3 = 5`, between the dimensions on the concat axis, and none
between the dimensions on axis 0. -/
theorem C18_concat_constrains_concat_axis :
    (paddle.dialect.ConcatOpInferSymbolicShape (Instances.concatOp 1)
        (Instances.tensorListContext
          [Instances.staticItem [2, 3], Instances.staticItem [2, 5]])).toOption.map
      (fun analysis => analysis.equalities)
      = some [(DimExpr.Int64 3, DimExpr.Int64 5)] := by
  rfl

/-- C20 (observed behaviour): stack of two data-free tensors of shape `[2,3]` on axis 0 writes
the shape `[2]` (the list length alone, with an empty data list), not `[2,2,3]`; on axis 2
the insertion position lies beyond the end of the empty `shape_dim_exprs` and the rule does
not succeed. -/
theorem C20_stack_drops_input_dims :
    (paddle.dialect.StackOpInferSymbolicShape (Instances.stackOp 0)
        (Instances.tensorListContext
          [Instances.staticItem [2, 3], Instances.staticItem [2, 3]])).toOption.map
      (fun analysis => analysis.value_to_shape_or_data.lookup 1)
      = some (some (.Tensor ⟨[DimExpr.Int64 2], some []⟩))
    ∧ paddle.dialect.StackOpInferSymbolicShape (Instances.stackOp 2)
        (Instances.tensorListContext
          [Instances.staticItem [2, 3], Instances.staticItem [2, 3]]) = .error .OutOfRange :=
  ⟨by rfl, by rfl⟩

theorem stack_data_dim_exprs (items : List TensorShapeOrDataDimExprs) (firsts : List DimExpr)
    (hdata : items.map (fun t => t.data.bind List.head?) = firsts.map some) :
    paddle.dialect.StackOpInferSymbolicShape.data_dim_exprs items 0 = .ok firsts := by
  have hlen : firsts.length = items.length := by
    have := congrArg List.length hdata
    simpa using this.symm
  have hget : ∀ i, i < items.length →
      (items[i]?.bind (fun t => t.data.bind List.head?)) = some (firsts.getD i 0) := by
    intro i hi
    have h1 := congrArg (fun l => l[i]?) hdata
    simp only [List.getElem?_map] at h1
    rw [List.getD_eq_getElem?_getD]
    cases hf : firsts[i]? with
    | none =>
      have := List.getElem?_eq_none_iff.mp hf
      omega
    | some d =>
      rw [hf] at h1
      cases hit : items[i]? with
      | none => rw [hit] at h1; cases h1
      | some t => rw [hit] at h1; simpa using h1
  unfold paddle.dialect.StackOpInferSymbolicShape.data_dim_exprs
  rw [foldlM_range_push items.length _ (fun i => firsts.getD i 0)]
  · rw [List.nil_append]
    congr 1
    apply List.ext_getElem?
    intro i
    simp only [List.getElem?_map, List.getElem?_range, List.getD_eq_getElem?_getD]
    by_cases hi : i < items.length
    · rw [List.getElem?_range hi]
      have : i < firsts.length := by omega
      simp [List.getElem?_eq_getElem this]
    · rw [List.getElem?_eq_none_iff.mpr (by simpa using hi),
        List.getElem?_eq_none_iff.mpr (by omega)]
      rfl
  · intro acc i hi
    have h2 := hget i hi
    rw [List.getElem?_eq_getElem hi] at h2
    change (items[i]).data.bind List.head? = some (firsts.getD i 0) at h2
    rw [vecAt_of_lt items i hi]
    change (if (items[i]).data.isSome = true ∧ (0 : Int) = 0 then
        (optValue (items[i]).data).bind (fun ds => (vecAt ds 0).bind
          (fun d => Except.ok (acc ++ [d])))
      else Except.ok acc) = _
    cases hd : (items[i]).data with
    | none => rw [hd] at h2; cases h2
    | some ds =>
      rw [hd] at h2
      cases ds with
      | nil => cases h2
      | cons d rest =>
        have h3 : d = firsts.getD i 0 := by
          simpa using h2
        subst h3
        simp [Except.bind, optValue, vecAt]

/-- C19: stack of a non-empty list of tensor records that all carry (non-empty) data, on
normalised axis 0, succeeds and writes a tensor record with shape `[N]`, `N` the list length,
and data the list of each element's first data value, in list order. -/
theorem C19_stack_scalars_with_data (op : Operation) (sa : ShapeConstraintIRAnalysis)
    (v res : Value) (a : Int) (items : List TensorShapeOrDataDimExprs)
    (first : TensorShapeOrDataDimExprs) (firsts : List DimExpr)
    (hsrc : op.operand_source 0 = .ok v)
    (hattr : op.attributes.at "axis" = .ok (.Int32 a))
    (hrec : sa.GetShapeOrDataForValue v = .ok (.TensorList items))
    (hfirst : items[0]? = some first)
    (haxis : (if a < 0 then a + ((first.shape.length : Int) + 1) else a) = 0)
    (hdata : items.map (fun t => t.data.bind List.head?) = firsts.map some)
    (hres : op.result 0 = .ok res) :
    paddle.dialect.StackOpInferSymbolicShape op sa =
      .ok (sa.SetShapeOrDataForValue res
        (.Tensor ⟨[DimExpr.Int64 (items.length : Int)], some firsts⟩)) := by
  have hlen : firsts.length = items.length := by
    have := congrArg List.length hdata
    simpa using this.symm
  have hpos : firsts.length ≠ 0 := by
    rw [hlen]
    cases items with
    | nil => cases hfirst
    | cons t l => simp
  unfold paddle.dialect.StackOpInferSymbolicShape
  simp only [hsrc, hattr, hrec, bind, Except.bind, ShapeOrDataDimExprs.asTensorList, vecAt,
    hfirst, haxis, stack_data_dim_exprs items firsts hdata, pure, Except.pure, hres, hpos,
    ne_eq, not_false_eq_true, if_true]

/-- Instance of C19: three scalars with data 1, 2, 3 stacked on axis 0 give shape `[3]` and
data `[1,2,3]`. -/
theorem C19_stack_scalars_with_data_witness :
    paddle.dialect.StackOpInferSymbolicShape (Instances.stackOp 0)
        (Instances.tensorListContext
          [Instances.scalarItem 1, Instances.scalarItem 2, Instances.scalarItem 3]) =
      .ok ((Instances.tensorListContext
          [Instances.scalarItem 1, Instances.scalarItem 2, Instances.scalarItem 3]).SetShapeOrDataForValue
        (Instances.inputValue 1 [])
        (.Tensor ⟨[DimExpr.Int64 3],
          some [DimExpr.Int64 1, DimExpr.Int64 2, DimExpr.Int64 3]⟩)) :=
  C19_stack_scalars_with_data (Instances.stackOp 0)
    (Instances.tensorListContext
      [Instances.scalarItem 1, Instances.scalarItem 2, Instances.scalarItem 3])
    Instances.combineValue (Instances.inputValue 1 []) 0
    [Instances.scalarItem 1, Instances.scalarItem 2, Instances.scalarItem 3]
    (Instances.scalarItem 1) [DimExpr.Int64 1, DimExpr.Int64 2, DimExpr.Int64 3]
    (by rfl) (by rfl) (by rfl) (by rfl) (by decide) (by rfl) (by rfl)

/-! ## Unsqueeze -/

theorem insertIdx_take_drop {α : Type} (l : List α) (n : Nat) (a : α) (h : n ≤ l.length) :
    l.insertIdx n a = l.take n ++ a :: l.drop n := by
  induction n generalizing l with
  | zero => simp
  | succ k ih =>
    cases l with
    | nil => simp at h
    | cons b t =>
      rw [List.insertIdx_succ_cons, ih t (by simpa using h)]
      simp

theorem unsqueezeMarks_append (a b : List Bool) :
    unsqueezeMarks (a ++ b) = unsqueezeMarks a ++ unsqueezeMarks b := by
  simp [unsqueezeMarks]

theorem unsqueezeMarks_length (m : List Bool) : (unsqueezeMarks m).length = m.length := by
  simp [unsqueezeMarks]

theorem unsqueezeFilled_length (m : List Bool) (x : List DimExpr) :
    (unsqueezeFilled m x).length = m.length := by
  induction m generalizing x with
  | nil => rfl
  | cons b t ih =>
    cases b with
    | true => simp [unsqueezeFilled, ih]
    | false => cases x <;> simp [unsqueezeFilled, ih]

theorem unsqueezeFilled_insert (m : List Bool) (x : List DimExpr) (n : Nat)
    (h : n ≤ m.length) :
    unsqueezeFilled (m.insertIdx n true) x = (unsqueezeFilled m x).insertIdx n (DimExpr.Int64 1) := by
  induction n generalizing m x with
  | zero => simp [unsqueezeFilled]
  | succ k ih =>
    cases m with
    | nil => simp at h
    | cons b t =>
      have hk : k ≤ t.length := by simpa using h
      rw [List.insertIdx_succ_cons]
      cases b with
      | true => simp only [unsqueezeFilled, List.insertIdx_succ_cons, ih t x hk]
      | false =>
        cases x with
        | nil => simp only [unsqueezeFilled, List.insertIdx_succ_cons, ih t [] hk]
        | cons d r => simp only [unsqueezeFilled, List.insertIdx_succ_cons, ih t r hk]

theorem unsqueezeFilled_replicate (x : List DimExpr) :
    unsqueezeFilled (List.replicate x.length false) x = x := by
  induction x with
  | nil => rfl
  | cons d r ih => simp only [List.length_cons, List.replicate_succ, unsqueezeFilled, ih]

theorem unsqueezeFilled_snoc_true (m : List Bool) (x : List DimExpr) :
    unsqueezeFilled (m ++ [true]) x = unsqueezeFilled m x ++ [DimExpr.Int64 1] := by
  induction m generalizing x with
  | nil => rfl
  | cons b t ih =>
    cases b with
    | true => rw [List.cons_append]; simp only [unsqueezeFilled, ih, List.cons_append]
    | false =>
      cases x <;> rw [List.cons_append] <;> simp only [unsqueezeFilled, ih, List.cons_append]

theorem unsqueezeFilled_snoc_false (m : List Bool) (x : List DimExpr) (d : DimExpr)
    (h : x[m.count false]? = some d) :
    unsqueezeFilled (m ++ [false]) x = unsqueezeFilled m x ++ [d] := by
  induction m generalizing x with
  | nil =>
    cases x with
    | nil => simp at h
    | cons e r =>
      simp only [List.count_nil, List.getElem?_cons_zero, Option.some.injEq] at h
      subst h; rfl
  | cons b t ih =>
    cases b with
    | true =>
      have h2 : x[t.count false]? = some d := by simpa using h
      rw [List.cons_append]
      simp only [unsqueezeFilled, ih x h2, List.cons_append]
    | false =>
      cases x with
      | nil => simp at h
      | cons e r =>
        have h2 : r[t.count false]? = some d := by simpa using h
        rw [List.cons_append]
        simp only [unsqueezeFilled, ih r h2, List.cons_append]
theorem vecAtInt_append_cons {α : Type} (A B : List α) (a : α) (i : Int)
    (hi : i = (A.length : Int)) : vecAtInt (A ++ a :: B) i = .ok a := by
  subst hi
  unfold vecAtInt
  rw [if_neg (by omega)]
  unfold vecAt
  have h : (A ++ a :: B)[(A.length : Int).toNat]? = some a := by
    rw [Int.toNat_ofNat, List.getElem?_append_right (le_refl _)]
    simp
  rw [h]

theorem vecSetInt_append_cons {α : Type} (A B : List α) (a x : α) (i : Int)
    (hi : i = (A.length : Int)) : vecSetInt (A ++ a :: B) i x = .ok (A ++ x :: B) := by
  subst hi
  unfold vecSetInt
  rw [if_neg (by simp)]
  simp

theorem DimExpr_zero_eq : (0 : DimExpr) = DimExpr.Int64 0 := rfl

theorem unsqueeze_swap_step (A B : List DimExpr) (b : Bool) (i : Int)
    (hi : i = (A.length : Int)) :
    (do
      if (← vecAtInt (A ++ (if b then DimExpr.Int64 1 else DimExpr.Int64 0) ::
          DimExpr.Int64 0 :: B) i) = 1 then
        vecSetInt (← vecSetInt (A ++ (if b then DimExpr.Int64 1 else DimExpr.Int64 0) ::
          DimExpr.Int64 0 :: B) (i + 1) 1) i 0
      else pure (A ++ (if b then DimExpr.Int64 1 else DimExpr.Int64 0) ::
          DimExpr.Int64 0 :: B)) =
      (.ok (A ++ DimExpr.Int64 0 :: (if b then DimExpr.Int64 1 else DimExpr.Int64 0) :: B) :
        Except Error (List DimExpr)) := by
  have h1 := vecAtInt_append_cons A (DimExpr.Int64 0 :: B)
    (if b then DimExpr.Int64 1 else DimExpr.Int64 0) i hi
  cases b with
  | false =>
    simp only [Bool.false_eq_true, if_false] at h1 ⊢
    simp only [h1, bind, Except.bind, DimExpr_one_eq, pure, Except.pure]
    rfl
  | true =>
    simp only [if_true] at h1 ⊢
    have h2 : vecSetInt (A ++ DimExpr.Int64 1 :: DimExpr.Int64 0 :: B) (i + 1)
        (DimExpr.Int64 1) = .ok (A ++ DimExpr.Int64 1 :: DimExpr.Int64 1 :: B) := by
      have := vecSetInt_append_cons (A ++ [DimExpr.Int64 1]) B (DimExpr.Int64 0)
        (DimExpr.Int64 1) (i + 1) (by simp [hi])
      simpa using this
    have h3 := vecSetInt_append_cons A (DimExpr.Int64 1 :: B) (DimExpr.Int64 1)
      (DimExpr.Int64 0) i hi
    simp only [h1, bind, Except.bind, DimExpr_one_eq, DimExpr_zero_eq, if_true, h2, h3]

theorem unsqueeze_moveAxes_loop (m : List Bool) (Z : List DimExpr) (cur j : Nat)
    (hcur : cur ≤ m.length) (hj : j ≤ m.length - cur + 1) :
    (List.range j).foldlM (fun result_sym_dims (k : Nat) => do
      let i : Int := (m.length : Int) - (k : Int)
      if (← vecAtInt result_sym_dims i) = 1 then
        vecSetInt (← vecSetInt result_sym_dims (i + 1) 1) i 0
      else pure result_sym_dims) (unsqueezeMarks m ++ DimExpr.Int64 0 :: Z)
    = (.ok (unsqueezeMarks (m.take (m.length - (j - 1))) ++ DimExpr.Int64 0 ::
        (unsqueezeMarks (m.drop (m.length - (j - 1))) ++ Z)) : Except Error (List DimExpr)) := by
  induction j with
  | zero =>
    simp only [List.range_zero, List.foldlM_nil, pure, Except.pure, Nat.zero_sub, Nat.sub_zero,
      List.take_length, List.drop_length, unsqueezeMarks, List.map_nil, List.nil_append]
  | succ j ih =>
    rw [List.range_succ, List.foldlM_append, ih (by omega)]
    simp only [bind, Except.bind, List.foldlM_cons, List.foldlM_nil, pure, Except.pure]
    rcases Nat.eq_zero_or_pos j with hj0 | hjpos
    · subst hj0
      simp only [Nat.zero_sub, Nat.sub_zero, List.take_length, List.drop_length, unsqueezeMarks,
        List.map_nil, List.nil_append, Nat.add_sub_cancel, Nat.cast_zero, sub_zero]
      have h1 := vecAtInt_append_cons (unsqueezeMarks m) Z (DimExpr.Int64 0) (m.length : Int)
        (by rw [unsqueezeMarks_length])
      unfold unsqueezeMarks at h1
      rw [h1]
      rfl
    · have hq : m.length - (j - 1) = (m.length - j) + 1 := by omega
      have hlt : m.length - j < m.length := by omega
      have htake : m.take (m.length - j + 1) = m.take (m.length - j) ++ [m[m.length - j]] := by
        rw [List.take_succ, List.getElem?_eq_getElem hlt]; rfl
      have hdrop : m.drop (m.length - j) = m[m.length - j] :: m.drop (m.length - j + 1) := by
        rw [List.drop_eq_getElem_cons hlt]
      have hA : ((m.length : Int) - (j : Int)) =
          (((unsqueezeMarks (m.take (m.length - j))).length : Nat) : Int) := by
        rw [unsqueezeMarks_length, List.length_take]
        omega
      have hstep := unsqueeze_swap_step (unsqueezeMarks (m.take (m.length - j)))
        (unsqueezeMarks (m.drop (m.length - j + 1)) ++ Z) (m[m.length - j])
        ((m.length : Int) - (j : Int)) hA
      simp only [bind, Except.bind, pure, Except.pure] at hstep
      rw [hq, htake, unsqueezeMarks_append, Nat.add_sub_cancel, hdrop]
      simp only [unsqueezeMarks, List.map_cons, List.map_nil, List.append_assoc,
        List.singleton_append, List.cons_append, List.nil_append] at hstep ⊢
      rw [hstep]

theorem unsqueeze_moveAxes_eq (m : List Bool) (Z : List DimExpr) (cur : Nat)
    (hcur : cur ≤ m.length) :
    paddle.dialect.UnsqueezeOpInferSymbolicShape.moveAxes (m.length : Int) (cur : Int)
      (unsqueezeMarks m ++ DimExpr.Int64 0 :: Z)
    = .ok (unsqueezeMarks (m.take cur) ++ DimExpr.Int64 0 :: (unsqueezeMarks (m.drop cur) ++ Z)) := by
  unfold paddle.dialect.UnsqueezeOpInferSymbolicShape.moveAxes
  have hn : ((m.length : Int) - (cur : Int) + 1).toNat = m.length - cur + 1 := by omega
  rw [hn, unsqueeze_moveAxes_loop m Z cur (m.length - cur + 1) hcur (le_refl _)]
  have hq : m.length - (m.length - cur + 1 - 1) = cur := by omega
  rw [hq]

theorem unsqueeze_insertAxis_eq (m : List Bool) (Z : List DimExpr) (v : Int)
    (hsmall : m.length < 2147483647)
    (h1 : -((m.length : Int) + 1) ≤ v) (h2 : v ≤ (m.length : Int)) :
    paddle.dialect.UnsqueezeOpInferSymbolicShape.insertAxis
      (unsqueezeMarks m ++ DimExpr.Int64 0 :: Z, (m.length : Int)) (DimExpr.Int64 v)
    = .ok (unsqueezeMarks (m.insertIdx (unsqueezeAxis m.length v).toNat true) ++ Z,
        (m.length : Int) + 1) := by
  have hv : toInt32 v = v := toInt32_of_range v (by omega) (by omega)
  have hc0 : 0 ≤ unsqueezeAxis m.length v := by unfold unsqueezeAxis; split_ifs <;> omega
  have hcn : unsqueezeAxis m.length v ≤ (m.length : Int) := by
    unfold unsqueezeAxis; split_ifs <;> omega
  have hcur : (if toInt32 v < 0 then toInt32 v + (m.length : Int) + 1 else toInt32 v)
      = (((unsqueezeAxis m.length v).toNat : Nat) : Int) := by
    rw [hv, Int.toNat_of_nonneg hc0]; rfl
  have hle : (unsqueezeAxis m.length v).toNat ≤ m.length := by omega
  unfold paddle.dialect.UnsqueezeOpInferSymbolicShape.insertAxis
  dsimp only
  rw [hcur, unsqueeze_moveAxes_eq m Z _ hle]
  have hset := vecSetInt_append_cons (unsqueezeMarks (m.take (unsqueezeAxis m.length v).toNat))
    (unsqueezeMarks (m.drop (unsqueezeAxis m.length v).toNat) ++ Z) (DimExpr.Int64 0)
    (DimExpr.Int64 1) (((unsqueezeAxis m.length v).toNat : Nat) : Int)
    (by rw [unsqueezeMarks_length, List.length_take]; omega)
  simp only [bind, Except.bind, DimExpr_one_eq, hset, pure, Except.pure]
  rw [insertIdx_take_drop m _ true hle, unsqueezeMarks_append]
  simp [unsqueezeMarks]

theorem unsqueeze_insert_fold (x : List DimExpr) (vals : List Int) (m : List Bool)
    (hsmall : m.length + vals.length < 2147483648)
    (hvalid : unsqueezeValid m.length vals = true) :
    ∃ m2 : List Bool,
      (vals.map DimExpr.Int64).foldlM paddle.dialect.UnsqueezeOpInferSymbolicShape.insertAxis
        (unsqueezeMarks m ++ List.replicate vals.length (DimExpr.Int64 0), (m.length : Int))
        = .ok (unsqueezeMarks m2, (m2.length : Int))
      ∧ m2.length = m.length + vals.length
      ∧ m2.count false = m.count false
      ∧ unsqueezeFilled m2 x = unsqueezeSpec (unsqueezeFilled m x) vals := by
  induction vals generalizing m with
  | nil =>
    refine ⟨m, ?_, rfl, rfl, rfl⟩
    simp [pure, Except.pure]
  | cons v rest ih =>
    simp only [unsqueezeValid, Bool.and_eq_true, decide_eq_true_eq] at hvalid
    obtain ⟨⟨h1, h2⟩, hrest⟩ := hvalid
    simp only [List.length_cons] at hsmall
    have hc0 : 0 ≤ unsqueezeAxis m.length v := by unfold unsqueezeAxis; split_ifs <;> omega
    have hcn : unsqueezeAxis m.length v ≤ (m.length : Int) := by
      unfold unsqueezeAxis; split_ifs <;> omega
    have hle : (unsqueezeAxis m.length v).toNat ≤ m.length := by omega
    have hlen : (m.insertIdx (unsqueezeAxis m.length v).toNat true).length = m.length + 1 :=
      List.length_insertIdx _ _ hle
    have hcount : (m.insertIdx (unsqueezeAxis m.length v).toNat true).count false
        = m.count false := by
      rw [insertIdx_take_drop m _ true hle, List.count_append, List.count_cons_of_ne (by decide),
        ← List.count_append, List.take_append_drop]
    obtain ⟨m2, hrun, hl2, hc2, hf2⟩ := ih (m.insertIdx (unsqueezeAxis m.length v).toNat true)
      (by rw [hlen]; omega) (by rw [hlen]; exact hrest)
    refine ⟨m2, ?_, by rw [hl2, hlen, List.length_cons]; omega, by rw [hc2, hcount], ?_⟩
    · rw [List.map_cons, List.foldlM_cons, List.length_cons, List.replicate_succ,
        unsqueeze_insertAxis_eq m _ v (by omega) h1 h2]
      have hcast : (m.length : Int) + 1
          = ((m.insertIdx (unsqueezeAxis m.length v).toNat true).length : Int) := by
        rw [hlen]; rfl
      simp only [bind, Except.bind]
      rw [hcast, hrun]
    · rw [hf2, unsqueezeFilled_insert m x _ hle]
      simp only [unsqueezeSpec, List.foldl_cons, unsqueezeFilled_length]

theorem vecAt_append_cons {α : Type} (A B : List α) (a : α) (i : Nat) (hi : i = A.length) :
    vecAt (A ++ a :: B) i = .ok a := by
  subst hi
  unfold vecAt
  have h : (A ++ a :: B)[A.length]? = some a := by
    rw [List.getElem?_append_right (le_refl _)]
    simp
  rw [h]

theorem vecSet_append_cons {α : Type} (A B : List α) (a x : α) (i : Nat) (hi : i = A.length) :
    vecSet (A ++ a :: B) i x = .ok (A ++ x :: B) := by
  subst hi
  unfold vecSet
  rw [if_pos (by simp)]
  simp

theorem unsqueeze_fill_loop (x : List DimExpr) (m : List Bool)
    (hcount : m.count false ≤ x.length) (j : Nat) (hj : j ≤ m.length) :
    (List.range j).foldlM (fun (state : List DimExpr × Nat) (out_idx : Nat) => do
      if (← vecAt state.1 out_idx) = 0 then
        pure (← vecSet state.1 out_idx (← vecAt x state.2), state.2 + 1)
      else pure state) (unsqueezeMarks m, 0)
    = (.ok (unsqueezeFilled (m.take j) x ++ unsqueezeMarks (m.drop j), (m.take j).count false) :
        Except Error (List DimExpr × Nat)) := by
  induction j with
  | zero => simp [unsqueezeFilled, pure, Except.pure]
  | succ j ih =>
    have hlt : j < m.length := by omega
    have htake : m.take (j + 1) = m.take j ++ [m[j]] := by
      rw [List.take_succ, List.getElem?_eq_getElem hlt]; rfl
    have hdrop : m.drop j = m[j] :: m.drop (j + 1) := by
      rw [List.drop_eq_getElem_cons hlt]
    have hFlen : j = (unsqueezeFilled (m.take j) x).length := by
      rw [unsqueezeFilled_length, List.length_take]; omega
    rw [List.range_succ, List.foldlM_append, ih (by omega)]
    simp only [bind, Except.bind, List.foldlM_cons, List.foldlM_nil, pure, Except.pure]
    rw [htake, hdrop]
    cases hb : m[j] with
    | true =>
      have hat := vecAt_append_cons (unsqueezeFilled (m.take j) x)
        (unsqueezeMarks (m.drop (j + 1))) (DimExpr.Int64 1) j hFlen
      simp only [unsqueezeMarks, List.map_cons, if_true] at hat ⊢
      rw [hat, unsqueezeFilled_snoc_true]
      simp [DimExpr_zero_eq]
    | false =>
      have hat := vecAt_append_cons (unsqueezeFilled (m.take j) x)
        (unsqueezeMarks (m.drop (j + 1))) (DimExpr.Int64 0) j hFlen
      have hcnt : (m.take j).count false < x.length := by
        have h1 : m.count false = (m.take j).count false + (m.drop j).count false := by
          rw [← List.count_append, List.take_append_drop]
        rw [hdrop, hb, List.count_cons_self] at h1
        omega
      have hx := vecAt_of_lt x _ hcnt
      have hset := vecSet_append_cons (unsqueezeFilled (m.take j) x)
        (unsqueezeMarks (m.drop (j + 1))) (DimExpr.Int64 0) (x[(m.take j).count false]) j hFlen
      simp only [unsqueezeMarks, List.map_cons, Bool.false_eq_true, if_false] at hat hset ⊢
      rw [hat]
      simp only [DimExpr_zero_eq, if_true, hx, hset]
      rw [unsqueezeFilled_snoc_false _ x _ (List.getElem?_eq_getElem hcnt)]
      simp

theorem unsqueeze_fill_eq (x : List DimExpr) (m : List Bool) (output_rank : Int)
    (hrank : output_rank = (m.length : Int)) (hcount : m.count false ≤ x.length) :
    paddle.dialect.UnsqueezeOpInferSymbolicShape.fill x output_rank (unsqueezeMarks m)
      = .ok (unsqueezeFilled m x) := by
  unfold paddle.dialect.UnsqueezeOpInferSymbolicShape.fill
  subst hrank
  rw [Int.toNat_ofNat, unsqueeze_fill_loop x m hcount m.length (le_refl _)]
  simp [bind, Except.bind, pure, Except.pure, unsqueezeMarks]

theorem unsqueeze_rule_unfold (op : Operation) (sa : ShapeConstraintIRAnalysis)
    (x ax : Value) (rx rax : TensorShapeOrDataDimExprs)
    (hnum : op.operands.length = 2)
    (hx : op.operand_source 0 = .ok x) (hax : op.operand_source 1 = .ok ax)
    (hrx : sa.GetShapeOrDataForValue x = .ok (.Tensor rx))
    (hrax : sa.GetShapeOrDataForValue ax = .ok (.Tensor rax)) :
    paddle.dialect.UnsqueezeOpInferSymbolicShape op sa =
      (paddle.dialect.UnsqueezeOpInferSymbolicShape.result_sym_dims (dataOrShape rx)
        (dataOrShape rax)).bind
        (fun result_sym_dims => (op.result 0).bind
          (fun res => .ok (sa.SetShapeOrDataForValue res
            (.Tensor ⟨result_sym_dims, none⟩)))) := by
  unfold paddle.dialect.UnsqueezeOpInferSymbolicShape
  obtain ⟨xs, xd⟩ := rx
  obtain ⟨as, ad⟩ := rax
  cases xd <;> cases ad <;>
    simp only [hnum, hx, hax, hrx, hrax, bind, Except.bind, ne_eq, not_true_eq_false, if_false,
      ShapeOrDataDimExprs.data, ShapeOrDataDimExprs.shape, dataOrShape, pure, Except.pure]

theorem unsqueeze_result_sym_dims_eq (x : List DimExpr) (vals : List Int)
    (hsmall : x.length + vals.length < 2147483648)
    (hvalid : unsqueezeValid x.length vals = true) :
    paddle.dialect.UnsqueezeOpInferSymbolicShape.result_sym_dims x (vals.map DimExpr.Int64)
      = .ok (unsqueezeSpec x vals) := by
  have h1 : toInt32 (x.length : Int) = (x.length : Int) :=
    toInt32_of_range _ (by omega) (by omega)
  have h2 : toInt32 ((vals.map DimExpr.Int64).length : Int) = (vals.length : Int) := by
    rw [List.length_map]
    exact toInt32_of_range _ (by omega) (by omega)
  have h3 : ((x.length : Int) + (vals.length : Int)).toNat = x.length + vals.length := by omega
  have hrep : List.replicate (x.length + vals.length) (0 : DimExpr)
      = unsqueezeMarks (List.replicate x.length false)
        ++ List.replicate vals.length (DimExpr.Int64 0) := by
    rw [List.replicate_add]
    simp [unsqueezeMarks, DimExpr_zero_eq]
  obtain ⟨m2, hrun, hl2, hc2, hf2⟩ := unsqueeze_insert_fold x vals (List.replicate x.length false)
    (by simpa using hsmall) (by simpa using hvalid)
  rw [List.length_replicate] at hrun hl2
  rw [unsqueezeFilled_replicate] at hf2
  have hfill := unsqueeze_fill_eq x m2 ((x.length : Int) + (vals.length : Int))
    (by rw [hl2]; push_cast; rfl) (by rw [hc2]; simp)
  unfold paddle.dialect.UnsqueezeOpInferSymbolicShape.result_sym_dims
  rw [h1, h2]
  show ((vals.map DimExpr.Int64).foldlM paddle.dialect.UnsqueezeOpInferSymbolicShape.insertAxis
      (List.replicate ((x.length : Int) + (vals.length : Int)).toNat (0 : DimExpr),
        (x.length : Int))).bind
    (fun inserted => paddle.dialect.UnsqueezeOpInferSymbolicShape.fill x
      ((x.length : Int) + (vals.length : Int)) inserted.1) = _
  rw [h3, hrep, hrun, ← hf2]
  exact hfill

theorem unsqueezeSpec_length (x : List DimExpr) (vals : List Int)
    (hvalid : unsqueezeValid x.length vals = true) :
    (unsqueezeSpec x vals).length = x.length + vals.length := by
  induction vals generalizing x with
  | nil => rfl
  | cons v rest ih =>
    simp only [unsqueezeValid, Bool.and_eq_true, decide_eq_true_eq] at hvalid
    obtain ⟨⟨h1, h2⟩, hrest⟩ := hvalid
    have hle : (unsqueezeAxis x.length v).toNat ≤ x.length := by
      unfold unsqueezeAxis; split_ifs <;> omega
    have hlen : (x.insertIdx (unsqueezeAxis x.length v).toNat (DimExpr.Int64 1)).length
        = x.length + 1 := List.length_insertIdx _ _ hle
    have := ih (x.insertIdx (unsqueezeAxis x.length v).toNat (DimExpr.Int64 1))
      (by rw [hlen]; exact hrest)
    simp only [unsqueezeSpec, List.foldl_cons, List.length_cons] at this ⊢
    rw [this, hlen]
    omega

/-- C16: unsqueeze equals sequential insertion. For an input basis `x` (the data vector when
present, the shape otherwise) of length `n` and a list of `k` literal axes, each valid for
the current rank `c` at its turn (`-(c+1) <= axis <= c`, `c` starting at `n` and growing by
one per axis), with `n + k` representable as `int`, the rule succeeds and writes the list
obtained by folding over the axes in order and inserting a literal 1 at position
`axis < 0 ? axis + c + 1 : axis` of the current list, starting from `x`; the result has
length `n + k`. -/
theorem C16_unsqueeze_sequential_insertion (op : Operation) (sa : ShapeConstraintIRAnalysis)
    (x ax res : Value) (rx rax : TensorShapeOrDataDimExprs) (vals : List Int)
    (hnum : op.operands.length = 2)
    (hx : op.operand_source 0 = .ok x) (hax : op.operand_source 1 = .ok ax)
    (hres : op.result 0 = .ok res)
    (hrx : sa.GetShapeOrDataForValue x = .ok (.Tensor rx))
    (hrax : sa.GetShapeOrDataForValue ax = .ok (.Tensor rax))
    (haxes : dataOrShape rax = vals.map DimExpr.Int64)
    (hsmall : (dataOrShape rx).length + vals.length < 2147483648)
    (hvalid : unsqueezeValid (dataOrShape rx).length vals = true) :
    paddle.dialect.UnsqueezeOpInferSymbolicShape op sa =
      .ok (sa.SetShapeOrDataForValue res
        (.Tensor ⟨unsqueezeSpec (dataOrShape rx) vals, none⟩))
    ∧ (unsqueezeSpec (dataOrShape rx) vals).length = (dataOrShape rx).length + vals.length := by
  refine ⟨?_, unsqueezeSpec_length _ _ hvalid⟩
  rw [unsqueeze_rule_unfold op sa x ax rx rax hnum hx hax hrx hrax, haxes,
    unsqueeze_result_sym_dims_eq _ _ hsmall hvalid, hres]
  rfl

/-- Instance of C16: unsqueeze of `[4,5]` with axes `[0,2]` gives `[1,4,1,5]`. -/
theorem C16_unsqueeze_sequential_insertion_witness :
    paddle.dialect.UnsqueezeOpInferSymbolicShape (Instances.squeezeOp "pd_op.unsqueeze")
        (Instances.squeezeContext [4, 5] [0, 2]) =
      .ok ((Instances.squeezeContext [4, 5] [0, 2]).SetShapeOrDataForValue
        (Instances.inputValue 2 []) (Instances.staticTensor [1, 4, 1, 5])) :=
  (C16_unsqueeze_sequential_insertion (Instances.squeezeOp "pd_op.unsqueeze")
    (Instances.squeezeContext [4, 5] [0, 2]) (Instances.inputValue 0 [])
    (Instances.intArrayValue 1 []) (Instances.inputValue 2 [])
    ⟨[DimExpr.Int64 4, DimExpr.Int64 5], none⟩
    ⟨[DimExpr.Int64 2], some [DimExpr.Int64 0, DimExpr.Int64 2]⟩ [0, 2]
    (by rfl) (by rfl) (by rfl) (by rfl) (by rfl) (by rfl) (by rfl) (by decide)
    (by decide)).1.trans (by rfl)

/-! ## Stack with a partly materialised list -/

theorem range_flatMap_getElem_filterMap {α β : Type} (l : List α) (f : α → Option β) :
    (List.range l.length).flatMap (fun i => (l[i]?.bind f).toList) = l.filterMap f := by
  induction l using List.reverseRecOn with
  | nil => rfl
  | append_singleton l a ih =>
    rw [List.length_append, List.length_singleton, List.range_succ, List.flatMap_append,
      List.filterMap_append]
    congr 1
    · rw [← ih]
      apply List.flatMap_congr
      intro i hi
      rw [List.mem_range] at hi
      rw [List.getElem?_append_left hi]
    · simp [List.filterMap_cons]
      cases f a <;> rfl

theorem stack_data_dim_exprs_partial (items : List TensorShapeOrDataDimExprs)
    (hdata : ∀ t ∈ items, t.data ≠ some []) :
    paddle.dialect.StackOpInferSymbolicShape.data_dim_exprs items 0 =
      .ok (items.filterMap (fun t => t.data.bind List.head?)) := by
  unfold paddle.dialect.StackOpInferSymbolicShape.data_dim_exprs
  rw [foldlM_range_collect items.length _
    (fun i => (items[i]?.bind (fun t => t.data.bind List.head?)).toList)]
  · rw [List.nil_append, range_flatMap_getElem_filterMap items (fun t => t.data.bind List.head?)]
  · intro acc i hi
    rw [vecAt_of_lt items i hi]
    have hmem : items[i] ∈ items := List.getElem_mem hi
    have hne := hdata _ hmem
    change (if (items[i]).data.isSome = true ∧ (0 : Int) = 0 then
        (optValue (items[i]).data).bind (fun ds => (vecAt ds 0).bind
          (fun d => Except.ok (acc ++ [d])))
      else Except.ok acc) = _
    rw [List.getElem?_eq_getElem hi]
    cases hd : (items[i]).data with
    | none => simp [hd]
    | some ds =>
      cases ds with
      | nil => exact absurd hd hne
      | cons d rest => simp [Except.bind, optValue, vecAt, hd]

theorem filterMap_length_lt {α β : Type} (l : List α) (f : α → Option β)
    (h : ∃ a ∈ l, f a = none) : (l.filterMap f).length < l.length := by
  induction l with
  | nil => obtain ⟨a, ha, _⟩ := h; simp at ha
  | cons b t ih =>
    cases hb : f b with
    | none =>
      rw [List.filterMap_cons_none hb, List.length_cons]
      exact Nat.lt_succ_of_le (List.length_filterMap_le f t)
    | some c =>
      rw [List.filterMap_cons_some hb, List.length_cons, List.length_cons]
      obtain ⟨a, ha, hfa⟩ := h
      rcases List.mem_cons.mp ha with rfl | hmem
      · rw [hb] at hfa; cases hfa
      · exact Nat.succ_lt_succ (ih ⟨a, hmem, hfa⟩)

/-- C21 (observed behaviour): stack on normalised axis 0 of a list in which some element
carries data takes the data path whatever the other elements carry: it succeeds and writes
shape `[N]`, `N` the list length, with data the first data values of the elements that
carry data only. When some element carries no data, the data therefore has fewer entries
than the list has elements. (An element that carries data carries at least one value.) -/
theorem C21_stack_partial_data (op : Operation) (sa : ShapeConstraintIRAnalysis)
    (v res : Value) (a : Int) (items : List TensorShapeOrDataDimExprs)
    (first : TensorShapeOrDataDimExprs)
    (hsrc : op.operand_source 0 = .ok v)
    (hattr : op.attributes.at "axis" = .ok (.Int32 a))
    (hrec : sa.GetShapeOrDataForValue v = .ok (.TensorList items))
    (hfirst : items[0]? = some first)
    (haxis : (if a < 0 then a + ((first.shape.length : Int) + 1) else a) = 0)
    (hdata : ∀ t ∈ items, t.data ≠ some [])
    (hsome : ∃ t ∈ items, t.data.isSome = true)
    (hres : op.result 0 = .ok res) :
    paddle.dialect.StackOpInferSymbolicShape op sa =
      .ok (sa.SetShapeOrDataForValue res
        (.Tensor ⟨[DimExpr.Int64 (items.length : Int)],
          some (items.filterMap (fun t => t.data.bind List.head?))⟩))
    ∧ ((∃ t ∈ items, t.data = none) →
        (items.filterMap (fun t => t.data.bind List.head?)).length < items.length) := by
  have hpos : (items.filterMap (fun t => t.data.bind List.head?)).length ≠ 0 := by
    obtain ⟨t, ht, hts⟩ := hsome
    have hne := hdata t ht
    cases hd : t.data with
    | none => rw [hd] at hts; cases hts
    | some ds =>
      cases ds with
      | nil => exact absurd hd hne
      | cons d rest =>
        have hmem : d ∈ items.filterMap (fun t => t.data.bind List.head?) :=
          List.mem_filterMap.mpr ⟨t, ht, by simp [hd]⟩
        intro h0
        rw [List.length_eq_zero] at h0
        rw [h0] at hmem
        cases hmem
  refine ⟨?_, ?_⟩
  · unfold paddle.dialect.StackOpInferSymbolicShape
    simp only [hsrc, hattr, hrec, bind, Except.bind, ShapeOrDataDimExprs.asTensorList, vecAt,
      hfirst, haxis, stack_data_dim_exprs_partial items hdata, pure, Except.pure, hres, hpos,
      ne_eq, not_false_eq_true, if_true]
  · rintro ⟨t, ht, hnone⟩
    exact filterMap_length_lt items _ ⟨t, ht, by simp [hnone]⟩

/-- Instance of C21: a scalar carrying data `[1]` stacked on axis 0 with a scalar carrying no
data gives shape `[2]` with data `[1]`: one data entry for two elements. -/
theorem C21_stack_partial_data_witness :
    paddle.dialect.StackOpInferSymbolicShape (Instances.stackOp 0)
        (Instances.tensorListContext [Instances.scalarItem 1, Instances.staticItem []]) =
      .ok ((Instances.tensorListContext
          [Instances.scalarItem 1, Instances.staticItem []]).SetShapeOrDataForValue
        (Instances.inputValue 1 []) (.Tensor ⟨[DimExpr.Int64 2], some [DimExpr.Int64 1]⟩))
    ∧ ([DimExpr.Int64 1] : List DimExpr).length < 2 :=
  ⟨(C21_stack_partial_data (Instances.stackOp 0)
    (Instances.tensorListContext [Instances.scalarItem 1, Instances.staticItem []])
    Instances.combineValue (Instances.inputValue 1 []) 0
    [Instances.scalarItem 1, Instances.staticItem []] (Instances.scalarItem 1)
    (by rfl) (by rfl) (by rfl) (by rfl) (by decide) (by decide)
    ⟨Instances.scalarItem 1, by decide, by rfl⟩ (by rfl)).1, by decide⟩

/-! ## Matmul -/

theorem matmulPromote_length (x y : List DimExpr) (hx : 1 ≤ x.length) (hy : 1 ≤ y.length) :
    2 ≤ (matmulPromoteX x).length ∧ 2 ≤ (matmulPromoteY y).length
    ∧ (matmulPromoteX x).length = (if x.length = 1 then 2 else x.length)
    ∧ (matmulPromoteY y).length = (if y.length = 1 then 2 else y.length) := by
  unfold matmulPromoteX matmulPromoteY
  refine ⟨?_, ?_, ?_, ?_⟩
  · split_ifs with h
    · simp [h]
    · omega
  · split_ifs with h
    · simp [h]
    · omega
  · by_cases h : x.length = 1
    · simp [h]
    · simp [h]
  · by_cases h : y.length = 1
    · simp [h]
    · simp [h]

theorem matmul_batch_loop (x y : List DimExpr) (n : Nat) (hx : n ≤ x.length)
    (hy : n ≤ y.length) :
    (List.range n).foldlM (fun out_dims (i : Nat) => do
      pure (out_dims ++ [(DimExprBuilder.Broadcast none (← vecAt x i) (← vecAt y i)).1]))
      ([] : List DimExpr)
    = (.ok (List.zipWith (fun a b => (DimExprBuilder.Broadcast none a b).1)
        (x.take n) (y.take n)) : Except Error (List DimExpr)) := by
  rw [foldlM_range_push n _ (fun i => (DimExprBuilder.Broadcast none
    (x.getD i (DimExpr.Int64 1)) (y.getD i (DimExpr.Int64 1))).1)]
  · rw [List.nil_append]
    congr 1
    have hlen : (x.take n).length = (y.take n).length := by
      rw [List.length_take, List.length_take]; omega
    have hn : n = (x.take n).length := by rw [List.length_take]; omega
    rw [← range_map_getD_zipWith (fun a b => (DimExprBuilder.Broadcast none a b).1)
      (DimExpr.Int64 1) (x.take n) (y.take n) hlen, ← hn]
    apply List.map_congr_left
    intro i hi
    rw [List.mem_range] at hi
    simp only [List.getD_eq_getElem?_getD, List.getElem?_take_of_lt hi]
  · intro acc i hi
    have h1 : i < x.length := by omega
    have h2 : i < y.length := by omega
    simp only [vecAt_of_lt x i h1, vecAt_of_lt y i h2, bind, Except.bind, pure, Except.pure,
      List.getD_eq_getElem _ _ h1, List.getD_eq_getElem _ _ h2]

theorem matmul_batch_eq (x y : List DimExpr) (hx : 2 ≤ x.length) (hy : 2 ≤ y.length)
    (hsize : x.length < 18446744073709551616) :
    paddle.dialect.MatmulOpInferSymbolicShape.batch x y x.length y.length
      = .ok (matmulBatch x y) := by
  unfold paddle.dialect.MatmulOpInferSymbolicShape.batch matmulBatch
  by_cases h1 : x.length > y.length
  · rw [if_pos h1, if_pos h1, if_neg (by omega)]; rfl
  · rw [if_neg h1, if_neg h1]
    by_cases h2 : x.length < y.length
    · rw [if_pos h2, if_pos h2, if_neg (by omega)]; rfl
    · rw [if_neg h2, if_neg h2]
      have hn : (((x.length : Int) - 2) % 18446744073709551616).toNat = x.length - 2 := by
        omega
      have hyx : y.length - 2 = x.length - 2 := by omega
      rw [hn, hyx]
      exact matmul_batch_loop x y (x.length - 2) (by omega) (by omega)

theorem vecAtInt_getD {α : Type} (v : List α) (i : Nat) (d : α) (h : i < v.length) (k : Int)
    (hk : k = (i : Int)) : vecAtInt v k = .ok (v.getD i d) := by
  subst hk
  rw [vecAtInt_of_lt v (i : Int) (by omega) (by simpa using h)]
  simp [List.getElem?_eq_getElem h]

theorem matmul_out_dims_eq (attributes : AttributeMap) (x y : List DimExpr) (tx ty : Bool)
    (hx : 1 ≤ x.length) (hy : 1 ≤ y.length) (hsize : x.length < 18446744073709551616)
    (htx : attributes.at "transpose_x" = .ok (.Bool tx))
    (hty : attributes.at "transpose_y" = .ok (.Bool ty)) :
    paddle.dialect.MatmulOpInferSymbolicShape.out_dims attributes x y
      = .ok (matmulResult x y tx ty) := by
  obtain ⟨hpx2, hpy2, hpxl, hpyl⟩ := matmulPromote_length x y hx hy
  have hpx : (if (x.length == 1) = true then (1 : DimExpr) :: x else x) = matmulPromoteX x := by
    unfold matmulPromoteX
    by_cases h : x.length = 1 <;> simp [h]
  have hpy : (if (y.length == 1) = true then y ++ [(1 : DimExpr)] else y) = matmulPromoteY y := by
    unfold matmulPromoteY
    by_cases h : y.length = 1 <;> simp [h]
  have hnx : (if (x.length == 1) = true then 2 else x.length) = (matmulPromoteX x).length := by
    rw [hpxl]; by_cases h : x.length = 1 <;> simp [h]
  have hny : (if (y.length == 1) = true then 2 else y.length) = (matmulPromoteY y).length := by
    rw [hpyl]; by_cases h : y.length = 1 <;> simp [h]
  have hps : (matmulPromoteX x).length < 18446744073709551616 := by
    rw [hpxl]; split_ifs <;> omega
  have hM1 := vecAtInt_getD (matmulPromoteX x) ((matmulPromoteX x).length - 1) (DimExpr.Int64 0)
    (by omega) (((matmulPromoteX x).length : Int) - 1) (by omega)
  have hM2 := vecAtInt_getD (matmulPromoteX x) ((matmulPromoteX x).length - 2) (DimExpr.Int64 0)
    (by omega) (((matmulPromoteX x).length : Int) - 2) (by omega)
  have hN1 := vecAtInt_getD (matmulPromoteY y) ((matmulPromoteY y).length - 1) (DimExpr.Int64 0)
    (by omega) (((matmulPromoteY y).length : Int) - 1) (by omega)
  have hN2 := vecAtInt_getD (matmulPromoteY y) ((matmulPromoteY y).length - 2) (DimExpr.Int64 0)
    (by omega) (((matmulPromoteY y).length : Int) - 2) (by omega)
  unfold paddle.dialect.MatmulOpInferSymbolicShape.out_dims
  dsimp only
  rw [hpx, hpy, hnx, hny, matmul_batch_eq _ _ hpx2 hpy2 hps, htx, hty]
  unfold matmulResult matmulTail
  by_cases h1 : x.length = 1 <;> by_cases h2 : y.length = 1 <;> cases tx <;> cases ty <;>
    simp [h1, h2, hM1, hM2, hN1, hN2, bind, Except.bind, pure, Except.pure]

theorem matmul_dims_eq (t : TensorShapeOrDataDimExprs) :
    paddle.dialect.MatmulOpInferSymbolicShape.dims (.Tensor t) = .ok (dataOrShape t) := by
  obtain ⟨s, d⟩ := t
  cases d <;> rfl

theorem matmul_rule_eq (op : Operation) (sa : ShapeConstraintIRAnalysis) (xv yv res : Value)
    (rx ry : TensorShapeOrDataDimExprs) (tx ty : Bool)
    (hx : op.operand_source 0 = .ok xv) (hy : op.operand_source 1 = .ok yv)
    (hres : op.result 0 = .ok res)
    (hrx : sa.GetShapeOrDataForValue xv = .ok (.Tensor rx))
    (hry : sa.GetShapeOrDataForValue yv = .ok (.Tensor ry))
    (htx : op.attributes.at "transpose_x" = .ok (.Bool tx))
    (hty : op.attributes.at "transpose_y" = .ok (.Bool ty))
    (hxr : 1 ≤ (dataOrShape rx).length) (hyr : 1 ≤ (dataOrShape ry).length)
    (hsize : (dataOrShape rx).length < 18446744073709551616) :
    paddle.dialect.MatmulOpInferSymbolicShape op sa =
      .ok (sa.SetShapeOrDataForValue res
        (.Tensor ⟨matmulResult (dataOrShape rx) (dataOrShape ry) tx ty, none⟩)) := by
  unfold paddle.dialect.MatmulOpInferSymbolicShape
  simp only [hx, hy, hrx, hry, hres, bind, Except.bind, matmul_dims_eq,
    matmul_out_dims_eq op.attributes _ _ tx ty hxr hyr hsize htx hty, pure, Except.pure]

theorem matmulBatch_length (x y : List DimExpr) (hx : 2 ≤ x.length) (hy : 2 ≤ y.length) :
    (matmulBatch x y).length = max x.length y.length - 2 := by
  unfold matmulBatch
  split_ifs with h1 h2
  · rw [List.length_take]; omega
  · rw [List.length_take]; omega
  · rw [List.length_zipWith, List.length_take, List.length_take]; omega

/-- C22: matmul result layout. For operand bases `x` and `y` (the data when present, else the
shape) of rank at least 1, the rule succeeds and writes the shape
`batch ++ (x promoted ? [] : [M]) ++ (y promoted ? [] : [N])`, where the promoted shapes are
`[1, x0]` for a rank-1 `x` and `[y0, 1]` for a rank-1 `y`, `M` is `x[-1]` with `transpose_x`
and `x[-2]` without, `N` is `y[-2]` with `transpose_y` and `y[-1]` without. Vector by
vector gives `[]`, and `[m,k]` by `[k]` without `transpose_x` gives `[m]`. -/
theorem C22_matmul_result_layout (op : Operation) (sa : ShapeConstraintIRAnalysis)
    (xv yv res : Value) (rx ry : TensorShapeOrDataDimExprs) (tx ty : Bool)
    (hx : op.operand_source 0 = .ok xv) (hy : op.operand_source 1 = .ok yv)
    (hres : op.result 0 = .ok res)
    (hrx : sa.GetShapeOrDataForValue xv = .ok (.Tensor rx))
    (hry : sa.GetShapeOrDataForValue yv = .ok (.Tensor ry))
    (htx : op.attributes.at "transpose_x" = .ok (.Bool tx))
    (hty : op.attributes.at "transpose_y" = .ok (.Bool ty))
    (hxr : 1 ≤ (dataOrShape rx).length) (hyr : 1 ≤ (dataOrShape ry).length)
    (hsize : (dataOrShape rx).length < 18446744073709551616) :
    paddle.dialect.MatmulOpInferSymbolicShape op sa =
      .ok (sa.SetShapeOrDataForValue res
        (.Tensor ⟨matmulResult (dataOrShape rx) (dataOrShape ry) tx ty, none⟩))
    ∧ ((dataOrShape rx).length = 1 → (dataOrShape ry).length = 1 →
        matmulResult (dataOrShape rx) (dataOrShape ry) tx ty = [])
    ∧ (∀ m k k2 : DimExpr, dataOrShape rx = [m, k] → dataOrShape ry = [k2] → tx = false →
        matmulResult (dataOrShape rx) (dataOrShape ry) tx ty = [m]) := by
  refine ⟨matmul_rule_eq op sa xv yv res rx ry tx ty hx hy hres hrx hry htx hty hxr hyr hsize,
    ?_, ?_⟩
  · intro h1 h2
    have e1 : ∃ a, dataOrShape rx = [a] := List.length_eq_one.mp h1
    have e2 : ∃ b, dataOrShape ry = [b] := List.length_eq_one.mp h2
    obtain ⟨a, ha⟩ := e1
    obtain ⟨b, hb⟩ := e2
    rw [ha, hb]
    simp [matmulResult, matmulTail, matmulPromoteX, matmulPromoteY, matmulBatch]
  · intro m k k2 h1 h2 h3
    rw [h1, h2, h3]
    simp [matmulResult, matmulTail, matmulPromoteX, matmulPromoteY, matmulBatch]

/-- Instance of C22: `[4,5]` by `[5]` gives `[4]`. -/
theorem C22_matmul_result_layout_witness :
    paddle.dialect.MatmulOpInferSymbolicShape (Instances.matmulOp false false)
        (Instances.pairContext [DimExpr.Int64 4, DimExpr.Int64 5] [DimExpr.Int64 5]) =
      .ok ((Instances.pairContext [DimExpr.Int64 4, DimExpr.Int64 5]
          [DimExpr.Int64 5]).SetShapeOrDataForValue (Instances.inputValue 2 [])
        (.Tensor ⟨[DimExpr.Int64 4], none⟩)) :=
  (C22_matmul_result_layout (Instances.matmulOp false false)
    (Instances.pairContext [DimExpr.Int64 4, DimExpr.Int64 5] [DimExpr.Int64 5])
    (Instances.inputValue 0 []) (Instances.inputValue 1 []) (Instances.inputValue 2 [])
    ⟨[DimExpr.Int64 4, DimExpr.Int64 5], none⟩ ⟨[DimExpr.Int64 5], none⟩ false false
    (by rfl) (by rfl) (by rfl) (by rfl) (by rfl) (by rfl) (by rfl) (by decide) (by decide)
    (by decide)).1.trans (by rfl)

/-- C23: matmul batch dimensions. With `px` and `py` the operand bases after rank-1
promotion, of ranks `rx` and `ry`, the rule succeeds and the shape it writes is
`batch ++ tail` with at most two trailing entries, where `batch` is `px[0 .. rx-3]` when
`rx > ry`, `py[0 .. ry-3]` when `rx < ry`, and the position-wise list
`Broadcast(px[i], py[i])` for `i` in `0 .. rx-3` when `rx = ry`; `batch` has length
`max(rx, ry) - 2`. -/
theorem C23_matmul_batch_dimensions (op : Operation) (sa : ShapeConstraintIRAnalysis)
    (xv yv res : Value) (rx ry : TensorShapeOrDataDimExprs) (tx ty : Bool)
    (hx : op.operand_source 0 = .ok xv) (hy : op.operand_source 1 = .ok yv)
    (hres : op.result 0 = .ok res)
    (hrx : sa.GetShapeOrDataForValue xv = .ok (.Tensor rx))
    (hry : sa.GetShapeOrDataForValue yv = .ok (.Tensor ry))
    (htx : op.attributes.at "transpose_x" = .ok (.Bool tx))
    (hty : op.attributes.at "transpose_y" = .ok (.Bool ty))
    (hxr : 1 ≤ (dataOrShape rx).length) (hyr : 1 ≤ (dataOrShape ry).length)
    (hsize : (dataOrShape rx).length < 18446744073709551616) :
    (∃ tail : List DimExpr, tail.length ≤ 2 ∧
      paddle.dialect.MatmulOpInferSymbolicShape op sa =
        .ok (sa.SetShapeOrDataForValue res (.Tensor
          ⟨matmulBatch (matmulPromoteX (dataOrShape rx)) (matmulPromoteY (dataOrShape ry))
            ++ tail, none⟩)))
    ∧ paddle.dialect.MatmulOpInferSymbolicShape.batch
        (matmulPromoteX (dataOrShape rx)) (matmulPromoteY (dataOrShape ry))
        (matmulPromoteX (dataOrShape rx)).length (matmulPromoteY (dataOrShape ry)).length
      = .ok (matmulBatch (matmulPromoteX (dataOrShape rx)) (matmulPromoteY (dataOrShape ry)))
    ∧ (∀ px py : List DimExpr, px.length > py.length →
        matmulBatch px py = px.take (px.length - 2))
    ∧ (∀ px py : List DimExpr, px.length < py.length →
        matmulBatch px py = py.take (py.length - 2))
    ∧ (∀ px py : List DimExpr, px.length = py.length →
        (matmulBatch px py).length = px.length - 2 ∧
        ∀ i : Nat, i < px.length - 2 →
          (matmulBatch px py)[i]? = some (DimExprBuilder.Broadcast none
            (px.getD i (DimExpr.Int64 0)) (py.getD i (DimExpr.Int64 0))).1)
    ∧ (matmulBatch (matmulPromoteX (dataOrShape rx)) (matmulPromoteY (dataOrShape ry))).length
        = max (matmulPromoteX (dataOrShape rx)).length
            (matmulPromoteY (dataOrShape ry)).length - 2 := by
  obtain ⟨hpx2, hpy2, hpxl, hpyl⟩ := matmulPromote_length _ _ hxr hyr
  have hps : (matmulPromoteX (dataOrShape rx)).length < 18446744073709551616 := by
    rw [hpxl]; split_ifs <;> omega
  refine ⟨?_, matmul_batch_eq _ _ hpx2 hpy2 hps, ?_, ?_, ?_, matmulBatch_length _ _ hpx2 hpy2⟩
  · refine ⟨matmulTail (dataOrShape rx) (dataOrShape ry) tx ty, ?_, ?_⟩
    · unfold matmulTail
      rw [List.length_append]
      split_ifs <;> simp
    · rw [matmul_rule_eq op sa xv yv res rx ry tx ty hx hy hres hrx hry htx hty hxr hyr hsize]
      rfl
  · intro px py h
    unfold matmulBatch
    rw [if_pos h]
  · intro px py h
    unfold matmulBatch
    rw [if_neg (by omega), if_pos h]
  · intro px py h
    have hb : matmulBatch px py = List.zipWith
        (fun a b => (DimExprBuilder.Broadcast none a b).1)
        (px.take (px.length - 2)) (py.take (py.length - 2)) := by
      unfold matmulBatch
      rw [if_neg (by omega), if_neg (by omega)]
    refine ⟨?_, ?_⟩
    · rw [hb, List.length_zipWith, List.length_take, List.length_take]; omega
    · intro i hi
      have h1 : i < px.length := by omega
      have h2 : i < py.length := by omega
      rw [hb, List.getElem?_zipWith, List.getElem?_take_of_lt hi,
        List.getElem?_take_of_lt (by omega), List.getElem?_eq_getElem h1,
        List.getElem?_eq_getElem h2, List.getD_eq_getElem _ _ h1, List.getD_eq_getElem _ _ h2]

/-- Instance of C23: `[2,3,4,5]` by `[7,5,6]` has the batch part `[2,3]`, the leading
dimensions of the longer operand, and gives `[2,3,4,6]`. -/
theorem C23_matmul_batch_dimensions_witness :
    paddle.dialect.MatmulOpInferSymbolicShape.batch
        [DimExpr.Int64 2, DimExpr.Int64 3, DimExpr.Int64 4, DimExpr.Int64 5]
        [DimExpr.Int64 7, DimExpr.Int64 5, DimExpr.Int64 6] 4 3
      = .ok [DimExpr.Int64 2, DimExpr.Int64 3] :=
  (C23_matmul_batch_dimensions (Instances.matmulOp false false)
    (Instances.pairContext [DimExpr.Int64 2, DimExpr.Int64 3, DimExpr.Int64 4, DimExpr.Int64 5]
      [DimExpr.Int64 7, DimExpr.Int64 5, DimExpr.Int64 6])
    (Instances.inputValue 0 []) (Instances.inputValue 1 []) (Instances.inputValue 2 [])
    ⟨[DimExpr.Int64 2, DimExpr.Int64 3, DimExpr.Int64 4, DimExpr.Int64 5], none⟩
    ⟨[DimExpr.Int64 7, DimExpr.Int64 5, DimExpr.Int64 6], none⟩ false false
    (by rfl) (by rfl) (by rfl) (by rfl) (by rfl) (by rfl) (by rfl) (by decide) (by decide)
    (by decide)).2.1.trans (by rfl)

/-! ## Unimplemented operators and in-place variants -/

/-- C24: every rule of the unimplemented set (transpose, tril, where, assign, bitwise_and,
feed, greater_than, increment, less_than, logical_and, logical_not, not_equal,
top_p_sampling, log, expand, expand_as, split, sparse_weight_embedding and the in-place
forms that delegate to them) fails with the Unimplemented error for every operation and
every context. A failing rule returns no context: it never reports success and the context
passed in, with its value-to-record map, is not changed. -/
theorem C24_unimplemented_rules_fail (entry : String × InferSymbolicShapeRule)
    (h : entry ∈ unimplementedRules) (op : Operation) (sa : ShapeConstraintIRAnalysis) :
    entry.2 op sa = .error .UnimplementedOperator := by
  simp only [unimplementedRules, List.mem_cons, List.mem_singleton, List.not_mem_nil,
    or_false] at h
  rcases h with h | h | h | h | h | h | h | h | h | h | h | h | h | h | h | h | h | h | h | h |
    h | h | h | h | h | h | h | h | h | h <;> subst h <;> rfl

/-- Instance of C24: the in-place transpose rule fails with the Unimplemented error. -/
theorem C24_unimplemented_rules_fail_witness :
    paddle.dialect.Transpose_OpInferSymbolicShape (Instances.unaryOp "pd_op.transpose_")
      Instances.unaryContext = .error .UnimplementedOperator :=
  C24_unimplemented_rules_fail ("transpose_", paddle.dialect.Transpose_OpInferSymbolicShape)
    (by simp [unimplementedRules]) (Instances.unaryOp "pd_op.transpose_") Instances.unaryContext

/-- C27 (failing input): on the same operation and context the value-producing rule of
`pow` succeeds and writes the record of operand 0 for result 0, while the in-place rule
`Pow_OpInferSymbolicShape` fails with the Unimplemented error. -/
theorem C27_pow_in_place_differs :
    paddle.dialect.PowOpInferSymbolicShape (Instances.unaryOp "pd_op.pow")
        Instances.unaryContext =
      .ok (Instances.unaryContext.SetShapeOrDataForValue (Instances.inputValue 1 [2, 3])
        (Instances.staticTensor [2, 3]))
    ∧ paddle.dialect.Pow_OpInferSymbolicShape (Instances.unaryOp "pd_op.pow")
        Instances.unaryContext = .error .UnimplementedOperator :=
  ⟨by rfl, by rfl⟩

/-- The in-place rules other than the one of `pow`: for every operator with a `_`-suffixed
in-place variant in the file other than `pow` (abs, add, cast, exp, subtract, reshape,
multiply, multiply on selected rows, rsqrt, scale, scale on selected rows, squeeze,
unsqueeze, divide, relu, and the unimplemented transpose, tril, where, assign, bitwise_and,
greater_than, increment, less_than, logical_and, logical_not, not_equal, log) and for every
operation and context, the in-place rule and the value-producing rule have the same
outcome; the in-place rule of `pow` fails on every operation and context, while the
value-producing rule of `pow` is the shape-preserving rule. -/
theorem in_place_rules_agree
    (entry : String × InferSymbolicShapeRule × InferSymbolicShapeRule)
    (h : entry ∈ inPlaceRules) (op : Operation) (sa : ShapeConstraintIRAnalysis) :
    entry.2.1 op sa = entry.2.2 op sa
    ∧ paddle.dialect.Pow_OpInferSymbolicShape op sa = .error .UnimplementedOperator
    ∧ paddle.dialect.PowOpInferSymbolicShape op sa = SameOperandsAndResultShape op sa := by
  refine ⟨?_, rfl, rfl⟩
  simp only [inPlaceRules, List.mem_cons, List.mem_singleton, List.not_mem_nil,
    or_false] at h
  rcases h with h | h | h | h | h | h | h | h | h | h | h | h | h | h | h | h | h | h | h | h |
    h | h | h | h | h | h | h <;> subst h <;> rfl

/-- The in-place reshape rule and the reshape rule agree on a reshape of `[2,3,4]` to
`[4,-1]`. -/
theorem in_place_rules_agree_instance :
    paddle.dialect.Reshape_OpInferSymbolicShape Instances.reshapeOp
        (Instances.reshapeContext [4, -1]) =
      paddle.dialect.ReshapeOpInferSymbolicShape Instances.reshapeOp
        (Instances.reshapeContext [4, -1]) :=
  (in_place_rules_agree ("reshape", paddle.dialect.Reshape_OpInferSymbolicShape,
    paddle.dialect.ReshapeOpInferSymbolicShape) (by simp [inPlaceRules]) Instances.reshapeOp
    (Instances.reshapeContext [4, -1])).1

/-! ## Broadcast obligations -/

theorem elementwise_writes_one_record (op : Operation) (sa sa2 : ShapeConstraintIRAnalysis)
    (h : InferSymbolicShapeElementWiseBinary op sa = .ok sa2) :
    ∃ (res : Value) (r : ShapeOrDataDimExprs), sa2 = sa.SetShapeOrDataForValue res r := by
  unfold InferSymbolicShapeElementWiseBinary at h
  simp only [bind, Except.bind, pure, Except.pure] at h
  split at h
  · cases h
  · split at h
    · cases h
    · split at h
      · cases h
      · cases h
        exact ⟨_, _, rfl⟩

theorem matmul_writes_one_record (op : Operation) (sa sa2 : ShapeConstraintIRAnalysis)
    (h : paddle.dialect.MatmulOpInferSymbolicShape op sa = .ok sa2) :
    ∃ (res : Value) (r : ShapeOrDataDimExprs), sa2 = sa.SetShapeOrDataForValue res r := by
  unfold paddle.dialect.MatmulOpInferSymbolicShape at h
  simp only [bind, Except.bind, pure, Except.pure] at h
  split at h
  · cases h
  split at h
  · cases h
  split at h
  · cases h
  split at h
  · cases h
  split at h
  · cases h
  split at h
  · cases h
  split at h
  · cases h
  split at h
  · cases h
  cases h
  exact ⟨_, _, rfl⟩

/-- C28 (counterexample): the elementwise rule applied to shapes `[S0]` and `[S1]` combines
the two dimensions, which are neither equal nor literal 1, and succeeds with the shape
`[Broadcast(S0, S1)]`; the constraint store of the context passed to the rule holds no
obligation afterwards. -/
theorem C28_broadcast_obligation_not_registered :
    InferSymbolicShapeElementWiseBinary Instances.addOp
        (Instances.pairContext [DimExpr.Symbol "S0"] [DimExpr.Symbol "S1"]) =
      .ok ((Instances.pairContext [DimExpr.Symbol "S0"]
          [DimExpr.Symbol "S1"]).SetShapeOrDataForValue (Instances.inputValue 2 [-1])
        (.Tensor ⟨[DimExpr.Broadcast (DimExpr.Symbol "S0") (DimExpr.Symbol "S1")], none⟩))
    ∧ ((Instances.pairContext [DimExpr.Symbol "S0"]
          [DimExpr.Symbol "S1"]).SetShapeOrDataForValue (Instances.inputValue 2 [-1])
        (.Tensor ⟨[DimExpr.Broadcast (DimExpr.Symbol "S0") (DimExpr.Symbol "S1")],
          none⟩)).broadcastables = []
    ∧ ((Instances.pairContext [DimExpr.Symbol "S0"]
          [DimExpr.Symbol "S1"]).SetShapeOrDataForValue (Instances.inputValue 2 [-1])
        (.Tensor ⟨[DimExpr.Broadcast (DimExpr.Symbol "S0") (DimExpr.Symbol "S1")],
          none⟩)).equalities = [] :=
  ⟨by rfl, by rfl, by rfl⟩

/-- C28 (amended): the elementwise binary rule and matmul perform `Broadcast` with a builder
constructed from `nullptr`, attached to no context. Whenever one of these rules succeeds,
the context it returns is the context passed in with one record written: the constraint
store (equality and broadcast obligations) and the symbol counter are unchanged. Two
dimensions `a` and `b` that are neither structurally equal nor literal 1 are combined by
that builder into the unresolved node `Broadcast(a, b)`, which stays in the result shape,
and the builder has no context to register in. -/
theorem C28_broadcast_leaves_store_unchanged (op : Operation)
    (sa sa2 : ShapeConstraintIRAnalysis)
    (h : InferSymbolicShapeElementWiseBinary op sa = .ok sa2
      ∨ paddle.dialect.MatmulOpInferSymbolicShape op sa = .ok sa2) :
    sa2.broadcastables = sa.broadcastables ∧ sa2.equalities = sa.equalities
    ∧ sa2.next_sym_idx = sa.next_sym_idx
    ∧ (∃ (res : Value) (r : ShapeOrDataDimExprs), sa2 = sa.SetShapeOrDataForValue res r)
    ∧ ∀ a b : DimExpr, a ≠ b → a ≠ DimExpr.Int64 1 → b ≠ DimExpr.Int64 1 →
        DimExprBuilder.Broadcast none a b = (DimExpr.Broadcast a b, none)
        ∧ broadcastCombine a b = DimExpr.Broadcast a b := by
  have hw : ∃ (res : Value) (r : ShapeOrDataDimExprs),
      sa2 = sa.SetShapeOrDataForValue res r := by
    rcases h with h | h
    · exact elementwise_writes_one_record op sa sa2 h
    · exact matmul_writes_one_record op sa sa2 h
  refine ⟨?_, ?_, ?_, hw, ?_⟩
  · obtain ⟨res, r, rfl⟩ := hw; rfl
  · obtain ⟨res, r, rfl⟩ := hw; rfl
  · obtain ⟨res, r, rfl⟩ := hw; rfl
  · intro a b h1 h2 h3
    have hb : DimExprBuilder.Broadcast none a b = (DimExpr.Broadcast a b, none) := by
      unfold DimExprBuilder.Broadcast
      rw [if_neg h1, if_neg (by rw [DimExpr_one_eq]; exact h2),
        if_neg (by rw [DimExpr_one_eq]; exact h3)]
    refine ⟨hb, ?_⟩
    unfold broadcastCombine
    rw [if_neg h1, if_neg h2, if_neg h3, hb]

/-- Instance of C28 (amended): matmul of `[S0, 4, 5]` by `[S1, 5, 6]` combines the batch
dimensions `S0` and `S1` and leaves the (empty) broadcast store of the context unchanged. -/
theorem C28_broadcast_leaves_store_unchanged_witness :
    ((Instances.pairContext [DimExpr.Symbol "S0", DimExpr.Int64 4, DimExpr.Int64 5]
        [DimExpr.Symbol "S1", DimExpr.Int64 5, DimExpr.Int64 6]).SetShapeOrDataForValue
      (Instances.inputValue 2 [])
      (.Tensor ⟨[DimExpr.Broadcast (DimExpr.Symbol "S0") (DimExpr.Symbol "S1"),
        DimExpr.Int64 4, DimExpr.Int64 6], none⟩)).broadcastables = [] :=
  (C28_broadcast_leaves_store_unchanged (Instances.matmulOp false false)
    (Instances.pairContext [DimExpr.Symbol "S0", DimExpr.Int64 4, DimExpr.Int64 5]
      [DimExpr.Symbol "S1", DimExpr.Int64 5, DimExpr.Int64 6])
    ((Instances.pairContext [DimExpr.Symbol "S0", DimExpr.Int64 4, DimExpr.Int64 5]
        [DimExpr.Symbol "S1", DimExpr.Int64 5, DimExpr.Int64 6]).SetShapeOrDataForValue
      (Instances.inputValue 2 [])
      (.Tensor ⟨[DimExpr.Broadcast (DimExpr.Symbol "S0") (DimExpr.Symbol "S1"),
        DimExpr.Int64 4, DimExpr.Int64 6], none⟩))
    (Or.inr (by rfl))).1

/-! ## Arange, shape, full and full_int_array -/

theorem vecAt_of_getElem? {α : Type} (v : List α) (i : Nat) (a : α) (h : v[i]? = some a) :
    vecAt v i = .ok a := by
  unfold vecAt
  rw [h]

theorem arange_expr_eq (t : TensorShapeOrDataDimExprs) (a : DimExpr)
    (h : (dataOrShape t)[0]? = some a) :
    paddle.dialect.ArangeOpInferSymbolicShape.expr (.Tensor t) = .ok a := by
  obtain ⟨s, d⟩ := t
  cases d with
  | none => exact vecAt_of_getElem? s 0 a h
  | some data => exact vecAt_of_getElem? data 0 a h

theorem divide_literals_truncating (a c : Int) (hc : c ≠ 0) :
    (DimExpr.Int64 a / DimExpr.Int64 c : DimExpr) = DimExpr.Int64 (Int.tdiv a c) := by
  show DimExpr.divide (DimExpr.Int64 a) (DimExpr.Int64 c) = _
  by_cases h1 : c = 1
  · subst h1; simp [DimExpr.divide]
  · simp [DimExpr.divide, h1, hc]

/-- C29: arange leaves the length in truncating-division form. With `start`, `end` and
`step` the first element of the data of the respective operand record when it carries data
and the first element of its shape otherwise, the rule succeeds and writes a tensor record
without data whose shape is the one-element list `(end - start) / step`; on literals with a
non-zero step this is the truncated quotient, no ceiling is applied. -/
theorem C29_arange_truncating_quotient (op : Operation) (sa : ShapeConstraintIRAnalysis)
    (v0 v1 v2 res : Value) (r0 r1 r2 : TensorShapeOrDataDimExprs) (s e st : DimExpr)
    (hv0 : op.operand_source 0 = .ok v0) (hv1 : op.operand_source 1 = .ok v1)
    (hv2 : op.operand_source 2 = .ok v2) (hres : op.result 0 = .ok res)
    (hr0 : sa.GetShapeOrDataForValue v0 = .ok (.Tensor r0))
    (hr1 : sa.GetShapeOrDataForValue v1 = .ok (.Tensor r1))
    (hr2 : sa.GetShapeOrDataForValue v2 = .ok (.Tensor r2))
    (hs : (dataOrShape r0)[0]? = some s) (he : (dataOrShape r1)[0]? = some e)
    (hst : (dataOrShape r2)[0]? = some st) :
    paddle.dialect.ArangeOpInferSymbolicShape op sa =
      .ok (sa.SetShapeOrDataForValue res (.Tensor ⟨[(e - s) / st], none⟩))
    ∧ ∀ a b c : Int, c ≠ 0 →
        ((DimExpr.Int64 b - DimExpr.Int64 a) / DimExpr.Int64 c : DimExpr)
          = DimExpr.Int64 (Int.tdiv (b - a) c) := by
  refine ⟨?_, ?_⟩
  · unfold paddle.dialect.ArangeOpInferSymbolicShape
    simp only [hv0, hv1, hv2, hres, hr0, hr1, hr2, bind, Except.bind, arange_expr_eq _ _ hs,
      arange_expr_eq _ _ he, arange_expr_eq _ _ hst, pure, Except.pure]
  · intro a b c hc
    rw [minus_literals, divide_literals_truncating _ _ hc]

/-- Instance of C29: for the literals start 0, end 10 and step 3 the written shape is `[3]`,
the truncated quotient of 10 by 3. -/
theorem C29_arange_truncating_quotient_witness :
    paddle.dialect.ArangeOpInferSymbolicShape Instances.arangeOp
        (Instances.arangeContext 0 10 3) =
      .ok ((Instances.arangeContext 0 10 3).SetShapeOrDataForValue (Instances.inputValue 3 [-1])
        (.Tensor ⟨[DimExpr.Int64 3], none⟩)) :=
  (C29_arange_truncating_quotient Instances.arangeOp (Instances.arangeContext 0 10 3)
    (Instances.inputValue 0 [1]) (Instances.inputValue 1 [1]) (Instances.inputValue 2 [1])
    (Instances.inputValue 3 [-1])
    ⟨[DimExpr.Int64 1], some [DimExpr.Int64 0]⟩ ⟨[DimExpr.Int64 1], some [DimExpr.Int64 10]⟩
    ⟨[DimExpr.Int64 1], some [DimExpr.Int64 3]⟩ (DimExpr.Int64 0) (DimExpr.Int64 10)
    (DimExpr.Int64 3) (by rfl) (by rfl) (by rfl) (by rfl) (by rfl) (by rfl) (by rfl) (by rfl)
    (by rfl) (by rfl)).1.trans (by rfl)

/-- C30: the shape rule writes for result 0 the record whose data is exactly the shape
vector of the operand record (the operand's own data is not read) and whose shape is the
one-element list holding the first static dimension of the type of result 0; when that
dimension equals the operand's rank, the record satisfies `shape[0] == literal(len(data))`. -/
theorem C30_shape_rule (op : Operation) (sa : ShapeConstraintIRAnalysis)
    (v res : Value) (r : TensorShapeOrDataDimExprs) (n : Int)
    (hv : op.operand_source 0 = .ok v) (hres : op.result 0 = .ok res)
    (hr : sa.GetShapeOrDataForValue v = .ok (.Tensor r))
    (hdim : res.dims[0]? = some n) :
    paddle.dialect.ShapeOpInferSymbolicShape op sa =
      .ok (sa.SetShapeOrDataForValue res (.Tensor ⟨[DimExpr.Int64 n], some r.shape⟩))
    ∧ paddle.dialect.ShapeSrOpInferSymbolicShape op sa =
      .ok (sa.SetShapeOrDataForValue res (.Tensor ⟨[DimExpr.Int64 n], some r.shape⟩))
    ∧ (n = (r.shape.length : Int) →
        dataInvariant ⟨[DimExpr.Int64 n], some r.shape⟩ = true) := by
  have hrule : paddle.dialect.ShapeOpInferSymbolicShape op sa =
      .ok (sa.SetShapeOrDataForValue res (.Tensor ⟨[DimExpr.Int64 n], some r.shape⟩)) := by
    unfold paddle.dialect.ShapeOpInferSymbolicShape
    simp only [hv, hres, hr, bind, Except.bind, vecAt_of_getElem? _ _ _ hdim, tensor_shape_eq,
      pure, Except.pure]
  refine ⟨hrule, hrule, ?_⟩
  intro hn
  subst hn
  simp [dataInvariant]

/-- Instance of C30: the operand record has shape `[S0, 4]` and data `[7]`; the result, of
static type `[2]`, receives shape `[2]` and data `[S0, 4]`. -/
theorem C30_shape_rule_witness :
    paddle.dialect.ShapeOpInferSymbolicShape (Instances.shapeOp 2)
        (Instances.contextOf [(0, .Tensor ⟨[DimExpr.Symbol "S0", DimExpr.Int64 4],
          some [DimExpr.Int64 7]⟩)]) =
      .ok ((Instances.contextOf [(0, .Tensor ⟨[DimExpr.Symbol "S0", DimExpr.Int64 4],
          some [DimExpr.Int64 7]⟩)]).SetShapeOrDataForValue
        ⟨1, [2], some ⟨"pd_op.shape", []⟩⟩
        (.Tensor ⟨[DimExpr.Int64 2], some [DimExpr.Symbol "S0", DimExpr.Int64 4]⟩)) :=
  (C30_shape_rule (Instances.shapeOp 2)
    (Instances.contextOf [(0, .Tensor ⟨[DimExpr.Symbol "S0", DimExpr.Int64 4],
      some [DimExpr.Int64 7]⟩)])
    (Instances.inputValue 0 []) ⟨1, [2], some ⟨"pd_op.shape", []⟩⟩
    ⟨[DimExpr.Symbol "S0", DimExpr.Int64 4], some [DimExpr.Int64 7]⟩ 2
    (by rfl) (by rfl) (by rfl) (by rfl)).1

/-! ## Data invariant of written records -/

theorem full_int_array_data (values : List Int) :
    (values.map Attribute.Int64).mapM (fun item =>
      match item with
      | .Int64 i => (.ok (DimExpr.Int64 i) : Except Error DimExpr)
      | _ => .error .NullPointer) = .ok (values.map DimExpr.Int64) := by
  induction values with
  | nil => rfl
  | cons a l ih =>
    rw [List.map_cons, List.mapM_cons, ih]
    rfl

theorem full_int_array_rule (op : Operation) (sa : ShapeConstraintIRAnalysis) (res : Value)
    (values : List Int)
    (hattr : op.attributes.at "value" = .ok (.Array (values.map Attribute.Int64)))
    (hres : op.result 0 = .ok res) :
    paddle.dialect.FullIntArrayOpInferSymbolicShape op sa =
      .ok (sa.SetShapeOrDataForValue res
        (.Tensor ⟨[DimExpr.Int64 (values.length : Int)], some (values.map DimExpr.Int64)⟩)) := by
  unfold paddle.dialect.FullIntArrayOpInferSymbolicShape
  simp only [hattr, hres, bind, Except.bind, pure, Except.pure, full_int_array_data,
    List.length_map]

theorem full_rule (op : Operation) (sa : ShapeConstraintIRAnalysis) (res : Value)
    (shape : List Int) (value : Int)
    (hshape : op.attributes.at "shape" = .ok (.IntArray shape))
    (hvalue : op.attributes.at "value" = .ok (.Scalar value))
    (hres : op.result 0 = .ok res) :
    paddle.dialect.FullOpInferSymbolicShape op sa =
      .ok (sa.SetShapeOrDataForValue res
        (.Tensor ⟨shape.map DimExpr.Int64, some [DimExpr.Int64 value]⟩)) := by
  unfold paddle.dialect.FullOpInferSymbolicShape
  simp only [hshape, hvalue, hres, bind, Except.bind, pure, Except.pure]

theorem stack_all_data_rule (op : Operation) (sa : ShapeConstraintIRAnalysis)
    (v res : Value) (a : Int) (items : List TensorShapeOrDataDimExprs)
    (first : TensorShapeOrDataDimExprs) (firsts : List DimExpr)
    (hsrc : op.operand_source 0 = .ok v)
    (hattr : op.attributes.at "axis" = .ok (.Int32 a))
    (hrec : sa.GetShapeOrDataForValue v = .ok (.TensorList items))
    (hfirst : items[0]? = some first)
    (haxis : (if a < 0 then a + ((first.shape.length : Int) + 1) else a) = 0)
    (hdata : items.map (fun t => t.data.bind List.head?) = firsts.map some)
    (hres : op.result 0 = .ok res) :
    paddle.dialect.StackOpInferSymbolicShape op sa =
      .ok (sa.SetShapeOrDataForValue res
        (.Tensor ⟨[DimExpr.Int64 (items.length : Int)], some firsts⟩))
    ∧ firsts.length = items.length := by
  have hlen : firsts.length = items.length := by
    have := congrArg List.length hdata
    simpa using this.symm
  have hpos : firsts.length ≠ 0 := by
    rw [hlen]
    cases items with
    | nil => cases hfirst
    | cons t l => simp
  refine ⟨?_, hlen⟩
  unfold paddle.dialect.StackOpInferSymbolicShape
  simp only [hsrc, hattr, hrec, bind, Except.bind, ShapeOrDataDimExprs.asTensorList, vecAt,
    hfirst, haxis, stack_data_dim_exprs items firsts hdata, pure, Except.pure, hres, hpos,
    ne_eq, not_false_eq_true, if_true]

/-- C26 (counterexample): the full rule with `shape = [2,3]` and `value = 7` writes a record
with data `[7]` whose shape is `[2,3]`: the shape has rank 2 and is not the one-element
list holding the length of the data. -/
theorem C26_full_record_breaks_invariant :
    paddle.dialect.FullOpInferSymbolicShape (Instances.fullOp [2, 3] 7)
        (Instances.contextOf []) =
      .ok ((Instances.contextOf []).SetShapeOrDataForValue
        ⟨0, [2, 3], some ⟨FullOp.name, []⟩⟩
        (.Tensor ⟨[DimExpr.Int64 2, DimExpr.Int64 3], some [DimExpr.Int64 7]⟩))
    ∧ dataInvariant ⟨[DimExpr.Int64 2, DimExpr.Int64 3], some [DimExpr.Int64 7]⟩ = false :=
  ⟨by rfl, by decide⟩

/-- C26 (amended): data invariant of written records. The record written with data has a
shape of rank 1 whose entry is the literal length of the data for: the full_int_array rule;
the shape rule when the first static dimension of the result type equals the operand's
rank; the data-mode slice of the paddle dialect for literal bounds `0 <= s <= e <= len`;
the stack rule on normalised axis 0 when every element carries data. The full rule writes
the `shape` attribute as shape and the one-element list holding `value` as data: its
record satisfies the invariant exactly when the `shape` attribute is `[1]`. -/
theorem C26_data_invariant_of_written_records :
    (∀ (op : Operation) (sa : ShapeConstraintIRAnalysis) (res : Value) (values : List Int),
      op.attributes.at "value" = .ok (.Array (values.map Attribute.Int64)) →
      op.result 0 = .ok res →
      paddle.dialect.FullIntArrayOpInferSymbolicShape op sa =
        .ok (sa.SetShapeOrDataForValue res (.Tensor
          ⟨[DimExpr.Int64 (values.length : Int)], some (values.map DimExpr.Int64)⟩))
      ∧ dataInvariant ⟨[DimExpr.Int64 (values.length : Int)],
          some (values.map DimExpr.Int64)⟩ = true)
    ∧ (∀ (op : Operation) (sa : ShapeConstraintIRAnalysis) (v res : Value)
        (r : TensorShapeOrDataDimExprs),
      op.operand_source 0 = .ok v → op.result 0 = .ok res →
      sa.GetShapeOrDataForValue v = .ok (.Tensor r) →
      res.dims[0]? = some (r.shape.length : Int) →
      paddle.dialect.ShapeOpInferSymbolicShape op sa =
        .ok (sa.SetShapeOrDataForValue res (.Tensor
          ⟨[DimExpr.Int64 (r.shape.length : Int)], some r.shape⟩))
      ∧ dataInvariant ⟨[DimExpr.Int64 (r.shape.length : Int)], some r.shape⟩ = true)
    ∧ (∀ (shape v : List DimExpr) (s e : Int) (starts ends : List Int),
      0 ≤ s → s ≤ e → e ≤ (v.length : Int) →
      paddle.dialect.SliceOpInferSymbolicShape.GetDataDimExprs (.Tensor ⟨shape, some v⟩)
          (s :: starts) (e :: ends) =
        .ok (.Tensor ⟨[DimExpr.Int64 (e - s)], some ((v.drop s.toNat).take (e - s).toNat)⟩)
      ∧ dataInvariant ⟨[DimExpr.Int64 (e - s)],
          some ((v.drop s.toNat).take (e - s).toNat)⟩ = true)
    ∧ (∀ (op : Operation) (sa : ShapeConstraintIRAnalysis) (v res : Value) (a : Int)
        (items : List TensorShapeOrDataDimExprs) (first : TensorShapeOrDataDimExprs)
        (firsts : List DimExpr),
      op.operand_source 0 = .ok v → op.attributes.at "axis" = .ok (.Int32 a) →
      sa.GetShapeOrDataForValue v = .ok (.TensorList items) → items[0]? = some first →
      (if a < 0 then a + ((first.shape.length : Int) + 1) else a) = 0 →
      items.map (fun t => t.data.bind List.head?) = firsts.map some →
      op.result 0 = .ok res →
      paddle.dialect.StackOpInferSymbolicShape op sa =
        .ok (sa.SetShapeOrDataForValue res
          (.Tensor ⟨[DimExpr.Int64 (items.length : Int)], some firsts⟩))
      ∧ dataInvariant ⟨[DimExpr.Int64 (items.length : Int)], some firsts⟩ = true)
    ∧ (∀ (op : Operation) (sa : ShapeConstraintIRAnalysis) (res : Value) (shape : List Int)
        (value : Int),
      op.attributes.at "shape" = .ok (.IntArray shape) →
      op.attributes.at "value" = .ok (.Scalar value) → op.result 0 = .ok res →
      paddle.dialect.FullOpInferSymbolicShape op sa =
        .ok (sa.SetShapeOrDataForValue res
          (.Tensor ⟨shape.map DimExpr.Int64, some [DimExpr.Int64 value]⟩))
      ∧ (dataInvariant ⟨shape.map DimExpr.Int64, some [DimExpr.Int64 value]⟩ = true
          ↔ shape = [1])) := by
  refine ⟨?_, ?_, ?_, ?_, ?_⟩
  · intro op sa res values hattr hres
    refine ⟨full_int_array_rule op sa res values hattr hres, ?_⟩
    simp [dataInvariant]
  · intro op sa v res r hv hres hr hdim
    refine ⟨?_, by simp [dataInvariant]⟩
    unfold paddle.dialect.ShapeOpInferSymbolicShape
    simp only [hv, hres, hr, bind, Except.bind, vecAt_of_getElem? _ _ _ hdim, tensor_shape_eq,
      pure, Except.pure]
  · intro shape v s e starts ends h0 hse hev
    refine ⟨slice_data_dim_exprs shape v s e starts ends h0 hse hev, ?_⟩
    have hlen : (((v.drop s.toNat).take (e - s).toNat).length : Int) = e - s := by
      simp; omega
    simp [dataInvariant]
    omega
  · intro op sa v res a items first firsts hsrc hattr hrec hfirst haxis hdata hres
    obtain ⟨hrule, hlen⟩ := stack_all_data_rule op sa v res a items first firsts hsrc hattr hrec
      hfirst haxis hdata hres
    refine ⟨hrule, ?_⟩
    simp [dataInvariant, hlen]
  · intro op sa res shape value hshape hvalue hres
    refine ⟨full_rule op sa res shape value hshape hvalue hres, ?_⟩
    simp only [dataInvariant, List.length_singleton, decide_eq_true_eq]
    constructor
    · intro h
      cases shape with
      | nil => simp at h
      | cons a l =>
        cases l with
        | nil => simpa using h
        | cons b l2 => simp at h
    · intro h
      subst h
      rfl

/-- Instance of C26 (amended): `full_int_array` with the values `[4, -1]` writes the shape
`[2]` and the data `[4, -1]`, which satisfies the invariant. -/
theorem C26_data_invariant_of_written_records_witness :
    paddle.dialect.FullIntArrayOpInferSymbolicShape (Instances.fullIntArrayOp [4, -1])
        (Instances.contextOf []) =
      .ok ((Instances.contextOf []).SetShapeOrDataForValue (Instances.intArrayValue 0 [2])
        (Instances.intArrayRecord [4, -1]))
    ∧ dataInvariant ⟨[DimExpr.Int64 2], some [DimExpr.Int64 4, DimExpr.Int64 (-1)]⟩ = true :=
  C26_data_invariant_of_written_records.1 (Instances.fullIntArrayOp [4, -1])
    (Instances.contextOf []) (Instances.intArrayValue 0 [2]) [4, -1] (by rfl) (by rfl)

/-! ## Failure atomicity -/

/-- C32 (failing input): the full rule on `shape = [2, 3]`, `value = 7` writes for its result
(a value of rank 2) a record whose data vector has the single entry 7; `ReduceInferDim` over
that value with `axis = [0]` selects the data (present and non-empty) as its basis and, at the
non-reduced axis 1, reads the basis out of range: the rule fails on an index error. -/
theorem C32_reduce_reads_past_full_data :
    paddle.dialect.FullOpInferSymbolicShape (Instances.fullOp [2, 3] 7) (Instances.contextOf [])
      = .ok (Instances.contextOf
          [(0, .Tensor ⟨[DimExpr.Int64 2, DimExpr.Int64 3], some [DimExpr.Int64 7]⟩)])
    ∧ paddle.dialect.ReduceInferDim.input_shapes
        (.Tensor ⟨[DimExpr.Int64 2, DimExpr.Int64 3], some [DimExpr.Int64 7]⟩)
      = .ok [DimExpr.Int64 7]
    ∧ (paddle.dialect.FullOpInferSymbolicShape (Instances.fullOp [2, 3] 7)
        (Instances.contextOf [])).bind
        (fun sa => paddle.dialect.ReduceInferDim Instances.reduceFullOp sa [0] false false)
      = .error .OutOfRange :=
  ⟨by rfl, by rfl, by rfl⟩

/-! ## Rules that copy the record of operand 0 -/

theorem same_operands_rule (op : Operation) (sa : ShapeConstraintIRAnalysis) (x res : Value)
    (r : ShapeOrDataDimExprs) (hx : op.operand_source 0 = .ok x) (hres : op.result 0 = .ok res)
    (hr : sa.GetShapeOrDataForValue x = .ok r) :
    SameOperandsAndResultShape op sa = .ok (sa.SetShapeOrDataForValue res r) := by
  simp [SameOperandsAndResultShape, hx, hres, hr, bind, Except.bind, pure, Except.pure]

theorem sameShapeRules_eq (p : String × InferSymbolicShapeRule) (hp : p ∈ sameShapeRules) :
    p.2 = SameOperandsAndResultShape := by
  simp only [sameShapeRules, List.mem_cons, List.mem_singleton, List.not_mem_nil,
    or_false] at hp
  rcases hp with h | h | h | h | h | h | h | h | h | h | h | h | h | h | h | h <;>
    subst h <;> rfl

/-- C37 (failing input): the in-place form of `pow` does not copy the record of operand 0.
On an operation whose operand 0 has the record `[2, 3]`, the in-place forms of its siblings
(here `abs_`) write that record for result 0, while `Pow_OpInferSymbolicShape` returns no
context at all, so result 0 receives no record. -/
theorem C37_pow_in_place_copies_nothing :
    Instances.unaryContext.GetShapeOrDataForValue (Instances.inputValue 0 [2, 3])
      = .ok (Instances.staticTensor [2, 3])
    ∧ paddle.dialect.Abs_OpInferSymbolicShape (Instances.unaryOp "pd_op.abs_")
        Instances.unaryContext =
      .ok (Instances.unaryContext.SetShapeOrDataForValue (Instances.inputValue 1 [2, 3])
        (Instances.staticTensor [2, 3]))
    ∧ paddle.dialect.Pow_OpInferSymbolicShape (Instances.unaryOp "pd_op.pow_")
        Instances.unaryContext = .error .UnimplementedOperator
    ∧ (paddle.dialect.Pow_OpInferSymbolicShape (Instances.unaryOp "pd_op.pow_")
        Instances.unaryContext).toOption = none :=
  ⟨by rfl, by rfl, by rfl, by rfl⟩

/-- The shape-preserving unary rules other than the in-place form of `pow`: every rule of
`sameShapeRules`, on an operation whose operand 0 has the record `r`, succeeds with a context
in which result 0 has the record `r` itself (shape and data), every value other than result
0 has the record it had, and the symbol counter and the constraint store are unchanged; the
in-place form of `pow` fails on every operation. -/
theorem same_shape_rules_copy_record (p : String × InferSymbolicShapeRule)
    (hp : p ∈ sameShapeRules) (op : Operation) (sa : ShapeConstraintIRAnalysis) (x res : Value)
    (r : ShapeOrDataDimExprs) (hx : op.operand_source 0 = .ok x) (hres : op.result 0 = .ok res)
    (hr : sa.GetShapeOrDataForValue x = .ok r) :
    (∃ sa2, p.2 op sa = .ok sa2
      ∧ sa2.GetShapeOrDataForValue res = .ok r
      ∧ (∀ w : Value, w.id ≠ res.id →
          sa2.GetShapeOrDataForValue w = sa.GetShapeOrDataForValue w)
      ∧ sa2.next_sym_idx = sa.next_sym_idx
      ∧ sa2.equalities = sa.equalities
      ∧ sa2.broadcastables = sa.broadcastables)
    ∧ ∀ (op2 : Operation) (sa3 : ShapeConstraintIRAnalysis),
        paddle.dialect.Pow_OpInferSymbolicShape op2 sa3 = .error .UnimplementedOperator := by
  refine ⟨⟨sa.SetShapeOrDataForValue res r, ?_, get_set_same sa res res r rfl,
    fun w hw => get_set_ne sa res w r hw, rfl, rfl, rfl⟩, fun _ _ => rfl⟩
  rw [sameShapeRules_eq p hp]
  exact same_operands_rule op sa x res r hx hres hr

/-- The rule of `scale_` on a value holding shape `[2]` and data `[S0, S1]` copies the
record. -/
theorem same_shape_rules_copy_record_instance :
    (∃ sa2, paddle.dialect.Scale_OpInferSymbolicShape Instances.reduceDataOp
        Instances.reduceDataContext = .ok sa2
      ∧ sa2.GetShapeOrDataForValue (Instances.inputValue 1 [1])
        = .ok (.Tensor ⟨[DimExpr.Int64 2], some [DimExpr.Symbol "S0", DimExpr.Symbol "S1"]⟩)
      ∧ (∀ w : Value, w.id ≠ (Instances.inputValue 1 [1]).id →
          sa2.GetShapeOrDataForValue w = Instances.reduceDataContext.GetShapeOrDataForValue w)
      ∧ sa2.next_sym_idx = Instances.reduceDataContext.next_sym_idx
      ∧ sa2.equalities = Instances.reduceDataContext.equalities
      ∧ sa2.broadcastables = Instances.reduceDataContext.broadcastables)
    ∧ ∀ (op2 : Operation) (sa3 : ShapeConstraintIRAnalysis),
        paddle.dialect.Pow_OpInferSymbolicShape op2 sa3 = .error .UnimplementedOperator :=
  same_shape_rules_copy_record ("scale_", paddle.dialect.Scale_OpInferSymbolicShape)
    (by simp [sameShapeRules]) Instances.reduceDataOp Instances.reduceDataContext
    ⟨0, [2], some ⟨"pd_op.shape", []⟩⟩ (Instances.inputValue 1 [1])
    (.Tensor ⟨[DimExpr.Int64 2], some [DimExpr.Symbol "S0", DimExpr.Symbol "S1"]⟩)
    rfl rfl rfl

/-! ## Shape-mode slice on literal dimensions -/

theorem plus_literals (a v : Int) :
    (DimExpr.Int64 a + DimExpr.Int64 v : DimExpr) = DimExpr.Int64 (a + v) := by
  show DimExpr.plus (DimExpr.Int64 a) (DimExpr.Int64 v) = _
  simp [DimExpr.plus]

theorem sliceDim_literal (d s e : Int) (he : e ≠ INT32_MAX) (h1 : ¬ (s = 0 ∧ e < 0))
    (h2 : ¬ (s < 0 ∧ e = 0)) :
    sliceDim s e (DimExpr.Int64 d) =
      DimExpr.Int64 (sliceNormalised d e - sliceNormalised d s) := by
  unfold sliceDim sliceNormalised
  simp only [if_neg he]
  by_cases hs : s < 0 <;> by_cases hen : e < 0
  · have c1 : (0 ≤ s ∧ 0 ≤ e) ∨ (s ≤ 0 ∧ e ≤ 0) := Or.inr ⟨by omega, by omega⟩
    simp only [if_pos c1, if_pos hs, if_pos hen, minus_literals]
    congr 1
    omega
  · have he0 : 0 < e := by
      rcases lt_trichotomy e 0 with h | h | h
      · exact absurd h hen
      · exact absurd ⟨hs, h⟩ h2
      · exact h
    have c1 : ¬ ((0 ≤ s ∧ 0 ≤ e) ∨ (s ≤ 0 ∧ e ≤ 0)) := by
      rintro (⟨h, _⟩ | ⟨_, h⟩) <;> omega
    have c2 : s < 0 ∧ 0 < e := ⟨hs, he0⟩
    simp only [if_neg c1, if_pos c2, if_pos hs, if_neg hen, minus_literals]
    congr 1
    omega
  · have hs0 : 0 < s := by
      rcases lt_trichotomy s 0 with h | h | h
      · exact absurd h hs
      · exact absurd ⟨h, hen⟩ h1
      · exact h
    have c1 : ¬ ((0 ≤ s ∧ 0 ≤ e) ∨ (s ≤ 0 ∧ e ≤ 0)) := by
      rintro (⟨_, h⟩ | ⟨h, _⟩) <;> omega
    have c2 : ¬ (s < 0 ∧ 0 < e) := by
      rintro ⟨h, _⟩; omega
    have c3 : 0 < s ∧ e < 0 := ⟨hs0, hen⟩
    simp only [if_neg c1, if_neg c2, if_pos c3, if_neg hs, if_pos hen, minus_literals,
      plus_literals]
    congr 1
    omega
  · have c1 : (0 ≤ s ∧ 0 ≤ e) ∨ (s ≤ 0 ∧ e ≤ 0) := Or.inl ⟨by omega, by omega⟩
    simp only [if_pos c1, if_neg hs, if_neg hen, minus_literals]

/-- C33 (counterexample): shape-mode slice of a source of static shape `[10]` along axis 0
with start 5 and end 2 (an empty selection) writes the result shape `[-3]`, a negative
literal, and with start 0 and end -2 (eight indices selected) it writes `[-2]`. -/
theorem C33_slice_negative_literal :
    sliceCount 10 5 2 = 0
    ∧ paddle.dialect.SliceOpInferSymbolicShape Instances.sliceOp (Instances.sliceContext 5 2)
      = .ok ((Instances.sliceContext 5 2).SetShapeOrDataForValue (Instances.inputValue 3 [3])
          (Instances.staticTensor [-3]))
    ∧ sliceCount 10 0 (-2) = 8
    ∧ paddle.dialect.SliceOpInferSymbolicShape Instances.sliceOp (Instances.sliceContext 0 (-2))
      = .ok ((Instances.sliceContext 0 (-2)).SetShapeOrDataForValue
          (Instances.inputValue 3 [3]) (Instances.staticTensor [-2])) :=
  ⟨by decide, by rfl, by decide, by rfl⟩

/-- C33 (amended): in shape mode, at a listed axis whose original dimension is the literal
`d >= 0`, for a literal start `s` and end `e` with `-d <= s, e <= d`, `e` other than
`INT32_MAX`, and not (one bound 0 and the other negative), the paddle-dialect slice writes
the literal `ne - ns`, where `ns` and `ne` are the bounds counted from the end when negative.
This is the number of indices selected by `[s:e]` when `ns <= ne`, and a negative literal
(the selection being empty) when `ne < ns`. -/
theorem C33_slice_static_dimension (op : Operation) (sa : ShapeConstraintIRAnalysis)
    (src st en res : Value) (rst ren : ShapeOrDataDimExprs) (shape : List DimExpr)
    (axes starts ends : List Int)
    (hsrc : op.operand_source 0 = .ok src) (hst : op.operand_source 1 = .ok st)
    (hen : op.operand_source 2 = .ok en) (hres : op.result 0 = .ok res)
    (hrsrc : sa.GetShapeOrDataForValue src = .ok (.Tensor ⟨shape, none⟩))
    (hrst : sa.GetShapeOrDataForValue st = .ok rst)
    (hstd : rst.data = .ok (some (starts.map DimExpr.Int64)))
    (hren : sa.GetShapeOrDataForValue en = .ok ren)
    (hend : ren.data = .ok (some (ends.map DimExpr.Int64)))
    (hattr : op.attributes.lookup "axes" = some (.Array (axes.map Attribute.Int64)))
    (hls : axes.length ≤ starts.length) (hle : axes.length ≤ ends.length)
    (hrange : ∀ a ∈ axes, sliceAxis shape.length a < (shape.length : Int))
    (hnd : (axes.map (sliceAxis shape.length)).Nodup) :
    ∃ out : List DimExpr,
      paddle.dialect.SliceOpInferSymbolicShape op sa =
        .ok (sa.SetShapeOrDataForValue res (.Tensor ⟨out, none⟩))
      ∧ ∀ (i : Nat) (a s e d : Int), axes[i]? = some a → starts[i]? = some s →
          ends[i]? = some e → shape[(sliceAxis shape.length a).toNat]? = some (DimExpr.Int64 d) →
          0 ≤ d → -d ≤ s → s ≤ d → -d ≤ e → e ≤ d → e ≠ INT32_MAX →
          ¬ (s = 0 ∧ e < 0) → ¬ (s < 0 ∧ e = 0) →
          out[(sliceAxis shape.length a).toNat]? =
            some (DimExpr.Int64 (sliceNormalised d e - sliceNormalised d s))
          ∧ (sliceNormalised d s ≤ sliceNormalised d e →
              sliceNormalised d e - sliceNormalised d s = sliceCount d s e)
          ∧ (sliceNormalised d e < sliceNormalised d s →
              sliceNormalised d e - sliceNormalised d s < 0 ∧ sliceCount d s e = 0) := by
  obtain ⟨out, h1, _, _, h4⟩ := slice_shape_mode op sa src st en res rst ren shape axes starts
    ends hsrc hst hen hres hrsrc hrst hstd hren hend hattr hls hle hrange hnd
  refine ⟨out, h1, ?_⟩
  intro i a s e d hai hsi hei hD _ _ _ _ _ he hz1 hz2
  refine ⟨?_, ?_, ?_⟩
  · rw [h4 i a s e (DimExpr.Int64 d) hai hsi hei hD, sliceDim_literal d s e he hz1 hz2]
  · intro h
    unfold sliceCount
    omega
  · intro h
    unfold sliceCount
    omega

/-- Instance of C33: shape `[10]` sliced along axis 0 from 2 to -1 gives `[7]`. -/
theorem C33_slice_static_dimension_witness :
    ∃ out : List DimExpr,
      paddle.dialect.SliceOpInferSymbolicShape Instances.sliceOp (Instances.sliceContext 2 (-1)) =
        .ok ((Instances.sliceContext 2 (-1)).SetShapeOrDataForValue (Instances.inputValue 3 [3])
          (.Tensor ⟨out, none⟩))
      ∧ out[0]? = some (DimExpr.Int64 7) ∧ sliceCount 10 2 (-1) = 7 := by
  obtain ⟨out, h1, h2⟩ := C33_slice_static_dimension Instances.sliceOp
    (Instances.sliceContext 2 (-1)) (Instances.inputValue 0 [10]) (Instances.intArrayValue 1 [1])
    (Instances.intArrayValue 2 [1]) (Instances.inputValue 3 [3]) (Instances.intArrayRecord [2])
    (Instances.intArrayRecord [-1]) [DimExpr.Int64 10] [0] [2] [-1]
    (by rfl) (by rfl) (by rfl) (by rfl) (by rfl) (by rfl) (by rfl) (by rfl) (by rfl) (by rfl)
    (by decide) (by decide) (by decide) (by decide)
  obtain ⟨e, _, _⟩ := h2 0 0 2 (-1) 10 (by decide) (by decide) (by decide) (by decide)
    (by decide) (by decide) (by decide) (by decide) (by decide) (by decide) (by decide)
    (by decide)
  have e1 : (sliceAxis [DimExpr.Int64 10].length 0).toNat = 0 := by decide
  have e2 : sliceNormalised 10 (-1) - sliceNormalised 10 2 = 7 := by decide
  rw [e1, e2] at e
  exact ⟨out, h1, e, by decide⟩

/-! ## Data-mode slice with a negative start -/

theorem slice_data_negative_start (shape v : List DimExpr) (s e : Int) (starts ends : List Int)
    (hs : s < 0) (hse : s < e) :
    paddle.dialect.SliceOpInferSymbolicShape.GetDataDimExprs (.Tensor ⟨shape, some v⟩)
      (s :: starts) (e :: ends) = .error .OutOfRange := by
  unfold paddle.dialect.SliceOpInferSymbolicShape.GetDataDimExprs
  obtain ⟨m, hm⟩ : ∃ m : Nat, (e - s).toNat = m + 1 := ⟨(e - s).toNat - 1, by omega⟩
  have hidx : vecAtInt v (s + ((0 : Nat) : Int)) = .error .OutOfRange := by
    simp [vecAtInt, hs]
  simp only [vecAt, List.getElem?_cons_zero, bind, Except.bind, pure, Except.pure, hm,
    List.range_succ_eq_map, List.mapM_cons, ShapeOrDataDimExprs.data, optValue, hidx]

/-- C34 (failing input): in data mode (the source record carries data `v`), for a literal
first start `s < 0` and first end `e > s`, the paddle-dialect slice reads `v` at the
negative index `s` (the loop runs over the raw bounds, no bound is counted from the end and
`INT32_MAX` is not read as the length), so the rule fails and writes nothing. -/
theorem C34_slice_data_negative_start (op : Operation) (sa : ShapeConstraintIRAnalysis)
    (src st en res : Value) (rst ren : ShapeOrDataDimExprs) (shape v : List DimExpr)
    (s e : Int) (axes starts ends : List Int)
    (hsrc : op.operand_source 0 = .ok src) (hst : op.operand_source 1 = .ok st)
    (hen : op.operand_source 2 = .ok en) (hres : op.result 0 = .ok res)
    (hrsrc : sa.GetShapeOrDataForValue src = .ok (.Tensor ⟨shape, some v⟩))
    (hrst : sa.GetShapeOrDataForValue st = .ok rst)
    (hstd : rst.data = .ok (some ((s :: starts).map DimExpr.Int64)))
    (hren : sa.GetShapeOrDataForValue en = .ok ren)
    (hend : ren.data = .ok (some ((e :: ends).map DimExpr.Int64)))
    (hattr : op.attributes.lookup "axes" = some (.Array (axes.map Attribute.Int64)))
    (hs : s < 0) (hse : s < e) :
    paddle.dialect.SliceOpInferSymbolicShape op sa = .error .OutOfRange := by
  unfold paddle.dialect.SliceOpInferSymbolicShape
  simp only [hsrc, hst, hen, hres, hrsrc, hrst, hren, hstd, hend, bind, Except.bind, optValue,
    slice_axes_eq op.attributes (.Tensor ⟨shape, some v⟩) shape axes hattr rfl,
    slice_literals_eq, tensor_data_eq, Option.isSome_some, if_true,
    slice_data_negative_start shape v s e starts ends hs hse, pure, Except.pure]

/-- Instance of C34: the tail slice `start = -3`, `end = INT32_MAX` along axis 0. In shape
mode on a source of static shape `[10]` the rule writes the shape `[3]`; in data mode on a
source carrying the ten data entries `0, ..., 9` the rule fails. -/
theorem C34_slice_data_negative_start_witness :
    paddle.dialect.SliceOpInferSymbolicShape Instances.sliceOp
        (Instances.sliceContext (-3) INT32_MAX)
      = .ok ((Instances.sliceContext (-3) INT32_MAX).SetShapeOrDataForValue
          (Instances.inputValue 3 [3]) (Instances.staticTensor [3]))
    ∧ paddle.dialect.SliceOpInferSymbolicShape Instances.sliceTailDataOp
        (Instances.sliceTailDataContext (-3) INT32_MAX) = .error .OutOfRange :=
  ⟨by rfl,
    C34_slice_data_negative_start Instances.sliceTailDataOp
      (Instances.sliceTailDataContext (-3) INT32_MAX)
      ⟨0, [10], some ⟨"pd_op.shape", []⟩⟩ (Instances.intArrayValue 1 [1])
      (Instances.intArrayValue 2 [1]) (Instances.inputValue 3 [3]) (Instances.intArrayRecord [-3])
      (Instances.intArrayRecord [INT32_MAX]) [DimExpr.Int64 10]
      ([0, 1, 2, 3, 4, 5, 6, 7, 8, 9].map DimExpr.Int64) (-3) INT32_MAX [0] [] []
      (by rfl) (by rfl) (by rfl) (by rfl) (by rfl) (by rfl) (by rfl) (by rfl) (by rfl) (by rfl)
      (by decide) (by decide)⟩

/-! ## Matmul on literal shapes -/

theorem broadcast_literals_max (a b : Int) (hc : a = b ∨ a = 1 ∨ b = 1) (ha : 1 ≤ a)
    (hb : 1 ≤ b) :
    (DimExprBuilder.Broadcast none (DimExpr.Int64 a) (DimExpr.Int64 b)).1
      = DimExpr.Int64 (max a b) := by
  unfold DimExprBuilder.Broadcast
  by_cases h1 : a = b
  · subst h1
    simp
  · have hne : ¬ (DimExpr.Int64 a = DimExpr.Int64 b) := by
      intro h; exact h1 (DimExpr.Int64.inj h)
    rw [if_neg hne]
    rcases hc with h | h | h
    · exact absurd h h1
    · subst h
      simp [max_eq_right hb]
    · subst h
      have hna : ¬ (DimExpr.Int64 a = 1) := by
        intro h; exact h1 (DimExpr.Int64.inj h)
      rw [if_neg hna]
      simp [max_eq_left ha]

theorem zipWith_broadcast_literals (a b : List Int)
    (h : ∀ p ∈ a.zip b, (p.1 = p.2 ∨ p.1 = 1 ∨ p.2 = 1) ∧ 1 ≤ p.1 ∧ 1 ≤ p.2) :
    List.zipWith (fun u v => (DimExprBuilder.Broadcast none u v).1)
      (a.map DimExpr.Int64) (b.map DimExpr.Int64)
    = (List.zipWith max a b).map DimExpr.Int64 := by
  induction a generalizing b with
  | nil => simp
  | cons x a ih =>
    cases b with
    | nil => simp
    | cons y b =>
      obtain ⟨hc, hx, hy⟩ := h (x, y) (by simp)
      simp only [List.map_cons, List.zipWith_cons_cons]
      rw [broadcast_literals_max x y hc hx hy, ih b (fun p hp => h p (by simp [hp]))]

theorem broadcastMax_same_length (a b : List Int) (h : a.length = b.length) :
    broadcastMax a b = List.zipWith max a b := by
  simp [broadcastMax, h]

/-- C35 (counterexample): with both transpose flags false, matmul of `x = [2,1,4,5]` and
`y = [3,5,6]` writes the shape `[2,1,4,6]`: the batch part is `[2,1]`, the leading
dimensions of the longer operand, while the right-aligned pairwise maximum of the batch
dimensions `[2,1]` and `[3]` is `[2,3]`. -/
theorem C35_matmul_rank_mismatch_batch :
    paddle.dialect.MatmulOpInferSymbolicShape (Instances.matmulOp false false)
        (Instances.pairContext ([2, 1, 4, 5].map DimExpr.Int64) ([3, 5, 6].map DimExpr.Int64))
      = .ok ((Instances.pairContext ([2, 1, 4, 5].map DimExpr.Int64)
            ([3, 5, 6].map DimExpr.Int64)).SetShapeOrDataForValue (Instances.inputValue 2 [])
          (Instances.staticTensor [2, 1, 4, 6]))
    ∧ broadcastMax [2, 1] [3] = [2, 3] :=
  ⟨by rfl, by decide⟩

/-- C35 (amended): for fully literal operand shapes `xs` and `ys` of rank at least 2 and
both transpose flags false, the rule writes `batch ++ [xs[-2], ys[-1]]` where: when the
ranks are equal and the batch dimensions are pairwise compatible (equal, or one of them 1)
and at least 1, `batch` is their pairwise maximum; when the ranks differ, `batch` is the
batch part of the longer operand, unchanged. -/
theorem C35_matmul_static_batch (op : Operation) (sa : ShapeConstraintIRAnalysis)
    (xv yv res : Value) (xs ys : List Int)
    (hx : op.operand_source 0 = .ok xv) (hy : op.operand_source 1 = .ok yv)
    (hres : op.result 0 = .ok res)
    (hrx : sa.GetShapeOrDataForValue xv = .ok (.Tensor ⟨xs.map DimExpr.Int64, none⟩))
    (hry : sa.GetShapeOrDataForValue yv = .ok (.Tensor ⟨ys.map DimExpr.Int64, none⟩))
    (htx : op.attributes.at "transpose_x" = .ok (.Bool false))
    (hty : op.attributes.at "transpose_y" = .ok (.Bool false))
    (hxr : 2 ≤ xs.length) (hyr : 2 ≤ ys.length) (hsize : xs.length < 18446744073709551616) :
    ∃ batch : List DimExpr,
      paddle.dialect.MatmulOpInferSymbolicShape op sa =
        .ok (sa.SetShapeOrDataForValue res (.Tensor
          ⟨batch ++ [DimExpr.Int64 (xs.getD (xs.length - 2) 0),
            DimExpr.Int64 (ys.getD (ys.length - 1) 0)], none⟩))
      ∧ (xs.length = ys.length →
          (∀ p ∈ (xs.take (xs.length - 2)).zip (ys.take (ys.length - 2)),
            (p.1 = p.2 ∨ p.1 = 1 ∨ p.2 = 1) ∧ 1 ≤ p.1 ∧ 1 ≤ p.2) →
          batch = (broadcastMax (xs.take (xs.length - 2)) (ys.take (ys.length - 2))).map
            DimExpr.Int64)
      ∧ (ys.length < xs.length → batch = (xs.take (xs.length - 2)).map DimExpr.Int64)
      ∧ (xs.length < ys.length → batch = (ys.take (ys.length - 2)).map DimExpr.Int64) := by
  have hx1 : xs.length ≠ 1 := by omega
  have hy1 : ys.length ≠ 1 := by omega
  have hpx : matmulPromoteX (xs.map DimExpr.Int64) = xs.map DimExpr.Int64 := by
    simp [matmulPromoteX, hx1]
  have hpy : matmulPromoteY (ys.map DimExpr.Int64) = ys.map DimExpr.Int64 := by
    simp [matmulPromoteY, hy1]
  have hrule := matmul_rule_eq op sa xv yv res ⟨xs.map DimExpr.Int64, none⟩
    ⟨ys.map DimExpr.Int64, none⟩ false false hx hy hres hrx hry htx hty
    (by simp [dataOrShape]; omega) (by simp [dataOrShape]; omega)
    (by simpa [dataOrShape] using hsize)
  have htail : matmulTail (xs.map DimExpr.Int64) (ys.map DimExpr.Int64) false false
      = [DimExpr.Int64 (xs.getD (xs.length - 2) 0),
          DimExpr.Int64 (ys.getD (ys.length - 1) 0)] := by
    have h1 : xs.length - 2 < xs.length := by omega
    have h2 : ys.length - 1 < ys.length := by omega
    simp [matmulTail, hpx, hpy, hx1, hy1, List.getD_eq_getElem?_getD,
      List.getElem?_eq_getElem h1, List.getElem?_eq_getElem h2]
  refine ⟨matmulBatch (xs.map DimExpr.Int64) (ys.map DimExpr.Int64), ?_, ?_, ?_, ?_⟩
  · rw [hrule]
    simp only [dataOrShape, matmulResult, hpx, hpy, htail]
  · intro hlen hc
    have hn1 : ¬ ((xs.map DimExpr.Int64).length > (ys.map DimExpr.Int64).length) := by
      simp [hlen]
    have hn2 : ¬ ((xs.map DimExpr.Int64).length < (ys.map DimExpr.Int64).length) := by
      simp [hlen]
    unfold matmulBatch
    rw [if_neg hn1, if_neg hn2, broadcastMax_same_length _ _ (by simp [hlen]),
      ← zipWith_broadcast_literals _ _ hc]
    simp [List.map_take]
  · intro hlt
    have hp : (xs.map DimExpr.Int64).length > (ys.map DimExpr.Int64).length := by
      simpa using hlt
    unfold matmulBatch
    rw [if_pos hp]
    simp [List.map_take]
  · intro hlt
    have hn1 : ¬ ((xs.map DimExpr.Int64).length > (ys.map DimExpr.Int64).length) := by
      simp; omega
    have hp : (xs.map DimExpr.Int64).length < (ys.map DimExpr.Int64).length := by
      simpa using hlt
    unfold matmulBatch
    rw [if_neg hn1, if_pos hp]
    simp [List.map_take]

/-- Instance of C35: `x = [2,1,4,5]` and `y = [1,3,5,6]` give `[2,3,4,6]`. -/
theorem C35_matmul_static_batch_witness :
    paddle.dialect.MatmulOpInferSymbolicShape (Instances.matmulOp false false)
        (Instances.pairContext ([2, 1, 4, 5].map DimExpr.Int64)
          ([1, 3, 5, 6].map DimExpr.Int64))
      = .ok ((Instances.pairContext ([2, 1, 4, 5].map DimExpr.Int64)
            ([1, 3, 5, 6].map DimExpr.Int64)).SetShapeOrDataForValue (Instances.inputValue 2 [])
          (Instances.staticTensor [2, 3, 4, 6])) := by
  obtain ⟨batch, h1, h2, _, _⟩ := C35_matmul_static_batch (Instances.matmulOp false false)
    (Instances.pairContext ([2, 1, 4, 5].map DimExpr.Int64) ([1, 3, 5, 6].map DimExpr.Int64))
    (Instances.inputValue 0 []) (Instances.inputValue 1 []) (Instances.inputValue 2 [])
    [2, 1, 4, 5] [1, 3, 5, 6] (by rfl) (by rfl) (by rfl) (by rfl) (by rfl) (by rfl) (by rfl)
    (by decide) (by decide) (by decide)
  rw [h1, h2 (by decide) (by decide)]
  rfl

/-! ## Gather_nd -/

theorem range_map_getD_append {α : Type} (J : List α) (last d : α) :
    (List.range J.length).map (fun i => (J ++ [last]).getD i d) = J := by
  apply List.ext_getElem
  · simp
  · intro i h1 h2
    simp at h1
    simp [List.getD_eq_getElem?_getD, List.getElem?_append_left h1, List.getElem?_eq_getElem h1]

theorem gather_nd_index_loop (J : List DimExpr) (last : DimExpr) :
    (List.range J.length).foldlM (fun result_sym_dims (i : Nat) => do
      pure (result_sym_dims ++ [← vecAtInt (J ++ [last]) (i : Int)])) ([] : List DimExpr)
    = .ok J := by
  rw [foldlM_range_push J.length _ (fun i => (J ++ [last]).getD i (DimExpr.Int64 0))]
  · rw [range_map_getD_append, List.nil_append]
  · intro acc i hi
    rw [vecAtInt_getD (J ++ [last]) i (DimExpr.Int64 0) (by simp; omega) (i : Int) rfl]
    rfl

theorem gather_nd_x_loop (X J : List DimExpr) (k : Int) (hk0 : 0 ≤ k)
    (hk : k ≤ (X.length : Int)) :
    (List.range ((X.length : Int) - k).toNat).foldlM (fun result_sym_dims (j : Nat) => do
      pure (result_sym_dims ++ [← vecAtInt X (k + (j : Int))])) J
    = .ok (J ++ X.drop k.toNat) := by
  rw [foldlM_range_push _ _ (fun j => X.getD (k.toNat + j) (DimExpr.Int64 0))]
  · rw [range_map_drop_take X _ k.toNat _ (by omega)]
    congr 2
    apply List.take_of_length_le
    simp
    omega
  · intro acc j hj
    rw [vecAtInt_getD X (k.toNat + j) (DimExpr.Int64 0) (by omega) (k + (j : Int)) (by omega)]
    rfl

theorem gather_nd_result_sym_dims_eq (X J : List DimExpr) (k : Int) (hk0 : 0 ≤ k)
    (hk : k ≤ (X.length : Int)) (hX : X.length < 2147483648)
    (hI : J.length + 1 < 2147483648) :
    paddle.dialect.GatherNdOpInferSymbolicShape.result_sym_dims X (J ++ [DimExpr.Int64 k])
      = .ok (J ++ X.drop k.toNat) := by
  have h1 : toInt32 ((X.length : Nat) : Int) = (X.length : Int) :=
    toInt32_of_range _ (by omega) (by omega)
  have h2 : toInt32 (((J ++ [DimExpr.Int64 k]).length : Nat) : Int) = (J.length : Int) + 1 := by
    rw [toInt32_of_range _ (by simp; omega) (by simp; omega)]
    simp
  have h3 : toInt32 k = k := toInt32_of_range _ (by omega) (by omega)
  have h4 : ((J.length : Int) + 1 - 1).toNat = J.length := by omega
  have h5 : vecAtInt (J ++ [DimExpr.Int64 k]) ((J.length : Int) + 1 - 1)
      = .ok (DimExpr.Int64 k) := by
    rw [vecAtInt_of_lt _ _ (by omega) (by simp)]
    simp [h4]
  unfold paddle.dialect.GatherNdOpInferSymbolicShape.result_sym_dims
  rw [h1, h2]
  dsimp only
  rw [h4, h5]
  show (((List.range J.length).foldlM (fun result_sym_dims (i : Nat) => do
      pure (result_sym_dims ++ [← vecAtInt (J ++ [DimExpr.Int64 k]) (i : Int)]))
      ([] : List DimExpr)).bind fun result_sym_dims =>
        (Except.ok (DimExpr.Int64 k) : Except Error DimExpr).bind fun last => _) = _
  rw [gather_nd_index_loop J (DimExpr.Int64 k)]
  show (List.range ((X.length : Int) - toInt32 k).toNat).foldlM _ J = _
  rw [h3]
  exact gather_nd_x_loop X J k hk0 hk

theorem gather_nd_result_sym_dims_error (X J : List DimExpr) (last : DimExpr)
    (hlast : last.isInt64 = false) (hI : J.length + 1 < 2147483648) :
    paddle.dialect.GatherNdOpInferSymbolicShape.result_sym_dims X (J ++ [last])
      = .error .UnsupportedDynamicOperand := by
  have h2 : toInt32 (((J ++ [last]).length : Nat) : Int) = (J.length : Int) + 1 := by
    rw [toInt32_of_range _ (by simp; omega) (by simp; omega)]
    simp
  have h4 : ((J.length : Int) + 1 - 1).toNat = J.length := by omega
  have h5 : vecAtInt (J ++ [last]) ((J.length : Int) + 1 - 1) = .ok last := by
    rw [vecAtInt_of_lt _ _ (by omega) (by simp)]
    simp [h4]
  unfold paddle.dialect.GatherNdOpInferSymbolicShape.result_sym_dims
  rw [h2]
  dsimp only
  rw [h4, h5]
  show (((List.range J.length).foldlM (fun result_sym_dims (i : Nat) => do
      pure (result_sym_dims ++ [← vecAtInt (J ++ [last]) (i : Int)]))
      ([] : List DimExpr)).bind fun result_sym_dims =>
        (Except.ok last : Except Error DimExpr).bind fun last => _) = _
  rw [gather_nd_index_loop J last]
  cases last with
  | Int64 v => simp [DimExpr.isInt64] at hlast
  | _ => rfl

theorem basis_pair_rule_generic (op : Operation) (sa : ShapeConstraintIRAnalysis)
    (g : List DimExpr → List DimExpr → Except Error (List DimExpr))
    (x ix : Value) (rx rix : TensorShapeOrDataDimExprs)
    (hx : op.operand_source 0 = .ok x) (hix : op.operand_source 1 = .ok ix)
    (hrx : sa.GetShapeOrDataForValue x = .ok (.Tensor rx))
    (hrix : sa.GetShapeOrDataForValue ix = .ok (.Tensor rix)) :
    (do
      let x_shape_or_data ← sa.GetShapeOrDataForValue (← op.operand_source 0)
      let index_shape_or_data ← sa.GetShapeOrDataForValue (← op.operand_source 1)
      let x_sym_shape ← match (← x_shape_or_data.data) with
        | some data => pure data
        | none => x_shape_or_data.shape
      let index_sym_shape ← match (← index_shape_or_data.data) with
        | some data => pure data
        | none => index_shape_or_data.shape
      let result_sym_dims ← g x_sym_shape index_sym_shape
      let res ← op.result 0
      pure (sa.SetShapeOrDataForValue res (.Tensor ⟨result_sym_dims, none⟩))) =
      (g (dataOrShape rx) (dataOrShape rix)).bind
        (fun result_sym_dims => (op.result 0).bind
          (fun res => .ok (sa.SetShapeOrDataForValue res
            (.Tensor ⟨result_sym_dims, none⟩)))) := by
  obtain ⟨xs, xd⟩ := rx
  obtain ⟨as, ad⟩ := rix
  cases xd <;> cases ad <;>
    simp only [hx, hix, hrx, hrix, bind, Except.bind,
      ShapeOrDataDimExprs.data, ShapeOrDataDimExprs.shape, dataOrShape, pure, Except.pure]

theorem gather_nd_rule_unfold (op : Operation) (sa : ShapeConstraintIRAnalysis)
    (x ix : Value) (rx rix : TensorShapeOrDataDimExprs)
    (hx : op.operand_source 0 = .ok x) (hix : op.operand_source 1 = .ok ix)
    (hrx : sa.GetShapeOrDataForValue x = .ok (.Tensor rx))
    (hrix : sa.GetShapeOrDataForValue ix = .ok (.Tensor rix)) :
    paddle.dialect.GatherNdOpInferSymbolicShape op sa =
      (paddle.dialect.GatherNdOpInferSymbolicShape.result_sym_dims (dataOrShape rx)
        (dataOrShape rix)).bind
        (fun result_sym_dims => (op.result 0).bind
          (fun res => .ok (sa.SetShapeOrDataForValue res
            (.Tensor ⟨result_sym_dims, none⟩)))) :=
  basis_pair_rule_generic op sa paddle.dialect.GatherNdOpInferSymbolicShape.result_sym_dims
    x ix rx rix hx hix hrx hrix

theorem getLast?_split {α : Type} (l : List α) (a : α) (h : l.getLast? = some a) :
    l = l.dropLast ++ [a] := by
  have hne : l ≠ [] := by
    intro h0
    rw [h0] at h
    simp at h
  have h1 := List.dropLast_append_getLast hne
  rw [List.getLast?_eq_getLast _ hne] at h
  have h2 : l.getLast hne = a := Option.some.inj h
  rw [h2] at h1
  exact h1.symm

/-- C31: gather_nd. With `X` the basis of operand 0 and `I` the basis of operand 1 (each the
data when present, else the shape): when the last entry of `I` is the literal `k` with
`0 <= k <= len X`, the rule succeeds and writes the shape-only record whose shape is `I`
without its last entry followed by `X[k], ..., X[len X - 1]`; when the last entry of `I` is
not a literal, the rule fails and returns no context. -/
theorem C31_gather_nd (op : Operation) (sa : ShapeConstraintIRAnalysis)
    (x ix res : Value) (rx rix : TensorShapeOrDataDimExprs)
    (hx : op.operand_source 0 = .ok x) (hix : op.operand_source 1 = .ok ix)
    (hres : op.result 0 = .ok res)
    (hrx : sa.GetShapeOrDataForValue x = .ok (.Tensor rx))
    (hrix : sa.GetShapeOrDataForValue ix = .ok (.Tensor rix))
    (hsx : (dataOrShape rx).length < 2147483648)
    (hsi : (dataOrShape rix).length < 2147483648) :
    (∀ k : Int, (dataOrShape rix).getLast? = some (DimExpr.Int64 k) → 0 ≤ k →
        k ≤ ((dataOrShape rx).length : Int) →
        paddle.dialect.GatherNdOpInferSymbolicShape op sa =
          .ok (sa.SetShapeOrDataForValue res
            (.Tensor ⟨(dataOrShape rix).dropLast ++ (dataOrShape rx).drop k.toNat, none⟩)))
    ∧ (∀ last : DimExpr, (dataOrShape rix).getLast? = some last → last.isInt64 = false →
        paddle.dialect.GatherNdOpInferSymbolicShape op sa = .error .UnsupportedDynamicOperand) := by
  rw [gather_nd_rule_unfold op sa x ix rx rix hx hix hrx hrix]
  refine ⟨?_, ?_⟩
  · intro k hlast hk0 hk
    have hsplit := getLast?_split _ _ hlast
    have hlen : (dataOrShape rix).dropLast.length + 1 < 2147483648 := by
      have h := congrArg List.length hsplit
      simp only [List.length_append, List.length_singleton] at h
      omega
    have hrun := gather_nd_result_sym_dims_eq (dataOrShape rx) (dataOrShape rix).dropLast k hk0
      hk hsx hlen
    rw [← hsplit] at hrun
    rw [hrun, hres]
    rfl
  · intro last hlast hl
    have hsplit := getLast?_split _ _ hlast
    have hlen : (dataOrShape rix).dropLast.length + 1 < 2147483648 := by
      have h := congrArg List.length hsplit
      simp only [List.length_append, List.length_singleton] at h
      omega
    have hrun := gather_nd_result_sym_dims_error (dataOrShape rx) (dataOrShape rix).dropLast last
      hl hlen
    rw [← hsplit] at hrun
    rw [hrun]
    rfl

/-- Instance of C31: `x` of shape `[S0, 3, 4, 5]` and an index of shape `[6, 7, 2]` give
`[6, 7, 4, 5]`; an index of shape `[6, S1]` makes the rule fail. -/
theorem C31_gather_nd_witness :
    paddle.dialect.GatherNdOpInferSymbolicShape Instances.gatherNdOp
        (Instances.pairContext
          [DimExpr.Symbol "S0", DimExpr.Int64 3, DimExpr.Int64 4, DimExpr.Int64 5]
          [DimExpr.Int64 6, DimExpr.Int64 7, DimExpr.Int64 2])
      = .ok ((Instances.pairContext
          [DimExpr.Symbol "S0", DimExpr.Int64 3, DimExpr.Int64 4, DimExpr.Int64 5]
          [DimExpr.Int64 6, DimExpr.Int64 7, DimExpr.Int64 2]).SetShapeOrDataForValue
            (Instances.inputValue 2 []) (Instances.staticTensor [6, 7, 4, 5]))
    ∧ paddle.dialect.GatherNdOpInferSymbolicShape Instances.gatherNdOp
        (Instances.pairContext
          [DimExpr.Symbol "S0", DimExpr.Int64 3, DimExpr.Int64 4, DimExpr.Int64 5]
          [DimExpr.Int64 6, DimExpr.Symbol "S1"])
      = .error .UnsupportedDynamicOperand :=
  ⟨((C31_gather_nd Instances.gatherNdOp _ (Instances.inputValue 0 []) (Instances.inputValue 1 [])
      (Instances.inputValue 2 [])
      ⟨[DimExpr.Symbol "S0", DimExpr.Int64 3, DimExpr.Int64 4, DimExpr.Int64 5], none⟩
      ⟨[DimExpr.Int64 6, DimExpr.Int64 7, DimExpr.Int64 2], none⟩
      (by rfl) (by rfl) (by rfl) (by rfl) (by rfl) (by decide) (by decide)).1 2 (by rfl)
      (by decide) (by decide)).trans (by rfl),
    (C31_gather_nd Instances.gatherNdOp _ (Instances.inputValue 0 []) (Instances.inputValue 1 [])
      (Instances.inputValue 2 [])
      ⟨[DimExpr.Symbol "S0", DimExpr.Int64 3, DimExpr.Int64 4, DimExpr.Int64 5], none⟩
      ⟨[DimExpr.Int64 6, DimExpr.Symbol "S1"], none⟩
      (by rfl) (by rfl) (by rfl) (by rfl) (by rfl) (by decide) (by decide)).2
      (DimExpr.Symbol "S1") (by rfl) (by rfl)⟩

/-! ## Data (graph input) -/

theorem generatorAfter_fields (sa : ShapeConstraintIRAnalysis) (n : Nat) :
    generatorAfter sa n
      = ⟨sa.value_to_shape_or_data, sa.next_sym_idx + n, sa.equalities, sa.broadcastables⟩ := by
  induction n with
  | zero => rfl
  | succ k ih =>
    unfold generatorAfter at ih ⊢
    rw [Function.iterate_succ_apply', ih]
    rfl

theorem dynamicBefore_append (init : List Int) (d : Int) (i : Nat) (hi : i ≤ init.length) :
    dynamicBefore (init ++ [d]) i = dynamicBefore init i := by
  unfold dynamicBefore
  rw [List.take_append_of_le_length hi]

theorem dataSpec_append (sa : ShapeConstraintIRAnalysis) (init : List Int) (d : Int) :
    dataSpec sa (init ++ [d]) = dataSpec sa init ++
      [if d = pir.ShapedTypeInterface.kDynamic then
        DimExpr.Symbol (nextSymNameAt sa (init.count pir.ShapedTypeInterface.kDynamic))
      else DimExpr.Int64 d] := by
  unfold dataSpec
  rw [List.length_append, List.length_singleton, List.range_succ, List.map_append]
  congr 1
  · apply List.map_congr_left
    intro i hi
    rw [List.mem_range] at hi
    simp only [List.getD_eq_getElem?_getD, List.getElem?_append_left hi,
      dynamicBefore_append init d i (le_of_lt hi)]
  · simp [dynamicBefore, List.getD_eq_getElem?_getD]

theorem data_sym_dims_eq (sa : ShapeConstraintIRAnalysis) (dims : List Int) :
    paddle.dialect.DataOpInferSymbolicShape.sym_dims sa dims
      = (generatorAfter sa (dims.count pir.ShapedTypeInterface.kDynamic), dataSpec sa dims) := by
  unfold paddle.dialect.DataOpInferSymbolicShape.sym_dims
  induction dims using List.reverseRecOn with
  | nil => rfl
  | append_singleton init d ih =>
    rw [List.foldl_append, ih, dataSpec_append, List.count_append]
    by_cases hd : d = pir.ShapedTypeInterface.kDynamic
    · subst hd
      simp only [List.foldl_cons, List.foldl_nil, if_true, List.count_singleton_self,
        nextSymNameAt]
      congr 1
      unfold generatorAfter
      rw [Function.iterate_succ_apply']
    · have hc : [d].count pir.ShapedTypeInterface.kDynamic = 0 := by
        simp [List.count_singleton, Ne.symm hd]
      simp only [List.foldl_cons, List.foldl_nil, if_neg hd, hc, Nat.add_zero]

theorem dynamicBefore_lt (dims : List Int) (i j : Nat) (hij : i < j) (hj : j ≤ dims.length)
    (hd : dims[i]? = some pir.ShapedTypeInterface.kDynamic) :
    dynamicBefore dims i < dynamicBefore dims j := by
  unfold dynamicBefore
  have hi : i < dims.length := by omega
  have h1 : (dims.take (i + 1)).count pir.ShapedTypeInterface.kDynamic
      = (dims.take i).count pir.ShapedTypeInterface.kDynamic + 1 := by
    rw [List.take_succ, hd, List.count_append]
    simp
  have h2 : (dims.take (i + 1)).Sublist (dims.take j) := by
    have h := List.take_sublist (i + 1) (dims.take j)
    rw [List.take_take, Nat.min_eq_left (by omega)] at h
    exact h
  have h3 := h2.count_le pir.ShapedTypeInterface.kDynamic
  omega

theorem dataSpec_getElem? (sa : ShapeConstraintIRAnalysis) (dims : List Int) (i : Nat) (d : Int)
    (hi : dims[i]? = some d) :
    (dataSpec sa dims)[i]? = some (if d = pir.ShapedTypeInterface.kDynamic then
        DimExpr.Symbol (nextSymNameAt sa (dynamicBefore dims i))
      else DimExpr.Int64 d) := by
  have hlt : i < dims.length := (List.getElem?_eq_some_iff.mp hi).1
  unfold dataSpec
  rw [List.getElem?_map, List.getElem?_range hlt]
  simp [List.getD_eq_getElem?_getD, hi]

/-- C38: the data rule. For a `shape` attribute holding `dims`, the rule succeeds and writes
for result 0 a Tensor record without data whose shape has the length of `dims`; an entry of
`dims` that is not the dynamic sentinel becomes the literal of that value; a dynamic entry
becomes the symbol named by a call of the symbol generator of its own (the call that follows
one call per dynamic entry before it); the context returned has its generator advanced by the
number of dynamic entries and is otherwise the given one; and when the generator never
repeats a name, the entries at two distinct dynamic positions are distinct. -/
theorem C38_data_rule (op : Operation) (sa : ShapeConstraintIRAnalysis) (res : Value)
    (dims : List Int) (hattr : op.attributes.at "shape" = .ok (.IntArray dims))
    (hres : op.result 0 = .ok res) :
    paddle.dialect.DataOpInferSymbolicShape op sa =
      .ok ((generatorAfter sa (dims.count pir.ShapedTypeInterface.kDynamic)).SetShapeOrDataForValue
        res (.Tensor ⟨dataSpec sa dims, none⟩))
    ∧ (dataSpec sa dims).length = dims.length
    ∧ (∀ (i : Nat) (d : Int), dims[i]? = some d → d ≠ pir.ShapedTypeInterface.kDynamic →
        (dataSpec sa dims)[i]? = some (DimExpr.Int64 d))
    ∧ (∀ i : Nat, dims[i]? = some pir.ShapedTypeInterface.kDynamic →
        (dataSpec sa dims)[i]? = some (DimExpr.Symbol (nextSymNameAt sa (dynamicBefore dims i))))
    ∧ generatorAfter sa (dims.count pir.ShapedTypeInterface.kDynamic)
        = ⟨sa.value_to_shape_or_data,
            sa.next_sym_idx + dims.count pir.ShapedTypeInterface.kDynamic,
            sa.equalities, sa.broadcastables⟩
    ∧ ((∀ a b : Nat, nextSymNameAt sa a = nextSymNameAt sa b → a = b) →
        ∀ i j : Nat, i < j → dims[i]? = some pir.ShapedTypeInterface.kDynamic →
          dims[j]? = some pir.ShapedTypeInterface.kDynamic →
          (dataSpec sa dims)[i]? ≠ (dataSpec sa dims)[j]?) := by
  refine ⟨?_, ?_, ?_, ?_, generatorAfter_fields sa _, ?_⟩
  · unfold paddle.dialect.DataOpInferSymbolicShape
    simp only [hattr, hres, bind, Except.bind, pure, Except.pure, data_sym_dims_eq]
  · simp [dataSpec]
  · intro i d hi hd
    rw [dataSpec_getElem? sa dims i d hi, if_neg hd]
  · intro i hi
    rw [dataSpec_getElem? sa dims i _ hi, if_pos rfl]
  · intro hinj i j hij hi hj
    have hjlt : j < dims.length := (List.getElem?_eq_some_iff.mp hj).1
    rw [dataSpec_getElem? sa dims i _ hi, dataSpec_getElem? sa dims j _ hj, if_pos rfl,
      if_pos rfl]
    intro heq
    have hname := DimExpr.Symbol.inj (Option.some.inj heq)
    have hlt := dynamicBefore_lt dims i j hij (le_of_lt hjlt) hi
    have := hinj _ _ hname
    omega

/-- Instance of C38: the attribute `[-1, 3, -1]` in a fresh context gives the shape
`[S0, 3, S1]` and a context whose generator has been called twice. -/
theorem C38_data_rule_witness :
    paddle.dialect.DataOpInferSymbolicShape (Instances.dataOp [-1, 3, -1])
        (Instances.contextOf []) =
      .ok ((⟨[], 2, [], []⟩ : ShapeConstraintIRAnalysis).SetShapeOrDataForValue
        (Instances.inputValue 0 [-1, 3, -1])
        (.Tensor ⟨[DimExpr.Symbol "S0", DimExpr.Int64 3, DimExpr.Symbol "S1"], none⟩)) :=
  (C38_data_rule (Instances.dataOp [-1, 3, -1]) (Instances.contextOf [])
    (Instances.inputValue 0 [-1, 3, -1]) [-1, 3, -1] (by rfl) (by rfl)).1.trans (by rfl)

/-! ## Squeeze after unsqueeze -/

theorem unsqueeze_rule (op : Operation) (sa : ShapeConstraintIRAnalysis)
    (x ax res : Value) (rx rax : TensorShapeOrDataDimExprs) (vals : List Int)
    (hnum : op.operands.length = 2)
    (hx : op.operand_source 0 = .ok x) (hax : op.operand_source 1 = .ok ax)
    (hres : op.result 0 = .ok res)
    (hrx : sa.GetShapeOrDataForValue x = .ok (.Tensor rx))
    (hrax : sa.GetShapeOrDataForValue ax = .ok (.Tensor rax))
    (haxes : dataOrShape rax = vals.map DimExpr.Int64)
    (hsmall : (dataOrShape rx).length + vals.length < 2147483648)
    (hvalid : unsqueezeValid (dataOrShape rx).length vals = true) :
    paddle.dialect.UnsqueezeOpInferSymbolicShape op sa =
      .ok (sa.SetShapeOrDataForValue res
        (.Tensor ⟨unsqueezeSpec (dataOrShape rx) vals, none⟩)) := by
  rw [unsqueeze_rule_unfold op sa x ax rx rax hnum hx hax hrx hrax, haxes,
    unsqueeze_result_sym_dims_eq _ _ hsmall hvalid, hres]
  rfl

theorem squeeze_no_axes_rule (op : Operation) (sa : ShapeConstraintIRAnalysis)
    (x ax res : Value) (rx rax : TensorShapeOrDataDimExprs)
    (hnum : op.operands.length = 2)
    (hx : op.operand_source 0 = .ok x) (hax : op.operand_source 1 = .ok ax)
    (hres : op.result 0 = .ok res)
    (hrx : sa.GetShapeOrDataForValue x = .ok (.Tensor rx))
    (hrax : sa.GetShapeOrDataForValue ax = .ok (.Tensor rax))
    (hempty : dataOrShape rax = []) :
    paddle.dialect.SqueezeOpInferSymbolicShape op sa =
      .ok (sa.SetShapeOrDataForValue res
        (.Tensor ⟨(dataOrShape rx).filter (fun d => decide (d ≠ DimExpr.Int64 1)), none⟩)) := by
  rw [squeeze_rule_unfold op sa x ax rx rax hnum hx hax hrx hrax, hempty]
  simp only [paddle.dialect.SqueezeOpInferSymbolicShape.squeeze_dims, List.mapM_nil, pure,
    Except.pure, Except.bind, List.length_nil, if_true, squeeze_markOnes_eq,
    squeeze_output_eq _ _ (List.length_map _ _), squeeze_ones_output, hres]

theorem filter_insertIdx_one (l : List DimExpr) (n : Nat) :
    (l.insertIdx n (DimExpr.Int64 1)).filter (fun d => decide (d ≠ DimExpr.Int64 1))
      = l.filter (fun d => decide (d ≠ DimExpr.Int64 1)) := by
  induction l generalizing n with
  | nil =>
    cases n with
    | zero => simp
    | succ k => simp
  | cons a l ih =>
    cases n with
    | zero => simp
    | succ k =>
      rw [List.insertIdx_succ_cons, List.filter_cons, List.filter_cons, ih k]

theorem filter_unsqueezeSpec (x : List DimExpr) (vals : List Int) :
    (unsqueezeSpec x vals).filter (fun d => decide (d ≠ DimExpr.Int64 1))
      = x.filter (fun d => decide (d ≠ DimExpr.Int64 1)) := by
  induction vals generalizing x with
  | nil => rfl
  | cons v rest ih =>
    have h := ih (x.insertIdx (unsqueezeAxis x.length v).toNat (DimExpr.Int64 1))
    simp only [unsqueezeSpec, List.foldl_cons] at h ⊢
    rw [h, filter_insertIdx_one]

/-- C36: squeeze undoes unsqueeze. For an input basis `x` (the data when present, else the
shape) none of whose entries is the literal 1 and a list of literal axes valid for unsqueeze
(each within `[-(c+1), c]` for the current rank `c`, the final rank representable as `int`),
the unsqueeze rule succeeds with a context in which the squeeze rule, applied to the value
unsqueeze wrote and an axes operand with an empty basis, succeeds and writes exactly `x`. -/
theorem C36_squeeze_undoes_unsqueeze (unsq sq : Operation) (sa : ShapeConstraintIRAnalysis)
    (x ax mid ax2 res : Value) (rx rax rax2 : TensorShapeOrDataDimExprs) (vals : List Int)
    (hnum : unsq.operands.length = 2)
    (hx : unsq.operand_source 0 = .ok x) (hax : unsq.operand_source 1 = .ok ax)
    (hmid : unsq.result 0 = .ok mid)
    (hrx : sa.GetShapeOrDataForValue x = .ok (.Tensor rx))
    (hrax : sa.GetShapeOrDataForValue ax = .ok (.Tensor rax))
    (haxes : dataOrShape rax = vals.map DimExpr.Int64)
    (hsmall : (dataOrShape rx).length + vals.length < 2147483648)
    (hvalid : unsqueezeValid (dataOrShape rx).length vals = true)
    (hnum2 : sq.operands.length = 2)
    (hx2 : sq.operand_source 0 = .ok mid) (hax2 : sq.operand_source 1 = .ok ax2)
    (hres : sq.result 0 = .ok res)
    (hrax2 : sa.GetShapeOrDataForValue ax2 = .ok (.Tensor rax2))
    (hempty : dataOrShape rax2 = []) (hid : ax2.id ≠ mid.id)
    (hones : DimExpr.Int64 1 ∉ dataOrShape rx) :
    ∃ sa1 : ShapeConstraintIRAnalysis,
      paddle.dialect.UnsqueezeOpInferSymbolicShape unsq sa = .ok sa1
      ∧ sa1.GetShapeOrDataForValue mid
        = .ok (.Tensor ⟨unsqueezeSpec (dataOrShape rx) vals, none⟩)
      ∧ paddle.dialect.SqueezeOpInferSymbolicShape sq sa1 =
        .ok (sa1.SetShapeOrDataForValue res (.Tensor ⟨dataOrShape rx, none⟩)) := by
  refine ⟨_, unsqueeze_rule unsq sa x ax mid rx rax vals hnum hx hax hmid hrx hrax haxes hsmall
    hvalid, get_set_same sa mid mid _ rfl, ?_⟩
  rw [squeeze_no_axes_rule sq _ mid ax2 res ⟨unsqueezeSpec (dataOrShape rx) vals, none⟩ rax2
    hnum2 hx2 hax2 hres (get_set_same sa mid mid _ rfl)
    (by rw [get_set_ne sa mid ax2 _ hid, hrax2]) hempty]
  have hfilter : (unsqueezeSpec (dataOrShape rx) vals).filter
      (fun d => decide (d ≠ DimExpr.Int64 1)) = dataOrShape rx := by
    rw [filter_unsqueezeSpec, List.filter_eq_self]
    intro d hd
    simp only [decide_eq_true_eq]
    intro h
    exact hones (h ▸ hd)
  have hbasis : dataOrShape ⟨unsqueezeSpec (dataOrShape rx) vals, none⟩
      = unsqueezeSpec (dataOrShape rx) vals := rfl
  rw [hbasis, hfilter]

/-- Instance of C36: unsqueeze of `[4, 5]` with axes `[0, 2]` followed by squeeze with no
axes gives `[4, 5]` again. -/
theorem C36_squeeze_undoes_unsqueeze_witness :
    ∃ sa1 : ShapeConstraintIRAnalysis,
      paddle.dialect.UnsqueezeOpInferSymbolicShape Instances.unsqueezeOp
        (Instances.contextOf [(0, Instances.staticTensor [4, 5]),
          (1, Instances.intArrayRecord [0, 2]), (3, Instances.intArrayRecord [])]) = .ok sa1
      ∧ sa1.GetShapeOrDataForValue (Instances.inputValue 2 [])
        = .ok (Instances.staticTensor [1, 4, 1, 5])
      ∧ paddle.dialect.SqueezeOpInferSymbolicShape Instances.squeezeAfterOp sa1 =
        .ok (sa1.SetShapeOrDataForValue (Instances.inputValue 4 [])
          (Instances.staticTensor [4, 5])) :=
  C36_squeeze_undoes_unsqueeze Instances.unsqueezeOp Instances.squeezeAfterOp
    (Instances.contextOf [(0, Instances.staticTensor [4, 5]),
      (1, Instances.intArrayRecord [0, 2]), (3, Instances.intArrayRecord [])])
    (Instances.inputValue 0 []) (Instances.intArrayValue 1 []) (Instances.inputValue 2 [])
    (Instances.intArrayValue 3 []) (Instances.inputValue 4 [])
    ⟨[DimExpr.Int64 4, DimExpr.Int64 5], none⟩
    ⟨[DimExpr.Int64 2], some [DimExpr.Int64 0, DimExpr.Int64 2]⟩
    ⟨[DimExpr.Int64 0], some []⟩ [0, 2]
    (by rfl) (by rfl) (by rfl) (by rfl) (by rfl) (by rfl) (by rfl) (by decide) (by decide)
    (by rfl) (by rfl) (by rfl) (by rfl) (by rfl) (by rfl) (by decide) (by decide)

/-! ## The two concat rules -/

theorem foldlM_range_track {σ : Type} (n : Nat) (step : σ → Nat → Except Error σ)
    (g : Nat → σ) (h : ∀ i, i < n → step (g i) i = .ok (g (i + 1))) :
    (List.range n).foldlM step (g 0) = .ok (g n) := by
  induction n with
  | zero => rfl
  | succ k ih =>
    rw [List.range_succ, List.foldlM_append, ih (fun i hi => h i (Nat.lt_succ_of_lt hi))]
    simp [bind, Except.bind, h k (Nat.lt_succ_self k), pure, Except.pure]

theorem foldlM_range_invariant {σ : Type} (n : Nat) (step : σ → Nat → Except Error σ)
    (P : Nat → σ → Prop)
    (hstep : ∀ i s s2, i < n → P i s → step s i = .ok s2 → P (i + 1) s2)
    (init r : σ) (h0 : P 0 init) (h : (List.range n).foldlM step init = .ok r) : P n r := by
  induction n generalizing r with
  | zero =>
    have hr : init = r := by
      simpa [pure, Except.pure] using h
    exact hr ▸ h0
  | succ k ih =>
    rw [List.range_succ, List.foldlM_append] at h
    cases hk : (List.range k).foldlM step init with
    | error e =>
      rw [hk] at h
      cases h
    | ok s =>
      rw [hk] at h
      have hs := ih (fun i s s2 hi => hstep i s s2 (Nat.lt_succ_of_lt hi)) s hk
      have hlast : step s k = .ok r := by
        cases hsk : step s k with
        | error e =>
          simp [bind, Except.bind, hsk] at h
        | ok s2 =>
          simp [bind, Except.bind, hsk, pure, Except.pure] at h
          rw [h]
      exact hstep k s r (Nat.lt_succ_self k) hs hlast

theorem concatSpec_nil (first : List DimExpr) (a : Nat) (ha : a < first.length) :
    concatSpec first [] a = first := by
  unfold concatSpec
  simp only [List.foldl_nil]
  apply List.ext_getElem?
  intro i
  by_cases hi : i = a
  · subst hi
    simp [List.getD_eq_getElem?_getD, List.getElem?_eq_getElem ha, List.getElem?_set_self ha]
  · rw [List.getElem?_set_ne (Ne.symm hi)]

theorem concatSpec_getD (first : List DimExpr) (rest : List (List DimExpr)) (a : Nat)
    (ha : a < first.length) :
    (concatSpec first rest a).getD a (DimExpr.Int64 0)
      = rest.foldl (fun sum shape => sum + shape.getD a (DimExpr.Int64 0))
          (first.getD a (DimExpr.Int64 0)) := by
  unfold concatSpec
  simp [List.getD_eq_getElem?_getD, List.getElem?_set_self ha]

theorem concatSpec_take_succ (first : List DimExpr) (rest : List (List DimExpr)) (a k : Nat)
    (s : List DimExpr) (ha : a < first.length) (hs : rest[k]? = some s) :
    concatSpec first (rest.take (k + 1)) a
      = (concatSpec first (rest.take k) a).set a
          ((concatSpec first (rest.take k) a).getD a (DimExpr.Int64 0)
            + s.getD a (DimExpr.Int64 0)) := by
  rw [concatSpec_getD first _ a ha]
  unfold concatSpec
  rw [List.take_succ, hs, List.foldl_append, List.set_set]
  rfl

theorem concatSpec_length (first : List DimExpr) (rest : List (List DimExpr)) (a : Nat) :
    (concatSpec first rest a).length = first.length := by
  unfold concatSpec
  rw [List.length_set]

theorem cinn_concat_loop (sa : ShapeConstraintIRAnalysis) (v0 : Value) (vs : List Value)
    (first : List DimExpr) (rest : List (List DimExpr)) (a : Nat)
    (hlen : vs.length = rest.length)
    (hrecs : ∀ (i : Nat) (v : Value) (s : List DimExpr), vs[i]? = some v → rest[i]? = some s →
      ∃ d, sa.GetShapeOrDataForValue v = .ok (.Tensor ⟨s, d⟩))
    (hrank : ∀ s ∈ rest, s.length = first.length) (ha : a < first.length) :
    (List.range rest.length).foldlM (fun out_dims (k : Nat) => do
      let operand_shape_or_data ← sa.GetShapeOrDataForValue (← vecAt (v0 :: vs) (k + 1))
      let sum := (← vecAtInt out_dims (a : Int))
        + (← vecAtInt (← operand_shape_or_data.shape) (a : Int))
      vecSetInt out_dims (a : Int) sum) first
    = .ok (concatSpec first rest a) := by
  have h := foldlM_range_track rest.length
    (fun out_dims (k : Nat) => do
      let operand_shape_or_data ← sa.GetShapeOrDataForValue (← vecAt (v0 :: vs) (k + 1))
      let sum := (← vecAtInt out_dims (a : Int))
        + (← vecAtInt (← operand_shape_or_data.shape) (a : Int))
      vecSetInt out_dims (a : Int) sum)
    (fun k => concatSpec first (rest.take k) a) ?_
  · simp only [List.take_zero, List.take_length, concatSpec_nil first a ha] at h
    exact h
  · intro k hk
    have hkv : k < vs.length := by omega
    obtain ⟨d, hd⟩ := hrecs k vs[k] rest[k] (List.getElem?_eq_getElem hkv)
      (List.getElem?_eq_getElem hk)
    have hsl : a < rest[k].length := by
      rw [hrank rest[k] (List.getElem_mem hk)]
      exact ha
    have hol : a < (concatSpec first (rest.take k) a).length := by
      rw [concatSpec_length]
      exact ha
    have hv : vecAt (v0 :: vs) (k + 1) = .ok vs[k] := by
      simp [vecAt, List.getElem?_eq_getElem hkv]
    simp only [hv, hd, bind, Except.bind, ShapeOrDataDimExprs.shape,
      vecAtInt_getD _ a (DimExpr.Int64 0) hol (a : Int) rfl,
      vecAtInt_getD rest[k] a (DimExpr.Int64 0) hsl (a : Int) rfl]
    rw [vecSetInt_of_lt _ _ _ (by omega) (by simpa using hol),
      concatSpec_take_succ first rest a k rest[k] ha (List.getElem?_eq_getElem hk)]
    simp

theorem cinn_concat_rule (op : Operation) (sa : ShapeConstraintIRAnalysis) (v0 res : Value)
    (vs : List Value) (first : List DimExpr) (d0 : Option (List DimExpr))
    (rest : List (List DimExpr)) (a : Nat)
    (hops : op.operands = v0 :: vs)
    (hattr : op.attributes.at "axis" = .ok (.Int32 (a : Int)))
    (hres : op.result 0 = .ok res)
    (hrec0 : sa.GetShapeOrDataForValue v0 = .ok (.Tensor ⟨first, d0⟩))
    (hlen : vs.length = rest.length)
    (hrecs : ∀ (i : Nat) (v : Value) (s : List DimExpr), vs[i]? = some v → rest[i]? = some s →
      ∃ d, sa.GetShapeOrDataForValue v = .ok (.Tensor ⟨s, d⟩))
    (hrank : ∀ s ∈ rest, s.length = first.length) (ha : a < first.length) :
    cinn.dialect.ConcatOpInferSymbolicShape op sa =
      .ok (sa.SetShapeOrDataForValue res (.Tensor ⟨concatSpec first rest a, none⟩)) := by
  unfold cinn.dialect.ConcatOpInferSymbolicShape
  have hn : (v0 :: vs).length - 1 = rest.length := by simp [hlen]
  have hv0 : vecAt (v0 :: vs) 0 = .ok v0 := by simp [vecAt]
  simp only [hops, hattr, hn, bind, Except.bind, pure, Except.pure, hv0, hrec0,
    ShapeOrDataDimExprs.shape]
  have hloop := cinn_concat_loop sa v0 vs first rest a hlen hrecs hrank ha
  simp only [bind, Except.bind, pure, Except.pure, ShapeOrDataDimExprs.shape] at hloop
  rw [hloop, hres]

theorem concat_body_ok (ts : List TensorShapeOrDataDimExprs) (a i j : Nat)
    (t : TensorShapeOrDataDimExprs) (hti : ts[i]? = some t)
    (s s2 : ShapeConstraintIRAnalysis × List DimExpr)
    (h : paddle.dialect.ConcatOpInferSymbolicShape.body ts (a : Int) i s j = .ok s2) :
    s2.2 = if j = a then
        s.2.set a (s.2.getD a (DimExpr.Int64 0) + t.shape.getD a (DimExpr.Int64 0))
      else s.2 := by
  unfold paddle.dialect.ConcatOpInferSymbolicShape.body at h
  by_cases hj : j = a
  · subst hj
    rw [if_neg (by simp)] at h
    rw [if_pos rfl]
    have hv : vecAt ts i = .ok t := vecAt_of_getElem? ts i t hti
    cases h1 : vecAtInt s.2 (j : Int) with
    | error e => simp [bind, Except.bind, h1] at h
    | ok x =>
      cases h2 : vecAtInt t.shape (j : Int) with
      | error e => simp [bind, Except.bind, h1, hv, h2] at h
      | ok y =>
        cases h3 : vecSetInt s.2 (j : Int) (x + y) with
        | error e => simp [bind, Except.bind, h1, hv, h2, h3] at h
        | ok w =>
          simp only [bind, Except.bind, h1, hv, h2, h3, pure, Except.pure] at h
          have hx := (vecAtInt_ok _ _ _ h1).2
          have hy := (vecAtInt_ok _ _ _ h2).2
          have hw := (vecSetInt_ok _ _ _ _ h3).2
          simp only [Int.toNat_ofNat] at hx hy hw
          cases h
          simp [hw, List.getD_eq_getElem?_getD, hx, hy]
  · have hne : (j : Int) ≠ (a : Int) := by
      intro hc
      exact hj (by exact_mod_cast hc)
    rw [if_pos hne] at h
    rw [if_neg hj]
    cases h1 : paddle.dialect.BuildCstrEqForTensorListAlongAxis s.1 ts (i : Int) with
    | error e => simp [bind, Except.bind, h1] at h
    | ok an =>
      simp only [bind, Except.bind, h1, pure, Except.pure] at h
      cases h
      rfl

theorem concat_inner_loop (ts : List TensorShapeOrDataDimExprs) (a i r : Nat)
    (t : TensorShapeOrDataDimExprs) (hti : ts[i]? = some t) (har : a < r)
    (s s2 : ShapeConstraintIRAnalysis × List DimExpr)
    (h : (List.range r).foldlM (paddle.dialect.ConcatOpInferSymbolicShape.body ts (a : Int) i) s
      = .ok s2) :
    s2.2 = s.2.set a (s.2.getD a (DimExpr.Int64 0) + t.shape.getD a (DimExpr.Int64 0)) := by
  have hinv := foldlM_range_invariant r
    (paddle.dialect.ConcatOpInferSymbolicShape.body ts (a : Int) i)
    (fun j st => st.2 = if j ≤ a then s.2
      else s.2.set a (s.2.getD a (DimExpr.Int64 0) + t.shape.getD a (DimExpr.Int64 0)))
    ?_ s s2 (by simp) h
  · simp only [if_neg (show ¬ r ≤ a by omega)] at hinv
    exact hinv
  · intro j st st2 _ hP hstep
    have hb := concat_body_ok ts a i j t hti st st2 hstep
    simp only at hP ⊢
    rw [hb]
    by_cases hj : j = a
    · subst hj
      rw [if_pos rfl, if_neg (by omega), hP, if_pos (le_refl _)]
    · rw [if_neg hj, hP]
      by_cases hle : j ≤ a
      · rw [if_pos hle, if_pos (by omega)]
      · rw [if_neg hle, if_neg (by omega)]

theorem concat_outer_loop (ts : List TensorShapeOrDataDimExprs) (t0 : TensorShapeOrDataDimExprs)
    (trest : List TensorShapeOrDataDimExprs) (hts : ts = t0 :: trest) (a : Nat)
    (ha : a < t0.shape.length) (sa : ShapeConstraintIRAnalysis)
    (result : ShapeConstraintIRAnalysis × List DimExpr)
    (h : (List.range trest.length).foldlM (fun state (k : Nat) =>
        (List.range t0.shape.length).foldlM
          (paddle.dialect.ConcatOpInferSymbolicShape.body ts (a : Int) (k + 1)) state)
        (sa, t0.shape) = .ok result) :
    result.2 = concatSpec t0.shape (trest.map (fun t => t.shape)) a := by
  have hinv := foldlM_range_invariant trest.length
    (fun state (k : Nat) =>
      (List.range t0.shape.length).foldlM
        (paddle.dialect.ConcatOpInferSymbolicShape.body ts (a : Int) (k + 1)) state)
    (fun k st => st.2 = concatSpec t0.shape ((trest.map (fun t => t.shape)).take k) a)
    ?_ (sa, t0.shape) result (by simp [concatSpec_nil t0.shape a ha]) h
  · have hl : trest.length = (trest.map (fun t => t.shape)).length := by simp
    simp only at hinv
    rw [hl, List.take_length] at hinv
    exact hinv
  · intro k st st2 hk hP hstep
    have hti : ts[k + 1]? = some trest[k] := by
      rw [hts, List.getElem?_cons_succ, List.getElem?_eq_getElem hk]
    have hin := concat_inner_loop ts a (k + 1) t0.shape.length trest[k] hti ha st st2 hstep
    simp only at hP ⊢
    rw [hin, hP, concatSpec_take_succ t0.shape _ a k trest[k].shape ha
      (by simp [List.getElem?_eq_getElem hk])]

theorem concat_rule_unfold (op : Operation) (sa : ShapeConstraintIRAnalysis)
    (src av res : Value) (t0 : TensorShapeOrDataDimExprs)
    (trest : List TensorShapeOrDataDimExprs) (a : Nat)
    (hsrc : op.operand_source 0 = .ok src) (hav : op.operand_source 1 = .ok av)
    (hfull : av.defining_op_isa FullOp.name = .ok true)
    (hval : av.defining_op_attribute "value" = .ok (.Scalar (a : Int)))
    (hres : op.result 0 = .ok res)
    (hlist : sa.GetShapeOrDataForValue src = .ok (.TensorList (t0 :: trest))) :
    paddle.dialect.ConcatOpInferSymbolicShape op sa =
      ((List.range trest.length).foldlM (fun state (k : Nat) =>
        (List.range t0.shape.length).foldlM
          (paddle.dialect.ConcatOpInferSymbolicShape.body (t0 :: trest) (a : Int) (k + 1)) state)
        (sa, t0.shape)).bind
        (fun result => .ok (result.1.SetShapeOrDataForValue res
          (.Tensor ⟨result.2, none⟩))) := by
  unfold paddle.dialect.ConcatOpInferSymbolicShape
  have hv0 : vecAt (t0 :: trest) 0 = .ok t0 := by simp [vecAt]
  have hax : (a : Int) ≥ 0 := by omega
  simp only [hsrc, hav, hfull, hval, hres, hlist, bind, Except.bind, pure, Except.pure,
    ShapeOrDataDimExprs.asTensorList, hv0, Bool.not_true, Bool.false_eq_true, if_false,
    if_pos hax, List.length_cons, Nat.add_sub_cancel]

/-- C39: the two concat rules agree on the result shape. For shapes `first :: rest` of a
common rank and an axis `a` below that rank: the cinn-dialect rule (operands passed
individually, attribute `axis`) succeeds and writes the first shape with its entry `a`
replaced by the left-to-right sum of the entries `a` of all shapes; and whenever the
paddle-dialect rule (operand 0 a tensor list with these shapes, axis the value of a full
operator) succeeds, the record it writes for its result has that same shape. -/
theorem C39_concat_rules_agree (opc opp : Operation) (sac sap : ShapeConstraintIRAnalysis)
    (v0 resc src av resp : Value) (vs : List Value) (ts : List TensorShapeOrDataDimExprs)
    (first : List DimExpr) (d0 : Option (List DimExpr)) (rest : List (List DimExpr)) (a : Nat)
    (hops : opc.operands = v0 :: vs)
    (hattr : opc.attributes.at "axis" = .ok (.Int32 (a : Int)))
    (hresc : opc.result 0 = .ok resc)
    (hrec0 : sac.GetShapeOrDataForValue v0 = .ok (.Tensor ⟨first, d0⟩))
    (hlen : vs.length = rest.length)
    (hrecs : ∀ (i : Nat) (v : Value) (s : List DimExpr), vs[i]? = some v → rest[i]? = some s →
      ∃ d, sac.GetShapeOrDataForValue v = .ok (.Tensor ⟨s, d⟩))
    (hsrc : opp.operand_source 0 = .ok src) (hav : opp.operand_source 1 = .ok av)
    (hfull : av.defining_op_isa FullOp.name = .ok true)
    (hval : av.defining_op_attribute "value" = .ok (.Scalar (a : Int)))
    (hresp : opp.result 0 = .ok resp)
    (hlist : sap.GetShapeOrDataForValue src = .ok (.TensorList ts))
    (hshapes : ts.map (fun t => t.shape) = first :: rest)
    (hrank : ∀ s ∈ rest, s.length = first.length) (ha : a < first.length) :
    cinn.dialect.ConcatOpInferSymbolicShape opc sac =
      .ok (sac.SetShapeOrDataForValue resc (.Tensor ⟨concatSpec first rest a, none⟩))
    ∧ ∀ sa2 : ShapeConstraintIRAnalysis,
        paddle.dialect.ConcatOpInferSymbolicShape opp sap = .ok sa2 →
        ∃ analysis : ShapeConstraintIRAnalysis,
          sa2 = analysis.SetShapeOrDataForValue resp
            (.Tensor ⟨concatSpec first rest a, none⟩) := by
  refine ⟨cinn_concat_rule opc sac v0 resc vs first d0 rest a hops hattr hresc hrec0 hlen hrecs
    hrank ha, ?_⟩
  intro sa2 hrun
  cases ts with
  | nil => simp at hshapes
  | cons t0 trest =>
    simp only [List.map_cons, List.cons.injEq] at hshapes
    obtain ⟨hfirst, hrest⟩ := hshapes
    rw [concat_rule_unfold opp sap src av resp t0 trest a hsrc hav hfull hval hresp hlist]
      at hrun
    cases hloop : (List.range trest.length).foldlM (fun state (k : Nat) =>
        (List.range t0.shape.length).foldlM
          (paddle.dialect.ConcatOpInferSymbolicShape.body (t0 :: trest) (a : Int) (k + 1)) state)
        (sap, t0.shape) with
    | error e =>
      rw [hloop] at hrun
      cases hrun
    | ok result =>
      rw [hloop] at hrun
      have hshape := concat_outer_loop (t0 :: trest) t0 trest rfl a (hfirst ▸ ha) sap result hloop
      rw [hfirst, hrest] at hshape
      refine ⟨result.1, ?_⟩
      have hout : sa2 = result.1.SetShapeOrDataForValue resp (.Tensor ⟨result.2, none⟩) := by
        cases hrun
        rfl
      rw [hout, hshape]

/-- Instance of C39: shapes `[2, 3]` and `[2, 5]` on axis 1: both rules succeed and write
`[2, 8]`. -/
theorem C39_concat_rules_agree_witness :
    cinn.dialect.ConcatOpInferSymbolicShape (Instances.cinnConcatOp 1)
        (Instances.pairContext [DimExpr.Int64 2, DimExpr.Int64 3]
          [DimExpr.Int64 2, DimExpr.Int64 5]) =
      .ok ((Instances.pairContext [DimExpr.Int64 2, DimExpr.Int64 3]
          [DimExpr.Int64 2, DimExpr.Int64 5]).SetShapeOrDataForValue (Instances.inputValue 2 [])
        (Instances.staticTensor [2, 8]))
    ∧ ∃ analysis : ShapeConstraintIRAnalysis,
        paddle.dialect.ConcatOpInferSymbolicShape (Instances.concatOp 1)
          (Instances.tensorListContext [Instances.staticItem [2, 3], Instances.staticItem [2, 5]])
        = .ok (analysis.SetShapeOrDataForValue (Instances.inputValue 2 [])
            (Instances.staticTensor [2, 8])) := by
  have h := C39_concat_rules_agree (Instances.cinnConcatOp 1) (Instances.concatOp 1)
    (Instances.pairContext [DimExpr.Int64 2, DimExpr.Int64 3] [DimExpr.Int64 2, DimExpr.Int64 5])
    (Instances.tensorListContext [Instances.staticItem [2, 3], Instances.staticItem [2, 5]])
    (Instances.inputValue 0 []) (Instances.inputValue 2 []) Instances.combineValue
    ⟨1, [1], some ⟨FullOp.name, [("value", .Scalar 1)]⟩⟩ (Instances.inputValue 2 [])
    [Instances.inputValue 1 []] [Instances.staticItem [2, 3], Instances.staticItem [2, 5]]
    [DimExpr.Int64 2, DimExpr.Int64 3] none [[DimExpr.Int64 2, DimExpr.Int64 5]] 1
    (by rfl) (by rfl) (by rfl) (by rfl) (by rfl)
    (by
      intro i v s hv hs
      cases i with
      | zero =>
        simp only [List.getElem?_cons_zero, Option.some.injEq] at hv hs
        subst hv
        subst hs
        exact ⟨none, by rfl⟩
      | succ k => simp at hv)
    (by rfl) (by rfl) (by rfl) (by rfl) (by rfl) (by rfl) (by rfl)
    (by
      intro s hs
      simp only [List.mem_singleton] at hs
      subst hs
      rfl)
    (by decide)
  refine ⟨h.1.trans (by rfl), ?_⟩
  have hrun : paddle.dialect.ConcatOpInferSymbolicShape (Instances.concatOp 1)
      (Instances.tensorListContext [Instances.staticItem [2, 3], Instances.staticItem [2, 5]])
      = .ok (((Instances.tensorListContext [Instances.staticItem [2, 3],
          Instances.staticItem [2, 5]]).CstrEq (DimExpr.Int64 3)
            (DimExpr.Int64 5)).SetShapeOrDataForValue (Instances.inputValue 2 [])
        (Instances.staticTensor [2, 8])) := by
    rfl
  obtain ⟨analysis, hw⟩ := h.2 _ hrun
  refine ⟨analysis, ?_⟩
  rw [hrun, hw]
  rfl
